import Mathlib

/-!
# vncmanager: a verification development of the RFB tunnel

A shallow embedding of the proxy state machine of `VncTunnel.cpp`, of the
wire structures of `rfb.h` and of the stream formatter of
`StreamFormatter.h` / `StreamFormatter.cpp`, followed by theorems about them.

Conventions of the embedding.

* A byte is a `Fin 256`; a stream is the list of bytes still to be read.
* Unsigned fields (`uint8_t`, `uint16_t`, `uint32_t`) are natural numbers,
  `EncodingType` (an `int32_t`) is an integer.
* C++ `int` arithmetic is 32-bit two's complement with wrap-around
  (`wrapInt32`), `unsigned` arithmetic is modulo `2^32` (`wrapUInt32`) and a
  conversion to `std::size_t` is modulo `2^64` (`toSizeT`).
* A member function that reads or writes streams is a function from the tunnel
  state to an `Outcome`: the value returned or the exception thrown, the state
  reached, and the trace of what was written (and which rectangle headers were
  read) during the call.
-/

namespace VncManager

/-! ## Bytes and byte order -/

abbrev Byte := Fin 256

/-- Truncation of a number to its low eight bits. -/
def Byte.ofNat (n : Nat) : Byte := ⟨n % 256, Nat.mod_lt n (by decide)⟩

/-- Value of a 16-bit field whose wire bytes are `b0 b1`, after `ntohs`. -/
def be16 (b0 b1 : Byte) : Nat := b0.val * 256 + b1.val

/-- Wire bytes of a 16-bit field after `htons`. -/
def toBe16 (v : Nat) : List Byte := [Byte.ofNat (v / 256), Byte.ofNat v]

/-- Value of a 32-bit field whose wire bytes are `b0 b1 b2 b3`, after `ntohl`. -/
def be32 (b0 b1 b2 b3 : Byte) : Nat :=
  b0.val * 16777216 + b1.val * 65536 + b2.val * 256 + b3.val

/-- Wire bytes of a 32-bit field after `htonl`. -/
def toBe32 (v : Nat) : List Byte :=
  [Byte.ofNat (v / 16777216), Byte.ofNat (v / 65536), Byte.ofNat (v / 256), Byte.ofNat v]

/-- Reinterpretation of a `uint32_t` as `int32_t`. -/
def toInt32 (u : Nat) : Int := if u < 2147483648 then (u : Int) else (u : Int) - 4294967296

/-- Reinterpretation of an `int32_t` as `uint32_t`. -/
def ofInt32 (i : Int) : Nat := (i % 4294967296).toNat

/-- Result of an `int` operation: 32-bit two's complement wrap-around. -/
def wrapInt32 (x : Int) : Int := (x + 2147483648) % 4294967296 - 2147483648

/-- Result of an `unsigned` operation: reduction modulo `2^32`. -/
def wrapUInt32 (x : Int) : Nat := (x % 4294967296).toNat

/-- Conversion of an integer to `std::size_t` (64 bits). -/
def toSizeT (x : Int) : Nat := (x % 18446744073709551616).toNat

/-- Conversion of a `std::size_t` to `uint16_t`. -/
def toUInt16 (x : Nat) : Nat := x % 65536

/-- Host-order value of two bytes in memory, as `recv_raw` leaves a `uint16_t`. -/
def loadU16 (hostBigEndian : Bool) (b0 b1 : Byte) : Nat :=
  if hostBigEndian then b0.val * 256 + b1.val else b1.val * 256 + b0.val

/-- Bytes in memory of a host-order `uint16_t`, as `send_raw` writes it. -/
def storeU16 (hostBigEndian : Bool) (v : Nat) : List Byte :=
  if hostBigEndian then [Byte.ofNat (v / 256), Byte.ofNat v] else [Byte.ofNat v, Byte.ofNat (v / 256)]

/-- The functions `ntohs` and `htons`: the identity on a big-endian host, a byte swap otherwise. -/
def ntohs (hostBigEndian : Bool) (v : Nat) : Nat :=
  if hostBigEndian then v else (v % 256) * 256 + (v / 256) % 256

/-! ## Encodings (`rfb.h`) -/

namespace EncodingType

def Raw : Int := 0
def CopyRect : Int := 1
def RRE : Int := 2
def Tight : Int := 7
def JpegQualityLowest : Int := -32
def JpegQualityHighest : Int := -23
def DesktopSize : Int := -223
def LastRect : Int := -224
def Cursor : Int := -239
def XCursor : Int := -240
def DesktopName : Int := -307
def ExtendedDesktopSize : Int := -308

end EncodingType

/-! ## Wire structures (`rfb.h`) -/

/-- The structure `PixelFormat` as it lies in memory: the three maxima are host-order values. -/
structure PixelFormat where
  bitsPerPixel : Nat
  depth : Nat
  bigEndianFlag : Nat
  trueColourFlag : Nat
  redMax : Nat
  greenMax : Nat
  blueMax : Nat
  redShift : Nat
  greenShift : Nat
  blueShift : Nat
  padding : List Byte
deriving DecidableEq, Repr

namespace PixelFormat

/-- The 16 bytes `recv_raw` reads into a `PixelFormat`. -/
def load (hostBigEndian : Bool) (bs : List Byte) : PixelFormat :=
  let b := fun i => bs.getD i 0
  { bitsPerPixel := (b 0).val
    depth := (b 1).val
    bigEndianFlag := (b 2).val
    trueColourFlag := (b 3).val
    redMax := loadU16 hostBigEndian (b 4) (b 5)
    greenMax := loadU16 hostBigEndian (b 6) (b 7)
    blueMax := loadU16 hostBigEndian (b 8) (b 9)
    redShift := (b 10).val
    greenShift := (b 11).val
    blueShift := (b 12).val
    padding := [b 13, b 14, b 15] }

/-- The 16 bytes `send_raw` writes for a `PixelFormat`. -/
def store (hostBigEndian : Bool) (p : PixelFormat) : List Byte :=
  [Byte.ofNat p.bitsPerPixel, Byte.ofNat p.depth, Byte.ofNat p.bigEndianFlag, Byte.ofNat p.trueColourFlag]
    ++ storeU16 hostBigEndian p.redMax ++ storeU16 hostBigEndian p.greenMax
    ++ storeU16 hostBigEndian p.blueMax
    ++ [Byte.ofNat p.redShift, Byte.ofNat p.greenShift, Byte.ofNat p.blueShift]
    ++ p.padding

/-- The member `PixelFormat::ntoh`. -/
def ntoh (hostBigEndian : Bool) (p : PixelFormat) : PixelFormat :=
  if p.bigEndianFlag ≠ 0 then
    { p with
      redMax := ntohs hostBigEndian p.redMax
      greenMax := ntohs hostBigEndian p.greenMax
      blueMax := ntohs hostBigEndian p.blueMax }
  else p

/-- The member `PixelFormat::hton`. -/
def hton (hostBigEndian : Bool) (p : PixelFormat) : PixelFormat :=
  { p with bigEndianFlag := if hostBigEndian then 1 else 0 }

/-- The member `PixelFormat::operator==`: the padding is not compared. -/
def eq (p q : PixelFormat) : Bool :=
  p.bitsPerPixel == q.bitsPerPixel && p.depth == q.depth && p.bigEndianFlag == q.bigEndianFlag
    && p.trueColourFlag == q.trueColourFlag && p.redMax == q.redMax && p.greenMax == q.greenMax
    && p.blueMax == q.blueMax && p.redShift == q.redShift && p.greenShift == q.greenShift
    && p.blueShift == q.blueShift

/-- The member `PixelFormat::valid`. -/
def valid (p : PixelFormat) : Bool :=
  p.bitsPerPixel == 8 || p.bitsPerPixel == 16 || p.bitsPerPixel == 24 || p.bitsPerPixel == 32

end PixelFormat

/-- The structure `SetPixelFormatMessage`. -/
structure SetPixelFormatMessage where
  type : Byte
  padding : List Byte
  pixelFormat : PixelFormat
deriving DecidableEq, Repr

namespace SetPixelFormatMessage

/-- The 20 bytes read by `recv(message)`: `recv_raw` followed by `ntoh`. -/
def recv (hostBigEndian : Bool) (bs : List Byte) : SetPixelFormatMessage :=
  { type := bs.getD 0 0
    padding := [bs.getD 1 0, bs.getD 2 0, bs.getD 3 0]
    pixelFormat := PixelFormat.ntoh hostBigEndian (PixelFormat.load hostBigEndian (bs.drop 4)) }

/-- The 20 bytes written by `send(message)`: `hton` followed by `send_raw`. -/
def send (hostBigEndian : Bool) (m : SetPixelFormatMessage) : List Byte :=
  m.type :: m.padding ++ PixelFormat.store hostBigEndian (PixelFormat.hton hostBigEndian m.pixelFormat)

end SetPixelFormatMessage

/-- The structure `FramebufferUpdateMessage`, its count in host order. -/
structure FramebufferUpdateMessage where
  type : Byte
  padding : Byte
  numberOfRectangles : Nat
deriving DecidableEq, Repr

namespace FramebufferUpdateMessage

/-- The 4 bytes read by `recv(message)`. -/
def recv (bs : List Byte) : FramebufferUpdateMessage :=
  { type := bs.getD 0 0, padding := bs.getD 1 0
    numberOfRectangles := be16 (bs.getD 2 0) (bs.getD 3 0) }

/-- The 4 bytes written by `send(message)`. -/
def send (m : FramebufferUpdateMessage) : List Byte :=
  [m.type, m.padding] ++ toBe16 m.numberOfRectangles

end FramebufferUpdateMessage

/-- The structure `FramebufferUpdateRectangle`, its fields in host order. -/
structure FramebufferUpdateRectangle where
  xPosition : Nat
  yPosition : Nat
  width : Nat
  height : Nat
  encodingType : Int
deriving DecidableEq, Repr

namespace FramebufferUpdateRectangle

/-- The 12 bytes read by `recv(rectangle)`. -/
def recv (bs : List Byte) : FramebufferUpdateRectangle :=
  let b := fun i => bs.getD i 0
  { xPosition := be16 (b 0) (b 1)
    yPosition := be16 (b 2) (b 3)
    width := be16 (b 4) (b 5)
    height := be16 (b 6) (b 7)
    encodingType := toInt32 (be32 (b 8) (b 9) (b 10) (b 11)) }

/-- The 12 bytes written by `send(rectangle)`. -/
def send (r : FramebufferUpdateRectangle) : List Byte :=
  toBe16 r.xPosition ++ toBe16 r.yPosition ++ toBe16 r.width ++ toBe16 r.height
    ++ toBe32 (ofInt32 r.encodingType)

end FramebufferUpdateRectangle

/-- The structure `SetEncodingsMessage`, its count in host order. -/
structure SetEncodingsMessage where
  type : Byte
  padding : Byte
  numberOfEncodings : Nat
deriving DecidableEq, Repr

namespace SetEncodingsMessage

/-- The 4 bytes read by `recv(message)`. -/
def recv (bs : List Byte) : SetEncodingsMessage :=
  { type := bs.getD 0 0, padding := bs.getD 1 0
    numberOfEncodings := be16 (bs.getD 2 0) (bs.getD 3 0) }

/-- The 4 bytes written by `send(message)`. -/
def send (m : SetEncodingsMessage) : List Byte :=
  [m.type, m.padding] ++ toBe16 m.numberOfEncodings

end SetEncodingsMessage

/-- The list of encodings read by `recv(encodings)`: four bytes each, `ntohl` applied. -/
def recvEncodings : Nat → List Byte → List Int
  | 0, _ => []
  | n + 1, bs =>
    toInt32 (be32 (bs.getD 0 0) (bs.getD 1 0) (bs.getD 2 0) (bs.getD 3 0)) :: recvEncodings n (bs.drop 4)

/-- The bytes written by `send(encodings)`: `htonl` applied to each, four bytes each. -/
def sendEncodings (es : List Int) : List Byte :=
  (es.map fun e => toBe32 (ofInt32 e)).flatten

/-! ## Exceptions, traces and the state of a tunnel -/

/-- One of the two back-end connections of a tunnel, `m_currentConnection` or
`m_potentialConnection`. -/
inductive Which
  | current
  | potential
deriving DecidableEq, Repr

/-- The exceptions the modelled code throws. `connectionException` is
`XvncConnection::ConnectionException` with its faulty connection and its message;
`nullDereference` stands for the undefined behaviour of calling a member through an empty
`std::shared_ptr` and `badFunctionCall` for calling an empty `std::function`. -/
inductive Err
  | eof
  | pushBackOverflow
  | invalidPixelFormat
  | tooManyRectangles
  | unknownEncoding
  | noDummyEncoding
  | unknownClientMessage
  | unknownServerMessage
  | setColourMapEntriesNotImplemented
  | assertion
  | unsupportedClientVersion
  | invalidSecurityType
  | unsupportedVeNCryptVersion
  | invalidVeNCryptSubtype
  | greeterDied
  | nullDereference
  | badFunctionCall
  | connectionException (faultyConnection : Which) (what : List Byte)
deriving DecidableEq, Repr

/-- What a call writes to the client: a whole structure sent with `cFmt().send`, or plain bytes. -/
inductive ClientWrite
  | message (m : FramebufferUpdateMessage)
  | rectangle (r : FramebufferUpdateRectangle)
  | raw (bs : List Byte)
deriving DecidableEq, Repr

/-- The wire bytes of a write to the client. -/
def ClientWrite.bytes : ClientWrite → List Byte
  | .message m => m.send
  | .rectangle r => r.send
  | .raw bs => bs

/-- One entry of the trace of a call: a write to the client, bytes written to the current
back-end, (for bookkeeping only) a rectangle header received from the back-end, the
replacement of the client stream by a `TLSStream` followed by its `initialize`, or bytes
written to the potential back-end. -/
inductive Event
  | client (w : ClientWrite)
  | server (bs : List Byte)
  | received (r : FramebufferUpdateRectangle)
  | tls (anonymousTLS : Bool)
  | potential (bs : List Byte)
deriving DecidableEq, Repr

/-- The class `StreamFormatter`: the bytes its stream will still deliver and the push-back buffer
(`bufferSize` is the length of `buffer`). -/
structure StreamFormatter where
  input : List Byte
  buffer : List Byte
deriving DecidableEq, Repr

/-- A `std::istream` over the bytes its source will still deliver, with its state bits. -/
structure IStream where
  input : List Byte
  failbit : Bool
  eofbit : Bool
deriving DecidableEq, Repr

/-- The class `GreeterConnection`: `m_in` reads the standard output of the greeter program,
`m_out` holds what was written to its standard input; the two flags tell whether
`m_passwordHandler` and `m_credentialsHandler` hold a function. -/
structure GreeterConnection where
  m_in : IStream
  m_out : List Byte
  m_passwordHandler : Bool
  m_credentialsHandler : Bool
  m_dead : Bool
  m_lastSentSessionListVersion : Int
deriving DecidableEq, Repr

/-- The class `Xvnc`, one session. A session is shared through `std::shared_ptr`: every holder
has a copy of this record and updates keep the copies equal. The field `owners` counts the
shared pointers held outside the registry (connections, tunnels, control connections). -/
structure Xvnc where
  m_id : Int
  m_pid : Int
  m_displayNumber : Int
  m_visible : Bool
  m_desktopName : List Byte
  m_sessionUsername : List Byte
  m_approvedControllerKeys : List (List Byte)
  owners : Nat
deriving DecidableEq, Repr

/-- The class `XvncManager`, the registry of sessions: the map `m_xvncs` as the list of its
values in ascending order of id. The counters `m_nextId` and `m_sessionListVersion` are of
type `int`: integers kept in the 32-bit range by `wrapInt32` at every increment. -/
structure XvncManager where
  m_xvncs : List Xvnc
  m_nextId : Int
  m_sessionListVersion : Int
deriving DecidableEq, Repr

/-- The options of `Configuration` the tunnel reads: `security` (a list of `VeNCryptSubtype`
values), `disable-manager` and `always-show-greeter`. -/
structure Configuration where
  security : List Nat
  disableManager : Bool
  alwaysShowGreeter : Bool
deriving DecidableEq, Repr

/-- The class `XvncConnection`; the three flags tell whether the handlers of these names hold
a function. -/
structure XvncConnection where
  m_xvnc : Xvnc
  m_streamFormatter : StreamFormatter
  m_framebufferWidth : Nat
  m_framebufferHeight : Nat
  m_pixelFormat : PixelFormat
  m_connectionInitializedHandler : Bool
  m_passwordRequestHandler : Bool
  m_credentialsRequestHandler : Bool
deriving DecidableEq, Repr

/-- The class `VncTunnel` once `start` has opened the first back-end connection.
The field `hostBigEndian` is the platform constant `__BYTE_ORDER == __BIG_ENDIAN`;
`m_securityType` is the number of the `SecurityType`. -/
structure VncTunnel where
  hostBigEndian : Bool
  options : Configuration
  m_xvncManager : XvncManager
  m_streamFormatter : StreamFormatter
  m_currentConnection : XvncConnection
  m_potentialConnection : Option XvncConnection
  m_greeterConnection : Option GreeterConnection
  m_securityType : Nat
  m_pixelFormat : PixelFormat
  m_supportedEncodingsClient : List Int
  m_supportedEncodingsServer : List Int
  m_tightZlibResetQueued : Bool
  m_desktopNameChangeQueued : Bool
  m_tightEncodingDisabled : Bool
deriving DecidableEq, Repr

/-- What a call leaves behind: its value or exception, the state, and the trace of the call. -/
structure Outcome (α : Type) where
  result : Except Err α
  state : VncTunnel
  trace : List Event

/-- A member function of the tunnel that may throw. -/
def M (α : Type) : Type := VncTunnel → Outcome α

/-- Puts the trace of what ran before in front of the trace of an outcome. -/
def Outcome.after {α : Type} (tr : List Event) (o : Outcome α) : Outcome α :=
  { o with trace := tr ++ o.trace }

/-- Sequencing: the second call runs in the state the first one left, unless the first threw. -/
def M.bind {α β : Type} (m : M α) (f : α → M β) : M β := fun t =>
  match (m t).result with
  | .ok a => (f a (m t).state).after (m t).trace
  | .error e => { result := .error e, state := (m t).state, trace := (m t).trace }

instance : Monad M where
  pure := fun a t => { result := .ok a, state := t, trace := [] }
  bind := M.bind

/-- The statement `throw`. -/
def raise {α : Type} (e : Err) : M α := fun t => { result := .error e, state := t, trace := [] }

/-- Reads the state. -/
def getTunnel : M VncTunnel := fun t => { result := .ok t, state := t, trace := [] }

/-- Updates the state. -/
def modifyTunnel (f : VncTunnel → VncTunnel) : M Unit :=
  fun t => { result := .ok (), state := f t, trace := [] }

/-- Appends an entry to the trace. -/
def emit (e : Event) : M Unit := fun t => { result := .ok (), state := t, trace := [e] }

/-- The bytes a trace writes to the client, in order. -/
def clientBytes : List Event → List Byte
  | [] => []
  | .client w :: es => w.bytes ++ clientBytes es
  | _ :: es => clientBytes es

/-- The structured writes a trace sends to the client, in order. -/
def clientWrites : List Event → List ClientWrite
  | [] => []
  | .client w :: es => w :: clientWrites es
  | _ :: es => clientWrites es

/-- The rectangle headers a trace sends to the client, in order. -/
def clientRectangles : List Event → List FramebufferUpdateRectangle
  | [] => []
  | .client (.rectangle r) :: es => r :: clientRectangles es
  | _ :: es => clientRectangles es

/-- The bytes a trace writes to the current back-end, in order. -/
def serverBytes : List Event → List Byte
  | [] => []
  | .server bs :: es => bs ++ serverBytes es
  | _ :: es => serverBytes es

/-- The rectangle headers a trace received from the back-end, in order. -/
def receivedRectangles : List Event → List FramebufferUpdateRectangle
  | [] => []
  | .received r :: es => r :: receivedRectangles es
  | _ :: es => receivedRectangles es

/-! ## The stream formatter (`StreamFormatter.cpp`) -/

/-- What a transfer did: the exception thrown if any, the bytes delivered to the caller or
written to the output stream, and the formatter afterwards. -/
structure Transfer where
  error : Option Err
  bytes : List Byte
  fmt : StreamFormatter
deriving DecidableEq, Repr

namespace StreamFormatter

/-- The member `Stream::recv` of the underlying stream: exactly `len` bytes, or `eof_exception`
once the peer has nothing more to send. -/
def streamRecv (f : StreamFormatter) (len : Nat) : Transfer :=
  if f.input.length < len then { error := some Err.eof, bytes := [], fmt := { f with input := [] } }
  else { error := none, bytes := f.input.take len, fmt := { f with input := f.input.drop len } }

/-- Modelled from the spec: `Stream::forward_directly`, whose body is not among the sources
(only its declaration in `Stream.h` is): it reads the given number of bytes from the stream
and writes them, unchanged and in order, to the output stream. -/
def streamForwardDirectly (f : StreamFormatter) (len : Nat) : Transfer :=
  streamRecv f len

/-- The member `recv_raw(buf, len)`. -/
def recv_raw (f : StreamFormatter) (len : Nat) : Transfer :=
  let buffered := if f.buffer.length > 0 then min len f.buffer.length else 0
  let fromBuffer := f.buffer.take buffered
  let f1 : StreamFormatter := { f with buffer := f.buffer.take (f.buffer.length - buffered) }
  let len1 := len - buffered
  if len1 > 0 then
    let r := streamRecv f1 len1
    match r.error with
    | some e => { error := some e, bytes := [], fmt := r.fmt }
    | none => { r with bytes := fromBuffer ++ r.bytes }
  else { error := none, bytes := fromBuffer, fmt := f1 }

/-- The member `forward_raw(output, buf, len)`; `bytes` is what reached the output. -/
def forward_raw (f : StreamFormatter) (len : Nat) : Transfer :=
  if f.buffer.length > 0 then recv_raw f len else streamRecv f len

/-- The member `forward_directly(output, len)`; `bytes` is what reached the output. -/
def forward_directly (f : StreamFormatter) (len : Nat) : Transfer :=
  let buffered := if f.buffer.length > 0 then min len f.buffer.length else 0
  let fromBuffer := f.buffer.take buffered
  let f1 : StreamFormatter := { f with buffer := f.buffer.take (f.buffer.length - buffered) }
  let len1 := len - buffered
  if len1 > 0 then
    let r := streamForwardDirectly f1 len1
    { r with bytes := fromBuffer ++ r.bytes }
  else { error := none, bytes := fromBuffer, fmt := f1 }

/-- The constant `bufferMaxSize`. -/
def bufferMaxSize : Nat := 1

/-- The member `push_back(t)` for a one-byte `t`. -/
def push_back (f : StreamFormatter) (b : Byte) : Except Err StreamFormatter :=
  if f.buffer.length + 1 > bufferMaxSize then .error Err.pushBackOverflow
  else .ok { f with buffer := f.buffer ++ [b] }

/-- The bytes a formatter will still deliver: the push-back buffer, then the stream. -/
def pending (f : StreamFormatter) : List Byte := f.buffer ++ f.input

end StreamFormatter

/-! ## The tunnel's two formatters -/

/-- The tunnel with another client formatter. -/
def VncTunnel.withClientFormatter (t : VncTunnel) (f : StreamFormatter) : VncTunnel :=
  { t with m_streamFormatter := f }

/-- The tunnel with another formatter of the current back-end connection. -/
def VncTunnel.withServerFormatter (t : VncTunnel) (f : StreamFormatter) : VncTunnel :=
  { t with m_currentConnection := { t.m_currentConnection with m_streamFormatter := f } }

/-- Runs a transfer on `cFmt()`, the formatter of the client stream; `out` tells what the
transfer wrote to its output stream. -/
def onClient (op : StreamFormatter → Transfer) (out : List Byte → List Event) : M (List Byte) :=
  fun t =>
    let r := op t.m_streamFormatter
    { result := match r.error with
        | some e => .error e
        | none => .ok r.bytes
      state := t.withClientFormatter r.fmt
      trace := out r.bytes }

/-- Runs a transfer on `sFmt()`, the formatter of the current back-end connection. -/
def onServer (op : StreamFormatter → Transfer) (out : List Byte → List Event) : M (List Byte) :=
  fun t =>
    let r := op t.m_currentConnection.m_streamFormatter
    { result := match r.error with
        | some e => .error e
        | none => .ok r.bytes
      state := t.withServerFormatter r.fmt
      trace := out r.bytes }

/-- The call `cFmt().recv_raw(buf, len)`. -/
def cRecvRaw (len : Nat) : M (List Byte) :=
  onClient (fun f => f.recv_raw len) (fun _ => [])

/-- The call `sFmt().recv_raw(buf, len)`. -/
def sRecvRaw (len : Nat) : M (List Byte) :=
  onServer (fun f => f.recv_raw len) (fun _ => [])

/-- The call `cFmt().send_raw(buf, len)`. -/
def cSendRaw (bs : List Byte) : M Unit := emit (.client (.raw bs))

/-- The call `sFmt().send_raw(buf, len)` on the current back-end. -/
def sSendRaw (bs : List Byte) : M Unit := emit (.server bs)

/-- The call `cFmt().forward_raw(sStream(), buf, len)`. -/
def cForwardRaw (len : Nat) : M (List Byte) :=
  onClient (fun f => f.forward_raw len) (fun bs => [.server bs])

/-- The call `sFmt().forward_raw(cStream(), buf, len)`. -/
def sForwardRaw (len : Nat) : M (List Byte) :=
  onServer (fun f => f.forward_raw len) (fun bs => [.client (.raw bs)])

/-- The call `cFmt().forward_directly(sStream(), len)`. -/
def cForwardDirectly (len : Nat) : M Unit := do
  let _ ← onClient (fun f => f.forward_directly len) (fun bs => [.server bs])

/-- The call `sFmt().forward_directly(cStream(), len)`. -/
def sForwardDirectly (len : Nat) : M Unit := do
  let _ ← onServer (fun f => f.forward_directly len) (fun bs => [.client (.raw bs)])

/-- The call `cFmt().send(rectangle)`. -/
def cSendRectangle (r : FramebufferUpdateRectangle) : M Unit := emit (.client (.rectangle r))

/-- The call `cFmt().send(message)` for a `FramebufferUpdateMessage`. -/
def cSendMessage (m : FramebufferUpdateMessage) : M Unit := emit (.client (.message m))

/-! ## The session (`Xvnc.cpp`) and the back-end connection (`XvncConnection.cpp`) -/

/-- The literal `CONTROLLER_KEY:` as bytes. -/
def controllerKey : List Byte := "CONTROLLER_KEY:".toList.map fun c => Byte.ofNat c.toNat

/-- The member `Xvnc::markVisible`: the session afterwards, and whether
`m_xvncManager.notifySessionChanged()` was called. -/
def Xvnc.markVisible (x : Xvnc) (newVisible : Bool) : Xvnc × Bool :=
  if x.m_visible = newVisible then (x, false)
  else ({ x with m_visible := newVisible }, true)

/-- The member `Xvnc::setDesktopName`: the session afterwards, and whether
`m_xvncManager.notifySessionChanged()` was called. -/
def Xvnc.setDesktopName (x : Xvnc) (newDesktopName : List Byte) : Xvnc × Bool :=
  if controllerKey.isPrefixOf newDesktopName then
    ({ x with m_approvedControllerKeys :=
        List.insert (newDesktopName.drop controllerKey.length) x.m_approvedControllerKeys }, false)
  else if x.m_desktopName = newDesktopName then (x, false)
  else ({ x with m_desktopName := newDesktopName }, true)

/-- The member `Xvnc::setSessionUsername`: the session afterwards, and whether
`m_xvncManager.notifySessionChanged()` was called. -/
def Xvnc.setSessionUsername (x : Xvnc) (newSessionUsername : List Byte) : Xvnc × Bool :=
  if x.m_sessionUsername = newSessionUsername then (x, false)
  else ({ x with m_sessionUsername := newSessionUsername }, true)

/-- The member `Xvnc::isKeyApproved`. -/
def Xvnc.isKeyApproved (x : Xvnc) (key : List Byte) : Bool :=
  decide (key ∈ x.m_approvedControllerKeys)

/-- The member `XvncManager::notifySessionChanged`: `m_sessionListVersion++` on an `int`. -/
def XvncManager.notifySessionChanged (m : XvncManager) : XvncManager :=
  { m with m_sessionListVersion := wrapInt32 (m.m_sessionListVersion + 1) }

/-- The member `XvncManager::sessionListVersion`. -/
def XvncManager.sessionListVersion (m : XvncManager) : Int := m.m_sessionListVersion

/-- The registry after a member function of one of its sessions ran: the copy of the session
in the map follows, and the counter is bumped if the function called `notifySessionChanged`. -/
def XvncManager.sessionCalled (m : XvncManager) (r : Xvnc × Bool) : XvncManager :=
  let m1 : XvncManager :=
    { m with m_xvncs := m.m_xvncs.map fun x => if x.m_id = r.1.m_id then r.1 else x }
  if r.2 then m1.notifySessionChanged else m1

/-- Insertion into the map `m_xvncs`: nothing happens if the key is present. -/
def insertSession (x : Xvnc) : List Xvnc → List Xvnc
  | [] => [x]
  | y :: ys =>
    if x.m_id < y.m_id then x :: y :: ys
    else if x.m_id = y.m_id then y :: ys
    else y :: insertSession x ys

/-- The member `XvncManager::createSession`. The argument `spawned` is the process id and the
display number the constructor of `Xvnc` obtained, or `none` if that constructor threw; the
session returned is held by the caller. -/
def XvncManager.createSession (m : XvncManager) (spawned : Option (Int × Int)) :
    XvncManager × Option Xvnc :=
  let id := m.m_nextId
  let m1 : XvncManager := { m with m_nextId := wrapInt32 (m.m_nextId + 1) }
  match spawned with
  | none => (m1, none)
  | some (pid, displayNumber) =>
    let x : Xvnc :=
      { m_id := id, m_pid := pid, m_displayNumber := displayNumber, m_visible := false,
        m_desktopName := [], m_sessionUsername := [], m_approvedControllerKeys := [], owners := 1 }
    ({ m1 with m_xvncs := insertSession x m1.m_xvncs }, some x)

/-- The member `XvncManager::getSession`. -/
def XvncManager.getSession (m : XvncManager) (id : Int) : Option Xvnc :=
  m.m_xvncs.find? fun x => x.m_id = id

/-- The member `XvncManager::hasVisibleSessions`. -/
def XvncManager.hasVisibleSessions (m : XvncManager) : Bool :=
  m.m_xvncs.any fun x => x.m_visible

/-- The map `m_xvncs` without its first entry whose process id is `pid`. -/
def eraseByPid (pid : Int) : List Xvnc → List Xvnc
  | [] => []
  | x :: xs => if x.m_pid = pid then xs else x :: eraseByPid pid xs

/-- The member `XvncManager::childDied`. Erasing the entry drops the shared pointer of the
registry; if no other is held the destructor of `Xvnc` runs, which calls `markVisible(false)`. -/
def XvncManager.childDied (m : XvncManager) (pid : Int) : XvncManager :=
  match m.m_xvncs.find? fun x => x.m_pid = pid with
  | none => m
  | some x =>
    let m1 : XvncManager := { m with m_xvncs := eraseByPid pid m.m_xvncs }
    if x.owners = 0 then
      if (x.markVisible false).2 then m1.notifySessionChanged else m1
    else m1

/-- The tunnel after a member function of a session ran: the registry and the copies of the
session held by the connections follow. -/
def VncTunnel.sessionCalled (t : VncTunnel) (r : Xvnc × Bool) : VncTunnel :=
  let sync := fun (c : XvncConnection) => if c.m_xvnc.m_id = r.1.m_id then { c with m_xvnc := r.1 } else c
  { t with
    m_currentConnection := sync t.m_currentConnection
    m_potentialConnection := t.m_potentialConnection.map sync
    m_xvncManager := t.m_xvncManager.sessionCalled r }

/-- The member `XvncConnection::setDesktopName` on the current connection. -/
def setDesktopName (name : List Byte) : M Unit :=
  modifyTunnel fun t => t.sessionCalled (t.m_currentConnection.m_xvnc.setDesktopName name)

/-- The member `XvncConnection::setFramebufferSize` on the current connection. -/
def setFramebufferSize (width height : Nat) : M Unit :=
  modifyTunnel fun t =>
    { t with m_currentConnection :=
        { t.m_currentConnection with m_framebufferWidth := width, m_framebufferHeight := height } }

/-- The member `XvncConnection::sendSetPixelFormat` on the current connection. -/
def sendSetPixelFormat (pixelFormat : PixelFormat) : M Unit := do
  modifyTunnel fun t =>
    { t with m_currentConnection := { t.m_currentConnection with m_pixelFormat := pixelFormat } }
  let t ← getTunnel
  let message : SetPixelFormatMessage := { type := 0, padding := [0, 0, 0], pixelFormat := pixelFormat }
  sSendRaw (message.send t.hostBigEndian)

/-- The member `XvncConnection::sendSetEncodings` on the current connection. -/
def sendSetEncodings (encodings : List Int) : M Unit := do
  let message : SetEncodingsMessage :=
    { type := 2, padding := 0, numberOfEncodings := toUInt16 encodings.length }
  sSendRaw message.send
  sSendRaw (sendEncodings encodings)

/-! ## Messages of the client (`VncTunnel.cpp`) -/

/-- The member `VncTunnel::clientSupportsEncoding`. -/
def VncTunnel.clientSupportsEncoding (t : VncTunnel) (encoding : Int) : Bool :=
  decide (encoding ∈ t.m_supportedEncodingsClient)

/-- The member `VncTunnel::processSetPixelFormat`. -/
def processSetPixelFormat : M Unit := do
  let bs ← cRecvRaw 20
  let t ← getTunnel
  let message := SetPixelFormatMessage.recv t.hostBigEndian bs
  if !message.pixelFormat.valid then raise Err.invalidPixelFormat
  modifyTunnel fun t => { t with m_pixelFormat := message.pixelFormat }
  sendSetPixelFormat message.pixelFormat

/-- The encodings of the first `case` group of the filter in `processSetEncodings`. -/
def plainEncodings : List Int :=
  [EncodingType.Raw, EncodingType.CopyRect, EncodingType.RRE, EncodingType.DesktopSize,
   EncodingType.LastRect, EncodingType.Cursor, EncodingType.XCursor, EncodingType.DesktopName,
   EncodingType.ExtendedDesktopSize]

/-- One round of the filter loop of `processSetEncodings`: the `switch`, then the `if`. -/
def filterEncoding (t : VncTunnel) (encoding : Int) : VncTunnel :=
  let t1 : VncTunnel :=
    if encoding ∈ plainEncodings then
      { t with
        m_supportedEncodingsClient := List.insert encoding t.m_supportedEncodingsClient
        m_supportedEncodingsServer := t.m_supportedEncodingsServer ++ [encoding] }
    else if encoding = EncodingType.Tight then
      { t with
        m_supportedEncodingsClient := List.insert encoding t.m_supportedEncodingsClient
        m_supportedEncodingsServer :=
          if !t.m_tightEncodingDisabled then t.m_supportedEncodingsServer ++ [encoding]
          else t.m_supportedEncodingsServer }
    else t
  if encoding ≥ EncodingType.JpegQualityLowest ∧ encoding ≤ EncodingType.JpegQualityHighest then
    { t1 with
      m_supportedEncodingsClient := List.insert encoding t1.m_supportedEncodingsClient
      m_supportedEncodingsServer := t1.m_supportedEncodingsServer ++ [encoding] }
  else t1

/-- The state changes of `processSetEncodings` for the received list: both collections are
cleared, the list is filtered, and `DesktopName` is appended unless the client named it. -/
def selectEncodings (encodings : List Int) (t : VncTunnel) : VncTunnel :=
  let t1 := encodings.foldl filterEncoding
    { t with m_supportedEncodingsClient := [], m_supportedEncodingsServer := [] }
  if !t1.clientSupportsEncoding EncodingType.DesktopName then
    { t1 with m_supportedEncodingsServer := t1.m_supportedEncodingsServer ++ [EncodingType.DesktopName] }
  else t1

/-- The member `VncTunnel::processSetEncodings`. -/
def processSetEncodings : M Unit := do
  let hdr ← cRecvRaw 4
  let message := SetEncodingsMessage.recv hdr
  let bs ← cRecvRaw (message.numberOfEncodings * 4)
  let encodings := recvEncodings message.numberOfEncodings bs
  modifyTunnel (selectEncodings encodings)
  let t ← getTunnel
  sendSetEncodings t.m_supportedEncodingsServer

/-! ## Framebuffer updates (`VncTunnel.cpp`) -/

/-- The member `VncTunnel::countExtraRectangles`. -/
def VncTunnel.countExtraRectangles (t : VncTunnel) : Nat :=
  if t.m_desktopNameChangeQueued then 1 else 0

/-- The desktop name of the current session, `m_currentConnection->desktopName()`. -/
def VncTunnel.desktopName (t : VncTunnel) : List Byte :=
  t.m_currentConnection.m_xvnc.m_desktopName

/-- The member `VncTunnel::sendExtraRectangles`. -/
def sendExtraRectangles : M Unit := do
  let t ← getTunnel
  if t.m_desktopNameChangeQueued then
    modifyTunnel fun t => { t with m_desktopNameChangeQueued := false }
    let rectangle : FramebufferUpdateRectangle :=
      { xPosition := 0, yPosition := 0, width := 0, height := 0,
        encodingType := EncodingType.DesktopName }
    cSendRectangle rectangle
    let name := t.desktopName
    let nameLength := wrapUInt32 name.length
    cSendRaw (toBe32 nameLength)
    cSendRaw name

/-- The member `VncTunnel::sendDummyRectangle`. The pixel is `bitsPerPixel / 8` bytes of the
local `black`, all zero for the at most four bytes that variable has. -/
def sendDummyRectangle : M Unit := do
  let t ← getTunnel
  if t.clientSupportsEncoding EncodingType.Raw then
    let rectangle : FramebufferUpdateRectangle :=
      { xPosition := 0, yPosition := 0, width := 1, height := 1, encodingType := EncodingType.Raw }
    cSendRectangle rectangle
    cSendRaw (List.replicate (t.m_pixelFormat.bitsPerPixel / 8) 0)
  else if t.clientSupportsEncoding EncodingType.CopyRect then
    let rectangle : FramebufferUpdateRectangle :=
      { xPosition := 0, yPosition := 0, width := 1, height := 1,
        encodingType := EncodingType.CopyRect }
    cSendRectangle rectangle
    cSendRaw (toBe16 1)
    cSendRaw (toBe16 0)
  else raise Err.noDummyEncoding

/-- The member `VncTunnel::sendLastRectangle`. -/
def sendLastRectangle : M Unit :=
  cSendRectangle
    { xPosition := 0, yPosition := 0, width := 0, height := 0, encodingType := EncodingType.LastRect }

/-- The value of `bufferSize` for the pass-through encodings Raw, CopyRect, Cursor and XCursor:
the expressions are evaluated in `int` and the result is converted to `std::size_t`. -/
def bufferSize (rectangle : FramebufferUpdateRectangle) (bitsPerPixel : Nat) : Nat :=
  let w : Int := rectangle.width
  let h : Int := rectangle.height
  let bpp : Int := bitsPerPixel
  if rectangle.encodingType = EncodingType.Raw then
    toSizeT (Int.tdiv (wrapInt32 (wrapInt32 (w * h) * bpp)) 8)
  else if rectangle.encodingType = EncodingType.CopyRect then
    4
  else if rectangle.encodingType = EncodingType.Cursor then
    toSizeT (wrapInt32 (Int.tdiv (wrapInt32 (wrapInt32 (w * h) * bpp)) 8
      + wrapInt32 (Int.tdiv (w + 7) 8 * h)))
  else
    toSizeT (wrapInt32 (6 + wrapInt32 (wrapInt32 (Int.tdiv (w + 7) 8 * h) * 2)))

/-- The length forwarded after the subrectangle count of an RRE rectangle: the expression
`(bitsPerPixel / 8) + numberOfSubrectangles * (bitsPerPixel / 8 + 8)`, evaluated in `unsigned`
because `numberOfSubrectangles` is a `uint32_t`. -/
def rreSize (numberOfSubrectangles : Nat) (bitsPerPixel : Nat) : Nat :=
  let bpp : Int := bitsPerPixel
  wrapUInt32 (Int.tdiv bpp 8 + wrapUInt32 (numberOfSubrectangles * wrapUInt32 (Int.tdiv bpp 8 + 8)))

/-- The lambda `forwardTightVariableLengthData`. -/
def forwardTightVariableLengthData : M Unit := do
  let b0 ← sForwardRaw 1
  let byte0 := (b0.getD 0 0).val
  let length0 := byte0 % 128
  if byte0 / 128 % 2 = 1 then
    let b1 ← sForwardRaw 1
    let byte1 := (b1.getD 0 0).val
    let length1 := length0 + (byte1 % 128) * 128
    if byte1 / 128 % 2 = 1 then
      let b2 ← sForwardRaw 1
      let byte2 := (b2.getD 0 0).val
      sForwardDirectly (length1 + byte2 * 16384)
    else sForwardDirectly length1
  else sForwardDirectly length0

/-- The size of the structure `TightPixel`. -/
def sizeofTightPixel : Nat := 3

/-- The size of the structure `SetDesktopSizeScreen`. -/
def sizeofSetDesktopSizeScreen : Nat := 16

/-- The constant `TightMinSizeToCompress`. -/
def TightMinSizeToCompress : Nat := 12

/-- The value of `dataSize` of a basic-compression Tight rectangle, evaluated in `int` and
converted to `std::size_t`. -/
def tightDataSize (rectangle : FramebufferUpdateRectangle) (bpp : Nat) : Nat :=
  toSizeT (wrapInt32 (Int.tdiv ((rectangle.width : Int) * (bpp : Int) + 7) 8 * (rectangle.height : Int)))

/-- The `case EncodingType::Tight` of `processFramebufferUpdate`. The bit-fields of
`TightCompressionControl` are laid out from the lowest bit: the four reset flags are bits
0 to 3 and `rest` is the high nibble. -/
def processTight (rectangle : FramebufferUpdateRectangle) : M Unit := do
  cSendRectangle rectangle
  let cb ← sRecvRaw 1
  let c0 := (cb.getD 0 0).val
  let t ← getTunnel
  let c ←
    if t.m_tightZlibResetQueued then do
      modifyTunnel fun t => { t with m_tightZlibResetQueued := false }
      pure (c0 / 16 * 16 + 15)
    else pure c0
  cSendRaw [Byte.ofNat c]
  let rest := c / 16
  if rest = 8 then
    sForwardDirectly sizeofTightPixel
  else if rest = 9 then
    forwardTightVariableLengthData
  else
    let filter ←
      if rest / 4 % 2 = 1 then do
        let fb ← sForwardRaw 1
        pure (fb.getD 0 0).val
      else pure 0
    let bpp ←
      if filter = 1 then do
        let pl ← sForwardRaw 1
        let actualPaletteLength := (pl.getD 0 0).val + 1
        sForwardDirectly (sizeofTightPixel * actualPaletteLength)
        pure (if actualPaletteLength ≤ 2 then 1 else 8)
      else pure t.m_pixelFormat.bitsPerPixel
    let dataSize := tightDataSize rectangle bpp
    if dataSize < TightMinSizeToCompress then
      sForwardDirectly dataSize
    else
      forwardTightVariableLengthData

/-- The `case EncodingType::DesktopName` of `processFramebufferUpdate`; the value returned is
the new `mustUseLastRect`. -/
def processDesktopName (rectangle : FramebufferUpdateRectangle) (supportsLastRect mustUseLastRect : Bool) :
    M Bool := do
  let lb ← sRecvRaw 4
  let nameLength := be32 (lb.getD 0 0) (lb.getD 1 0) (lb.getD 2 0) (lb.getD 3 0)
  let name ← sRecvRaw nameLength
  setDesktopName name
  let t ← getTunnel
  if t.clientSupportsEncoding EncodingType.DesktopName then
    cSendRectangle rectangle
    cSendRaw (toBe32 (wrapUInt32 t.desktopName.length))
    cSendRaw t.desktopName
    pure mustUseLastRect
  else if supportsLastRect then
    pure true
  else
    sendDummyRectangle
    pure mustUseLastRect

/-- The body of the rectangle loop of `processFramebufferUpdate`; the value returned is the
pair of `lastRectReceived` and `mustUseLastRect` after the round. -/
def processRectangle (supportsLastRect mustUseLastRect : Bool) : M (Bool × Bool) := do
  let bs ← sRecvRaw 12
  let rectangle := FramebufferUpdateRectangle.recv bs
  emit (.received rectangle)
  let t ← getTunnel
  let e := rectangle.encodingType
  if e = EncodingType.Raw ∨ e = EncodingType.CopyRect ∨ e = EncodingType.Cursor
      ∨ e = EncodingType.XCursor then
    cSendRectangle rectangle
    sForwardDirectly (bufferSize rectangle t.m_pixelFormat.bitsPerPixel)
    pure (false, mustUseLastRect)
  else if e = EncodingType.RRE then
    cSendRectangle rectangle
    let nb ← sForwardRaw 4
    let numberOfSubrectangles := be32 (nb.getD 0 0) (nb.getD 1 0) (nb.getD 2 0) (nb.getD 3 0)
    sForwardDirectly (rreSize numberOfSubrectangles t.m_pixelFormat.bitsPerPixel)
    pure (false, mustUseLastRect)
  else if e = EncodingType.DesktopSize then
    cSendRectangle rectangle
    setFramebufferSize rectangle.width rectangle.height
    pure (false, mustUseLastRect)
  else if e = EncodingType.LastRect then
    cSendRectangle rectangle
    pure (true, mustUseLastRect)
  else if e = EncodingType.DesktopName then
    let must ← processDesktopName rectangle supportsLastRect mustUseLastRect
    pure (false, must)
  else if e = EncodingType.ExtendedDesktopSize then
    if rectangle.yPosition = 0 then
      setFramebufferSize rectangle.width rectangle.height
    cSendRectangle rectangle
    let rd ← sForwardRaw 4
    let numberOfScreens := (rd.getD 0 0).val
    sForwardDirectly (sizeofSetDesktopSizeScreen * numberOfScreens)
    pure (false, mustUseLastRect)
  else if e = EncodingType.Tight then
    processTight rectangle
    pure (false, mustUseLastRect)
  else raise Err.unknownEncoding

/-- The rectangle loop of `processFramebufferUpdate`, `for (i = 0; i < numberOfRectangles &&
!lastRectReceived; i++)`, with `remaining = numberOfRectangles - i`. -/
def rectangleLoop (supportsLastRect : Bool) : Nat → Bool → Bool → M (Bool × Bool)
  | 0, lastRectReceived, mustUseLastRect => pure (lastRectReceived, mustUseLastRect)
  | remaining + 1, lastRectReceived, mustUseLastRect =>
    if lastRectReceived then pure (lastRectReceived, mustUseLastRect)
    else do
      let (received, must) ← processRectangle supportsLastRect mustUseLastRect
      rectangleLoop supportsLastRect remaining received must

/-- The member `VncTunnel::processFramebufferUpdate`. -/
def processFramebufferUpdate : M Unit := do
  let t ← getTunnel
  let supportsLastRect := t.clientSupportsEncoding EncodingType.LastRect
  let bs ← sRecvRaw 4
  let message := FramebufferUpdateMessage.recv bs
  let numberOfRectangles := message.numberOfRectangles
  let extraRectanglesCount := t.countExtraRectangles
  let (mustUseLastRect, count) ←
    if (message.numberOfRectangles : Int) > 65535 - (extraRectanglesCount : Int) then
      if supportsLastRect then pure (true, 65535)
      else raise Err.tooManyRectangles
    else pure (false, toUInt16 (message.numberOfRectangles + extraRectanglesCount))
  cSendMessage { message with numberOfRectangles := count }
  sendExtraRectangles
  let (lastRectReceived, must) ← rectangleLoop supportsLastRect numberOfRectangles false mustUseLastRect
  if supportsLastRect then
    if must && !lastRectReceived then sendLastRectangle
  else
    if must then raise Err.assertion

/-! ## Notions used by the statements -/

/-- The bytes the client formatter of a tunnel will still deliver. -/
def VncTunnel.clientPending (t : VncTunnel) : List Byte := t.m_streamFormatter.pending

/-- The bytes the formatter of the current back-end connection will still deliver. -/
def VncTunnel.serverPending (t : VncTunnel) : List Byte :=
  t.m_currentConnection.m_streamFormatter.pending

/-- Both push-back buffers hold at most `bufferMaxSize` bytes, as `push_back` guarantees. -/
def VncTunnel.buffersOk (t : VncTunnel) : Prop :=
  t.m_streamFormatter.buffer.length ≤ 1 ∧ t.m_currentConnection.m_streamFormatter.buffer.length ≤ 1

instance (t : VncTunnel) : Decidable t.buffersOk := by
  unfold VncTunnel.buffersOk; infer_instance

/-- The formatter after `len` bytes were taken from it. -/
def StreamFormatter.consume (f : StreamFormatter) (len : Nat) : StreamFormatter :=
  if len = 0 then f else { input := f.pending.drop len, buffer := [] }

/-- A sample pixel format: 32 bits per pixel, true colour, little-endian pixels. -/
def samplePixelFormat : PixelFormat :=
  { bitsPerPixel := 32, depth := 24, bigEndianFlag := 0, trueColourFlag := 1
    redMax := 255, greenMax := 255, blueMax := 255
    redShift := 16, greenShift := 8, blueShift := 0, padding := [0, 0, 0] }

/-- A sample session with id 0, display 1 and the desktop name `xvnc`, held by one connection. -/
def sampleXvnc : Xvnc :=
  { m_id := 0, m_pid := 4242, m_displayNumber := 1, m_visible := false
    m_desktopName := [120, 118, 110, 99], m_sessionUsername := []
    m_approvedControllerKeys := [], owners := 1 }

/-- A sample tunnel on a little-endian host, fresh from `start`, whose client will still send
`clientInput` and whose back-end will still send `serverInput`. -/
def sampleTunnel (clientInput serverInput : List Byte) : VncTunnel :=
  { hostBigEndian := false
    options := { security := [1], disableManager := false, alwaysShowGreeter := false }
    m_xvncManager := { m_xvncs := [sampleXvnc], m_nextId := 1, m_sessionListVersion := 0 }
    m_streamFormatter := { input := clientInput, buffer := [] }
    m_currentConnection :=
      { m_xvnc := sampleXvnc
        m_streamFormatter := { input := serverInput, buffer := [] }
        m_framebufferWidth := 800
        m_framebufferHeight := 600
        m_pixelFormat := samplePixelFormat
        m_connectionInitializedHandler := false
        m_passwordRequestHandler := false
        m_credentialsRequestHandler := false }
    m_potentialConnection := none
    m_greeterConnection := none
    m_securityType := 0
    m_pixelFormat := samplePixelFormat
    m_supportedEncodingsClient := []
    m_supportedEncodingsServer := []
    m_tightZlibResetQueued := false
    m_desktopNameChangeQueued := false
    m_tightEncodingDisabled := false }

/-- A sample SetPixelFormat message of a client: 32 bits per pixel, depth 24, little-endian
pixels, true colour, maxima 255, shifts 16, 8 and 0. -/
def sampleSetPixelFormat : List Byte :=
  [0, 0, 0, 0, 32, 24, 0, 1, 0, 255, 0, 255, 0, 255, 16, 8, 0, 0, 0, 0]

/-- The sample SetPixelFormat message with the big-endian flag set. -/
def sampleSetPixelFormatBigEndian : List Byte :=
  [0, 0, 0, 0, 32, 24, 1, 1, 0, 255, 0, 255, 0, 255, 16, 8, 0, 0, 0, 0]

/-- The sample tunnel on a big-endian host. -/
def sampleTunnelBigEndianHost (clientInput serverInput : List Byte) : VncTunnel :=
  { sampleTunnel clientInput serverInput with hostBigEndian := true }

/-- From the claim: the encodings the tunnel knows, namely the ten named ones and the
JpegQuality range from -32 to -23. -/
def knownEncoding (e : Int) : Bool :=
  decide (e ∈ [EncodingType.Raw, EncodingType.CopyRect, EncodingType.RRE, EncodingType.DesktopSize,
    EncodingType.LastRect, EncodingType.Cursor, EncodingType.XCursor, EncodingType.DesktopName,
    EncodingType.ExtendedDesktopSize, EncodingType.Tight])
  || decide (-32 ≤ e ∧ e ≤ -23)

/-- From the claim: the list asked of the back-end for the client list `encodings`, namely its
known entries in the client's order, without the Tight entries when Tight is disabled, followed
by one DesktopName entry iff the client list has none. -/
def expectedServerEncodings (tightDisabled : Bool) (encodings : List Int) : List Int :=
  (encodings.filter fun e => knownEncoding e && !(tightDisabled && decide (e = EncodingType.Tight)))
    ++ (if EncodingType.DesktopName ∈ encodings then [] else [EncodingType.DesktopName])

/-- A call of one of the three setters of a session. -/
inductive SessionCall
  | markVisible (newVisible : Bool)
  | setDesktopName (newDesktopName : List Byte)
  | setSessionUsername (newSessionUsername : List Byte)
deriving DecidableEq, Repr

/-- The session and the registry after one call on the session. -/
def SessionCall.run (c : SessionCall) (s : Xvnc × XvncManager) : Xvnc × XvncManager :=
  let r := match c with
    | .markVisible v => s.1.markVisible v
    | .setDesktopName n => s.1.setDesktopName n
    | .setSessionUsername u => s.1.setSessionUsername u
  (r.1, s.2.sessionCalled r)

/-- The session and the registry after a sequence of calls on the session, first call first. -/
def runSessionCalls (cs : List SessionCall) (s : Xvnc × XvncManager) : Xvnc × XvncManager :=
  cs.foldl (fun s c => c.run s) s

/-- The bytes of an ASCII string. -/
def ascii (s : String) : List Byte := s.toList.map fun c => Byte.ofNat c.toNat

/-- A sample registry holding the sample session. -/
def sampleManager : XvncManager :=
  { m_xvncs := [sampleXvnc], m_nextId := 1, m_sessionListVersion := 0 }

/-- The registry as constructed: no session, next id 0, list version 0. -/
def emptyManager : XvncManager := { m_xvncs := [], m_nextId := 0, m_sessionListVersion := 0 }

/-- A sample registry whose only session is held by nobody else and is not visible. -/
def sampleManagerUnheld : XvncManager :=
  { m_xvncs := [{ sampleXvnc with owners := 0 }], m_nextId := 1, m_sessionListVersion := 0 }

/-- The tunnel after `len` bytes were taken from the current back-end. -/
def VncTunnel.serverConsumed (t : VncTunnel) (len : Nat) : VncTunnel :=
  t.withServerFormatter (t.m_currentConnection.m_streamFormatter.consume len)

/-- The tunnel after `len` bytes were taken from the client. -/
def VncTunnel.clientConsumed (t : VncTunnel) (len : Nat) : VncTunnel :=
  t.withClientFormatter (t.m_streamFormatter.consume len)

/-- The length bytes of a Tight variable-length block that starts with `b0 b1 b2`: one byte if
the top bit of `b0` is clear, two if that of `b1` is clear, three otherwise. -/
def tightLengthBytes (b0 b1 b2 : Byte) : List Byte :=
  if b0.val < 128 then [b0] else if b1.val < 128 then [b0, b1] else [b0, b1, b2]

/-- The length the bytes `tightLengthBytes b0 b1 b2` encode: seven bits of each of the first
two bytes and all eight bits of the third. -/
def tightLength (b0 b1 b2 : Byte) : Nat :=
  if b0.val < 128 then b0.val
  else if b1.val < 128 then b0.val % 128 + b1.val * 128
  else b0.val % 128 + (b1.val % 128) * 128 + b2.val * 16384

/-- A Tight rectangle of 32768 by 32768 pixels at the origin. -/
def sampleTightRectangle : FramebufferUpdateRectangle :=
  { xPosition := 0, yPosition := 0, width := 32768, height := 32768
    encodingType := EncodingType.Tight }

/-- A call that changes the set of sessions of the registry. -/
inductive RegistryCall
  | createSession (spawned : Option (Int × Int))
  | childDied (pid : Int)
deriving DecidableEq, Repr

/-- The registry after one call, and the id the call handed to the constructor of `Xvnc`
(the value of `m_nextId++`), if it is a `createSession`. -/
def RegistryCall.run (c : RegistryCall) (m : XvncManager) : XvncManager × Option Int :=
  match c with
  | .createSession spawned => ((m.createSession spawned).1, some m.m_nextId)
  | .childDied pid => (m.childDied pid, none)

/-- The registry after a sequence of calls, first call first, and the ids handed out, in
order. -/
def runRegistryCalls : List RegistryCall → XvncManager → XvncManager × List Int
  | [], m => (m, [])
  | c :: cs, m =>
    let r := c.run m
    let rs := runRegistryCalls cs r.1
    (rs.1, r.2.toList ++ rs.2)

/-- The number of `createSession` calls in a sequence. -/
def countCreateSession (cs : List RegistryCall) : Nat :=
  (cs.filter fun c => match c with
    | .createSession _ => true
    | .childDied _ => false).length

/-! ## The handshake with the client (`VncTunnel.cpp`) -/

/-- The constant `HighestVersionString`, the twelve bytes `RFB 003.008\n`. -/
def HighestVersionString : List Byte := [82, 70, 66, 32, 48, 48, 51, 46, 48, 48, 56, 10]

namespace SecurityType
def Invalid : Nat := 0
def None : Nat := 1
def VncAuth : Nat := 2
def VeNCrypt : Nat := 19
end SecurityType

namespace VeNCryptSubtype
def Invalid : Nat := 0
def None : Nat := 1
def VncAuth : Nat := 2
def Plain : Nat := 256
def TLSNone : Nat := 257
def X509None : Nat := 260
end VeNCryptSubtype

namespace SecurityResult
def OK : Nat := 0
def Failed : Nat := 1
end SecurityResult

/-- The structure `ServerInitMessage`, its fields in host order. -/
structure ServerInitMessage where
  framebufferWidth : Nat
  framebufferHeight : Nat
  serverPixelFormat : PixelFormat
  nameLength : Nat
deriving DecidableEq, Repr

/-- The 24 bytes written by `send(serverInit)`: `hton` followed by `send_raw`. -/
def ServerInitMessage.send (hostBigEndian : Bool) (m : ServerInitMessage) : List Byte :=
  toBe16 m.framebufferWidth ++ toBe16 m.framebufferHeight
    ++ PixelFormat.store hostBigEndian (PixelFormat.hton hostBigEndian m.serverPixelFormat)
    ++ toBe32 m.nameLength

/-- The loop of `configuredSecurityTypes` over the remaining subtypes, with the list built so
far and the flag `venCryptIncluded`; the `default` branch is the failed assertion. -/
def configuredSecurityTypesLoop : List Nat → List Nat → Bool → Except Err (List Nat)
  | [], securityTypes, _ => .ok securityTypes
  | subtype :: rest, securityTypes, venCryptIncluded =>
    if subtype = VeNCryptSubtype.None then
      configuredSecurityTypesLoop rest (securityTypes ++ [SecurityType.None]) venCryptIncluded
    else if subtype = VeNCryptSubtype.TLSNone ∨ subtype = VeNCryptSubtype.X509None then
      if !venCryptIncluded then
        configuredSecurityTypesLoop rest (securityTypes ++ [SecurityType.VeNCrypt]) true
      else configuredSecurityTypesLoop rest securityTypes venCryptIncluded
    else .error Err.assertion

/-- The member `VncTunnel::configuredSecurityTypes`. -/
def VncTunnel.configuredSecurityTypes (t : VncTunnel) : Except Err (List Nat) :=
  configuredSecurityTypesLoop t.options.security [] false

/-- The member `VncTunnel::sendReason`. -/
def sendReason (reason : List Byte) : M Unit := do
  let reasonLength := wrapUInt32 reason.length
  cSendRaw (toBe32 reasonLength)
  cSendRaw reason

/-- The member `VncTunnel::finishClientInitialization`. -/
def finishClientInitialization : M Unit := do
  let _clientInit ← cRecvRaw 1
  let t ← getTunnel
  let serverInit : ServerInitMessage :=
    { framebufferWidth := t.m_currentConnection.m_framebufferWidth
      framebufferHeight := t.m_currentConnection.m_framebufferHeight
      serverPixelFormat := t.m_currentConnection.m_pixelFormat
      nameLength := wrapUInt32 t.desktopName.length }
  cSendRaw (serverInit.send t.hostBigEndian)
  cSendRaw t.desktopName

/-- The member `VncTunnel::handleNoneSecurity`. -/
def handleNoneSecurity : M Unit := do
  cSendRaw (toBe32 SecurityResult.OK)
  finishClientInitialization

/-- The text `Client chosen invalid VeNCrypt security subtype.` -/
def subtypeError : List Byte :=
  "Client chosen invalid VeNCrypt security subtype.".toList.map fun c => Byte.ofNat c.toNat

/-- The member `VncTunnel::handleVeNCryptSecurity`. Replacing the client stream by a
`TLSStream` gives the tunnel a new formatter, with an empty push-back buffer. -/
def handleVeNCryptSecurity : M Unit := do
  cSendRaw [0, 2]
  let version ← cRecvRaw 2
  let major := (version.getD 0 0).val
  let minor := (version.getD 1 0).val
  let status : Nat := if major ≠ 0 ∨ minor ≠ 2 then 1 else 0
  cSendRaw [Byte.ofNat status]
  if status ≠ 0 then raise Err.unsupportedVeNCryptVersion
  let t ← getTunnel
  let subtypes := t.options.security
  let count := subtypes.length % 256
  cSendRaw [Byte.ofNat count]
  cSendRaw (subtypes.map toBe32).flatten
  let sb ← cRecvRaw 4
  let selectedSubtype := be32 (sb.getD 0 0) (sb.getD 1 0) (sb.getD 2 0) (sb.getD 3 0)
  if selectedSubtype ∉ subtypes then
    cSendRaw [0]
    cSendRaw (toBe32 SecurityResult.Failed)
    cSendRaw (toBe32 (wrapUInt32 subtypeError.length))
    cSendRaw subtypeError
    raise Err.invalidVeNCryptSubtype
  cSendRaw [1]
  if selectedSubtype = VeNCryptSubtype.TLSNone ∨ selectedSubtype = VeNCryptSubtype.X509None then
    let anonymousTLS := decide (selectedSubtype = VeNCryptSubtype.TLSNone)
    modifyTunnel fun t => { t with m_streamFormatter := { t.m_streamFormatter with buffer := [] } }
    emit (.tls anonymousTLS)
    handleNoneSecurity
  else if selectedSubtype = VeNCryptSubtype.None then
    handleNoneSecurity
  else raise Err.assertion

/-- The text `Client version is not supported.` -/
def versionReason : List Byte :=
  "Client version is not supported.".toList.map fun c => Byte.ofNat c.toNat

/-- The text `Client chosen invalid security type.` -/
def securityTypeReason : List Byte :=
  "Client chosen invalid security type.".toList.map fun c => Byte.ofNat c.toNat

/-- The `switch` at the end of `clientInitalize` and the assignment that follows it. -/
def dispatchSecurityType (chosenSecurityType : Nat) : M Unit := do
  if chosenSecurityType = SecurityType.None then handleNoneSecurity
  else if chosenSecurityType = SecurityType.VeNCrypt then handleVeNCryptSecurity
  else raise Err.assertion
  modifyTunnel fun t => { t with m_securityType := chosenSecurityType }

/-- The member `VncTunnel::clientInitalize`. -/
def clientInitalize : M Unit := do
  cSendRaw HighestVersionString
  let versionString ← cRecvRaw 12
  if versionString ≠ HighestVersionString then
    cSendRaw [0]
    sendReason versionReason
    raise Err.unsupportedClientVersion
  let t ← getTunnel
  let securityTypes ← match t.configuredSecurityTypes with
    | .ok l => pure l
    | .error e => raise e
  cSendRaw [Byte.ofNat securityTypes.length]
  cSendRaw (securityTypes.map Byte.ofNat)
  let cb ← cRecvRaw 1
  let chosenSecurityType := (cb.getD 0 0).val
  if chosenSecurityType ∉ securityTypes then
    cSendRaw (toBe32 SecurityResult.Failed)
    sendReason securityTypeReason
    raise Err.invalidSecurityType
  dispatchSecurityType chosenSecurityType

/-- The subtypes the configuration admits for `security`: None, TLSNone and X509None. -/
def validSubtypes : List Nat :=
  [VeNCryptSubtype.None, VeNCryptSubtype.TLSNone, VeNCryptSubtype.X509None]

/-- Whether a subtype is one of the two VeNCrypt ones, TLSNone and X509None. -/
def isTlsSubtype (s : Nat) : Bool :=
  decide (s = VeNCryptSubtype.TLSNone ∨ s = VeNCryptSubtype.X509None)

/-- The entries the loop of `configuredSecurityTypes` appends for a list of admitted subtypes,
given the flag `venCryptIncluded` it starts with. -/
def appendedSecurityTypes : List Nat → Bool → List Nat
  | [], _ => []
  | s :: rest, inc =>
    if s = VeNCryptSubtype.None then SecurityType.None :: appendedSecurityTypes rest inc
    else if !inc then SecurityType.VeNCrypt :: appendedSecurityTypes rest true
    else appendedSecurityTypes rest inc

/-! ## The start of a tunnel (`VncTunnel.cpp`, `Xvnc.cpp`) -/

/-- What the opening of `VncTunnel::start` does before the first back-end connection is
opened: the value of `showGreeter`, the argument `queryDisplayManager` it hands to
`createSession`, whether it calls `createGreeter`, and `m_tightEncodingDisabled` afterwards. -/
structure StartDecision where
  showGreeter : Bool
  queryDisplayManager : Bool
  createGreeter : Bool
  m_tightEncodingDisabled : Bool
deriving DecidableEq, Repr

/-- The opening of `VncTunnel::start`; `m_tightEncodingDisabled` is `false` before it. -/
def startDecision (options : Configuration) (m : XvncManager) : StartDecision :=
  let showGreeter := !options.disableManager && (options.alwaysShowGreeter || m.hasVisibleSessions)
  { showGreeter := showGreeter
    queryDisplayManager := !showGreeter
    createGreeter := showGreeter
    m_tightEncodingDisabled := if showGreeter then true else false }

/-- The arguments `Xvnc::execute` appends to the command line of Xvnc according to
`queryDisplayManager`: an XDMCP query of the configured display manager, or a local session
with the given authority file. -/
def Xvnc.executeModeArguments (queryDisplayManager : Bool) (query xauthFilename : String) :
    List String :=
  if queryDisplayManager then ["-query", query, "-once", "-desktop", "New session"]
  else ["-auth", xauthFilename, "-desktop", "VNC manager"]

/-! ## Text streams of the C++ library -/

/-- The function `isspace` of the C locale: tab, line feed, vertical tab, form feed, carriage
return and space. -/
def isSpace (b : Byte) : Bool := decide (b.val = 32 ∨ (9 ≤ b.val ∧ b.val ≤ 13))

/-- A decimal digit. -/
def isDigit (b : Byte) : Bool := decide (48 ≤ b.val ∧ b.val ≤ 57)

namespace IStream

/-- The member `good()`. -/
def good (s : IStream) : Bool := !s.failbit && !s.eofbit

/-- The `sentry` of a formatted input function: it fails (setting `failbit`) on a stream that
is not good, skips white space, and fails (setting `eofbit` and `failbit`) if the input ends
before a character that is not white space. -/
def sentry (s : IStream) : Bool × IStream :=
  if !s.good then (false, { s with failbit := true })
  else
    let rest := s.input.dropWhile isSpace
    if rest.isEmpty then (false, { input := [], failbit := true, eofbit := true })
    else (true, { s with input := rest })

/-- The library's `operator>>(std::istream &, std::string &)`: the next token delimited by
white space; `str` is the string before the call, which is kept if the sentry fails. Reaching
the end of the input while reading the token sets `eofbit`. -/
def extractString (s : IStream) (str : List Byte) : List Byte × IStream :=
  let r := s.sentry
  if !r.1 then (str, r.2)
  else
    let rest := r.2.input.dropWhile fun b => !isSpace b
    (r.2.input.takeWhile fun b => !isSpace b, { r.2 with input := rest, eofbit := rest.isEmpty })

/-- The digits of a decimal number and an optional sign at the head of the input: the value
read, whether any digit was read, and the rest of the input. -/
def scanInteger (input : List Byte) : Int × Bool × List Byte :=
  let signed : Bool × List Byte :=
    match input with
    | 45 :: r => (true, r)
    | 43 :: r => (false, r)
    | r => (false, r)
  let digits := signed.2.takeWhile isDigit
  let magnitude : Nat := digits.foldl (fun a d => a * 10 + (d.val - 48)) 0
  (if signed.1 then -(magnitude : Int) else (magnitude : Int), !digits.isEmpty,
    signed.2.dropWhile isDigit)

/-- The library's `std::istream::operator>>(int &)` (C++11): `value` is the variable before the
call, which is kept if the sentry fails; a field without digits stores 0 and a value out of
range stores the nearest bound, both setting `failbit`. -/
def extractInt (s : IStream) (value : Int) : Int × IStream :=
  let r := s.sentry
  if !r.1 then (value, r.2)
  else
    let n := scanInteger r.2.input
    let eof := n.2.2.isEmpty
    if !n.2.1 then (0, { input := n.2.2, failbit := true, eofbit := eof })
    else if n.1 > 2147483647 then (2147483647, { input := n.2.2, failbit := true, eofbit := eof })
    else if n.1 < -2147483648 then (-2147483648, { input := n.2.2, failbit := true, eofbit := eof })
    else (n.1, { r.2 with input := n.2.2, eofbit := eof })

/-- The library's `std::istream::operator>>(bool &)` without `boolalpha` (C++11): a number is
read; 0 stores `false`, 1 stores `true`, anything else stores `true` and sets `failbit`; a
field without digits stores `false` and sets `failbit`. -/
def extractBool (s : IStream) (value : Bool) : Bool × IStream :=
  let r := s.sentry
  if !r.1 then (value, r.2)
  else
    let n := scanInteger r.2.input
    let eof := n.2.2.isEmpty
    if !n.2.1 then (false, { input := n.2.2, failbit := true, eofbit := eof })
    else if n.1 = 0 then (false, { r.2 with input := n.2.2, eofbit := eof })
    else if n.1 = 1 then (true, { r.2 with input := n.2.2, eofbit := eof })
    else (true, { input := n.2.2, failbit := true, eofbit := eof })

end IStream

/-- The decimal digits of `n` in front of `acc`, most significant first; `fuel` bounds the
number of digits. -/
def decimalDigitsAux : Nat → Nat → List Byte → List Byte
  | 0, _, acc => acc
  | fuel + 1, n, acc =>
    if n / 10 = 0 then Byte.ofNat (48 + n % 10) :: acc
    else decimalDigitsAux fuel (n / 10) (Byte.ofNat (48 + n % 10) :: acc)

/-- The decimal digits `operator<<` writes for a number that is not negative. -/
def decimalDigits (n : Nat) : List Byte := decimalDigitsAux (n + 1) n []

/-- The text `std::ostream::operator<<(int)` writes. -/
def decimal (i : Int) : List Byte :=
  if i < 0 then 45 :: decimalDigits i.natAbs else decimalDigits i.toNat

/-! ## The greeter (`GreeterConnection.cpp`) -/

/-- The handler a call of `GreeterConnection::receive` invokes, with its arguments. -/
inductive GreeterRequest
  | newSession
  | openSession (id : Int)
  | password (password : List Byte)
  | credentials (username password : List Byte)
deriving DecidableEq, Repr

namespace GreeterConnection

/-- The lines `sendSessions` writes in its loop over the session list. -/
def sessionLines : List Xvnc → List Byte
  | [] => []
  | x :: xs =>
    if x.m_visible then
      decimal x.m_id ++ ascii " " ++ x.m_sessionUsername ++ ascii " " ++ x.m_desktopName
        ++ ascii "\n" ++ sessionLines xs
    else sessionLines xs

/-- The text `sendSessions` writes for a registry; `count` is an `int`. -/
def sessionsText (m : XvncManager) : List Byte :=
  let sessions := m.m_xvncs
  let count : Int := wrapInt32 (sessions.countP fun x => x.m_visible)
  ascii "SESSIONS\n" ++ decimal count ++ ascii "\n" ++ sessionLines sessions

/-- The member `GreeterConnection::sendSessions`. -/
def sendSessions (g : GreeterConnection) (m : XvncManager) : GreeterConnection :=
  { g with m_out := g.m_out ++ sessionsText m }

/-- The member `GreeterConnection::update`. -/
def update (g : GreeterConnection) (m : XvncManager) : Except Err GreeterConnection :=
  if g.m_dead then .error Err.greeterDied
  else
    let currentSessionListVersion := m.sessionListVersion
    if g.m_lastSentSessionListVersion < currentSessionListVersion then
      .ok (sendSessions { g with m_lastSentSessionListVersion := currentSessionListVersion } m)
    else .ok g

/-- The member `GreeterConnection::askForPassword`. -/
def askForPassword (g : GreeterConnection) : GreeterConnection :=
  { g with m_passwordHandler := true, m_out := g.m_out ++ ascii "GET PASSWORD\n" }

/-- The member `GreeterConnection::askForCredentials`. -/
def askForCredentials (g : GreeterConnection) : GreeterConnection :=
  { g with m_credentialsHandler := true, m_out := g.m_out ++ ascii "GET CREDENTIALS\n" }

/-- The member `GreeterConnection::showError`. -/
def showError (g : GreeterConnection) (error : List Byte) : GreeterConnection :=
  { g with m_out := g.m_out ++ ascii "ERROR\n" ++ error ++ ascii "\nEND ERROR\n" }

/-- The member `GreeterConnection::markDead`. -/
def markDead (g : GreeterConnection) : GreeterConnection := { g with m_dead := true }

/-- The member `GreeterConnection::receive`: the connection afterwards and the handler it
invoked, if any. The argument `id` is the content of the local variable `id` before
`m_in >> id`, which has no initialiser. -/
def receive (g : GreeterConnection) (id : Int) : GreeterConnection × Option GreeterRequest :=
  let c := g.m_in.extractString []
  if c.1 = ascii "NEW" then ({ g with m_in := c.2 }, some .newSession)
  else if c.1 = ascii "OPEN" then
    let i := c.2.extractInt id
    ({ g with m_in := i.2 }, some (.openSession i.1))
  else if c.1 = ascii "PASSWORD" then
    let p := c.2.extractString []
    ({ g with m_in := p.2 }, some (.password p.1))
  else if c.1 = ascii "CREDENTIALS" then
    let u := c.2.extractString []
    let p := u.2.extractString []
    ({ g with m_in := p.2 }, some (.credentials u.1 p.1))
  else ({ g with m_in := c.2 }, none)

end GreeterConnection

/-- A greeter connection as constructed, whose greeter will still write `input`. -/
def sampleGreeter (input : List Byte) : GreeterConnection :=
  { m_in := { input := input, failbit := false, eofbit := false }, m_out := []
    m_passwordHandler := false, m_credentialsHandler := false, m_dead := false
    m_lastSentSessionListVersion := 0 }

/-- The line of one session in the list sent to the greeter: id, user name and desktop name
separated by single spaces, ended by a line feed. -/
def sessionLine (x : Xvnc) : List Byte :=
  decimal x.m_id ++ ascii " " ++ x.m_sessionUsername ++ ascii " " ++ x.m_desktopName ++ ascii "\n"

/-- A registry whose only session is visible and has a desktop name of two lines. -/
def sampleManagerTwoLineName : XvncManager :=
  { m_xvncs := [{ sampleXvnc with m_visible := true, m_desktopName := ascii "a\nb" }]
    m_nextId := 1, m_sessionListVersion := 1 }

/-- The four commands `GreeterConnection::receive` knows. -/
def greeterCommands : List (List Byte) :=
  [ascii "NEW", ascii "OPEN", ascii "PASSWORD", ascii "CREDENTIALS"]

/-! ## The controller (`ControllerConnection.cpp`) -/

/-- The member `XvncManager::getSessionByDisplayNumber`. -/
def XvncManager.getSessionByDisplayNumber (m : XvncManager) (displayNumber : Int) : Option Xvnc :=
  m.m_xvncs.find? fun x => x.m_displayNumber = displayNumber

/-- The class `ControllerConnection`: the stream `m_controllerStream`, a single `std::iostream`
whose state bits serve both directions, over the bytes the controller program will still send;
what was written to the controller program; and the session `m_xvnc` once it is set. -/
structure ControllerConnection where
  m_controllerStream : IStream
  written : List Byte
  m_xvnc : Option Xvnc
deriving DecidableEq, Repr

/-- What a run of `ControllerConnection::start` leaves: the connection, the session and the
registry, and the arguments of the `markVisible` calls it made, in order. -/
structure ControllerRun where
  connection : ControllerConnection
  session : Option Xvnc
  manager : XvncManager
  markVisibleCalls : List Bool
deriving DecidableEq, Repr

namespace ControllerConnection

/-- The constant `approvalTries`. -/
def approvalTries : Nat := 100

/-- The polling loop of `initialize`, from the try `tries` on: the try at which
`isKeyApproved(key)` held, or `none` if the loop gave up. The session is shared with the
tunnels, which add keys while the loop sleeps: `observed i` is the session and the registry
as they are at the try `i`. -/
def pollKey (observed : Nat → Xvnc × XvncManager) (key : List Byte) : Nat → Nat → Option Nat
  | 0, tries => if (observed tries).1.isKeyApproved key then some tries else none
  | fuel + 1, tries =>
    if (observed tries).1.isKeyApproved key then some tries
    else if tries = approvalTries then none
    else pollKey observed key fuel (tries + 1)

/-- The statements `m_controllerStream << "OK" << std::endl; m_controllerStream.flush();`. The
sentry of an output function lets nothing be written on a stream that is not good, which is
the case once an extraction from the same `std::iostream` has set `eofbit` or `failbit`; the
state bits of the model are left as they are (a library that sets `failbit` on this occasion
changes nothing in `good()`, which was false already). -/
def replyOK (c : ControllerConnection) : ControllerConnection :=
  if c.m_controllerStream.good then { c with written := c.written ++ ascii "OK\n" } else c

/-- The member `ControllerConnection::initialize` (the word is reserved in Lean, hence the
spelling of the name). The argument `displayNumber` is the content
of the local variable of that name before `m_controllerStream >> displayNumber`, and
`peerName` is the user name `getsockopt` and `getpwuid` give for the peer, if they succeed. -/
def initialise (c : ControllerConnection) (m : XvncManager)
    (observed : Nat → Xvnc × XvncManager) (displayNumber : Int) (peerName : Option (List Byte)) :
    Bool × ControllerRun :=
  let d := c.m_controllerStream.extractInt displayNumber
  match m.getSessionByDisplayNumber d.1 with
  | none =>
    (false, { connection := { c with m_controllerStream := d.2, m_xvnc := none }, session := none
              manager := m, markVisibleCalls := [] })
  | some x =>
    let c0 : ControllerConnection :=
      replyOK { m_controllerStream := d.2, written := c.written, m_xvnc := some x }
    let k := c0.m_controllerStream.extractString []
    let c1 : ControllerConnection := { c0 with m_controllerStream := k.2 }
    match pollKey observed k.1 approvalTries 0 with
    | none => (false, { connection := c1, session := some x, manager := m, markVisibleCalls := [] })
    | some i =>
      let c2 : ControllerConnection := replyOK c1
      let s := observed i
      match peerName with
      | none => (true, { connection := c2, session := some s.1, manager := s.2, markVisibleCalls := [] })
      | some name =>
        let r := s.1.setSessionUsername name
        (true, { connection := { c2 with m_xvnc := some r.1 }, session := some r.1
                 manager := s.2.sessionCalled r, markVisibleCalls := [] })

/-- The member `ControllerConnection::receive`; `yes` is the content of the local variable of
that name before `m_controllerStream >> yes`. -/
def receive (r : ControllerRun) (yes : Bool) : ControllerRun :=
  let cmd := r.connection.m_controllerStream.extractString []
  if cmd.1 = ascii "VISIBLE" then
    let y := cmd.2.extractBool yes
    match r.session with
    | none => { r with connection := { r.connection with m_controllerStream := y.2 } }
    | some x =>
      let v := x.markVisible y.1
      { connection := { r.connection with m_controllerStream := y.2, m_xvnc := some v.1 }
        session := some v.1
        manager := r.manager.sessionCalled v
        markVisibleCalls := r.markVisibleCalls ++ [y.1] }
  else { r with connection := { r.connection with m_controllerStream := cmd.2 } }

/-- The loop `while (m_controllerStream.good()) receive();` for at most `fuel` rounds. -/
def receiveLoop (yes : Bool) : Nat → ControllerRun → ControllerRun
  | 0, r => r
  | fuel + 1, r =>
    if r.connection.m_controllerStream.good then receiveLoop yes fuel (receive r yes) else r

/-- The member `ControllerConnection::start`. Every round of its loop on a good stream
consumes input or ends the stream, so the length of the input plus one bounds the rounds. -/
def start (c : ControllerConnection) (m : XvncManager) (observed : Nat → Xvnc × XvncManager)
    (displayNumber : Int) (yes : Bool) (peerName : Option (List Byte)) : ControllerRun :=
  let r := c.initialise m observed displayNumber peerName
  if r.1 then receiveLoop yes (c.m_controllerStream.input.length + 1) r.2 else r.2

end ControllerConnection

/-- A controller connection as constructed, whose controller program will still write
`input`. -/
def sampleController (input : List Byte) : ControllerConnection :=
  { m_controllerStream := { input := input, failbit := false, eofbit := false }
    written := [], m_xvnc := none }

/-- The sample session after the key `abc123` was approved. -/
def sampleXvncApproved : Xvnc := { sampleXvnc with m_approvedControllerKeys := [ascii "abc123"] }

/-! ## Switching the back-end (`XvncConnection.cpp`, `VncTunnel.cpp`) -/

/-- The connection `m_currentConnection` or `m_potentialConnection` of a tunnel. -/
def VncTunnel.connection (t : VncTunnel) : Which → Option XvncConnection
  | .current => some t.m_currentConnection
  | .potential => t.m_potentialConnection

/-- The tunnel with another state of one of its connections. -/
def VncTunnel.withConnection (t : VncTunnel) (which : Which) (c : XvncConnection) : VncTunnel :=
  match which with
  | .current => { t with m_currentConnection := c }
  | .potential => { t with m_potentialConnection := some c }

/-- The call `fmt().recv_raw(buf, len)` of a connection; calling it on an absent connection is
a call through a null pointer. -/
def xRecvRaw (which : Which) (len : Nat) : M (List Byte) := fun t =>
  match t.connection which with
  | none => { result := .error Err.nullDereference, state := t, trace := [] }
  | some c =>
    let r := c.m_streamFormatter.recv_raw len
    { result := match r.error with
        | some e => .error e
        | none => .ok r.bytes
      state := t.withConnection which { c with m_streamFormatter := r.fmt }
      trace := [] }

/-- The call `fmt().send_raw(buf, len)` of a connection. -/
def xSendRaw (which : Which) (bs : List Byte) : M Unit :=
  match which with
  | .current => emit (.server bs)
  | .potential => emit (.potential bs)

/-- The bytes written to the potential back-end in a trace, in order. -/
def potentialBytes : List Event → List Byte
  | [] => []
  | .potential bs :: es => bs ++ potentialBytes es
  | _ :: es => potentialBytes es

/-- The registry after another shared pointer to the session `id` was taken. -/
def XvncManager.acquired (m : XvncManager) (id : Int) : XvncManager :=
  { m with m_xvncs := m.m_xvncs.map fun x => if x.m_id = id then { x with owners := x.owners + 1 } else x }

/-- The registry after a holder dropped its shared pointer to the session `x`: if the registry
no longer has the session and no other holder is left, the destructor of `Xvnc` runs. -/
def XvncManager.released (m : XvncManager) (x : Xvnc) : XvncManager :=
  match m.getSession x.m_id with
  | some _ =>
    { m with m_xvncs := m.m_xvncs.map fun y => if y.m_id = x.m_id then { y with owners := y.owners - 1 } else y }
  | none =>
    if x.owners ≤ 1 then
      if (x.markVisible false).2 then m.notifySessionChanged else m
    else m

/-- The structure `FramebufferUpdateRequestMessage`, its fields in host order. -/
structure FramebufferUpdateRequestMessage where
  type : Byte
  incremental : Byte
  xPosition : Nat
  yPosition : Nat
  width : Nat
  height : Nat
deriving DecidableEq, Repr

/-- The 10 bytes written by `send(message)`. -/
def FramebufferUpdateRequestMessage.send (m : FramebufferUpdateRequestMessage) : List Byte :=
  [m.type, m.incremental] ++ toBe16 m.xPosition ++ toBe16 m.yPosition ++ toBe16 m.width
    ++ toBe16 m.height

/-- The 24 bytes read by `recv(serverInit)`: `recv_raw` followed by `ntoh`. -/
def ServerInitMessage.recv (hostBigEndian : Bool) (bs : List Byte) : ServerInitMessage :=
  { framebufferWidth := be16 (bs.getD 0 0) (bs.getD 1 0)
    framebufferHeight := be16 (bs.getD 2 0) (bs.getD 3 0)
    serverPixelFormat := PixelFormat.ntoh hostBigEndian (PixelFormat.load hostBigEndian (bs.drop 4))
    nameLength := be32 (bs.getD 20 0) (bs.getD 21 0) (bs.getD 22 0) (bs.getD 23 0) }

/-- The member `XvncConnection::sendNonIncrementalFramebufferUpdateRequest` on the current
connection. -/
def sendNonIncrementalFramebufferUpdateRequest : M Unit := do
  let t ← getTunnel
  let message : FramebufferUpdateRequestMessage :=
    { type := 3, incremental := 0, xPosition := 0, yPosition := 0
      width := t.m_currentConnection.m_framebufferWidth
      height := t.m_currentConnection.m_framebufferHeight }
  sSendRaw message.send

/-- The member `VncTunnel::connectionSwitched`. Releasing the greeter deletes it, and deleting
the current connection drops its shared pointer to its session. -/
def connectionSwitched : M Unit := do
  let t ← getTunnel
  if t.m_greeterConnection.isNone then raise Err.assertion
  modifyTunnel fun t => { t with m_greeterConnection := none }
  match t.m_potentialConnection with
  | none => raise Err.assertion
  | some potential =>
    modifyTunnel fun t =>
      { t with
        m_xvncManager := t.m_xvncManager.released t.m_currentConnection.m_xvnc
        m_currentConnection := potential
        m_potentialConnection := none }
    if !(potential.m_pixelFormat.eq t.m_pixelFormat) then
      sendSetPixelFormat t.m_pixelFormat
    sendSetEncodings t.m_supportedEncodingsServer
    sendNonIncrementalFramebufferUpdateRequest
    modifyTunnel fun t => { t with m_tightZlibResetQueued := true }
    if t.clientSupportsEncoding EncodingType.DesktopName then
      modifyTunnel fun t => { t with m_desktopNameChangeQueued := true }

namespace XvncConnection

/-- The member `XvncConnection::receiveFailureReason`. -/
def receiveFailureReason (which : Which) : M (List Byte) := do
  let lb ← xRecvRaw which 4
  let reasonLength := be32 (lb.getD 0 0) (lb.getD 1 0) (lb.getD 2 0) (lb.getD 3 0)
  xRecvRaw which reasonLength

/-- The member `XvncConnection::startInitialization`. -/
def startInitialization (which : Which) (supportedTypes : List Nat) : M Nat := do
  let versionString ← xRecvRaw which 12
  if versionString ≠ HighestVersionString then
    raise (Err.connectionException which (ascii "Unsupported version of RFB protocol"))
  xSendRaw which versionString
  let nb ← xRecvRaw which 1
  let numberOfSecurityTypes := (nb.getD 0 0).val
  if numberOfSecurityTypes = 0 then
    let reason ← receiveFailureReason which
    raise (Err.connectionException which (ascii "Connection failed, reason: " ++ reason))
  let tb ← xRecvRaw which numberOfSecurityTypes
  let securityTypes := tb.map fun b => b.val
  let selectedSecurityType :=
    (securityTypes.find? fun s => decide (s ∈ supportedTypes)).getD SecurityType.Invalid
  if selectedSecurityType = SecurityType.Invalid then
    raise (Err.connectionException which (ascii "No supported security type offered"))
  xSendRaw which [Byte.ofNat selectedSecurityType]
  pure selectedSecurityType

/-- The member `XvncConnection::receiveSecurityResult`. -/
def receiveSecurityResult (which : Which) : M Unit := do
  let sb ← xRecvRaw which 4
  let status := be32 (sb.getD 0 0) (sb.getD 1 0) (sb.getD 2 0) (sb.getD 3 0)
  if status ≠ 0 then
    let reason ← receiveFailureReason which
    raise (Err.connectionException which (ascii "Connection failed, reason: " ++ reason))

/-- The member `XvncConnection::completeInitialization`. The only function ever stored in
`m_connectionInitializedHandler` is `VncTunnel::connectionSwitched`, which makes this
connection the current one. -/
def completeInitialization (which : Which) : M Unit := do
  xSendRaw which [1]
  let sb ← xRecvRaw which 24
  let t ← getTunnel
  let serverInit := ServerInitMessage.recv t.hostBigEndian sb
  match t.connection which with
  | none => raise Err.nullDereference
  | some c =>
    modifyTunnel fun t => t.withConnection which
      { c with
        m_framebufferWidth := serverInit.framebufferWidth
        m_framebufferHeight := serverInit.framebufferHeight
        m_pixelFormat := serverInit.serverPixelFormat }
    let name ← xRecvRaw which serverInit.nameLength
    modifyTunnel fun t => t.sessionCalled (c.m_xvnc.setDesktopName name)
    if c.m_connectionInitializedHandler then
      connectionSwitched
      modifyTunnel fun t =>
        { t with m_currentConnection :=
            { t.m_currentConnection with m_connectionInitializedHandler := false } }

/-- The member `XvncConnection::handleNoneSecurity`. -/
def handleNoneSecurity (which : Which) : M Unit := do
  receiveSecurityResult which
  completeInitialization which

/-- The member `XvncConnection::handleVncAuthSecurity`: the only function ever stored in
`m_passwordRequestHandler` is `GreeterConnection::askForPassword` of the tunnel's greeter. -/
def handleVncAuthSecurity (which : Which) : M Unit := do
  let t ← getTunnel
  match t.connection which with
  | none => raise Err.nullDereference
  | some c =>
    if !c.m_passwordRequestHandler then raise Err.badFunctionCall
    match t.m_greeterConnection with
    | none => raise Err.nullDereference
    | some g => modifyTunnel fun t => { t with m_greeterConnection := some g.askForPassword }

/-- The call of `m_credentialsRequestHandler` in `handleVeNCryptSecurity`: the only function
ever stored there is `GreeterConnection::askForCredentials` of the tunnel's greeter. -/
def requestCredentials (which : Which) : M Unit := do
  let t ← getTunnel
  match t.connection which with
  | none => raise Err.nullDereference
  | some c =>
    if !c.m_credentialsRequestHandler then raise Err.badFunctionCall
    match t.m_greeterConnection with
    | none => raise Err.nullDereference
    | some g => modifyTunnel fun t => { t with m_greeterConnection := some g.askForCredentials }

/-- The member `XvncConnection::handleVeNCryptSecurity`. -/
def handleVeNCryptSecurity (which : Which) : M Unit := do
  let vb ← xRecvRaw which 2
  if (vb.getD 0 0).val ≠ 0 ∨ (vb.getD 1 0).val ≠ 2 then
    raise (Err.connectionException which (ascii "Unsupported VeNCrypt version."))
  xSendRaw which vb
  let sb ← xRecvRaw which 1
  if (sb.getD 0 0).val ≠ 0 then
    raise (Err.connectionException which (ascii "VeNCrypt version selection failed."))
  let lb ← xRecvRaw which 1
  let length := (lb.getD 0 0).val
  let tb ← xRecvRaw which (length * 4)
  let subtypes := recvEncodings length tb |>.map ofInt32
  let selectedSubtype :=
    (subtypes.find? fun s => decide (s = VeNCryptSubtype.Plain ∨ s = VeNCryptSubtype.None
      ∨ s = VeNCryptSubtype.VncAuth)).getD VeNCryptSubtype.Invalid
  if selectedSubtype = VeNCryptSubtype.Invalid then
    raise (Err.connectionException which (ascii "No supported VeNCrypt subtype available."))
  xSendRaw which (toBe32 selectedSubtype)
  if selectedSubtype = VeNCryptSubtype.None then handleNoneSecurity which
  else if selectedSubtype = VeNCryptSubtype.VncAuth then handleVncAuthSecurity which
  else requestCredentials which

/-- The member `XvncConnection::initialize()` without arguments (the word is reserved in Lean,
hence the spelling of the name). -/
def initialise (which : Which) : M Unit := do
  let selectedSecurityType ← startInitialization which [SecurityType.None]
  if selectedSecurityType ≠ SecurityType.None then
    raise (Err.connectionException which
      (ascii "Connection to Xvnc was expecting security None, but got "
        ++ decimal selectedSecurityType))
  handleNoneSecurity which

/-- The member `XvncConnection::initialize` with the three handlers. -/
def initialiseWithHandlers (which : Which) : M Unit := do
  let t ← getTunnel
  match t.connection which with
  | none => raise Err.nullDereference
  | some c =>
    modifyTunnel fun t => t.withConnection which
      { c with m_connectionInitializedHandler := true, m_passwordRequestHandler := true
               m_credentialsRequestHandler := true }
    let selectedSecurityType ← startInitialization which
      [SecurityType.None, SecurityType.VncAuth, SecurityType.VeNCrypt]
    if selectedSecurityType = SecurityType.None then handleNoneSecurity which
    else if selectedSecurityType = SecurityType.VncAuth then handleVncAuthSecurity which
    else if selectedSecurityType = SecurityType.VeNCrypt then handleVeNCryptSecurity which
    else raise Err.assertion

end XvncConnection

/-- The member `VncTunnel::switchToConnection`; `xvnc` is the shared pointer handed in, empty
or not, and `backendInput` is what the Xvnc process will send on the new connection. The
constructor of `XvncConnection` calls `xvnc->connect()`, through a null pointer if `xvnc` is
empty; it does not initialise the framebuffer size and the pixel format. -/
def switchToConnection (xvnc : Option Xvnc) (backendInput : List Byte) : M Unit := do
  let t ← getTunnel
  if t.m_tightEncodingDisabled then
    modifyTunnel fun t => { t with m_tightEncodingDisabled := false }
    if t.clientSupportsEncoding EncodingType.Tight then
      modifyTunnel fun t =>
        { t with m_supportedEncodingsServer := EncodingType.Tight :: t.m_supportedEncodingsServer }
  match t.m_potentialConnection with
  | none => pure ()
  | some old =>
    modifyTunnel fun t =>
      { t with m_potentialConnection := none, m_xvncManager := t.m_xvncManager.released old.m_xvnc }
  match xvnc with
  | none => raise Err.nullDereference
  | some x =>
    modifyTunnel fun t =>
      { t with
        m_xvncManager := t.m_xvncManager.acquired x.m_id
        m_potentialConnection := some
          { m_xvnc := x
            m_streamFormatter := { input := backendInput, buffer := [] }
            m_framebufferWidth := 0
            m_framebufferHeight := 0
            m_pixelFormat := t.m_pixelFormat
            m_connectionInitializedHandler := false
            m_passwordRequestHandler := false
            m_credentialsRequestHandler := false } }
    if t.m_greeterConnection.isNone then raise Err.assertion
    XvncConnection.initialiseWithHandlers .potential

/-- The member `VncTunnel::openSessionHandler`. -/
def openSessionHandler (id : Int) (backendInput : List Byte) : M Unit := do
  let t ← getTunnel
  switchToConnection (t.m_xvncManager.getSession id) backendInput

/-- One round of the loop of `VncTunnel::start`, in which the selector ran `handlers`: the
greeter is updated, the handlers run, and the two `catch` clauses of the round follow. The
value returned tells whether the loop goes on (`false` after `break`); an exception the round
does not catch ends the tunnel. -/
def loopRound (handlers : M Unit) : M Bool := fun t =>
  let body : M Unit := do
    let t ← getTunnel
    match t.m_greeterConnection with
    | none => pure ()
    | some g =>
      match g.update t.m_xvncManager with
      | .ok g1 => modifyTunnel fun t => { t with m_greeterConnection := some g1 }
      | .error e => raise e
    handlers
  let o := body t
  match o.result with
  | .ok _ => { result := .ok true, state := o.state, trace := o.trace }
  | .error (.connectionException faulty what) =>
    let t1 : VncTunnel :=
      { o.state with m_greeterConnection := o.state.m_greeterConnection.map fun g => g.showError what }
    match faulty with
    | .current =>
      { result := .error (.connectionException faulty what), state := t1, trace := o.trace }
    | .potential =>
      match t1.m_potentialConnection with
      | none => { result := .ok true, state := t1, trace := o.trace }
      | some p =>
        { result := .ok true
          state := { t1 with m_potentialConnection := none
                             m_xvncManager := t1.m_xvncManager.released p.m_xvnc }
          trace := o.trace }
  | .error .eof => { result := .ok false, state := o.state, trace := o.trace }
  | .error e => { result := .error e, state := o.state, trace := o.trace }

/-- A sample tunnel that shows a greeter, which will still write `greeterInput`; the sample
session is visible. -/
def sampleTunnelWithGreeter (greeterInput : List Byte) : VncTunnel :=
  { sampleTunnel [] [] with
    m_greeterConnection := some (sampleGreeter greeterInput)
    m_tightEncodingDisabled := true }

/-- A sample tunnel with a greeter and an initialised potential connection of 1024 by 768
pixels whose pixel format has 16 bits per pixel; the client supports Raw and DesktopName. -/
def sampleTunnelSwitching : VncTunnel :=
  { sampleTunnelWithGreeter [] with
    m_supportedEncodingsClient := [EncodingType.Raw, EncodingType.DesktopName]
    m_supportedEncodingsServer := [EncodingType.Raw, EncodingType.DesktopName]
    m_potentialConnection := some
      { m_xvnc := sampleXvnc
        m_streamFormatter := { input := [], buffer := [] }
        m_framebufferWidth := 1024
        m_framebufferHeight := 768
        m_pixelFormat := { samplePixelFormat with bitsPerPixel := 16, depth := 16 }
        m_connectionInitializedHandler := true
        m_passwordRequestHandler := true
        m_credentialsRequestHandler := true } }

/-- A DesktopSize rectangle announcing 800 by 600 pixels. -/
def sampleDesktopSizeRectangle : FramebufferUpdateRectangle :=
  { xPosition := 0, yPosition := 0, width := 800, height := 600
    encodingType := EncodingType.DesktopSize }

/-- The wire bytes of `n` DesktopSize rectangles in a row. -/
def desktopSizeRectangles (n : Nat) : List Byte :=
  (List.replicate n sampleDesktopSizeRectangle.send).flatten

/-- A DesktopName rectangle header as the back-end sends it. -/
def sampleDesktopNameRectangle : FramebufferUpdateRectangle :=
  { xPosition := 0, yPosition := 0, width := 0, height := 0
    encodingType := EncodingType.DesktopName }

/-- A FramebufferUpdate of one DesktopName rectangle whose name is `CONTROLLER_KEY:abc123`. -/
def sampleControllerKeyUpdate : List Byte :=
  [0, 0, 0, 1] ++ sampleDesktopNameRectangle.send ++ [0, 0, 0, 21]
    ++ ascii "CONTROLLER_KEY:abc123"

/-- The sample tunnel with a client that advertised Raw and DesktopName. -/
def sampleTunnelDesktopName (serverInput : List Byte) : VncTunnel :=
  { sampleTunnel [] serverInput with
    m_supportedEncodingsClient := [EncodingType.Raw, EncodingType.DesktopName]
    m_supportedEncodingsServer := [EncodingType.Raw, EncodingType.DesktopName] }

/-- The wire bytes of `n` entries Raw of an encoding list. -/
def rawEncodings (n : Nat) : List Byte := (List.replicate n [(0 : Byte), 0, 0, 0]).flatten

/-- What the Xvnc of the sample session sends on a new connection: its version string, the
security type None, the security result OK and its ServerInit with the name `xvnc`. -/
def sampleBackendHandshake : List Byte :=
  HighestVersionString ++ [1, 1] ++ [0, 0, 0, 0]
    ++ [3, 32, 2, 88, 32, 24, 0, 1, 255, 0, 255, 0, 255, 0, 16, 8, 0, 0, 0, 0, 0, 0, 0, 4]
    ++ [120, 118, 110, 99]

/-- A call keeps a property of the tunnel: whenever the property holds before the call it
holds in the state the call leaves, whether the call returns or throws. -/
@[irreducible] def Keeps {α : Type} (P : VncTunnel → Prop) (m : M α) : Prop := ∀ t, P t → P (m t).state

/-- If Tight is in the list asked of the back-end, the client advertised Tight. -/
def tightConsistent (t : VncTunnel) : Prop :=
  EncodingType.Tight ∈ t.m_supportedEncodingsServer → EncodingType.Tight ∈ t.m_supportedEncodingsClient

/-- The tunnel states reachable from a fresh tunnel (both encoding collections empty) by
SetEncodings messages of the client, by switch requests (`switchToConnection`, for whatever
session and whatever the new back-end sends), by `connectionSwitched`, and by anything else
that leaves the two encoding collections as they are. -/
inductive EncodingsReachable : VncTunnel → Prop
  | fresh (t : VncTunnel) (hc : t.m_supportedEncodingsClient = [])
      (hs : t.m_supportedEncodingsServer = []) : EncodingsReachable t
  | setEncodings (t : VncTunnel) : EncodingsReachable t →
      EncodingsReachable (processSetEncodings t).state
  | switchTo (t : VncTunnel) (xvnc : Option Xvnc) (backendInput : List Byte) :
      EncodingsReachable t → EncodingsReachable (switchToConnection xvnc backendInput t).state
  | switched (t : VncTunnel) : EncodingsReachable t → EncodingsReachable (connectionSwitched t).state
  | other (t u : VncTunnel) (hc : u.m_supportedEncodingsClient = t.m_supportedEncodingsClient)
      (hs : u.m_supportedEncodingsServer = t.m_supportedEncodingsServer) :
      EncodingsReachable t → EncodingsReachable u

/-- The rectangle count of the first FramebufferUpdate header a trace writes to the client. -/
def headerCount : List Event → Option Nat
  | [] => none
  | .client (.message m) :: _ => some m.numberOfRectangles
  | _ :: es => headerCount es

/-- The last rectangle of a sequence is a LastRect rectangle. -/
def endsWithLastRect (rs : List FramebufferUpdateRectangle) : Prop :=
  ∃ r, rs.getLast? = some r ∧ r.encodingType = EncodingType.LastRect

/-- The rectangles a trace sends to the client agree with the count `k` of its header: they
are exactly `k`, or at most `k` and the last one is a LastRect rectangle. -/
def countRespected (tr : List Event) : Prop :=
  ∃ k, headerCount tr = some k
    ∧ ((clientRectangles tr).length = k
      ∨ ((clientRectangles tr).length ≤ k ∧ endsWithLastRect (clientRectangles tr)))

/-- A call sends no rectangle header to the client, whether it returns or throws. -/
@[irreducible] def NoRect {α : Type} (m : M α) : Prop := ∀ t, clientRectangles (m t).trace = []

/-- Whenever the call returns, the rectangle headers it sent to the client and the value it
returned satisfy `P`. -/
@[irreducible] def Emits {α : Type} (P : List FramebufferUpdateRectangle → α → Prop) (m : M α) : Prop :=
  ∀ t a, (m t).result = .ok a → P (clientRectangles (m t).trace) a

/-- What one round of the rectangle loop sends and returns: the relayed LastRect rectangle, or
one rectangle, or (only if the client advertised LastRect) none and `mustUseLastRect` set. -/
def roundPost (supportsLastRect mustUseLastRect : Bool) (rs : List FramebufferUpdateRectangle)
    (p : Bool × Bool) : Prop :=
  (p.1 = true ∧ p.2 = mustUseLastRect ∧ ∃ r, rs = [r] ∧ r.encodingType = EncodingType.LastRect)
  ∨ (p.1 = false ∧ p.2 = mustUseLastRect ∧ rs.length = 1)
  ∨ (p.1 = false ∧ p.2 = true ∧ supportsLastRect = true ∧ rs = [])

/-- A tunnel whose client advertised LastRect and DesktopName, with a DesktopName rectangle
queued, whose back-end sends a FramebufferUpdate of 65535 DesktopSize rectangles. -/
def sampleTunnelOverflow : VncTunnel :=
  { sampleTunnel [] ([0, 0, 255, 255] ++ desktopSizeRectangles 65535 ++ []) with
    m_supportedEncodingsClient := [EncodingType.LastRect, EncodingType.DesktopName]
    m_desktopNameChangeQueued := true }

/-- The encodings whose rectangles the tunnel relays unchanged. -/
def passThroughEncoding (e : Int) : Prop :=
  e = EncodingType.Raw ∨ e = EncodingType.CopyRect ∨ e = EncodingType.Cursor
    ∨ e = EncodingType.XCursor ∨ e = EncodingType.RRE ∨ e = EncodingType.ExtendedDesktopSize

/-- A call neither consumes bytes of the back-end nor writes to the client. -/
@[irreducible] def Silent {α : Type} (m : M α) : Prop :=
  ∀ t, (m t).state.serverPending = t.serverPending
    ∧ (t.buffersOk → (m t).state.buffersOk)
    ∧ clientBytes (m t).trace = []

/-- Whenever the call returns after receiving only rectangles of pass-through encodings, the
bytes `pre` (consumed before the call, not yet written) followed by the bytes it consumed from
the back-end are exactly the bytes it wrote to the client, and the value returned satisfies
`Q`. -/
@[irreducible] def RelaysIf {α : Type} (pre : List Byte) (Q : α → Prop) (m : M α) : Prop :=
  ∀ t a, t.buffersOk → (m t).result = .ok a →
    (∀ r ∈ receivedRectangles (m t).trace, passThroughEncoding r.encodingType) →
    (m t).state.buffersOk
    ∧ pre ++ t.serverPending = clientBytes (m t).trace ++ (m t).state.serverPending
    ∧ Q a

instance (e : Int) : Decidable (passThroughEncoding e) := by
  unfold passThroughEncoding
  infer_instance

/-- A FramebufferUpdate of the back-end with a 1x1 Raw rectangle (four bytes of pixel data) and a
CopyRect rectangle, followed by one byte of the next message. -/
def samplePassThroughUpdate : List Byte :=
  [0, 0, 0, 2,
   0, 0, 0, 0, 0, 1, 0, 1, 0, 0, 0, 0, 1, 2, 3, 4,
   0, 0, 0, 0, 0, 1, 0, 1, 0, 0, 0, 1, 0, 5, 0, 6,
   9]

/-- The trace entry of bytes written to one of the two back-end connections. -/
def Which.sent : Which → List Byte → Event
  | .current, bs => .server bs
  | .potential, bs => .potential bs

/-- The connection exists and its push-back buffer holds at most `bufferMaxSize` bytes. -/
def VncTunnel.connectionOk (t : VncTunnel) (which : Which) : Prop :=
  ∃ c, t.connection which = some c ∧ c.m_streamFormatter.buffer.length ≤ 1

/-- The bytes the formatter of a connection will still deliver. -/
def VncTunnel.connectionPending (t : VncTunnel) (which : Which) : List Byte :=
  match t.connection which with
  | some c => c.m_streamFormatter.pending
  | none => []

/-- The tunnel after `len` bytes were taken from a connection. -/
def VncTunnel.connectionConsumed (t : VncTunnel) (which : Which) (len : Nat) : VncTunnel :=
  match t.connection which with
  | some c => t.withConnection which { c with m_streamFormatter := c.m_streamFormatter.consume len }
  | none => t

/-- Whenever the call returns, the value returned satisfies `Q`. -/
@[irreducible] def Returns {α : Type} (Q : α → Prop) (m : M α) : Prop :=
  ∀ t a, (m t).result = .ok a → Q a

/-! ## The VncAuth key (`XvncConnection.cpp`) -/

/-- The value of `password[i]`, a `char`, after integral promotion: whether `char` is signed is
a constant of the platform (it is with GCC on x86). -/
def charValue (charIsSigned : Bool) (b : Byte) : Int :=
  if charIsSigned ∧ b.val ≥ 128 then (b.val : Int) - 256 else (b.val : Int)

/-- The expression stored in `key[i]` by `XvncConnection::handleVncAuthSecurityWithPassword`:
the `char` is converted to `unsigned long long`, the product is taken modulo 2^64, and the
result is truncated to an `unsigned char`. -/
def vncAuthKeyByte (charIsSigned : Bool) (b : Byte) : Byte :=
  let u : Nat := (charValue charIsSigned b % 18446744073709551616).toNat
  let product : Nat := u * 0x0202020202 % 18446744073709551616
  Byte.ofNat (((product &&& 0x010884422010) % 1023) &&& 0xfe)

/-- The key loop of `XvncConnection::handleVncAuthSecurityWithPassword`. -/
def vncAuthKey (charIsSigned : Bool) (password : List Byte) : List Byte :=
  (List.range 8).map fun i =>
    if i ≥ password.length then 0 else vncAuthKeyByte charIsSigned (password.getD i 0)

/-- The byte with the bit order reversed: bit `j` of the input is bit `7 - j` of the result. -/
def reverseBits (b : Byte) : Byte :=
  Byte.ofNat (((List.range 8).map fun j => b.val / 2 ^ j % 2 * 2 ^ (7 - j)).sum)

/-- The byte with its lowest bit cleared. -/
def clearLowestBit (b : Byte) : Byte := Byte.ofNat (b.val / 2 * 2)

/-! ## The readiness selector (`ReadSelector.cpp`) -/

/-- What one call of a handler does as far as the selector can tell: whether it called
`cancel()`, and whether it threw instead of returning. Handlers are taken not to call `clear`
or `addFD`, which would change `m_fds` under the running iteration. -/
structure HandlerRun where
  cancelled : Bool
  threw : Bool
deriving DecidableEq, Repr

/-- The exceptions that leave `ReadSelector::select`. -/
inductive SelectError
  | errno
  | handler
deriving DecidableEq, Repr

/-- The class `ReadSelector`: the descriptors that are keys of the map `m_fds`, in ascending
order as the map iterates them (the handler stored with a descriptor is named by the
descriptor), and the flag `m_pendingCancelation`. -/
structure ReadSelector where
  m_fds : List Int
  m_pendingCancelation : Bool
deriving DecidableEq, Repr

/-- What a call of `select` leaves behind: whether it returned, the selector, and the
descriptors whose handlers were called, in the order of the calls. -/
structure SelectOutcome where
  result : Except SelectError Unit
  selector : ReadSelector
  invoked : List Int

namespace ReadSelector

/-- The member `ReadSelector::clear`. -/
def clear (s : ReadSelector) : ReadSelector := { s with m_fds := [] }

/-- Insertion of a key into the ordered keys of a map. -/
def insertKey (fd : Int) : List Int → List Int
  | [] => [fd]
  | x :: xs => if fd < x then fd :: x :: xs else x :: insertKey fd xs

/-- The member `ReadSelector::addFD`: the assertion fails if the descriptor is there already. -/
def addFD (s : ReadSelector) (fd : Int) : Option ReadSelector :=
  if fd ∈ s.m_fds then none else some { s with m_fds := insertKey fd s.m_fds }

/-- The member `ReadSelector::cancel`. -/
def cancel (s : ReadSelector) : ReadSelector := { s with m_pendingCancelation := true }

/-- The second loop of `ReadSelector::select` over the entries not yet visited: `ready` is the
descriptor set as `::select` left it, `run` tells what the handler of a descriptor does when it
is called. -/
def dispatch (ready : Int → Bool) (run : Int → HandlerRun) : List Int → ReadSelector → SelectOutcome
  | [], s => { result := .ok (), selector := s, invoked := [] }
  | fd :: rest, s =>
    if ready fd then
      let s1 := if (run fd).cancelled then s.cancel else s
      if (run fd).threw then { result := .error .handler, selector := s1, invoked := [fd] }
      else if s1.m_pendingCancelation then { result := .ok (), selector := s1, invoked := [fd] }
      else
        let o := dispatch ready run rest s1
        { o with invoked := fd :: o.invoked }
    else dispatch ready run rest s

/-- The member `ReadSelector::select`; `sysSelect` is what the system call gives, nothing if it
fails and otherwise the set of descriptors ready for reading. -/
def select (s : ReadSelector) (sysSelect : Option (Int → Bool)) (run : Int → HandlerRun) :
    SelectOutcome :=
  let s0 : ReadSelector := { s with m_pendingCancelation := false }
  match sysSelect with
  | none => { result := .error .errno, selector := s0, invoked := [] }
  | some ready => dispatch ready run s0.m_fds s0

/-- The keys of the map are in strictly ascending order. -/
def ordered (s : ReadSelector) : Prop := s.m_fds.Pairwise (· < ·)

end ReadSelector

/-! ## Messages of the client: the dispatcher (`VncTunnel.cpp`) -/

/-- The call `cFmt().push_back(messageType)`. -/
def cPushBack (b : Byte) : M Unit := fun t =>
  match t.m_streamFormatter.push_back b with
  | .ok f => { result := .ok (), state := t.withClientFormatter f, trace := [] }
  | .error e => { result := .error e, state := t, trace := [] }

/-- The sizes of the packed structures `FramebufferUpdateRequestMessage`, `KeyEventMessage`,
`PointerEventMessage`, `ClientCutTextMessage` and `SetDesktopSizeMessage`. -/
def sizeofFramebufferUpdateRequestMessage : Nat := 10
def sizeofKeyEventMessage : Nat := 8
def sizeofPointerEventMessage : Nat := 6
def sizeofClientCutTextMessage : Nat := 8
def sizeofSetDesktopSizeMessage : Nat := 8

/-- The member `VncTunnel::processFramebufferUpdateRequest`. -/
def processFramebufferUpdateRequest : M Unit :=
  cForwardDirectly sizeofFramebufferUpdateRequestMessage

/-- The member `VncTunnel::processKeyEvent`. -/
def processKeyEvent : M Unit := cForwardDirectly sizeofKeyEventMessage

/-- The member `VncTunnel::processPointerEvent`. -/
def processPointerEvent : M Unit := cForwardDirectly sizeofPointerEventMessage

/-- The member `VncTunnel::processClientCutText`: the length is the 32-bit field after the
type and three bytes of padding. -/
def processClientCutText : M Unit := do
  let bs ← cForwardRaw sizeofClientCutTextMessage
  let length := be32 (bs.getD 4 0) (bs.getD 5 0) (bs.getD 6 0) (bs.getD 7 0)
  cForwardDirectly length

/-- The member `VncTunnel::processSetDesktopSize`: `numberOfScreens` is the seventh byte. -/
def processSetDesktopSize : M Unit := do
  let bs ← cForwardRaw sizeofSetDesktopSizeMessage
  let numberOfScreens := (bs.getD 6 0).val
  cForwardDirectly (numberOfScreens * sizeofSetDesktopSizeScreen)

/-- The member `VncTunnel::clientReceive`. -/
def clientReceive : M Unit := do
  let mb ← cRecvRaw 1
  let messageType := mb.getD 0 0
  cPushBack messageType
  if messageType.val = 0 then processSetPixelFormat
  else if messageType.val = 2 then processSetEncodings
  else if messageType.val = 3 then processFramebufferUpdateRequest
  else if messageType.val = 4 then processKeyEvent
  else if messageType.val = 5 then processPointerEvent
  else if messageType.val = 6 then processClientCutText
  else if messageType.val = 251 then processSetDesktopSize
  else raise Err.unknownClientMessage

/-- The sample tunnel about to complete a switch (the client advertised Raw and DesktopName),
whose client will then send SetEncodings with the single encoding Raw, and whose new back-end
will then send a FramebufferUpdate without rectangles. -/
def sampleTunnelRenameQueued : VncTunnel :=
  { sampleTunnelSwitching with
    m_streamFormatter := { input := [2, 0, 0, 1, 0, 0, 0, 0], buffer := [] }
    m_potentialConnection := sampleTunnelSwitching.m_potentialConnection.map fun p =>
      { p with m_streamFormatter := { input := [0, 0, 0, 0], buffer := [] } } }

/-- A tunnel that shows a greeter (so `start` has set `m_tightEncodingDisabled`), whose client
will send SetEncodings with the single encoding Tight twice. -/
def sampleTunnelGreeterTight : VncTunnel :=
  { sampleTunnelWithGreeter [] with
    m_streamFormatter :=
      { input := [2, 0, 0, 1, 0, 0, 0, 7, 2, 0, 0, 1, 0, 0, 0, 7], buffer := [] } }

/-- Another session, with id 1 on display 2. -/
def sampleXvncOther : Xvnc := { sampleXvnc with m_id := 1, m_pid := 4243, m_displayNumber := 2 }

/-- What a back-end speaking version 3.3 of the protocol sends first. -/
def sampleOldVersionString : List Byte := [82, 70, 66, 32, 48, 48, 51, 46, 48, 48, 51, 10]

/-! ## Messages of the back-end: the dispatcher (`VncTunnel.cpp`) -/

/-- The call `sFmt().push_back(messageType)`. -/
def sPushBack (b : Byte) : M Unit := fun t =>
  match t.m_currentConnection.m_streamFormatter.push_back b with
  | .ok f => { result := .ok (), state := t.withServerFormatter f, trace := [] }
  | .error e => { result := .error e, state := t, trace := [] }

/-- The sizes of the packed structures `SetColourMapEntriesMessage`, `ColourMapEntry`,
`BellMessage` and `ServerCutTextMessage`. -/
def sizeofSetColourMapEntriesMessage : Nat := 6
def sizeofColourMapEntry : Nat := 6
def sizeofBellMessage : Nat := 1
def sizeofServerCutTextMessage : Nat := 8

/-- The member `VncTunnel::processSetColourMapEntries`: `numberOfColours` is the 16-bit field
at the end of the message. -/
def processSetColourMapEntries : M Unit := do
  let bs ← sForwardRaw sizeofSetColourMapEntriesMessage
  let numberOfColours := be16 (bs.getD 4 0) (bs.getD 5 0)
  sForwardDirectly (sizeofColourMapEntry * numberOfColours)

/-- The member `VncTunnel::processBell`. -/
def processBell : M Unit := sForwardDirectly sizeofBellMessage

/-- The member `VncTunnel::processServerCutText`. -/
def processServerCutText : M Unit := do
  let bs ← sForwardRaw sizeofServerCutTextMessage
  let length := be32 (bs.getD 4 0) (bs.getD 5 0) (bs.getD 6 0) (bs.getD 7 0)
  sForwardDirectly length

/-- The member `VncTunnel::serverReceive`. -/
def serverReceive : M Unit := do
  let mb ← sRecvRaw 1
  let messageType := mb.getD 0 0
  sPushBack messageType
  if messageType.val = 0 then processFramebufferUpdate
  else if messageType.val = 1 then
    processSetColourMapEntries
    raise Err.setColourMapEntriesNotImplemented
  else if messageType.val = 2 then processBell
  else if messageType.val = 3 then processServerCutText
  else raise Err.unknownServerMessage

/-- The statements of `VncTunnel::start` from the initialisation of the first connection to
`clientInitalize`: `m_currentConnection->initialize()`, the assignment
`m_pixelFormat = m_currentConnection->pixelFormat()` and the handshake with the client. -/
def startHandshakes : M Unit := do
  XvncConnection.initialise .current
  modifyTunnel fun t => { t with m_pixelFormat := t.m_currentConnection.m_pixelFormat }
  clientInitalize

/-- The pixel format recorded for the current connection equals, by `operator==` (which
compares the ten fields and not the padding), the one the tunnel computes lengths with. -/
def pixelFormatsAgree (t : VncTunnel) : Prop :=
  t.m_currentConnection.m_pixelFormat.eq t.m_pixelFormat = true

/-- The tunnel states between message handlers: the state `start` reaches when its handshakes
succeed, and the states reached from there by handling a message of the client (among them
SetPixelFormat by `processSetPixelFormat`) or of the current back-end, by a switch request of the greeter (`switchToConnection`, for whatever
session and whatever the new back-end sends), by `connectionSwitched`, and by anything else
that leaves the two pixel formats as they are. -/
inductive PixelFormatReachable : VncTunnel → Prop
  | started (t : VncTunnel) (h : (startHandshakes t).result = .ok ()) :
      PixelFormatReachable (startHandshakes t).state
  | clientMessage (t : VncTunnel) : PixelFormatReachable t →
      PixelFormatReachable (clientReceive t).state
  | setPixelFormat (t : VncTunnel) : PixelFormatReachable t →
      PixelFormatReachable (processSetPixelFormat t).state
  | serverMessage (t : VncTunnel) : PixelFormatReachable t →
      PixelFormatReachable (serverReceive t).state
  | switchTo (t : VncTunnel) (xvnc : Option Xvnc) (backendInput : List Byte) :
      PixelFormatReachable t → PixelFormatReachable (switchToConnection xvnc backendInput t).state
  | switched (t : VncTunnel) : PixelFormatReachable t →
      PixelFormatReachable (connectionSwitched t).state
  | other (t u : VncTunnel) (h1 : u.m_pixelFormat = t.m_pixelFormat)
      (h2 : u.m_currentConnection.m_pixelFormat = t.m_currentConnection.m_pixelFormat) :
      PixelFormatReachable t → PixelFormatReachable u

/-- A tunnel about to run its handshakes: the back-end will send the sample handshake, the
client its version string, the security type None, its ClientInit and then the sample
SetPixelFormat message. -/
def sampleTunnelStarting : VncTunnel :=
  sampleTunnel (HighestVersionString ++ [1, 1] ++ sampleSetPixelFormat) sampleBackendHandshake

/-! # Theorems -/

/-! ## Lemmas: the monad -/

section MonadLemmas

variable {α β : Type}

theorem pure_run (a : α) (t : VncTunnel) :
    (pure a : M α) t = { result := .ok a, state := t, trace := [] } := rfl

theorem bind_run (m : M α) (f : α → M β) (t : VncTunnel) :
    (m >>= f) t = match (m t).result with
      | .ok a => (f a (m t).state).after (m t).trace
      | .error e => { result := .error e, state := (m t).state, trace := (m t).trace } := rfl

theorem bind_run_ok (m : M α) (f : α → M β) (t : VncTunnel) (a : α) (h : (m t).result = .ok a) :
    (m >>= f) t = (f a (m t).state).after (m t).trace := by
  rw [bind_run, h]

theorem bind_run_error (m : M α) (f : α → M β) (t : VncTunnel) (e : Err)
    (h : (m t).result = .error e) :
    (m >>= f) t = { result := .error e, state := (m t).state, trace := (m t).trace } := by
  rw [bind_run, h]

theorem bind_result_ok (m : M α) (f : α → M β) (t : VncTunnel) (b : β)
    (h : ((m >>= f) t).result = .ok b) :
    ∃ a, (m t).result = .ok a ∧ (f a (m t).state).result = .ok b := by
  rw [bind_run] at h
  cases hm : (m t).result with
  | error e => rw [hm] at h; cases h
  | ok a => rw [hm] at h; exact ⟨a, rfl, h⟩

@[simp] theorem after_result (tr : List Event) (o : Outcome α) : (o.after tr).result = o.result := rfl

@[simp] theorem after_state (tr : List Event) (o : Outcome α) : (o.after tr).state = o.state := rfl

@[simp] theorem after_trace (tr : List Event) (o : Outcome α) :
    (o.after tr).trace = tr ++ o.trace := rfl

@[simp] theorem after_nil (o : Outcome α) : o.after [] = o := rfl

@[simp] theorem raise_run (e : Err) (t : VncTunnel) :
    (raise e : M α) t = { result := .error e, state := t, trace := [] } := rfl

@[simp] theorem getTunnel_run (t : VncTunnel) :
    getTunnel t = { result := .ok t, state := t, trace := [] } := rfl

@[simp] theorem modifyTunnel_run (f : VncTunnel → VncTunnel) (t : VncTunnel) :
    modifyTunnel f t = { result := .ok (), state := f t, trace := [] } := rfl

@[simp] theorem emit_run (e : Event) (t : VncTunnel) :
    emit e t = { result := .ok (), state := t, trace := [e] } := rfl

end MonadLemmas

/-! ## Lemmas: traces -/

@[simp] theorem clientBytes_append (xs ys : List Event) :
    clientBytes (xs ++ ys) = clientBytes xs ++ clientBytes ys := by
  induction xs with
  | nil => rfl
  | cons e es ih => cases e <;> simp [clientBytes, ih]

@[simp] theorem clientWrites_append (xs ys : List Event) :
    clientWrites (xs ++ ys) = clientWrites xs ++ clientWrites ys := by
  induction xs with
  | nil => rfl
  | cons e es ih => cases e <;> simp [clientWrites, ih]

@[simp] theorem clientRectangles_append (xs ys : List Event) :
    clientRectangles (xs ++ ys) = clientRectangles xs ++ clientRectangles ys := by
  induction xs with
  | nil => rfl
  | cons e es ih =>
    cases e with
    | client w => cases w <;> simp [clientRectangles, ih]
    | server bs => simp [clientRectangles, ih]
    | received r => simp [clientRectangles, ih]
    | tls a => simp [clientRectangles, ih]
    | potential bs => simp [clientRectangles, ih]

@[simp] theorem serverBytes_append (xs ys : List Event) :
    serverBytes (xs ++ ys) = serverBytes xs ++ serverBytes ys := by
  induction xs with
  | nil => rfl
  | cons e es ih => cases e <;> simp [serverBytes, ih]

@[simp] theorem receivedRectangles_append (xs ys : List Event) :
    receivedRectangles (xs ++ ys) = receivedRectangles xs ++ receivedRectangles ys := by
  induction xs with
  | nil => rfl
  | cons e es ih => cases e <;> simp [receivedRectangles, ih]

/-! ## Lemmas: the stream formatter -/

namespace StreamFormatter

theorem consume_pending (f : StreamFormatter) (len : Nat) :
    (f.consume len).pending = f.pending.drop len := by
  unfold consume
  split
  · next h => subst h; simp
  · simp [pending]

theorem consume_buffer (f : StreamFormatter) (len : Nat) (hwf : f.buffer.length ≤ 1) :
    (f.consume len).buffer.length ≤ 1 := by
  unfold consume
  split <;> simp [hwf]

theorem recv_raw_ok (f : StreamFormatter) (len : Nat) (hwf : f.buffer.length ≤ 1)
    (hlen : len ≤ f.pending.length) :
    f.recv_raw len = { error := none, bytes := f.pending.take len, fmt := f.consume len } := by
  obtain ⟨input, buffer⟩ := f
  unfold consume
  match buffer, hwf with
  | [], _ =>
    simp only [pending, List.nil_append, List.length_nil] at hlen ⊢
    by_cases h0 : len = 0
    · subst h0; simp [recv_raw]
    · have : ¬ input.length < len := by omega
      simp [recv_raw, streamRecv, h0, this]
  | [b], _ =>
    simp only [pending, List.length_cons, List.length_nil, List.singleton_append] at hlen ⊢
    by_cases h0 : len = 0
    · subst h0; simp [recv_raw]
    · obtain ⟨k, rfl⟩ : ∃ k, len = k + 1 := ⟨len - 1, by omega⟩
      have hk : ¬ input.length < k := by omega
      by_cases hk0 : k = 0
      · subst hk0; simp [recv_raw]
      · simp [recv_raw, streamRecv, hk, hk0]

theorem recv_raw_short (f : StreamFormatter) (len : Nat) (hwf : f.buffer.length ≤ 1)
    (hlen : f.pending.length < len) :
    (f.recv_raw len).error = some Err.eof ∧ (f.recv_raw len).bytes = [] := by
  obtain ⟨input, buffer⟩ := f
  match buffer, hwf with
  | [], _ =>
    simp only [pending, List.nil_append, List.length_nil] at hlen ⊢
    have h0 : 0 < len := by omega
    simp [recv_raw, streamRecv, h0, hlen]
  | [b], _ =>
    simp only [pending, List.length_cons, List.length_nil, List.singleton_append] at hlen ⊢
    obtain ⟨k, rfl⟩ : ∃ k, len = k + 1 := ⟨len - 1, by omega⟩
    have hk : input.length < k := by omega
    have hk0 : 0 < k := by omega
    simp [recv_raw, streamRecv, hk, hk0]

theorem forward_raw_ok (f : StreamFormatter) (len : Nat) (hwf : f.buffer.length ≤ 1)
    (hlen : len ≤ f.pending.length) :
    f.forward_raw len = { error := none, bytes := f.pending.take len, fmt := f.consume len } := by
  unfold forward_raw
  split
  · exact recv_raw_ok f len hwf hlen
  · next h =>
    have hb : f.buffer = [] := by
      cases hbuf : f.buffer with
      | nil => rfl
      | cons x xs => rw [hbuf] at h; simp at h
    obtain ⟨input, buffer⟩ := f
    simp only at hb
    subst hb
    simp only [pending, List.nil_append] at hlen ⊢
    have : ¬ input.length < len := by omega
    unfold consume
    by_cases h0 : len = 0
    · subst h0; simp [streamRecv]
    · simp [streamRecv, this, h0, pending]

theorem forward_directly_ok (f : StreamFormatter) (len : Nat) (hwf : f.buffer.length ≤ 1)
    (hlen : len ≤ f.pending.length) :
    f.forward_directly len = { error := none, bytes := f.pending.take len, fmt := f.consume len } := by
  obtain ⟨input, buffer⟩ := f
  unfold consume
  match buffer, hwf with
  | [], _ =>
    simp only [pending, List.nil_append, List.length_nil] at hlen ⊢
    by_cases h0 : len = 0
    · subst h0; simp [forward_directly]
    · have : ¬ input.length < len := by omega
      simp [forward_directly, streamForwardDirectly, streamRecv, h0, this]
  | [b], _ =>
    simp only [pending, List.length_cons, List.length_nil, List.singleton_append] at hlen ⊢
    by_cases h0 : len = 0
    · subst h0; simp [forward_directly]
    · obtain ⟨k, rfl⟩ : ∃ k, len = k + 1 := ⟨len - 1, by omega⟩
      have hk : ¬ input.length < k := by omega
      by_cases hk0 : k = 0
      · subst hk0; simp [forward_directly]
      · simp [forward_directly, streamForwardDirectly, streamRecv, hk, hk0]

end StreamFormatter

/-! ## Lemmas: the formatters of the tunnel -/

theorem cRecvRaw_ok (t : VncTunnel) (len : Nat) (hwf : t.buffersOk)
    (hlen : len ≤ t.clientPending.length) :
    cRecvRaw len t = { result := .ok (t.clientPending.take len)
                       state := t.withClientFormatter (t.m_streamFormatter.consume len)
                       trace := [] } := by
  simp only [cRecvRaw, onClient, StreamFormatter.recv_raw_ok _ _ hwf.1 hlen]
  rfl

theorem sRecvRaw_ok (t : VncTunnel) (len : Nat) (hwf : t.buffersOk)
    (hlen : len ≤ t.serverPending.length) :
    sRecvRaw len t = { result := .ok (t.serverPending.take len)
                       state := t.withServerFormatter (t.m_currentConnection.m_streamFormatter.consume len)
                       trace := [] } := by
  simp only [sRecvRaw, onServer, StreamFormatter.recv_raw_ok _ _ hwf.2 hlen]
  rfl

theorem cRecvRaw_short (t : VncTunnel) (len : Nat) (hwf : t.buffersOk)
    (hlen : t.clientPending.length < len) :
    (cRecvRaw len t).result = .error Err.eof ∧ (cRecvRaw len t).trace = [] := by
  have h := StreamFormatter.recv_raw_short _ _ hwf.1 hlen
  simp [cRecvRaw, onClient, h.1]

theorem sRecvRaw_short (t : VncTunnel) (len : Nat) (hwf : t.buffersOk)
    (hlen : t.serverPending.length < len) :
    (sRecvRaw len t).result = .error Err.eof ∧ (sRecvRaw len t).trace = [] := by
  have h := StreamFormatter.recv_raw_short _ _ hwf.2 hlen
  simp [sRecvRaw, onServer, h.1]

theorem buffersOk_withClientFormatter (t : VncTunnel) (len : Nat) (hwf : t.buffersOk) :
    (t.withClientFormatter (t.m_streamFormatter.consume len)).buffersOk :=
  ⟨StreamFormatter.consume_buffer _ _ hwf.1, hwf.2⟩

theorem buffersOk_withServerFormatter (t : VncTunnel) (len : Nat) (hwf : t.buffersOk) :
    (t.withServerFormatter (t.m_currentConnection.m_streamFormatter.consume len)).buffersOk :=
  ⟨hwf.1, StreamFormatter.consume_buffer _ _ hwf.2⟩

/-! ## SetPixelFormat -/

theorem processSetPixelFormat_run (t : VncTunnel) (hwf : t.buffersOk)
    (hlen : 20 ≤ t.clientPending.length) :
    processSetPixelFormat t =
      if (SetPixelFormatMessage.recv t.hostBigEndian (t.clientPending.take 20)).pixelFormat.valid then
        { result := .ok ()
          state :=
            let p := (SetPixelFormatMessage.recv t.hostBigEndian (t.clientPending.take 20)).pixelFormat
            let t1 := t.withClientFormatter (t.m_streamFormatter.consume 20)
            { t1 with
              m_pixelFormat := p
              m_currentConnection := { t1.m_currentConnection with m_pixelFormat := p } }
          trace := [Event.server (SetPixelFormatMessage.send t.hostBigEndian
            { type := 0, padding := [0, 0, 0]
              pixelFormat := (SetPixelFormatMessage.recv t.hostBigEndian (t.clientPending.take 20)).pixelFormat })] }
      else
        { result := .error Err.invalidPixelFormat
          state := t.withClientFormatter (t.m_streamFormatter.consume 20)
          trace := [] } := by
  unfold processSetPixelFormat
  rw [bind_run, cRecvRaw_ok t 20 hwf hlen]
  by_cases hv : (SetPixelFormatMessage.recv t.hostBigEndian (t.clientPending.take 20)).pixelFormat.valid = true
  · simp [hv, VncTunnel.withClientFormatter, pure_run, bind_run, sendSetPixelFormat, sSendRaw,
      Outcome.after]
  · simp [hv, VncTunnel.withClientFormatter, pure_run, bind_run, Outcome.after]

theorem SetPixelFormatMessage.recv_bitsPerPixel (be : Bool) (l : List Byte) :
    (SetPixelFormatMessage.recv be (l.take 20)).pixelFormat.bitsPerPixel = (l.getD 4 0).val := by
  have h : ((l.take 20).drop 4).getD 0 0 = l.getD 4 0 := by
    simp only [List.getD_eq_getElem?_getD, List.getElem?_drop, List.getElem?_take]
    simp
  unfold SetPixelFormatMessage.recv PixelFormat.ntoh PixelFormat.load
  split <;> simp [h]

theorem PixelFormat.valid_iff (p : PixelFormat) :
    p.valid = true ↔ (p.bitsPerPixel = 8 ∨ p.bitsPerPixel = 16 ∨ p.bitsPerPixel = 24 ∨ p.bitsPerPixel = 32) := by
  simp [PixelFormat.valid, or_assoc]

/-- C7: a SetPixelFormat message (20 bytes pending on the client stream, the fifth being
`bitsPerPixel`) is accepted iff `bitsPerPixel` is 8, 16, 24 or 32; the accepted format is
remembered and a SetPixelFormat message is written to the back-end; any other value raises
an error, leaves the remembered pixel formats unchanged and writes nothing. -/
theorem processSetPixelFormat_accepts_iff (t : VncTunnel) (hwf : t.buffersOk)
    (hlen : 20 ≤ t.clientPending.length) :
    ((processSetPixelFormat t).result = .ok () ↔
      ((t.clientPending.getD 4 0).val = 8 ∨ (t.clientPending.getD 4 0).val = 16
        ∨ (t.clientPending.getD 4 0).val = 24 ∨ (t.clientPending.getD 4 0).val = 32))
    ∧ ((processSetPixelFormat t).result = .ok () →
        (processSetPixelFormat t).state.m_pixelFormat
            = (SetPixelFormatMessage.recv t.hostBigEndian (t.clientPending.take 20)).pixelFormat
        ∧ (serverBytes (processSetPixelFormat t).trace).length = 20)
    ∧ ((processSetPixelFormat t).result ≠ .ok () →
        (processSetPixelFormat t).result = .error Err.invalidPixelFormat
        ∧ (processSetPixelFormat t).state.m_pixelFormat = t.m_pixelFormat
        ∧ (processSetPixelFormat t).state.m_currentConnection.m_pixelFormat
            = t.m_currentConnection.m_pixelFormat
        ∧ (processSetPixelFormat t).trace = []) := by
  rw [processSetPixelFormat_run t hwf hlen]
  rw [← SetPixelFormatMessage.recv_bitsPerPixel t.hostBigEndian, ← PixelFormat.valid_iff]
  by_cases hv : (SetPixelFormatMessage.recv t.hostBigEndian (t.clientPending.take 20)).pixelFormat.valid = true
  · simp only [hv, if_true, true_iff, ne_eq, not_true_eq_false, false_implies, and_true, true_and,
      implies_true]
    intro _
    simp only [serverBytes, SetPixelFormatMessage.send, PixelFormat.store, PixelFormat.hton,
      storeU16, List.append_nil]
    have hp : ∀ be : Bool,
        (SetPixelFormatMessage.recv be (t.clientPending.take 20)).pixelFormat.padding.length = 3 := by
      intro be
      unfold SetPixelFormatMessage.recv PixelFormat.ntoh PixelFormat.load
      split <;> rfl
    cases t.hostBigEndian <;> simp [hp]
  · simp [hv, VncTunnel.withClientFormatter]

/-- Witness for C7: a valid message on the sample tunnel. -/
theorem processSetPixelFormat_accepts_iff_witness :
    (sampleTunnel sampleSetPixelFormat []).buffersOk
    ∧ 20 ≤ (sampleTunnel sampleSetPixelFormat []).clientPending.length
    ∧ (processSetPixelFormat (sampleTunnel sampleSetPixelFormat [])).result = .ok () :=
  ⟨by decide, by decide,
   (processSetPixelFormat_accepts_iff (sampleTunnel sampleSetPixelFormat []) (by decide) (by decide)).1.2
     (by decide)⟩

/-- The pixel-format fields of a SetPixelFormat message reach the back-end unchanged when the
big-endian flag of the message is the byte order of the host (0 on a little-endian host, 1 on
a big-endian one). -/
theorem SetPixelFormatMessage.send_recv_hostOrder (be : Bool) (ty p1 p2 p3 : Byte)
    (b0 b1 b3 b4 b5 b6 b7 b8 b9 b10 b11 b12 b13 b14 b15 : Byte) :
    SetPixelFormatMessage.send be
      { type := 0, padding := [0, 0, 0]
        pixelFormat := (SetPixelFormatMessage.recv be
          [ty, p1, p2, p3, b0, b1, if be then 1 else 0, b3, b4, b5, b6, b7, b8, b9, b10, b11, b12,
            b13, b14, b15]).pixelFormat }
      = [0, 0, 0, 0, b0, b1, if be then 1 else 0, b3, b4, b5, b6, b7, b8, b9, b10, b11, b12,
          b13, b14, b15] := by
  have hb : ∀ b : Byte, Byte.ofNat b.val = b := by
    intro b; apply Fin.ext; simp [Byte.ofNat, Nat.mod_eq_of_lt b.isLt]
  have h1 : ∀ a b : Byte, Byte.ofNat ((a.val * 256 + b.val) / 256) = a := by
    intro a b; apply Fin.ext
    have := a.isLt; have := b.isLt
    simp only [Byte.ofNat]; omega
  have h2 : ∀ a b : Byte, Byte.ofNat (a.val * 256 + b.val) = b := by
    intro a b; apply Fin.ext
    have := a.isLt; have := b.isLt
    simp only [Byte.ofNat]; omega
  have h0 : Byte.ofNat 0 = 0 := rfl
  have h01 : Byte.ofNat 1 = 1 := rfl
  cases be <;>
    simp [SetPixelFormatMessage.send, SetPixelFormatMessage.recv, PixelFormat.store,
      PixelFormat.hton, PixelFormat.ntoh, PixelFormat.load, storeU16, loadU16, ntohs, hb, h1, h2,
      h0, h01]

/-- C8, the code at the failing inputs. On a little-endian host a client format with
`bigEndianFlag = 1` and the maxima 255 (wire bytes `00 ff`) reaches the back-end with
`bigEndianFlag = 0` and the maxima as `ff 00`; on a big-endian host a client format with
`bigEndianFlag = 0` reaches the back-end with `bigEndianFlag = 1`. -/
theorem processSetPixelFormat_rewrites_bigEndianFlag :
    serverBytes (processSetPixelFormat (sampleTunnel sampleSetPixelFormatBigEndian [])).trace
      = [0, 0, 0, 0, 32, 24, 0, 1, 255, 0, 255, 0, 255, 0, 16, 8, 0, 0, 0, 0]
    ∧ serverBytes (processSetPixelFormat (sampleTunnelBigEndianHost sampleSetPixelFormat [])).trace
      = [0, 0, 0, 0, 32, 24, 1, 1, 0, 255, 0, 255, 0, 255, 16, 8, 0, 0, 0, 0] := by
  constructor <;> decide

/-! ## Payload lengths -/

theorem wrapInt32_of_lt (n : Nat) (h : n < 2147483648) : wrapInt32 (n : Int) = (n : Int) := by
  unfold wrapInt32; omega

/-- An `int` below `INT_MAX` is incremented without wrap-around. -/
theorem wrapInt32_succ (v : Int) (hlo : -2147483648 ≤ v) (hhi : v < 2147483647) :
    wrapInt32 (v + 1) = v + 1 := by
  unfold wrapInt32; omega

/-- At `INT_MAX` the increment wraps around to `INT_MIN`. -/
theorem wrapInt32_succ_max : wrapInt32 (2147483647 + 1) = -2147483648 := by decide

theorem toSizeT_of_lt (n : Nat) (h : n < 18446744073709551616) : toSizeT (n : Int) = n := by
  unfold toSizeT; omega

theorem wrapUInt32_of_lt (n : Nat) (h : n < 4294967296) : wrapUInt32 (n : Int) = n := by
  unfold wrapUInt32; omega

theorem tdiv8_natCast (a : Nat) : Int.tdiv (a : Int) 8 = ((a / 8 : Nat) : Int) :=
  (Int.ofNat_tdiv a 8).symm

theorem bufferSize_raw_exact (r : FramebufferUpdateRectangle) (bpp : Nat)
    (hb : 0 < bpp) (hq : r.width * r.height * bpp < 2147483648)
    (he : r.encodingType = EncodingType.Raw) :
    bufferSize r bpp = r.width * r.height * bpp / 8 := by
  have hp : r.width * r.height < 2147483648 :=
    lt_of_le_of_lt (Nat.le_mul_of_pos_right _ hb) hq
  have e1 : wrapInt32 ((r.width : Int) * (r.height : Int)) = ((r.width * r.height : Nat) : Int) := by
    rw [← Nat.cast_mul]; exact wrapInt32_of_lt _ hp
  have e2 : wrapInt32 (((r.width * r.height : Nat) : Int) * (bpp : Int))
      = ((r.width * r.height * bpp : Nat) : Int) := by
    rw [← Nat.cast_mul]; exact wrapInt32_of_lt _ hq
  unfold bufferSize
  rw [if_pos he]
  show toSizeT (Int.tdiv (wrapInt32 (wrapInt32 ((r.width : Int) * (r.height : Int)) * (bpp : Int))) 8) = _
  rw [e1, e2, tdiv8_natCast]
  exact toSizeT_of_lt _ (by omega)

theorem bufferSize_copyRect_exact (r : FramebufferUpdateRectangle) (bpp : Nat)
    (he : r.encodingType = EncodingType.CopyRect) : bufferSize r bpp = 4 := by
  unfold bufferSize
  rw [if_neg (by rw [he]; decide), if_pos he]

theorem ceilDiv8_mul_lt (w h : Nat) (hw : w < 65536) (hh : h < 65536) :
    (w + 7) / 8 * h ≤ 536862720 := by
  have h1 : (w + 7) / 8 ≤ 8192 := by omega
  have h2 : h ≤ 65535 := by omega
  calc (w + 7) / 8 * h ≤ 8192 * 65535 := Nat.mul_le_mul h1 h2
    _ = 536862720 := by norm_num

theorem cursor_sum_lt (q m : Nat) (hq : q < 2147483648) (hm : m ≤ 536862720) :
    q / 8 + m < 2147483648 := by
  omega

theorem bufferSize_cursor_exact (r : FramebufferUpdateRectangle) (bpp : Nat)
    (hw : r.width < 65536) (hh : r.height < 65536) (hb : 0 < bpp)
    (hq : r.width * r.height * bpp < 2147483648)
    (he : r.encodingType = EncodingType.Cursor) :
    bufferSize r bpp = r.width * r.height * bpp / 8 + (r.width + 7) / 8 * r.height := by
  have hp : r.width * r.height < 2147483648 :=
    lt_of_le_of_lt (Nat.le_mul_of_pos_right _ hb) hq
  have hm := ceilDiv8_mul_lt r.width r.height hw hh
  have hm2 : (r.width + 7) / 8 * r.height < 2147483648 := lt_of_le_of_lt hm (by norm_num)
  have hs := cursor_sum_lt _ _ hq hm
  have hs2 : r.width * r.height * bpp / 8 + (r.width + 7) / 8 * r.height < 18446744073709551616 :=
    lt_trans hs (by norm_num)
  have e1 : wrapInt32 ((r.width : Int) * (r.height : Int)) = ((r.width * r.height : Nat) : Int) := by
    rw [← Nat.cast_mul]; exact wrapInt32_of_lt _ hp
  have e2 : wrapInt32 (((r.width * r.height : Nat) : Int) * (bpp : Int))
      = ((r.width * r.height * bpp : Nat) : Int) := by
    rw [← Nat.cast_mul]; exact wrapInt32_of_lt _ hq
  have e4 : Int.tdiv ((r.width : Int) + 7) 8 = (((r.width + 7) / 8 : Nat) : Int) :=
    tdiv8_natCast (r.width + 7)
  have e5 : wrapInt32 ((((r.width + 7) / 8 : Nat) : Int) * (r.height : Int))
      = (((r.width + 7) / 8 * r.height : Nat) : Int) := by
    rw [← Nat.cast_mul]; exact wrapInt32_of_lt _ hm2
  have e6 : wrapInt32 (((r.width * r.height * bpp / 8 : Nat) : Int)
      + (((r.width + 7) / 8 * r.height : Nat) : Int))
      = ((r.width * r.height * bpp / 8 + (r.width + 7) / 8 * r.height : Nat) : Int) := by
    rw [← Nat.cast_add]; exact wrapInt32_of_lt _ hs
  unfold bufferSize
  rw [if_neg (by rw [he]; decide), if_neg (by rw [he]; decide), if_pos he]
  show toSizeT (wrapInt32 (Int.tdiv (wrapInt32 (wrapInt32 ((r.width : Int) * (r.height : Int))
    * (bpp : Int))) 8 + wrapInt32 (Int.tdiv ((r.width : Int) + 7) 8 * (r.height : Int)))) = _
  rw [e1, e2, tdiv8_natCast, e4, e5, e6]
  exact toSizeT_of_lt _ hs2

theorem bufferSize_xcursor_exact (r : FramebufferUpdateRectangle) (bpp : Nat)
    (hw : r.width < 65536) (hh : r.height < 65536)
    (he : r.encodingType = EncodingType.XCursor) :
    bufferSize r bpp = 6 + (r.width + 7) / 8 * r.height * 2 := by
  have hm := ceilDiv8_mul_lt r.width r.height hw hh
  have e4 : Int.tdiv ((r.width : Int) + 7) 8 = (((r.width + 7) / 8 : Nat) : Int) :=
    tdiv8_natCast (r.width + 7)
  have e5 : wrapInt32 ((((r.width + 7) / 8 : Nat) : Int) * (r.height : Int))
      = (((r.width + 7) / 8 * r.height : Nat) : Int) := by
    rw [← Nat.cast_mul]; exact wrapInt32_of_lt _ (by omega)
  have e6 : wrapInt32 ((((r.width + 7) / 8 * r.height : Nat) : Int) * 2)
      = (((r.width + 7) / 8 * r.height * 2 : Nat) : Int) := by
    have h2 : ((2 : Nat) : Int) = 2 := rfl
    rw [← h2, ← Nat.cast_mul]; exact wrapInt32_of_lt _ (by omega)
  have e7 : wrapInt32 (6 + (((r.width + 7) / 8 * r.height * 2 : Nat) : Int))
      = ((6 + (r.width + 7) / 8 * r.height * 2 : Nat) : Int) := by
    have h6 : ((6 : Nat) : Int) = 6 := rfl
    rw [← h6, ← Nat.cast_add]; exact wrapInt32_of_lt _ (by omega)
  unfold bufferSize
  rw [if_neg (by rw [he]; decide), if_neg (by rw [he]; decide), if_neg (by rw [he]; decide)]
  show toSizeT (wrapInt32 (6 + wrapInt32 (wrapInt32 (Int.tdiv ((r.width : Int) + 7) 8
    * (r.height : Int)) * 2))) = _
  rw [e4, e5, e6, e7]
  exact toSizeT_of_lt _ (by omega)

/-- Where no intermediate product reaches `2^31` the pass-through lengths are the exact ones:
`w * h * bpp / 8` for Raw, 4 for CopyRect, `w * h * bpp / 8 + ceil(w / 8) * h` for Cursor and
`6 + ceil(w / 8) * h * 2` for XCursor. -/
theorem bufferSize_exact (r : FramebufferUpdateRectangle) (bpp : Nat)
    (hw : r.width < 65536) (hh : r.height < 65536) (hb : 0 < bpp)
    (hq : r.width * r.height * bpp < 2147483648) :
    (r.encodingType = EncodingType.Raw → bufferSize r bpp = r.width * r.height * bpp / 8)
    ∧ (r.encodingType = EncodingType.CopyRect → bufferSize r bpp = 4)
    ∧ (r.encodingType = EncodingType.Cursor →
        bufferSize r bpp = r.width * r.height * bpp / 8 + (r.width + 7) / 8 * r.height)
    ∧ (r.encodingType = EncodingType.XCursor →
        bufferSize r bpp = 6 + (r.width + 7) / 8 * r.height * 2) :=
  ⟨bufferSize_raw_exact r bpp hb hq, bufferSize_copyRect_exact r bpp,
   bufferSize_cursor_exact r bpp hw hh hb hq, bufferSize_xcursor_exact r bpp hw hh⟩

/-- C9, the code at failing inputs: for a Raw rectangle of 65535 x 65535 pixels at 32 bits per
pixel the tunnel forwards 18446744073709027332 bytes, not the 17179344900 of the exact
formula; likewise for 8192 x 8192 pixels, and for the Cursor encoding. -/
theorem bufferSize_overflows :
    bufferSize { xPosition := 0, yPosition := 0, width := 65535, height := 65535,
                 encodingType := EncodingType.Raw } 32 = 18446744073709027332
    ∧ 65535 * 65535 * 32 / 8 = 17179344900
    ∧ bufferSize { xPosition := 0, yPosition := 0, width := 8192, height := 8192,
                   encodingType := EncodingType.Raw } 32 = 18446744073441116160
    ∧ 8192 * 8192 * 32 / 8 = 268435456
    ∧ bufferSize { xPosition := 0, yPosition := 0, width := 65535, height := 65535,
                   encodingType := EncodingType.Cursor } 32
        ≠ 65535 * 65535 * 32 / 8 + (65535 + 7) / 8 * 65535 := by
  refine ⟨by decide, by decide, by decide, by decide, by decide⟩

/-- Where nothing reaches `2^32` the length forwarded after the subrectangle count of an RRE
rectangle is the exact `bpp / 8 + n * (bpp / 8 + 8)`. -/
theorem rreSize_exact (n bpp : Nat)
    (h : bpp / 8 + n * (bpp / 8 + 8) < 4294967296) (hk : bpp / 8 + 8 < 4294967296) :
    rreSize n bpp = bpp / 8 + n * (bpp / 8 + 8) := by
  have hm : n * (bpp / 8 + 8) < 4294967296 := lt_of_le_of_lt (Nat.le_add_left _ _) h
  have e1 : wrapUInt32 (Int.tdiv (bpp : Int) 8 + 8) = bpp / 8 + 8 := by
    have h8 : ((8 : Nat) : Int) = 8 := rfl
    rw [tdiv8_natCast, ← h8, ← Nat.cast_add]; exact wrapUInt32_of_lt _ hk
  have e2 : wrapUInt32 ((n : Int) * ((bpp / 8 + 8 : Nat) : Int)) = n * (bpp / 8 + 8) := by
    rw [← Nat.cast_mul]; exact wrapUInt32_of_lt _ hm
  have e3 : wrapUInt32 (((bpp / 8 : Nat) : Int) + ((n * (bpp / 8 + 8) : Nat) : Int))
      = bpp / 8 + n * (bpp / 8 + 8) := by
    rw [← Nat.cast_add]; exact wrapUInt32_of_lt _ h
  unfold rreSize
  show wrapUInt32 (Int.tdiv (bpp : Int) 8
    + ((wrapUInt32 ((n : Int) * ((wrapUInt32 (Int.tdiv (bpp : Int) 8 + 8) : Nat) : Int)) : Nat) : Int)) = _
  rw [e1, e2, tdiv8_natCast, e3]

/-- C10, the code at a failing input: for an RRE rectangle with 357913942 subrectangles at 32
bits per pixel the tunnel forwards 12 further bytes, not the 4294967308 of the exact formula. -/
theorem rreSize_wraps :
    rreSize 357913942 32 = 12 ∧ 32 / 8 + 357913942 * (32 / 8 + 8) = 4294967308 := by
  refine ⟨by decide, by decide⟩

/-! ## SetEncodings -/

theorem filterEncoding_server (t : VncTunnel) (e : Int) :
    (filterEncoding t e).m_supportedEncodingsServer
      = t.m_supportedEncodingsServer
        ++ (if knownEncoding e && !(t.m_tightEncodingDisabled && decide (e = EncodingType.Tight))
            then [e] else []) := by
  unfold filterEncoding knownEncoding plainEncodings
  simp only [EncodingType.Raw, EncodingType.CopyRect, EncodingType.RRE, EncodingType.DesktopSize,
    EncodingType.LastRect, EncodingType.Cursor, EncodingType.XCursor, EncodingType.DesktopName,
    EncodingType.ExtendedDesktopSize, EncodingType.Tight, EncodingType.JpegQualityLowest,
    EncodingType.JpegQualityHighest, List.mem_cons, List.mem_singleton, List.mem_nil_iff, or_false]
  cases hd : t.m_tightEncodingDisabled <;>
    by_cases h1 : (e = 0 ∨ e = 1 ∨ e = 2 ∨ e = -223 ∨ e = -224 ∨ e = -239 ∨ e = -240 ∨ e = -307 ∨ e = -308) <;>
    by_cases h2 : e = 7 <;>
    by_cases h3 : (e ≥ -32 ∧ e ≤ -23) <;>
    simp [h1, h2, h3, hd] <;> omega

/-! ## Sessions and the registry -/

theorem controllerKey_isPrefixOf (s : List Byte) :
    controllerKey.isPrefixOf (controllerKey ++ s) = true := by
  rw [List.isPrefixOf_iff_prefix]; exact List.prefix_append _ _

theorem controllerKey_drop (s : List Byte) :
    (controllerKey ++ s).drop controllerKey.length = s := by
  simp

theorem eq_append_of_isPrefixOf (n : List Byte) (h : controllerKey.isPrefixOf n = true) :
    n = controllerKey ++ n.drop controllerKey.length := by
  rw [List.isPrefixOf_iff_prefix] at h
  obtain ⟨t, rfl⟩ := h
  simp

theorem Xvnc.setDesktopName_keys (x : Xvnc) (n k : List Byte) :
    k ∈ (x.setDesktopName n).1.m_approvedControllerKeys
      ↔ k ∈ x.m_approvedControllerKeys ∨ n = controllerKey ++ k := by
  unfold Xvnc.setDesktopName
  by_cases hp : controllerKey.isPrefixOf n = true
  · rw [if_pos hp]
    simp only [List.mem_insert_iff]
    constructor
    · rintro (h | h)
      · right; rw [h]; exact eq_append_of_isPrefixOf n hp
      · left; exact h
    · rintro (h | h)
      · right; exact h
      · left; rw [h, controllerKey_drop]
  · rw [if_neg hp]
    have hne : n ≠ controllerKey ++ k := by
      intro h; rw [h, controllerKey_isPrefixOf] at hp; exact hp rfl
    split <;> simp [hne]

theorem SessionCall.run_keys (c : SessionCall) (s : Xvnc × XvncManager) (k : List Byte) :
    k ∈ (c.run s).1.m_approvedControllerKeys
      ↔ k ∈ s.1.m_approvedControllerKeys ∨ c = .setDesktopName (controllerKey ++ k) := by
  cases c with
  | markVisible v =>
    simp only [SessionCall.run, Xvnc.markVisible]
    split <;> simp
  | setDesktopName n =>
    simp only [SessionCall.run, Xvnc.setDesktopName_keys, SessionCall.setDesktopName.injEq]
  | setSessionUsername u =>
    simp only [SessionCall.run, Xvnc.setSessionUsername]
    split <;> simp

theorem runSessionCalls_keys (cs : List SessionCall) (s : Xvnc × XvncManager) (k : List Byte) :
    k ∈ (runSessionCalls cs s).1.m_approvedControllerKeys
      ↔ k ∈ s.1.m_approvedControllerKeys ∨ .setDesktopName (controllerKey ++ k) ∈ cs := by
  induction cs generalizing s with
  | nil => simp [runSessionCalls]
  | cons c cs ih =>
    have hstep : runSessionCalls (c :: cs) s = runSessionCalls cs (c.run s) := rfl
    rw [hstep, ih, SessionCall.run_keys, List.mem_cons]
    constructor
    · rintro ((h | h) | h)
      · exact Or.inl h
      · exact Or.inr (Or.inl h.symm)
      · exact Or.inr (Or.inr h)
    · rintro (h | h | h)
      · exact Or.inl (Or.inl h)
      · exact Or.inl (Or.inr h.symm)
      · exact Or.inr h

/-- C16: `setDesktopName` called with `CONTROLLER_KEY:` followed by `s` inserts `s` into the
approved keys and leaves the desktop name and the registry's list version unchanged; called
with a name without that prefix it leaves the approved keys unchanged; hence, for a session
created with no approved key, `isKeyApproved k` holds after a sequence of setter calls iff
one of them was `setDesktopName` with exactly `CONTROLLER_KEY:` followed by `k`. -/
theorem Xvnc.setDesktopName_controllerKey (x : Xvnc) (m : XvncManager) (s n k : List Byte)
    (cs : List SessionCall) :
    (∀ j, j ∈ (x.setDesktopName (controllerKey ++ s)).1.m_approvedControllerKeys
        ↔ j = s ∨ j ∈ x.m_approvedControllerKeys)
    ∧ (x.setDesktopName (controllerKey ++ s)).1.m_desktopName = x.m_desktopName
    ∧ (m.sessionCalled (x.setDesktopName (controllerKey ++ s))).sessionListVersion
        = m.sessionListVersion
    ∧ (controllerKey.isPrefixOf n = false →
        (x.setDesktopName n).1.m_approvedControllerKeys = x.m_approvedControllerKeys)
    ∧ ((runSessionCalls cs ({ x with m_approvedControllerKeys := [] }, m)).1.isKeyApproved k = true
        ↔ SessionCall.setDesktopName (controllerKey ++ k) ∈ cs) := by
  refine ⟨?_, ?_, ?_, ?_, ?_⟩
  · intro j
    rw [Xvnc.setDesktopName_keys]
    constructor
    · rintro (h | h)
      · exact Or.inr h
      · exact Or.inl (List.append_cancel_left h).symm
    · rintro (h | h)
      · exact Or.inr (by rw [h])
      · exact Or.inl h
  · simp [Xvnc.setDesktopName, controllerKey_isPrefixOf]
  · simp [Xvnc.setDesktopName, controllerKey_isPrefixOf, XvncManager.sessionCalled,
      XvncManager.sessionListVersion]
  · intro hp
    unfold Xvnc.setDesktopName
    rw [if_neg (by rw [hp]; decide)]
    split <;> rfl
  · simp [Xvnc.isKeyApproved, runSessionCalls_keys]

/-- Witness for C16: the name `abc` has no prefix, the name `CONTROLLER_KEY:abc123` approves
the key `abc123` on the sample session. -/
theorem Xvnc.setDesktopName_controllerKey_witness :
    controllerKey.isPrefixOf (ascii "abc") = false
    ∧ (sampleXvnc.setDesktopName (ascii "abc")).1.m_approvedControllerKeys
        = sampleXvnc.m_approvedControllerKeys
    ∧ (sampleXvnc.setDesktopName (ascii "CONTROLLER_KEY:abc123")).1.isKeyApproved (ascii "abc123")
        = true :=
  ⟨by decide,
   (Xvnc.setDesktopName_controllerKey sampleXvnc sampleManager (ascii "abc123") (ascii "abc")
      (ascii "abc123") []).2.2.2.1 (by decide),
   by decide⟩

theorem XvncManager.sessionCalled_version (m : XvncManager) (r : Xvnc × Bool) :
    (m.sessionCalled r).sessionListVersion
      = if r.2 then wrapInt32 (m.sessionListVersion + 1) else m.sessionListVersion := by
  unfold XvncManager.sessionCalled XvncManager.sessionListVersion XvncManager.notifySessionChanged
  cases r.2 <;> simp

/-- At `INT_MAX` the list version wraps around: `notifySessionChanged` leaves `INT_MIN`. -/
theorem XvncManager.notifySessionChanged_wraps :
    ({ sampleManager with m_sessionListVersion := 2147483647 }
        : XvncManager).notifySessionChanged.sessionListVersion = -2147483648 := by
  decide

/-- C19: each of `markVisible`, `setDesktopName` (of a name without the `CONTROLLER_KEY:` prefix)
and `setSessionUsername` stores the new value and increases the registry's list version by
exactly one when the value differs from the stored one, leaves the session and the list
version unchanged when it equals the stored one, and does not bump the version again when
it is repeated with the same argument. The list version is an `int` below `INT_MAX`, the
range in which `m_sessionListVersion++` does not overflow. -/
theorem sessionSetters_listVersion (x : Xvnc) (m : XvncManager) (v : Bool) (n u : List Byte)
    (hn : controllerKey.isPrefixOf n = false)
    (hlo : -2147483648 ≤ m.sessionListVersion) (hhi : m.sessionListVersion < 2147483647) :
    (x.m_visible ≠ v →
        (x.markVisible v).1.m_visible = v
        ∧ (m.sessionCalled (x.markVisible v)).sessionListVersion = m.sessionListVersion + 1)
    ∧ (x.m_visible = v →
        (x.markVisible v).1 = x
        ∧ (m.sessionCalled (x.markVisible v)).sessionListVersion = m.sessionListVersion)
    ∧ (x.m_desktopName ≠ n →
        (x.setDesktopName n).1.m_desktopName = n
        ∧ (m.sessionCalled (x.setDesktopName n)).sessionListVersion = m.sessionListVersion + 1)
    ∧ (x.m_desktopName = n →
        (x.setDesktopName n).1 = x
        ∧ (m.sessionCalled (x.setDesktopName n)).sessionListVersion = m.sessionListVersion)
    ∧ (x.m_sessionUsername ≠ u →
        (x.setSessionUsername u).1.m_sessionUsername = u
        ∧ (m.sessionCalled (x.setSessionUsername u)).sessionListVersion = m.sessionListVersion + 1)
    ∧ (x.m_sessionUsername = u →
        (x.setSessionUsername u).1 = x
        ∧ (m.sessionCalled (x.setSessionUsername u)).sessionListVersion = m.sessionListVersion)
    ∧ (∀ c : SessionCall, (c = .markVisible v ∨ c = .setDesktopName n ∨ c = .setSessionUsername u) →
        (c.run (c.run (x, m))).2.sessionListVersion = (c.run (x, m)).2.sessionListVersion) := by
  have hnp : ¬ (controllerKey.isPrefixOf n = true) := by rw [hn]; decide
  have hw := wrapInt32_succ m.sessionListVersion hlo hhi
  refine ⟨?_, ?_, ?_, ?_, ?_, ?_, ?_⟩
  · intro h
    rw [XvncManager.sessionCalled_version]
    simp [Xvnc.markVisible, h, hw]
  · intro h
    rw [XvncManager.sessionCalled_version]
    simp [Xvnc.markVisible, h]
  · intro h
    rw [XvncManager.sessionCalled_version]
    simp [Xvnc.setDesktopName, hnp, h, hw]
  · intro h
    rw [XvncManager.sessionCalled_version]
    simp [Xvnc.setDesktopName, hnp, h]
  · intro h
    rw [XvncManager.sessionCalled_version]
    simp [Xvnc.setSessionUsername, h, hw]
  · intro h
    rw [XvncManager.sessionCalled_version]
    simp [Xvnc.setSessionUsername, h]
  · rintro c (rfl | rfl | rfl)
    · simp only [SessionCall.run, XvncManager.sessionCalled_version]
      by_cases h : x.m_visible = v <;> simp [Xvnc.markVisible, h]
    · simp only [SessionCall.run, XvncManager.sessionCalled_version]
      by_cases h : x.m_desktopName = n <;> simp [Xvnc.setDesktopName, hnp, h]
    · simp only [SessionCall.run, XvncManager.sessionCalled_version]
      by_cases h : x.m_sessionUsername = u <;> simp [Xvnc.setSessionUsername, h]

/-- Witness for C19: making the sample session visible bumps the list version from 0 to 1. -/
theorem sessionSetters_listVersion_witness :
    controllerKey.isPrefixOf (ascii "desk") = false
    ∧ -2147483648 ≤ sampleManager.sessionListVersion
    ∧ sampleManager.sessionListVersion < 2147483647
    ∧ sampleXvnc.m_visible ≠ true
    ∧ (sampleManager.sessionCalled (sampleXvnc.markVisible true)).sessionListVersion
        = sampleManager.sessionListVersion + 1 :=
  ⟨by decide, by decide, by decide, by decide,
   ((sessionSetters_listVersion sampleXvnc sampleManager true (ascii "desk") (ascii "user")
      (by decide) (by decide) (by decide)).1 (by decide)).2⟩

theorem XvncManager.childDied_version_le (m : XvncManager) (pid : Int)
    (hlo : -2147483648 ≤ m.sessionListVersion) (hhi : m.sessionListVersion < 2147483647) :
    m.sessionListVersion ≤ (m.childDied pid).sessionListVersion := by
  have hw := wrapInt32_succ m.sessionListVersion hlo hhi
  unfold XvncManager.sessionListVersion at hw
  unfold XvncManager.childDied XvncManager.sessionListVersion XvncManager.notifySessionChanged
  split
  · exact le_refl _
  · split
    · split
      · show m.m_sessionListVersion ≤ wrapInt32 (m.m_sessionListVersion + 1)
        rw [hw]; omega
      · exact le_refl _
    · exact le_refl _

/-- C20, the code at failing inputs: `createSession` never changes the list version, although
it adds a session to the registry (from the empty registry: one session, version still 0);
`childDied` removes the sample session, which is not visible, and leaves the version at 0.
The version does not decrease while it is an `int` below `INT_MAX`. -/
theorem createSession_keeps_listVersion :
    (∀ (m : XvncManager) (spawned : Option (Int × Int)),
        (m.createSession spawned).1.sessionListVersion = m.sessionListVersion)
    ∧ (emptyManager.createSession (some (4242, 1))).1.m_xvncs.length = 1
    ∧ (emptyManager.createSession (some (4242, 1))).1.sessionListVersion = 0
    ∧ (sampleManagerUnheld.childDied 4242).m_xvncs = []
    ∧ (sampleManagerUnheld.childDied 4242).sessionListVersion = 0
    ∧ (∀ (m : XvncManager) (pid : Int),
        -2147483648 ≤ m.sessionListVersion → m.sessionListVersion < 2147483647 →
        m.sessionListVersion ≤ (m.childDied pid).sessionListVersion) := by
  refine ⟨?_, by decide, by decide, by decide, by decide, XvncManager.childDied_version_le⟩
  intro m spawned
  unfold XvncManager.createSession XvncManager.sessionListVersion
  cases spawned <;> rfl

/-! ## Lemmas: consuming input -/

theorem StreamFormatter.consume_consume (f : StreamFormatter) (a b : Nat) :
    (f.consume a).consume b = f.consume (a + b) := by
  unfold StreamFormatter.consume
  by_cases ha : a = 0
  · subst ha; simp
  · by_cases hb : b = 0
    · subst hb; simp [ha]
    · have hab : a + b ≠ 0 := by omega
      simp [ha, hb, hab, StreamFormatter.pending, List.drop_drop, Nat.add_comm]

theorem VncTunnel.serverConsumed_pending (t : VncTunnel) (len : Nat) :
    (t.serverConsumed len).serverPending = t.serverPending.drop len :=
  StreamFormatter.consume_pending _ _

theorem VncTunnel.serverConsumed_pending_of (t : VncTunnel) (bs rest : List Byte)
    (hp : t.serverPending = bs ++ rest) :
    (t.serverConsumed bs.length).serverPending = rest := by
  rw [VncTunnel.serverConsumed_pending, hp, List.drop_left]

theorem VncTunnel.serverConsumed_buffersOk (t : VncTunnel) (len : Nat) (hwf : t.buffersOk) :
    (t.serverConsumed len).buffersOk :=
  buffersOk_withServerFormatter t len hwf

theorem VncTunnel.serverConsumed_serverConsumed (t : VncTunnel) (a b : Nat) :
    (t.serverConsumed a).serverConsumed b = t.serverConsumed (a + b) := by
  unfold VncTunnel.serverConsumed VncTunnel.withServerFormatter
  simp [StreamFormatter.consume_consume]

theorem VncTunnel.clientConsumed_pending (t : VncTunnel) (len : Nat) :
    (t.clientConsumed len).clientPending = t.clientPending.drop len :=
  StreamFormatter.consume_pending _ _

theorem VncTunnel.clientConsumed_pending_of (t : VncTunnel) (bs rest : List Byte)
    (hp : t.clientPending = bs ++ rest) :
    (t.clientConsumed bs.length).clientPending = rest := by
  rw [VncTunnel.clientConsumed_pending, hp, List.drop_left]

theorem VncTunnel.clientConsumed_buffersOk (t : VncTunnel) (len : Nat) (hwf : t.buffersOk) :
    (t.clientConsumed len).buffersOk :=
  buffersOk_withClientFormatter t len hwf

theorem VncTunnel.clientConsumed_clientConsumed (t : VncTunnel) (a b : Nat) :
    (t.clientConsumed a).clientConsumed b = t.clientConsumed (a + b) := by
  unfold VncTunnel.clientConsumed VncTunnel.withClientFormatter
  simp [StreamFormatter.consume_consume]

theorem sRecvRaw_run (t : VncTunnel) (bs rest : List Byte) (hwf : t.buffersOk)
    (hp : t.serverPending = bs ++ rest) :
    sRecvRaw bs.length t
      = { result := .ok bs, state := t.serverConsumed bs.length, trace := [] } := by
  rw [sRecvRaw_ok t _ hwf (by rw [hp]; simp), hp, List.take_left]
  rfl

theorem cRecvRaw_run (t : VncTunnel) (bs rest : List Byte) (hwf : t.buffersOk)
    (hp : t.clientPending = bs ++ rest) :
    cRecvRaw bs.length t
      = { result := .ok bs, state := t.clientConsumed bs.length, trace := [] } := by
  rw [cRecvRaw_ok t _ hwf (by rw [hp]; simp), hp, List.take_left]
  rfl

theorem sForwardRaw_run (t : VncTunnel) (bs rest : List Byte) (hwf : t.buffersOk)
    (hp : t.serverPending = bs ++ rest) :
    sForwardRaw bs.length t
      = { result := .ok bs, state := t.serverConsumed bs.length
          trace := [.client (.raw bs)] } := by
  have hlen : bs.length ≤ t.m_currentConnection.m_streamFormatter.pending.length := by
    have : t.m_currentConnection.m_streamFormatter.pending = bs ++ rest := hp
    rw [this]; simp
  have htake : t.m_currentConnection.m_streamFormatter.pending.take bs.length = bs := by
    have : t.m_currentConnection.m_streamFormatter.pending = bs ++ rest := hp
    rw [this, List.take_left]
  simp only [sForwardRaw, onServer, StreamFormatter.forward_raw_ok _ _ hwf.2 hlen, htake]
  rfl

theorem sForwardDirectly_run (t : VncTunnel) (bs rest : List Byte) (hwf : t.buffersOk)
    (hp : t.serverPending = bs ++ rest) :
    sForwardDirectly bs.length t
      = { result := .ok (), state := t.serverConsumed bs.length
          trace := [.client (.raw bs)] } := by
  have hlen : bs.length ≤ t.m_currentConnection.m_streamFormatter.pending.length := by
    have : t.m_currentConnection.m_streamFormatter.pending = bs ++ rest := hp
    rw [this]; simp
  have htake : t.m_currentConnection.m_streamFormatter.pending.take bs.length = bs := by
    have : t.m_currentConnection.m_streamFormatter.pending = bs ++ rest := hp
    rw [this, List.take_left]
  simp only [sForwardDirectly, onServer, bind_run, bind_pure_comp, Functor.map,
    StreamFormatter.forward_directly_ok _ _ hwf.2 hlen, htake]
  rfl

theorem sForwardRaw_one (t : VncTunnel) (b : Byte) (rest : List Byte) (hwf : t.buffersOk)
    (hp : t.serverPending = b :: rest) :
    sForwardRaw 1 t
      = { result := .ok [b], state := t.serverConsumed 1, trace := [.client (.raw [b])] } :=
  sForwardRaw_run t [b] rest hwf hp

theorem VncTunnel.serverConsumed_one (t : VncTunnel) (b : Byte) (rest : List Byte)
    (hwf : t.buffersOk) (hp : t.serverPending = b :: rest) :
    (t.serverConsumed 1).buffersOk ∧ (t.serverConsumed 1).serverPending = rest :=
  ⟨VncTunnel.serverConsumed_buffersOk t 1 hwf, VncTunnel.serverConsumed_pending_of t [b] rest hp⟩

theorem forwardTightVariableLengthData_run (t : VncTunnel) (b0 b1 b2 : Byte) (data rest : List Byte)
    (hwf : t.buffersOk)
    (hp : t.serverPending = tightLengthBytes b0 b1 b2 ++ data ++ rest)
    (hlen : data.length = tightLength b0 b1 b2) :
    (forwardTightVariableLengthData t).result = .ok ()
    ∧ clientBytes (forwardTightVariableLengthData t).trace = tightLengthBytes b0 b1 b2 ++ data
    ∧ serverBytes (forwardTightVariableLengthData t).trace = []
    ∧ (forwardTightVariableLengthData t).state
        = t.serverConsumed ((tightLengthBytes b0 b1 b2).length + data.length) := by
  by_cases h0 : b0.val < 128
  · have hb : tightLengthBytes b0 b1 b2 = [b0] := by simp [tightLengthBytes, h0]
    have hl : tightLength b0 b1 b2 = b0.val := by simp [tightLength, h0]
    rw [hb] at hp ⊢
    rw [hl] at hlen
    have hp1 : t.serverPending = b0 :: (data ++ rest) := by rw [hp]; simp
    have s1 := sForwardRaw_one t b0 _ hwf hp1
    obtain ⟨hwf1, hp2⟩ := VncTunnel.serverConsumed_one t b0 _ hwf hp1
    have s2 := sForwardDirectly_run (t.serverConsumed 1) data rest hwf1 hp2
    have hc : ¬ (b0.val / 128 % 2 = 1) := by omega
    have hm : b0.val % 128 = data.length := by omega
    have e : forwardTightVariableLengthData t
        = { result := .ok (), state := (t.serverConsumed 1).serverConsumed data.length
            trace := [.client (.raw [b0]), .client (.raw data)] } := by
      unfold forwardTightVariableLengthData
      rw [bind_run, s1]
      simp only [List.getD_cons_zero, hc, if_false, hm, s2]
      rfl
    rw [e]
    refine ⟨rfl, ?_, rfl, ?_⟩
    · simp [clientBytes, ClientWrite.bytes]
    · simp [VncTunnel.serverConsumed_serverConsumed]
  · by_cases h1 : b1.val < 128
    · have hb : tightLengthBytes b0 b1 b2 = [b0, b1] := by simp [tightLengthBytes, h0, h1]
      have hl : tightLength b0 b1 b2 = b0.val % 128 + b1.val * 128 := by
        simp [tightLength, h0, h1]
      rw [hb] at hp ⊢
      rw [hl] at hlen
      have hp1 : t.serverPending = b0 :: (b1 :: (data ++ rest)) := by rw [hp]; simp
      have s1 := sForwardRaw_one t b0 _ hwf hp1
      obtain ⟨hwf1, hp2⟩ := VncTunnel.serverConsumed_one t b0 _ hwf hp1
      have s2 := sForwardRaw_one _ b1 _ hwf1 hp2
      obtain ⟨hwf2, hp3⟩ := VncTunnel.serverConsumed_one _ b1 _ hwf1 hp2
      have s3 := sForwardDirectly_run _ data rest hwf2 hp3
      have hc0 : b0.val / 128 % 2 = 1 := by omega
      have hc1 : ¬ (b1.val / 128 % 2 = 1) := by omega
      have hm : b0.val % 128 + b1.val % 128 * 128 = data.length := by omega
      have e : forwardTightVariableLengthData t
          = { result := .ok (), state := ((t.serverConsumed 1).serverConsumed 1).serverConsumed data.length
              trace := [.client (.raw [b0]), .client (.raw [b1]), .client (.raw data)] } := by
        unfold forwardTightVariableLengthData
        rw [bind_run, s1]
        simp only [List.getD_cons_zero, hc0, if_true]
        rw [Outcome.after, bind_run, s2]
        simp only [List.getD_cons_zero, hc1, if_false, hm, s3]
        rfl
      rw [e]
      refine ⟨rfl, ?_, rfl, ?_⟩
      · simp [clientBytes, ClientWrite.bytes]
      · simp [VncTunnel.serverConsumed_serverConsumed, Nat.add_assoc]
    · have hb : tightLengthBytes b0 b1 b2 = [b0, b1, b2] := by simp [tightLengthBytes, h0, h1]
      have hl : tightLength b0 b1 b2 = b0.val % 128 + (b1.val % 128) * 128 + b2.val * 16384 := by
        simp [tightLength, h0, h1]
      rw [hb] at hp ⊢
      rw [hl] at hlen
      have hp1 : t.serverPending = b0 :: (b1 :: (b2 :: (data ++ rest))) := by rw [hp]; simp
      have s1 := sForwardRaw_one t b0 _ hwf hp1
      obtain ⟨hwf1, hp2⟩ := VncTunnel.serverConsumed_one t b0 _ hwf hp1
      have s2 := sForwardRaw_one _ b1 _ hwf1 hp2
      obtain ⟨hwf2, hp3⟩ := VncTunnel.serverConsumed_one _ b1 _ hwf1 hp2
      have s3 := sForwardRaw_one _ b2 _ hwf2 hp3
      obtain ⟨hwf3, hp4⟩ := VncTunnel.serverConsumed_one _ b2 _ hwf2 hp3
      have s4 := sForwardDirectly_run _ data rest hwf3 hp4
      have hc0 : b0.val / 128 % 2 = 1 := by omega
      have hc1 : b1.val / 128 % 2 = 1 := by omega
      have hm : b0.val % 128 + b1.val % 128 * 128 + b2.val * 16384 = data.length := by omega
      have e : forwardTightVariableLengthData t
          = { result := .ok ()
              state := (((t.serverConsumed 1).serverConsumed 1).serverConsumed 1).serverConsumed
                data.length
              trace := [.client (.raw [b0]), .client (.raw [b1]), .client (.raw [b2]),
                .client (.raw data)] } := by
        unfold forwardTightVariableLengthData
        rw [bind_run, s1]
        simp only [List.getD_cons_zero, hc0, if_true]
        rw [Outcome.after, bind_run, s2]
        simp only [List.getD_cons_zero, hc1, if_true]
        rw [Outcome.after, bind_run, s3]
        simp only [List.getD_cons_zero, hm, s4]
        rfl
      rw [e]
      refine ⟨rfl, ?_, rfl, ?_⟩
      · simp [clientBytes, ClientWrite.bytes]
      · simp [VncTunnel.serverConsumed_serverConsumed, Nat.add_assoc]

/-- C11, as the code has it: when the back-end's pending bytes are the length bytes (one to
three, ending at the first byte whose top bit is clear or at the third), then as many data
bytes as they encode, `forwardTightVariableLengthData` returns, has written to the client
exactly the length bytes followed by the data bytes, and has consumed exactly these from the
back-end. The first two length bytes contribute their low seven bits and the third all of its
eight bits (`byte << 14`), so the length is below 2^22, and below 2^21 only when the top bit of
a third byte is clear. -/
theorem forwardTightVariableLengthData_forwards (t : VncTunnel) (b0 b1 b2 : Byte)
    (data rest : List Byte) (hwf : t.buffersOk)
    (hp : t.serverPending = tightLengthBytes b0 b1 b2 ++ data ++ rest)
    (hlen : data.length = tightLength b0 b1 b2) :
    (forwardTightVariableLengthData t).result = .ok ()
    ∧ clientBytes (forwardTightVariableLengthData t).trace = tightLengthBytes b0 b1 b2 ++ data
    ∧ serverBytes (forwardTightVariableLengthData t).trace = []
    ∧ (forwardTightVariableLengthData t).state.serverPending = rest
    ∧ (forwardTightVariableLengthData t).state
        = t.serverConsumed ((tightLengthBytes b0 b1 b2).length + data.length)
    ∧ 1 ≤ (tightLengthBytes b0 b1 b2).length ∧ (tightLengthBytes b0 b1 b2).length ≤ 3
    ∧ tightLength b0 b1 b2 < 4194304
    ∧ (b2.val < 128 → tightLength b0 b1 b2 < 2097152)
    ∧ tightLength b0 b1 b2 =
        (if b0.val < 128 then b0.val % 128
         else if b1.val < 128 then b0.val % 128 + b1.val % 128 * 128
         else b0.val % 128 + b1.val % 128 * 128 + b2.val * 16384) := by
  obtain ⟨hr, hc, hsb, hs⟩ := forwardTightVariableLengthData_run t b0 b1 b2 data rest hwf hp hlen
  have hb0 := b0.isLt
  have hb1 := b1.isLt
  have hb2 := b2.isLt
  refine ⟨hr, hc, hsb, ?_, hs, ?_, ?_, ?_, ?_, ?_⟩
  · rw [hs, VncTunnel.serverConsumed_pending, hp, ← List.length_append, List.drop_left]
  · unfold tightLengthBytes; split <;> [skip; split] <;> simp
  · unfold tightLengthBytes; split <;> [skip; split] <;> simp
  · unfold tightLength; split <;> [skip; split] <;> omega
  · intro h2; unfold tightLength; split <;> [skip; split] <;> omega
  · unfold tightLength; split <;> [skip; split] <;> omega

/-- Witness for C11: the length byte 3 followed by three data bytes. -/
theorem forwardTightVariableLengthData_forwards_witness :
    (forwardTightVariableLengthData (sampleTunnel [] [3, 7, 8, 9, 1])).result = .ok ()
    ∧ clientBytes (forwardTightVariableLengthData (sampleTunnel [] [3, 7, 8, 9, 1])).trace
        = [3, 7, 8, 9]
    ∧ (forwardTightVariableLengthData (sampleTunnel [] [3, 7, 8, 9, 1])).state.serverPending = [1] :=
  have h := forwardTightVariableLengthData_forwards (sampleTunnel [] [3, 7, 8, 9, 1]) 3 0 0
    [7, 8, 9] [1] (by decide) (by decide) (by decide)
  ⟨h.1, h.2.1, h.2.2.2.1⟩

/-- Counterexample to C11 as stated: the length bytes 80 80 80 have all their low seven bits
clear, so the stated formula gives the length 0 and the bound 2^21; the code takes the third
byte unmasked, decodes 128 * 16384 = 2097152 and forwards that many data bytes. -/
theorem forwardTightVariableLengthData_thirdByte_unmasked :
    (forwardTightVariableLengthData
        (sampleTunnel [] ([128, 128, 128] ++ List.replicate 2097152 7 ++ [9]))).result = .ok ()
    ∧ clientBytes (forwardTightVariableLengthData
        (sampleTunnel [] ([128, 128, 128] ++ List.replicate 2097152 7 ++ [9]))).trace
        = [128, 128, 128] ++ List.replicate 2097152 7
    ∧ (forwardTightVariableLengthData
        (sampleTunnel [] ([128, 128, 128] ++ List.replicate 2097152 7 ++ [9]))).state.serverPending
        = [9]
    ∧ 128 % 128 + 128 % 128 * 128 + 128 % 128 * 16384 = 0 := by
  have hb : tightLengthBytes 128 128 128 = [128, 128, 128] := by decide
  have hl : tightLength 128 128 128 = 2097152 := by decide
  have hwf : (sampleTunnel [] ([128, 128, 128] ++ List.replicate 2097152 7 ++ [9])).buffersOk :=
    ⟨Nat.zero_le _, Nat.zero_le _⟩
  have hp : (sampleTunnel [] ([128, 128, 128] ++ List.replicate 2097152 7 ++ [9])).serverPending
      = tightLengthBytes 128 128 128 ++ List.replicate 2097152 7 ++ [9] := by
    rw [hb]; exact List.nil_append _
  have h := forwardTightVariableLengthData_run _ 128 128 128 (List.replicate 2097152 7) [9]
    hwf hp (by rw [hl, List.length_replicate])
  rw [hb] at h
  refine ⟨h.1, h.2.1, ?_, by decide⟩
  rw [h.2.2.2, VncTunnel.serverConsumed_pending, hp, hb, ← List.length_append, List.drop_left]

/-! ## Tight rectangles -/

/-- C12, the code at a failing input: for a Tight rectangle of 32768 by 32768 pixels with 32
bits per pixel and no filter, the exact data size is 131072 * 32768 = 2^32, not below 12, but
the product is evaluated in `int` and wraps to 0: after the compression-control byte 00 the
tunnel takes the raw branch, forwards no byte at all and leaves the variable-length block
(here 05 and five data bytes) pending on the back-end. -/
theorem processTight_dataSize_wraps :
    tightDataSize sampleTightRectangle 32 = 0
    ∧ (32768 * 32 + 7) / 8 * 32768 = 4294967296
    ∧ (processTight sampleTightRectangle (sampleTunnel [] [0, 5, 1, 2, 3, 4, 5])).result = .ok ()
    ∧ clientBytes (processTight sampleTightRectangle (sampleTunnel [] [0, 5, 1, 2, 3, 4, 5])).trace
        = sampleTightRectangle.send ++ [0]
    ∧ (processTight sampleTightRectangle (sampleTunnel [] [0, 5, 1, 2, 3, 4, 5])).state.serverPending
        = [5, 1, 2, 3, 4, 5] := by
  refine ⟨by decide, by decide, rfl, by decide, by decide⟩

/-! ## Session ids -/

theorem insertSession_of_lt (x : Xvnc) (xs : List Xvnc) (h : ∀ y ∈ xs, y.m_id < x.m_id) :
    insertSession x xs = xs ++ [x] := by
  induction xs with
  | nil => rfl
  | cons y ys ih =>
    have hy : y.m_id < x.m_id := h y (List.mem_cons_self _ _)
    have h1 : ¬ x.m_id < y.m_id := by omega
    have h2 : ¬ x.m_id = y.m_id := by omega
    simp only [insertSession, h1, h2, if_false, List.cons_append]
    rw [ih (fun z hz => h z (List.mem_cons_of_mem _ hz))]

theorem eraseByPid_sublist (pid : Int) (xs : List Xvnc) : (eraseByPid pid xs).Sublist xs := by
  induction xs with
  | nil => exact List.Sublist.slnil
  | cons x xs ih =>
    unfold eraseByPid
    split
    · exact List.sublist_cons_self x xs
    · exact ih.cons₂ x

theorem XvncManager.childDied_xvncs (m : XvncManager) (pid : Int) :
    (m.childDied pid).m_xvncs.Sublist m.m_xvncs ∧ (m.childDied pid).m_nextId = m.m_nextId := by
  unfold XvncManager.childDied
  split
  · exact ⟨List.Sublist.refl _, rfl⟩
  · split
    · split
      · exact ⟨eraseByPid_sublist _ _, rfl⟩
      · exact ⟨eraseByPid_sublist _ _, rfl⟩
    · exact ⟨eraseByPid_sublist _ _, rfl⟩

/-- The ids in the map are strictly ascending and all below `m_nextId`, as long as a
`createSession` call finds `m_nextId` below `INT_MAX`. -/
theorem RegistryCall.run_ids (c : RegistryCall) (m : XvncManager)
    (hs : (m.m_xvncs.map fun x => x.m_id).Pairwise (· < ·))
    (hb : ∀ x ∈ m.m_xvncs, x.m_id < m.m_nextId)
    (hr : ∀ spawned, c = .createSession spawned →
      -2147483648 ≤ m.m_nextId ∧ m.m_nextId < 2147483647) :
    ((c.run m).1.m_xvncs.map fun x => x.m_id).Pairwise (· < ·)
    ∧ (∀ x ∈ (c.run m).1.m_xvncs, x.m_id < (c.run m).1.m_nextId)
    ∧ m.m_nextId ≤ (c.run m).1.m_nextId
    ∧ (∀ i, (c.run m).2 = some i → i = m.m_nextId ∧ (c.run m).1.m_nextId = m.m_nextId + 1) := by
  cases c with
  | createSession spawned =>
    obtain ⟨hlo, hhi⟩ := hr spawned rfl
    have hw := wrapInt32_succ m.m_nextId hlo hhi
    cases spawned with
    | none =>
      have en : ((RegistryCall.createSession none).run m).1.m_nextId = m.m_nextId + 1 := hw
      refine ⟨hs, ?_, ?_, ?_⟩
      · intro x hx
        have := hb x hx
        rw [en]
        omega
      · rw [en]
        omega
      · intro i hi
        cases hi
        exact ⟨rfl, en⟩
    | some p =>
      obtain ⟨pid, dn⟩ := p
      have e : ((RegistryCall.createSession (some (pid, dn))).run m).1.m_xvncs
          = m.m_xvncs ++ [(⟨m.m_nextId, pid, dn, false, [], [], [], 1⟩ : Xvnc)] :=
        insertSession_of_lt _ _ hb
      have en : ((RegistryCall.createSession (some (pid, dn))).run m).1.m_nextId
          = m.m_nextId + 1 := hw
      refine ⟨?_, ?_, ?_, ?_⟩
      · rw [e, List.map_append, List.pairwise_append]
        refine ⟨hs, List.pairwise_singleton _ _, ?_⟩
        intro a ha b hb2
        simp only [List.map_cons, List.map_nil, List.mem_singleton] at hb2
        obtain ⟨x, hx, rfl⟩ := List.mem_map.1 ha
        rw [hb2]
        exact hb x hx
      · intro x hx
        rw [e] at hx
        rw [en]
        rcases List.mem_append.1 hx with h | h
        · have := hb x h
          omega
        · rw [List.mem_singleton.1 h]
          show m.m_nextId < m.m_nextId + 1
          omega
      · rw [en]; omega
      · intro i hi
        cases hi
        exact ⟨rfl, en⟩
  | childDied pid =>
    obtain ⟨hsub, hn⟩ := XvncManager.childDied_xvncs m pid
    refine ⟨?_, ?_, ?_, ?_⟩
    · exact hs.sublist (hsub.map _)
    · intro x hx
      show x.m_id < (m.childDied pid).m_nextId
      rw [hn]
      exact hb x (hsub.subset hx)
    · show m.m_nextId ≤ (m.childDied pid).m_nextId
      rw [hn]
    · intro i hi
      cases hi

theorem countCreateSession_createSession (spawned : Option (Int × Int)) (cs : List RegistryCall) :
    countCreateSession (RegistryCall.createSession spawned :: cs) = countCreateSession cs + 1 := by
  simp [countCreateSession]

theorem countCreateSession_childDied (pid : Int) (cs : List RegistryCall) :
    countCreateSession (RegistryCall.childDied pid :: cs) = countCreateSession cs := by
  simp [countCreateSession]

theorem runRegistryCalls_ids (cs : List RegistryCall) (m : XvncManager)
    (hs : (m.m_xvncs.map fun x => x.m_id).Pairwise (· < ·))
    (hb : ∀ x ∈ m.m_xvncs, x.m_id < m.m_nextId)
    (hlo : -2147483648 ≤ m.m_nextId)
    (hhi : m.m_nextId + (countCreateSession cs : Int) ≤ 2147483647) :
    ((runRegistryCalls cs m).1.m_xvncs.map fun x => x.m_id).Pairwise (· < ·)
    ∧ (∀ x ∈ (runRegistryCalls cs m).1.m_xvncs, x.m_id < (runRegistryCalls cs m).1.m_nextId)
    ∧ (runRegistryCalls cs m).2
        = (List.range (countCreateSession cs)).map fun (k : Nat) => m.m_nextId + (k : Int) := by
  induction cs generalizing m with
  | nil => exact ⟨hs, hb, rfl⟩
  | cons c cs ih =>
    have hr : ∀ spawned, c = .createSession spawned →
        -2147483648 ≤ m.m_nextId ∧ m.m_nextId < 2147483647 := by
      intro spawned hc
      rw [hc, countCreateSession_createSession] at hhi
      push_cast at hhi
      exact ⟨hlo, by omega⟩
    obtain ⟨h1, h2, h3, h4⟩ := RegistryCall.run_ids c m hs hb hr
    have hhi2 : (c.run m).1.m_nextId + (countCreateSession cs : Int) ≤ 2147483647 := by
      cases c with
      | createSession spawned =>
        obtain ⟨_, hn⟩ := h4 m.m_nextId rfl
        rw [hn]
        rw [countCreateSession_createSession] at hhi
        push_cast at hhi
        omega
      | childDied pid =>
        have hn : ((RegistryCall.childDied pid).run m).1.m_nextId = m.m_nextId :=
          (XvncManager.childDied_xvncs m pid).2
        rw [hn]
        rw [countCreateSession_childDied] at hhi
        exact hhi
    obtain ⟨i1, i2, i3⟩ := ih (c.run m).1 h1 h2 (le_trans hlo h3) hhi2
    refine ⟨i1, i2, ?_⟩
    show (c.run m).2.toList ++ (runRegistryCalls cs (c.run m).1).2 = _
    rw [i3]
    cases c with
    | createSession spawned =>
      obtain ⟨_, hn⟩ := h4 m.m_nextId rfl
      rw [hn]
      rw [countCreateSession_createSession, List.range_succ_eq_map, List.map_cons, List.map_map]
      show m.m_nextId :: _ = _
      congr 1
      · simp
      · apply List.map_congr_left
        intro k _
        simp only [Function.comp_apply, Nat.succ_eq_add_one, Nat.cast_add, Nat.cast_one]
        omega
    | childDied pid =>
      have hn : ((RegistryCall.childDied pid).run m).1.m_nextId = m.m_nextId :=
        (XvncManager.childDied_xvncs m pid).2
      rw [hn, countCreateSession_childDied]
      rfl

/-- At `INT_MAX` the id counter wraps around: the call hands out `INT_MAX` and leaves
`m_nextId` at `INT_MIN`. -/
theorem XvncManager.createSession_nextId_wraps :
    (({ emptyManager with m_nextId := 2147483647 } : XvncManager).createSession none).1.m_nextId
      = -2147483648 := by
  decide

/-- C29: over any sequence of `createSession` and `childDied` calls on a registry that was
constructed empty, with fewer than `2^31` `createSession` calls in it (the range in which
`m_nextId++` on the `int` does not overflow), the ids handed to the sessions are 0, 1, 2, ...
in the order of the `createSession` calls (also for a call whose constructor threw, and
whatever sessions died in between), so no id is handed out twice; the ids held in the map are
strictly ascending, so no two sessions are held under one id, and each is below `m_nextId`. -/
theorem createSession_ids_unique (cs : List RegistryCall)
    (hc : countCreateSession cs < 2147483648) :
    (runRegistryCalls cs emptyManager).2
        = (List.range (countCreateSession cs)).map (fun (k : Nat) => (k : Int))
    ∧ (runRegistryCalls cs emptyManager).2.Nodup
    ∧ (runRegistryCalls cs emptyManager).2.Pairwise (· < ·)
    ∧ ((runRegistryCalls cs emptyManager).1.m_xvncs.map fun x => x.m_id).Pairwise (· < ·)
    ∧ ((runRegistryCalls cs emptyManager).1.m_xvncs.map fun x => x.m_id).Nodup
    ∧ (∀ x ∈ (runRegistryCalls cs emptyManager).1.m_xvncs,
        x.m_id < (runRegistryCalls cs emptyManager).1.m_nextId)
    ∧ (∀ (m : XvncManager) (spawned : Option (Int × Int)) (x : Xvnc),
        (m.createSession spawned).2 = some x → x.m_id = m.m_nextId) := by
  obtain ⟨h1, h2, h3⟩ := runRegistryCalls_ids cs emptyManager List.Pairwise.nil
    (fun x hx => by cases hx) (by decide)
    (by show (0 : Int) + (countCreateSession cs : Int) ≤ 2147483647; omega)
  have e : (runRegistryCalls cs emptyManager).2
      = (List.range (countCreateSession cs)).map (fun (k : Nat) => (k : Int)) := by
    rw [h3]
    apply List.map_congr_left
    intro k _
    show (0 : Int) + (k : Int) = (k : Int)
    omega
  have hp : (runRegistryCalls cs emptyManager).2.Pairwise (· < ·) := by
    rw [e, List.pairwise_map]
    exact (List.pairwise_lt_range _).imp (fun h => by exact_mod_cast h)
  refine ⟨e, hp.imp (fun h => ne_of_lt h), hp, h1, h1.imp (fun h => ne_of_lt h), h2, ?_⟩
  intro m spawned x hx
  cases spawned with
  | none => cases hx
  | some p =>
    obtain ⟨pid, dn⟩ := p
    simp only [XvncManager.createSession, Option.some.injEq] at hx
    rw [← hx]

/-- Witness for C29: a session is created and dies, a constructor throws, a third session is
created: the ids handed out are 0, 1, 2 and the registry holds the session with id 2. -/
theorem createSession_ids_unique_witness :
    countCreateSession [.createSession (some (4242, 1)), .childDied 4242, .createSession none,
        .createSession (some (4243, 2))] < 2147483648
    ∧ (runRegistryCalls [.createSession (some (4242, 1)), .childDied 4242, .createSession none,
        .createSession (some (4243, 2))] emptyManager).2 = [0, 1, 2]
    ∧ ((runRegistryCalls [.createSession (some (4242, 1)), .childDied 4242, .createSession none,
        .createSession (some (4243, 2))] emptyManager).1.m_xvncs.map fun x => x.m_id) = [2]
    ∧ (runRegistryCalls [.createSession (some (4242, 1)), .childDied 4242, .createSession none,
        .createSession (some (4243, 2))] emptyManager).2.Nodup :=
  ⟨by decide, by decide, by decide,
   (createSession_ids_unique [.createSession (some (4242, 1)), .childDied 4242,
      .createSession none, .createSession (some (4243, 2))] (by decide)).2.1⟩

/-! ## The security types offered to the client -/

theorem configuredSecurityTypesLoop_eq (S : List Nat) (acc : List Nat) (inc : Bool)
    (hS : ∀ s ∈ S, s ∈ validSubtypes) :
    configuredSecurityTypesLoop S acc inc = .ok (acc ++ appendedSecurityTypes S inc) := by
  induction S generalizing acc inc with
  | nil => simp [configuredSecurityTypesLoop, appendedSecurityTypes]
  | cons s rest ih =>
    have hrest : ∀ s ∈ rest, s ∈ validSubtypes := fun x hx => hS x (List.mem_cons_of_mem _ hx)
    have hs : s ∈ validSubtypes := hS s (List.mem_cons_self _ _)
    by_cases h1 : s = VeNCryptSubtype.None
    · simp only [configuredSecurityTypesLoop, appendedSecurityTypes, h1, if_true]
      rw [ih _ _ hrest]; simp
    · have h2 : s = VeNCryptSubtype.TLSNone ∨ s = VeNCryptSubtype.X509None := by
        simp only [validSubtypes, List.mem_cons, List.mem_singleton, List.mem_nil_iff,
          or_false] at hs
        rcases hs with h | h | h
        · exact absurd h h1
        · exact Or.inl h
        · exact Or.inr h
      cases inc with
      | false =>
        simp only [configuredSecurityTypesLoop, appendedSecurityTypes, h1, h2, if_true, if_false,
          Bool.not_false]
        rw [ih _ _ hrest]; simp
      | true =>
        simp only [configuredSecurityTypesLoop, appendedSecurityTypes, h1, h2, if_true, if_false,
          Bool.not_true]
        exact ih _ _ hrest

theorem appendedSecurityTypes_true (S : List Nat) :
    appendedSecurityTypes S true = List.replicate (S.count VeNCryptSubtype.None) SecurityType.None := by
  induction S with
  | nil => rfl
  | cons s rest ih =>
    by_cases h1 : s = VeNCryptSubtype.None
    · subst h1
      simp [appendedSecurityTypes, ih, List.replicate_succ]
    · have h1b : ¬ (VeNCryptSubtype.None = s) := fun h => h1 h.symm
      simp [appendedSecurityTypes, h1, ih, List.count_cons, h1b]

theorem appendedSecurityTypes_false (S : List Nat) (hS : ∀ s ∈ S, s ∈ validSubtypes) :
    (appendedSecurityTypes S false).count SecurityType.None = S.count VeNCryptSubtype.None
    ∧ (appendedSecurityTypes S false).count SecurityType.VeNCrypt
        = (if S.any isTlsSubtype then 1 else 0)
    ∧ (appendedSecurityTypes S false).indexOf SecurityType.VeNCrypt = S.findIdx isTlsSubtype := by
  induction S with
  | nil => simp [appendedSecurityTypes]
  | cons s rest ih =>
    have hrest : ∀ s ∈ rest, s ∈ validSubtypes := fun x hx => hS x (List.mem_cons_of_mem _ hx)
    have hs : s ∈ validSubtypes := hS s (List.mem_cons_self _ _)
    obtain ⟨i1, i2, i3⟩ := ih hrest
    by_cases h1 : s = VeNCryptSubtype.None
    · subst h1
      have ht : isTlsSubtype VeNCryptSubtype.None = false := by decide
      have e : appendedSecurityTypes (VeNCryptSubtype.None :: rest) false
          = SecurityType.None :: appendedSecurityTypes rest false := by
        simp [appendedSecurityTypes]
      have hne : SecurityType.None ≠ SecurityType.VeNCrypt := by decide
      rw [e]
      refine ⟨?_, ?_, ?_⟩
      · rw [List.count_cons_self, i1]
        show _ = List.count SecurityType.None (SecurityType.None :: rest)
        rw [List.count_cons_self]
        rfl
      · rw [List.count_cons_of_ne hne.symm, i2]
        simp [List.any_cons, ht]
      · rw [List.indexOf_cons_ne _ hne, i3, List.findIdx_cons, ht]
        rfl
    · have h2 : isTlsSubtype s = true := by
        simp only [validSubtypes, List.mem_cons, List.mem_singleton, List.mem_nil_iff,
          or_false] at hs
        rcases hs with h | h | h
        · exact absurd h h1
        · subst h; decide
        · subst h; decide
      have e : appendedSecurityTypes (s :: rest) false
          = SecurityType.VeNCrypt :: appendedSecurityTypes rest true := by
        simp [appendedSecurityTypes, h1]
      have hne : SecurityType.VeNCrypt ≠ SecurityType.None := by decide
      have h1b : ¬ (VeNCryptSubtype.None = s) := fun h => h1 h.symm
      rw [e, appendedSecurityTypes_true]
      refine ⟨?_, ?_, ?_⟩
      · rw [List.count_cons_of_ne hne.symm, List.count_replicate_self]
        show _ = List.count SecurityType.None (s :: rest)
        rw [List.count_cons]
        simp [h1b, VeNCryptSubtype.None, SecurityType.None]
        exact h1
      · rw [List.count_cons_self, List.count_replicate]
        simp [List.any_cons, h2, hne.symm]
      · rw [List.indexOf_cons_eq _ rfl, List.findIdx_cons, h2]
        rfl

/-- C13: for every configured list `S` of the subtypes None, TLSNone and X509None,
`configuredSecurityTypes` returns a list that holds None as often as `S` does (so None is
offered iff `S` contains None), holds VeNCrypt at most once, exactly once iff `S` contains
TLSNone or X509None, and holds VeNCrypt at the index at which `S` has its first TLSNone or
X509None entry. -/
theorem configuredSecurityTypes_offered (t : VncTunnel)
    (hS : ∀ s ∈ t.options.security, s ∈ validSubtypes) :
    ∃ offered, t.configuredSecurityTypes = .ok offered
      ∧ offered.count SecurityType.None = t.options.security.count VeNCryptSubtype.None
      ∧ (SecurityType.None ∈ offered ↔ VeNCryptSubtype.None ∈ t.options.security)
      ∧ offered.count SecurityType.VeNCrypt ≤ 1
      ∧ (offered.count SecurityType.VeNCrypt = 1 ↔
          VeNCryptSubtype.TLSNone ∈ t.options.security ∨ VeNCryptSubtype.X509None ∈ t.options.security)
      ∧ (SecurityType.VeNCrypt ∈ offered ↔
          VeNCryptSubtype.TLSNone ∈ t.options.security ∨ VeNCryptSubtype.X509None ∈ t.options.security)
      ∧ offered.indexOf SecurityType.VeNCrypt = t.options.security.findIdx isTlsSubtype
      ∧ (∀ s ∈ offered, s = SecurityType.None ∨ s = SecurityType.VeNCrypt) := by
  obtain ⟨h1, h2, h3⟩ := appendedSecurityTypes_false t.options.security hS
  have hany : t.options.security.any isTlsSubtype = true ↔
      VeNCryptSubtype.TLSNone ∈ t.options.security ∨ VeNCryptSubtype.X509None ∈ t.options.security := by
    rw [List.any_eq_true]
    constructor
    · rintro ⟨x, hx, hxt⟩
      simp only [isTlsSubtype, decide_eq_true_eq] at hxt
      rcases hxt with h | h
      · exact Or.inl (h ▸ hx)
      · exact Or.inr (h ▸ hx)
    · rintro (h | h)
      · exact ⟨_, h, by decide⟩
      · exact ⟨_, h, by decide⟩
  refine ⟨appendedSecurityTypes t.options.security false, ?_, h1, ?_, ?_, ?_, ?_, h3, ?_⟩
  · unfold VncTunnel.configuredSecurityTypes
    rw [configuredSecurityTypesLoop_eq _ _ _ hS]
    rfl
  · rw [← List.count_pos_iff, ← List.count_pos_iff, h1]
  · rw [h2]; split <;> omega
  · rw [h2, ← hany]; split <;> simp_all
  · rw [← List.count_pos_iff, h2, ← hany]; split <;> simp_all
  · have : ∀ (S : List Nat) (inc : Bool), ∀ s ∈ appendedSecurityTypes S inc,
        s = SecurityType.None ∨ s = SecurityType.VeNCrypt := by
      intro S
      induction S with
      | nil => intro inc s hs; cases hs
      | cons a rest ih =>
        intro inc s hs
        unfold appendedSecurityTypes at hs
        split at hs
        · rcases List.mem_cons.1 hs with h | h
          · exact Or.inl h
          · exact ih _ _ h
        · split at hs
          · rcases List.mem_cons.1 hs with h | h
            · exact Or.inr h
            · exact ih _ _ h
          · exact ih _ _ hs
    exact this _ _

/-- Witness for C13: the configuration TLSNone, None, X509None offers VeNCrypt, None. -/
theorem configuredSecurityTypes_offered_witness :
    ∃ offered,
      ({ sampleTunnel [] [] with
          options := { security := [257, 1, 260], disableManager := false
                       alwaysShowGreeter := false } } : VncTunnel).configuredSecurityTypes
        = .ok offered
      ∧ offered.count SecurityType.VeNCrypt = 1 ∧ offered.indexOf SecurityType.VeNCrypt = 0 := by
  obtain ⟨offered, h0, _, _, _, h4, _, h6, _⟩ := configuredSecurityTypes_offered
    ({ sampleTunnel [] [] with
        options := { security := [257, 1, 260], disableManager := false
                     alwaysShowGreeter := false } } : VncTunnel) (by decide)
  exact ⟨offered, h0, h4.2 (by decide), h6.trans (by decide)⟩

/-! ## Lemmas: received and forwarded bytes -/

theorem cRecvRaw_of (t : VncTunnel) (n : Nat) (bs rest : List Byte) (hwf : t.buffersOk)
    (hp : t.clientPending = bs ++ rest) (hn : bs.length = n) :
    cRecvRaw n t = { result := .ok bs, state := t.clientConsumed n, trace := [] } := by
  subst hn; exact cRecvRaw_run t bs rest hwf hp

theorem sRecvRaw_of (t : VncTunnel) (n : Nat) (bs rest : List Byte) (hwf : t.buffersOk)
    (hp : t.serverPending = bs ++ rest) (hn : bs.length = n) :
    sRecvRaw n t = { result := .ok bs, state := t.serverConsumed n, trace := [] } := by
  subst hn; exact sRecvRaw_run t bs rest hwf hp

theorem sForwardRaw_of (t : VncTunnel) (n : Nat) (bs rest : List Byte) (hwf : t.buffersOk)
    (hp : t.serverPending = bs ++ rest) (hn : bs.length = n) :
    sForwardRaw n t
      = { result := .ok bs, state := t.serverConsumed n, trace := [.client (.raw bs)] } := by
  subst hn; exact sForwardRaw_run t bs rest hwf hp

theorem sForwardDirectly_of (t : VncTunnel) (n : Nat) (bs rest : List Byte) (hwf : t.buffersOk)
    (hp : t.serverPending = bs ++ rest) (hn : bs.length = n) :
    sForwardDirectly n t
      = { result := .ok (), state := t.serverConsumed n, trace := [.client (.raw bs)] } := by
  subst hn; exact sForwardDirectly_run t bs rest hwf hp

@[simp] theorem cSendRaw_run (bs : List Byte) (t : VncTunnel) :
    cSendRaw bs t = { result := .ok (), state := t, trace := [.client (.raw bs)] } := rfl

@[simp] theorem sSendRaw_run (bs : List Byte) (t : VncTunnel) :
    sSendRaw bs t = { result := .ok (), state := t, trace := [.server bs] } := rfl

@[simp] theorem cSendRectangle_run (r : FramebufferUpdateRectangle) (t : VncTunnel) :
    cSendRectangle r t = { result := .ok (), state := t, trace := [.client (.rectangle r)] } := rfl

@[simp] theorem cSendMessage_run (m : FramebufferUpdateMessage) (t : VncTunnel) :
    cSendMessage m t = { result := .ok (), state := t, trace := [.client (.message m)] } := rfl

/-! ## The handshake with the client -/

/-- C28: in the VeNCrypt negotiation with the client the tunnel first writes the version bytes
00 02, reads the client's two version bytes and writes a status byte that is 0 iff the client's
version is major 0, minor 2. For every other version the status byte is 1, the error is raised
and nothing else is written: no subtype list, no TLS handshake, no SecurityResult. -/
theorem handleVeNCryptSecurity_version (t : VncTunnel) (major minor : Byte) (rest : List Byte)
    (hwf : t.buffersOk) (hp : t.clientPending = major :: minor :: rest) :
    (∃ tr, (handleVeNCryptSecurity t).trace
        = .client (.raw [0, 2])
          :: .client (.raw [if major = 0 ∧ minor = 2 then 0 else 1]) :: tr)
    ∧ (¬ (major = 0 ∧ minor = 2) →
        (handleVeNCryptSecurity t).result = .error Err.unsupportedVeNCryptVersion
        ∧ (handleVeNCryptSecurity t).trace = [.client (.raw [0, 2]), .client (.raw [1])]
        ∧ (handleVeNCryptSecurity t).state = t.clientConsumed 2) := by
  have s1 := cRecvRaw_of t 2 [major, minor] rest hwf hp rfl
  by_cases hv : major = 0 ∧ minor = 2
  · refine ⟨?_, fun h => absurd hv h⟩
    obtain ⟨rfl, rfl⟩ := hv
    unfold handleVeNCryptSecurity
    simp only [bind_run, cSendRaw_run, s1, Outcome.after]
    exact ⟨_, rfl⟩
  · have hs : (if major.val ≠ 0 ∨ minor.val ≠ 2 then 1 else 0) = 1 := by
      have : major.val ≠ 0 ∨ minor.val ≠ 2 := by
        by_contra hc
        apply hv
        have h0 : major.val = 0 := by omega
        have h2 : minor.val = 2 := by omega
        exact ⟨Fin.ext h0, Fin.ext h2⟩
      rw [if_pos this]
    have e : handleVeNCryptSecurity t
        = { result := .error Err.unsupportedVeNCryptVersion, state := t.clientConsumed 2
            trace := [.client (.raw [0, 2]), .client (.raw [1])] } := by
      unfold handleVeNCryptSecurity
      simp only [bind_run, cSendRaw_run, s1, Outcome.after, List.getD_cons_zero,
        List.getD_cons_succ, hs]
      rfl
    rw [e]
    refine ⟨⟨[], ?_⟩, fun _ => ⟨rfl, rfl, rfl⟩⟩
    rw [if_neg hv]

/-- Witness for C28: a client answering with the version 1.0. -/
theorem handleVeNCryptSecurity_version_witness :
    (handleVeNCryptSecurity (sampleTunnel [1, 0, 9] [])).result
        = .error Err.unsupportedVeNCryptVersion
    ∧ (handleVeNCryptSecurity (sampleTunnel [1, 0, 9] [])).trace
        = [.client (.raw [0, 2]), .client (.raw [1])] :=
  have h := (handleVeNCryptSecurity_version (sampleTunnel [1, 0, 9] []) 1 0 [9] (by decide) rfl).2
    (by decide)
  ⟨h.1, h.2.1⟩

theorem Outcome.after_eta {α : Type} (o : Outcome α) (tr : List Event) :
    ({ result := o.result, state := o.state, trace := tr ++ o.trace } : Outcome α) = o.after tr :=
  rfl

/-- C15: after the version strings and the offered list, a chosen security type that is not in
the offered list makes `clientInitalize` write SecurityResult::Failed (00 00 00 01), the length
36 and the reason text, and raise the error, with the ClientInit byte still unread and nothing
else written; a chosen type that is in the list is handed to the `switch` over the None and
VeNCrypt handlers. -/
theorem clientInitalize_chosenSecurityType (t : VncTunnel) (c : Byte) (rest : List Byte)
    (offered : List Nat) (hwf : t.buffersOk)
    (hp : t.clientPending = HighestVersionString ++ c :: rest)
    (ho : t.configuredSecurityTypes = .ok offered) :
    (c.val ∉ offered →
      (clientInitalize t).result = .error Err.invalidSecurityType
      ∧ (clientInitalize t).trace =
          [.client (.raw HighestVersionString), .client (.raw [Byte.ofNat offered.length]),
           .client (.raw (offered.map Byte.ofNat)), .client (.raw [0, 0, 0, 1]),
           .client (.raw [0, 0, 0, 36]), .client (.raw securityTypeReason)]
      ∧ (clientInitalize t).state = t.clientConsumed 13
      ∧ (clientInitalize t).state.clientPending = rest)
    ∧ (c.val ∈ offered →
      clientInitalize t = (dispatchSecurityType c.val (t.clientConsumed 13)).after
        [.client (.raw HighestVersionString), .client (.raw [Byte.ofNat offered.length]),
         .client (.raw (offered.map Byte.ofNat))]) := by
  have s1 := cRecvRaw_of t 12 HighestVersionString (c :: rest) hwf hp rfl
  have hwf1 := VncTunnel.clientConsumed_buffersOk t 12 hwf
  have hp1 : (t.clientConsumed 12).clientPending = [c] ++ rest :=
    VncTunnel.clientConsumed_pending_of t HighestVersionString (c :: rest) hp
  have s2 := cRecvRaw_of (t.clientConsumed 12) 1 [c] rest hwf1 hp1 rfl
  have ho1 : (t.clientConsumed 12).configuredSecurityTypes = .ok offered := ho
  rw [VncTunnel.clientConsumed_clientConsumed] at s2
  have hrest : (t.clientConsumed 13).clientPending = rest := by
    have := VncTunnel.clientConsumed_pending_of t (HighestVersionString ++ [c]) rest
      (by rw [hp]; simp)
    exact this
  have hf : toBe32 SecurityResult.Failed = [0, 0, 0, 1] := by decide
  have hl : toBe32 (wrapUInt32 securityTypeReason.length) = [0, 0, 0, 36] := by decide
  constructor
  · intro hc
    have e : clientInitalize t
        = { result := .error Err.invalidSecurityType, state := t.clientConsumed 13
            trace := [.client (.raw HighestVersionString),
              .client (.raw [Byte.ofNat offered.length]),
              .client (.raw (offered.map Byte.ofNat)), .client (.raw [0, 0, 0, 1]),
              .client (.raw [0, 0, 0, 36]), .client (.raw securityTypeReason)] } := by
      unfold clientInitalize
      simp only [bind_run, cSendRaw_run, s1, Outcome.after, getTunnel_run, ho1, pure_run, s2,
        ne_eq, not_true_eq_false, if_false, List.getD_cons_zero, List.nil_append, hc,
        not_false_eq_true, if_true, sendReason, raise_run, hf, hl]
      rfl
    rw [e]
    exact ⟨rfl, rfl, rfl, hrest⟩
  · intro hc
    have hc2 : ¬ (c.val ∉ offered) := fun h => h hc
    unfold clientInitalize
    simp only [bind_run, cSendRaw_run, s1, Outcome.after, getTunnel_run, ho1, pure_run, s2,
      ne_eq, not_true_eq_false, if_false, List.getD_cons_zero, List.nil_append, hc2]
    rfl

/-- Witness for C15: security is configured as None only and the client chooses type 2. -/
theorem clientInitalize_chosenSecurityType_witness :
    (clientInitalize (sampleTunnel (HighestVersionString ++ [2, 1]) [])).result
      = .error Err.invalidSecurityType
    ∧ clientBytes (clientInitalize (sampleTunnel (HighestVersionString ++ [2, 1]) [])).trace
      = HighestVersionString ++ [1, 1, 0, 0, 0, 1, 0, 0, 0, 36] ++ securityTypeReason
    ∧ (clientInitalize (sampleTunnel (HighestVersionString ++ [2, 1]) [])).state.clientPending
      = [1] := by
  have h := (clientInitalize_chosenSecurityType (sampleTunnel (HighestVersionString ++ [2, 1]) [])
    2 [1] [1] (by decide) (by decide) rfl).1 (by decide)
  refine ⟨h.1, ?_, h.2.2.2⟩
  rw [h.2.1]
  decide

theorem clientInitalize_offered (t : VncTunnel) (c : Byte) (rest : List Byte)
    (offered : List Nat) (hwf : t.buffersOk)
    (hp : t.clientPending = HighestVersionString ++ c :: rest)
    (ho : t.configuredSecurityTypes = .ok offered) (hc : c.val ∈ offered) :
    clientInitalize t = (dispatchSecurityType c.val (t.clientConsumed 13)).after
      [.client (.raw HighestVersionString), .client (.raw [Byte.ofNat offered.length]),
       .client (.raw (offered.map Byte.ofNat))] := by
  have s1 := cRecvRaw_of t 12 HighestVersionString (c :: rest) hwf hp rfl
  have hwf1 := VncTunnel.clientConsumed_buffersOk t 12 hwf
  have hp1 : (t.clientConsumed 12).clientPending = [c] ++ rest :=
    VncTunnel.clientConsumed_pending_of t HighestVersionString (c :: rest) hp
  have s2 := cRecvRaw_of (t.clientConsumed 12) 1 [c] rest hwf1 hp1 rfl
  have ho1 : (t.clientConsumed 12).configuredSecurityTypes = .ok offered := ho
  rw [VncTunnel.clientConsumed_clientConsumed] at s2
  have hc2 : ¬ (c.val ∉ offered) := fun h => h hc
  unfold clientInitalize
  simp only [bind_run, cSendRaw_run, s1, Outcome.after, getTunnel_run, ho1, pure_run, s2,
    ne_eq, not_true_eq_false, if_false, List.getD_cons_zero, List.nil_append, hc2]
  rfl

/-- The bytes of the ServerInit message and the desktop name that `finishClientInitialization`
writes for a tunnel. -/
theorem finishClientInitialization_run (t : VncTunnel) (shared : Byte) (rest : List Byte)
    (hwf : t.buffersOk) (hp : t.clientPending = shared :: rest) :
    finishClientInitialization t =
      { result := .ok (), state := t.clientConsumed 1
        trace := [.client (.raw (ServerInitMessage.send t.hostBigEndian
                    { framebufferWidth := t.m_currentConnection.m_framebufferWidth
                      framebufferHeight := t.m_currentConnection.m_framebufferHeight
                      serverPixelFormat := t.m_currentConnection.m_pixelFormat
                      nameLength := wrapUInt32 t.desktopName.length })),
                  .client (.raw t.desktopName)] } := by
  have s1 := cRecvRaw_of t 1 [shared] rest hwf hp rfl
  unfold finishClientInitialization
  simp only [bind_run, s1, Outcome.after, getTunnel_run, cSendRaw_run]
  rfl

theorem finishClientInitialization_eof (t : VncTunnel) (hwf : t.buffersOk)
    (hp : t.clientPending = []) :
    (finishClientInitialization t).result = .error Err.eof
    ∧ (finishClientInitialization t).trace = [] := by
  have s1 := cRecvRaw_short t 1 hwf (by rw [hp]; decide)
  unfold finishClientInitialization
  rw [bind_run, s1.1]
  exact ⟨rfl, s1.2⟩

/-- C14: with security configured as None only, a client that echoes the version string,
chooses security type 1 and sends a ClientInit byte receives exactly: the version string, the
count 01, the type 01, SecurityResult OK as 00 00 00 00, and the ServerInit message with the
framebuffer width and height and the pixel format of the back-end connection (laid out by
`send`, see `PixelFormat.hton`), the length of the desktop name as a big-endian 32-bit number,
and the desktop name. If the client sends no ClientInit byte the tunnel has written nothing
after SecurityResult OK and fails with end of file: no byte of ServerInit precedes the read. -/
theorem clientInitalize_none (t : VncTunnel) (hwf : t.buffersOk)
    (hs : t.options.security = [VeNCryptSubtype.None]) :
    (∀ (shared : Byte) (rest : List Byte),
      t.clientPending = HighestVersionString ++ [1, shared] ++ rest →
      (clientInitalize t).result = .ok ()
      ∧ clientBytes (clientInitalize t).trace =
          HighestVersionString ++ [1] ++ [1] ++ [0, 0, 0, 0]
            ++ (toBe16 t.m_currentConnection.m_framebufferWidth
                ++ toBe16 t.m_currentConnection.m_framebufferHeight
                ++ PixelFormat.store t.hostBigEndian
                    (PixelFormat.hton t.hostBigEndian t.m_currentConnection.m_pixelFormat)
                ++ toBe32 (wrapUInt32 t.desktopName.length))
            ++ t.desktopName
      ∧ serverBytes (clientInitalize t).trace = []
      ∧ (clientInitalize t).state.clientPending = rest
      ∧ (clientInitalize t).state.m_securityType = SecurityType.None)
    ∧ (t.clientPending = HighestVersionString ++ [1] →
      (clientInitalize t).result = .error Err.eof
      ∧ clientBytes (clientInitalize t).trace
          = HighestVersionString ++ [1] ++ [1] ++ [0, 0, 0, 0]) := by
  have ho : t.configuredSecurityTypes = .ok [SecurityType.None] := by
    unfold VncTunnel.configuredSecurityTypes
    rw [hs]
    rfl
  have hok : toBe32 SecurityResult.OK = [0, 0, 0, 0] := by decide
  constructor
  · intro shared rest hp
    have hp0 : t.clientPending = HighestVersionString ++ 1 :: (shared :: rest) := by
      rw [hp]; simp
    have e : clientInitalize t = (dispatchSecurityType SecurityType.None (t.clientConsumed 13)).after
        [.client (.raw HighestVersionString), .client (.raw [Byte.ofNat [SecurityType.None].length]),
         .client (.raw ([SecurityType.None].map Byte.ofNat))] :=
      clientInitalize_offered t 1 (shared :: rest) _ hwf hp0 ho (by decide)
    have hwf1 := VncTunnel.clientConsumed_buffersOk t 13 hwf
    have hp1 : (t.clientConsumed 13).clientPending = shared :: rest := by
      have := VncTunnel.clientConsumed_pending_of t (HighestVersionString ++ [1]) (shared :: rest)
        (by rw [hp]; simp)
      exact this
    have f := finishClientInitialization_run (t.clientConsumed 13) shared rest hwf1 hp1
    have hrest : (t.clientConsumed 14).clientPending = rest := by
      have := VncTunnel.clientConsumed_pending_of t (HighestVersionString ++ [1, shared]) rest hp
      exact this
    have d : dispatchSecurityType SecurityType.None (t.clientConsumed 13)
        = { result := .ok ()
            state := { t.clientConsumed 14 with m_securityType := SecurityType.None }
            trace := [.client (.raw [0, 0, 0, 0]),
              .client (.raw (ServerInitMessage.send t.hostBigEndian
                { framebufferWidth := t.m_currentConnection.m_framebufferWidth
                  framebufferHeight := t.m_currentConnection.m_framebufferHeight
                  serverPixelFormat := t.m_currentConnection.m_pixelFormat
                  nameLength := wrapUInt32 t.desktopName.length })),
              .client (.raw t.desktopName)] } := by
      unfold dispatchSecurityType handleNoneSecurity
      simp only [if_true, bind_run, cSendRaw_run, f, Outcome.after, hok, modifyTunnel_run,
        VncTunnel.clientConsumed_clientConsumed]
      rfl
    rw [e, d]
    refine ⟨rfl, ?_, rfl, hrest, rfl⟩
    have hb : Byte.ofNat [SecurityType.None].length = 1 := rfl
    have hm : [SecurityType.None].map Byte.ofNat = [1] := rfl
    have h1 : Byte.ofNat 1 = 1 := rfl
    simp [clientBytes, ClientWrite.bytes, ServerInitMessage.send, hb, hm, h1]
  · intro hp
    have hp0 : t.clientPending = HighestVersionString ++ 1 :: [] := hp
    have e : clientInitalize t = (dispatchSecurityType SecurityType.None (t.clientConsumed 13)).after
        [.client (.raw HighestVersionString), .client (.raw [Byte.ofNat [SecurityType.None].length]),
         .client (.raw ([SecurityType.None].map Byte.ofNat))] :=
      clientInitalize_offered t 1 [] _ hwf hp0 ho (by decide)
    have hwf1 := VncTunnel.clientConsumed_buffersOk t 13 hwf
    have hp1 : (t.clientConsumed 13).clientPending = [] := by
      have := VncTunnel.clientConsumed_pending_of t (HighestVersionString ++ [1]) []
        (by rw [hp]; simp)
      exact this
    obtain ⟨f1, f2⟩ := finishClientInitialization_eof (t.clientConsumed 13) hwf1 hp1
    have d : (dispatchSecurityType SecurityType.None (t.clientConsumed 13)).result = .error Err.eof
        ∧ (dispatchSecurityType SecurityType.None (t.clientConsumed 13)).trace
            = [.client (.raw [0, 0, 0, 0])] := by
      unfold dispatchSecurityType handleNoneSecurity
      simp only [if_true, bind_run, cSendRaw_run, Outcome.after, hok, f1, f2]
      exact ⟨trivial, rfl⟩
    rw [e]
    refine ⟨d.1, ?_⟩
    rw [after_trace, d.2]
    have hb : Byte.ofNat [SecurityType.None].length = 1 := rfl
    have hm : [SecurityType.None].map Byte.ofNat = [1] := rfl
    have h1 : Byte.ofNat 1 = 1 := rfl
    simp [clientBytes, ClientWrite.bytes, hb, hm, h1]

/-- Witness for C14: the sample tunnel (800 by 600, 32 bits per pixel, desktop name `xvnc`). -/
theorem clientInitalize_none_witness :
    clientBytes (clientInitalize (sampleTunnel (HighestVersionString ++ [1, 1]) [])).trace
      = HighestVersionString ++ [1] ++ [1] ++ [0, 0, 0, 0]
        ++ [3, 32, 2, 88, 32, 24, 0, 1, 255, 0, 255, 0, 255, 0, 16, 8, 0, 0, 0, 0, 0, 0, 0, 4]
        ++ [120, 118, 110, 99] := by
  have h := ((clientInitalize_none (sampleTunnel (HighestVersionString ++ [1, 1]) [])
    (by decide) rfl).1 1 [] (by decide)).2.1
  rw [h]
  decide

/-! ## The start of a tunnel -/

/-- Counterexample to C23 as stated: with the manager disabled `start` calls
`createSession(true)`, so Xvnc is started with `-query`: the session is an XDMCP session. -/
theorem startDecision_disabledManager_queries :
    (startDecision { security := [1], disableManager := true, alwaysShowGreeter := false }
        emptyManager).queryDisplayManager = true
    ∧ (Xvnc.executeModeArguments
        (startDecision { security := [1], disableManager := true, alwaysShowGreeter := false }
          emptyManager).queryDisplayManager "localhost" "").head? = some "-query" := by
  decide

/-- C23, as the code has it: if the manager is disabled, or if there is no visible session
and always-show-greeter is off, `start` creates an XDMCP session (`queryDisplayManager = true`,
Xvnc started with `-query`) with no greeter and leaves Tight enabled; otherwise it creates a
local session (`queryDisplayManager = false`, Xvnc started with `-auth`), spawns a greeter for
it and marks Tight disabled. Tight is disabled exactly when the greeter is spawned. -/
theorem startDecision_cases (options : Configuration) (m : XvncManager) :
    (options.disableManager = true →
        (startDecision options m).queryDisplayManager = true
        ∧ (startDecision options m).createGreeter = false
        ∧ (startDecision options m).m_tightEncodingDisabled = false)
    ∧ (options.disableManager = false → m.hasVisibleSessions = false →
        options.alwaysShowGreeter = false →
        (startDecision options m).queryDisplayManager = true
        ∧ (startDecision options m).createGreeter = false
        ∧ (startDecision options m).m_tightEncodingDisabled = false)
    ∧ (options.disableManager = false →
        (m.hasVisibleSessions = true ∨ options.alwaysShowGreeter = true) →
        (startDecision options m).queryDisplayManager = false
        ∧ (startDecision options m).createGreeter = true
        ∧ (startDecision options m).m_tightEncodingDisabled = true)
    ∧ ((startDecision options m).m_tightEncodingDisabled
        = (startDecision options m).createGreeter)
    ∧ (∀ query xauthFilename : String,
        ((Xvnc.executeModeArguments (startDecision options m).queryDisplayManager
            query xauthFilename).head? = some "-query"
          ↔ (startDecision options m).createGreeter = false)) := by
  unfold startDecision
  refine ⟨?_, ?_, ?_, ?_, ?_⟩
  · intro h; simp [h]
  · intro h1 h2 h3; simp [h1, h2, h3]
  · intro h1 h2
    rcases h2 with h2 | h2 <;> simp [h1, h2]
  · cases options.disableManager <;> cases options.alwaysShowGreeter <;>
      cases m.hasVisibleSessions <;> rfl
  · intro q x
    cases options.disableManager <;> cases options.alwaysShowGreeter <;>
      cases m.hasVisibleSessions <;> simp [Xvnc.executeModeArguments]

/-- Witness for C23: with the manager enabled and a visible session the greeter is shown. -/
theorem startDecision_cases_witness :
    (startDecision { security := [1], disableManager := false, alwaysShowGreeter := false }
        { sampleManager with m_xvncs := [{ sampleXvnc with m_visible := true }] }).queryDisplayManager
      = false
    ∧ (startDecision { security := [1], disableManager := false, alwaysShowGreeter := false }
        { sampleManager with m_xvncs := [{ sampleXvnc with m_visible := true }] }).createGreeter
      = true :=
  have h := (startDecision_cases
    { security := [1], disableManager := false, alwaysShowGreeter := false }
    { sampleManager with m_xvncs := [{ sampleXvnc with m_visible := true }] }).2.2.1
    rfl (Or.inl rfl)
  ⟨h.1, h.2.1⟩

/-! ## The greeter -/

theorem GreeterConnection.sessionsText_ne_nil (m : XvncManager) :
    GreeterConnection.sessionsText m ≠ [] := by
  have h : ascii "SESSIONS\n" = 83 :: ascii "ESSIONS\n" := by decide
  unfold GreeterConnection.sessionsText
  simp only [h, List.cons_append]
  exact List.cons_ne_nil _ _

theorem GreeterConnection.update_eq (g : GreeterConnection) (m : XvncManager) :
    g.update m =
      if g.m_dead = true then .error Err.greeterDied
      else if g.m_lastSentSessionListVersion < m.sessionListVersion then
        .ok { g with m_lastSentSessionListVersion := m.sessionListVersion
                     m_out := g.m_out ++ GreeterConnection.sessionsText m }
      else .ok g := by
  unfold GreeterConnection.update GreeterConnection.sendSessions
  rfl

/-- C21: `update` throws iff the greeter is dead; otherwise it writes the session list iff
the registry's list version is greater than `m_lastSentSessionListVersion`, and then stores
that version; otherwise it changes nothing. Hence after an `update` the greeter writes nothing
in any later `update` as long as the version is not greater than the one it stored, and of two
consecutive calls without a change of the registry the second writes nothing. -/
theorem GreeterConnection.update_transmits_iff (g : GreeterConnection) (m : XvncManager) :
    (g.update m = .error Err.greeterDied ↔ g.m_dead = true)
    ∧ ((∃ g2, g.update m = .ok g2 ∧ g2.m_out = g.m_out ++ GreeterConnection.sessionsText m)
        ↔ (g.m_dead = false ∧ g.m_lastSentSessionListVersion < m.sessionListVersion))
    ∧ (g.m_dead = false → g.m_lastSentSessionListVersion < m.sessionListVersion →
        g.update m = .ok { g with m_lastSentSessionListVersion := m.sessionListVersion
                                  m_out := g.m_out ++ GreeterConnection.sessionsText m })
    ∧ (g.m_dead = false → ¬ g.m_lastSentSessionListVersion < m.sessionListVersion →
        g.update m = .ok g)
    ∧ (∀ g2, g.update m = .ok g2 →
        m.sessionListVersion ≤ g2.m_lastSentSessionListVersion
        ∧ ∀ m2 : XvncManager, m2.sessionListVersion ≤ g2.m_lastSentSessionListVersion →
            g2.update m2 = .ok g2) := by
  have hne := GreeterConnection.sessionsText_ne_nil m
  rw [GreeterConnection.update_eq]
  refine ⟨?_, ?_, ?_, ?_, ?_⟩
  · cases g.m_dead
    · simp only [Bool.false_eq_true, if_false, iff_false]
      split <;> simp
    · simp
  · constructor
    · rintro ⟨g2, h1, h2⟩
      cases hd : g.m_dead
      · rw [hd] at h1
        simp only [Bool.false_eq_true, if_false] at h1
        refine ⟨rfl, ?_⟩
        by_contra hlt
        rw [if_neg hlt] at h1
        cases h1
        exact hne (List.append_right_eq_self.1 h2.symm)
      · rw [hd] at h1
        simp at h1
    · rintro ⟨hd, hlt⟩
      rw [hd]
      simp only [Bool.false_eq_true, if_false, if_pos hlt]
      exact ⟨_, rfl, rfl⟩
  · intro hd hlt
    rw [hd]
    simp only [Bool.false_eq_true, if_false, if_pos hlt]
  · intro hd hlt
    rw [hd]
    simp only [Bool.false_eq_true, if_false, if_neg hlt]
  · intro g2 h
    cases hd : g.m_dead
    · rw [hd] at h
      simp only [Bool.false_eq_true, if_false] at h
      by_cases hlt : g.m_lastSentSessionListVersion < m.sessionListVersion
      · rw [if_pos hlt] at h
        cases h
        refine ⟨le_refl _, ?_⟩
        intro m2 h2
        have h2b : m2.sessionListVersion ≤ m.sessionListVersion := h2
        rw [GreeterConnection.update_eq]
        simp only [hd, Bool.false_eq_true, if_false]
        rw [if_neg (by omega)]
      · rw [if_neg hlt] at h
        cases h
        refine ⟨by omega, ?_⟩
        intro m2 h2
        rw [GreeterConnection.update_eq]
        simp only [hd, Bool.false_eq_true, if_false]
        rw [if_neg (by omega)]
    · rw [hd] at h
      simp at h

/-- Witness for C21: a fresh greeter and a registry at version 1. -/
theorem GreeterConnection.update_transmits_iff_witness :
    (sampleGreeter []).update sampleManagerTwoLineName
      = .ok { sampleGreeter [] with
                m_lastSentSessionListVersion := 1
                m_out := [] ++ GreeterConnection.sessionsText sampleManagerTwoLineName } :=
  (GreeterConnection.update_transmits_iff (sampleGreeter []) sampleManagerTwoLineName).2.2.1
    rfl (by decide)

theorem decimalDigitsAux_mem (fuel n : Nat) (acc : List Byte) :
    ∀ b ∈ decimalDigitsAux fuel n acc, b ∈ acc ∨ (48 ≤ b.val ∧ b.val ≤ 57) := by
  induction fuel generalizing n acc with
  | zero => intro b hb; exact Or.inl hb
  | succ fuel ih =>
    intro b hb
    have hd : ∀ k : Nat, 48 ≤ (Byte.ofNat (48 + k % 10)).val ∧ (Byte.ofNat (48 + k % 10)).val ≤ 57 := by
      intro k
      simp only [Byte.ofNat]
      omega
    unfold decimalDigitsAux at hb
    split at hb
    · rcases List.mem_cons.1 hb with h | h
      · exact Or.inr (h ▸ hd n)
      · exact Or.inl h
    · rcases ih _ _ b hb with h | h
      · rcases List.mem_cons.1 h with h | h
        · exact Or.inr (h ▸ hd n)
        · exact Or.inl h
      · exact Or.inr h

theorem decimal_not_mem_newline (i : Int) : (10 : Byte) ∉ decimal i := by
  have hd : ∀ n : Nat, (10 : Byte) ∉ decimalDigits n := by
    intro n h
    rcases decimalDigitsAux_mem _ _ _ _ h with h | h
    · cases h
    · have : ((10 : Byte)).val = 10 := rfl
      omega
  unfold decimal
  split
  · intro h
    rcases List.mem_cons.1 h with h | h
    · exact absurd h (by decide)
    · exact hd _ h
  · exact hd _

theorem GreeterConnection.sessionLines_eq (xs : List Xvnc) :
    GreeterConnection.sessionLines xs
      = ((xs.filter fun x => x.m_visible).map sessionLine).flatten := by
  induction xs with
  | nil => rfl
  | cons x xs ih =>
    unfold GreeterConnection.sessionLines
    cases hv : x.m_visible
    · simp [List.filter_cons, hv, ih]
    · simp [List.filter_cons, hv, ih, sessionLine]

theorem sessionLine_newline (x : Xvnc) (h1 : (10 : Byte) ∉ x.m_sessionUsername)
    (h2 : (10 : Byte) ∉ x.m_desktopName) :
    (sessionLine x).count 10 = 1 ∧ (sessionLine x).getLast? = some 10 := by
  have hs : ascii " " = [32] := by decide
  have hn : ascii "\n" = [10] := by decide
  unfold sessionLine
  rw [hs, hn]
  constructor
  · simp only [List.count_append, List.count_eq_zero_of_not_mem (decimal_not_mem_newline _),
      List.count_eq_zero_of_not_mem h1, List.count_eq_zero_of_not_mem h2]
    decide
  · exact List.getLast?_concat _

theorem count_flatten_of_one (ls : List (List Byte)) (h : ∀ l ∈ ls, l.count 10 = 1) :
    ls.flatten.count 10 = ls.length := by
  induction ls with
  | nil => rfl
  | cons l ls ih =>
    rw [List.flatten_cons, List.count_append, h l (List.mem_cons_self _ _),
      ih (fun k hk => h k (List.mem_cons_of_mem _ hk)), List.length_cons]
    omega

/-- Counterexample to C22 as stated: one visible session whose desktop name is `a`, line feed,
`b`: the count is 1 and the text after it holds two line feeds, so it splits into two lines. -/
theorem GreeterConnection.sessionsText_twoLineName :
    GreeterConnection.sessionsText sampleManagerTwoLineName = ascii "SESSIONS\n1\n0  a\nb\n"
    ∧ (sampleManagerTwoLineName.m_xvncs.countP fun x => x.m_visible) = 1
    ∧ (GreeterConnection.sessionLines sampleManagerTwoLineName.m_xvncs).count 10 = 2 := by
  decide

/-- C22, as the code has it: `sendSessions` writes `SESSIONS`, a line feed, the decimal number
`c` of visible sessions (fewer than `2^31`, the range of the `int` that holds it), a line feed,
and then one text per visible session, in the order of the map (ascending ids), made of the id,
a space, the user name, a space, the desktop name and a line feed; sessions that are not
visible contribute nothing. All this holds whatever the names are. When no user name and no
desktop name of a visible session contains a line feed, each of these texts is one line and the
text after the count splits into exactly `c` lines. -/
theorem GreeterConnection.sessionsText_lines (m : XvncManager)
    (hc : (m.m_xvncs.countP (fun x => x.m_visible)) < 2147483648) :
    GreeterConnection.sessionsText m
      = ascii "SESSIONS\n" ++ decimal (m.m_xvncs.countP (fun x => x.m_visible)) ++ ascii "\n"
        ++ ((m.m_xvncs.filter (fun x => x.m_visible)).map sessionLine).flatten
    ∧ ((m.m_xvncs.filter (fun x => x.m_visible)).map sessionLine).length
        = m.m_xvncs.countP (fun x => x.m_visible)
    ∧ (∀ x, sessionLine x = decimal x.m_id ++ ascii " " ++ x.m_sessionUsername ++ ascii " "
        ++ x.m_desktopName ++ ascii "\n")
    ∧ ((m.m_xvncs.map fun x => x.m_id).Pairwise (· < ·) →
        ((m.m_xvncs.filter (fun x => x.m_visible)).map fun x => x.m_id).Pairwise (· < ·))
    ∧ ((∀ x ∈ m.m_xvncs, x.m_visible = true →
          (10 : Byte) ∉ x.m_sessionUsername ∧ (10 : Byte) ∉ x.m_desktopName) →
        (∀ l ∈ (m.m_xvncs.filter (fun x => x.m_visible)).map sessionLine,
          l.count 10 = 1 ∧ l.getLast? = some 10)
        ∧ ((m.m_xvncs.filter (fun x => x.m_visible)).map sessionLine).flatten.count 10
          = m.m_xvncs.countP (fun x => x.m_visible)) := by
  have hl : ((m.m_xvncs.filter (fun x => x.m_visible)).map sessionLine).length
      = m.m_xvncs.countP (fun x => x.m_visible) := by
    rw [List.length_map, List.countP_eq_length_filter]
  refine ⟨?_, hl, fun _ => rfl, ?_, ?_⟩
  · unfold GreeterConnection.sessionsText
    simp only [wrapInt32_of_lt _ hc, GreeterConnection.sessionLines_eq]
  · intro hp
    exact hp.sublist ((List.filter_sublist _).map _)
  · intro hn
    have hline : ∀ l ∈ (m.m_xvncs.filter (fun x => x.m_visible)).map sessionLine,
        l.count 10 = 1 ∧ l.getLast? = some 10 := by
      intro l hl
      obtain ⟨x, hx, rfl⟩ := List.mem_map.1 hl
      obtain ⟨hxm, hxv⟩ := List.mem_filter.1 hx
      obtain ⟨h1, h2⟩ := hn x hxm hxv
      exact sessionLine_newline x h1 h2
    exact ⟨hline, by rw [count_flatten_of_one _ (fun l h => (hline l h).1), hl]⟩

/-- Witness for C22: the registry with the sample session made visible: the text has the format
stated, and as the names of the session hold no line feed, the text after the count holds one
line feed. -/
theorem GreeterConnection.sessionsText_lines_witness :
    ([{ sampleXvnc with m_visible := true }].countP (fun x => x.m_visible)) < 2147483648
    ∧ GreeterConnection.sessionsText
        { sampleManager with m_xvncs := [{ sampleXvnc with m_visible := true }] }
      = ascii "SESSIONS\n" ++ decimal (1 : Nat) ++ ascii "\n"
        ++ ([{ sampleXvnc with m_visible := true }].map sessionLine).flatten
    ∧ ([{ sampleXvnc with m_visible := true }].map sessionLine).flatten.count 10 = 1 :=
  ⟨by decide,
   (GreeterConnection.sessionsText_lines
    { sampleManager with m_xvncs := [{ sampleXvnc with m_visible := true }] }
    (by decide)).1,
   ((GreeterConnection.sessionsText_lines
    { sampleManager with m_xvncs := [{ sampleXvnc with m_visible := true }] }
    (by decide)).2.2.2.2 (by decide)).2⟩

theorem dropWhile_append_stop {p : Byte → Bool} (xs ys : List Byte) (hx : ∀ x ∈ xs, p x = true)
    (hy : ∀ b r, ys = b :: r → p b = false) : (xs ++ ys).dropWhile p = ys := by
  induction xs with
  | nil =>
    cases ys with
    | nil => rfl
    | cons b r => simp [List.dropWhile_cons, hy b r rfl]
  | cons x xs ih =>
    simp only [List.cons_append, List.dropWhile_cons, hx x (List.mem_cons_self _ _), if_true]
    exact ih (fun z hz => hx z (List.mem_cons_of_mem _ hz))

theorem takeWhile_append_stop {p : Byte → Bool} (xs ys : List Byte) (hx : ∀ x ∈ xs, p x = true)
    (hy : ∀ b r, ys = b :: r → p b = false) : (xs ++ ys).takeWhile p = xs := by
  induction xs with
  | nil =>
    cases ys with
    | nil => rfl
    | cons b r => simp [List.takeWhile_cons, hy b r rfl]
  | cons x xs ih =>
    simp only [List.cons_append, List.takeWhile_cons, hx x (List.mem_cons_self _ _), if_true]
    rw [ih (fun z hz => hx z (List.mem_cons_of_mem _ hz))]

/-- The token read by `operator>>` from a good stream whose input is white space, then a
token, then either nothing or white space. -/
theorem IStream.extractString_token (s : IStream) (str ws tok rest : List Byte)
    (hg : s.good = true) (hi : s.input = ws ++ tok ++ rest)
    (hws : ∀ b ∈ ws, isSpace b = true) (htok : ∀ b ∈ tok, isSpace b = false) (hne : tok ≠ [])
    (hrest : ∀ b r, rest = b :: r → isSpace b = true) :
    s.extractString str = (tok, { s with input := rest, eofbit := rest.isEmpty }) := by
  obtain ⟨t0, tr, rfl⟩ : ∃ t0 tr, tok = t0 :: tr := by
    cases tok with
    | nil => exact absurd rfl hne
    | cons a b => exact ⟨a, b, rfl⟩
  have h1 : s.input.dropWhile isSpace = (t0 :: tr) ++ rest := by
    rw [hi, List.append_assoc]
    apply dropWhile_append_stop _ _ hws
    intro b r hb
    simp only [List.cons_append, List.cons.injEq] at hb
    rw [← hb.1]
    exact htok t0 (List.mem_cons_self _ _)
  have h2 : ((t0 :: tr) ++ rest).takeWhile (fun b => !isSpace b) = t0 :: tr := by
    apply takeWhile_append_stop
    · intro x hx; simp [htok x hx]
    · intro b r hb; simp [hrest b r hb]
  have h3 : ((t0 :: tr) ++ rest).dropWhile (fun b => !isSpace b) = rest := by
    apply dropWhile_append_stop
    · intro x hx; simp [htok x hx]
    · intro b r hb; simp [hrest b r hb]
  have hs : s.sentry = (true, { s with input := (t0 :: tr) ++ rest }) := by
    unfold IStream.sentry
    rw [hg, h1]
    rfl
  unfold IStream.extractString
  rw [hs]
  simp only [Bool.not_true, Bool.false_eq_true, if_false, h2, h3]

/-- Counterexample to C27 as stated: for the line `FOO NEW` the first call of `receive` reads
the token `FOO`, invokes nothing and leaves the rest of the line in the stream; the next call
reads the token `NEW` of the same line and invokes the new-session handler. -/
theorem GreeterConnection.receive_unknown_then_new :
    ((sampleGreeter (ascii "FOO NEW\n")).receive 0).2 = none
    ∧ ((sampleGreeter (ascii "FOO NEW\n")).receive 0).1.m_in.input = ascii " NEW\n"
    ∧ (((sampleGreeter (ascii "FOO NEW\n")).receive 0).1.receive 0).2 = some .newSession := by
  decide

/-- C27, as the code has it: `receive` reads tokens delimited by white space, not lines. A
token that is none of NEW, OPEN, PASSWORD and CREDENTIALS where a command is expected invokes
no handler and only that token (with the white space before it) is consumed; what follows it,
on the same line or the next, is read by the next call. -/
theorem GreeterConnection.receive_unknown_token (g : GreeterConnection) (id : Int)
    (ws tok rest : List Byte)
    (hg : g.m_in.good = true) (hi : g.m_in.input = ws ++ tok ++ rest)
    (hws : ws.all isSpace = true) (htok : tok.all (fun b => !isSpace b) = true)
    (hne : tok ≠ []) (hrest : (rest.take 1).all isSpace = true)
    (hu : tok ∉ greeterCommands) :
    (g.receive id).2 = none
    ∧ (g.receive id).1 = { g with m_in := { g.m_in with input := rest, eofbit := rest.isEmpty } } := by
  have hws2 : ∀ b ∈ ws, isSpace b = true := fun b hb => List.all_eq_true.1 hws b hb
  have htok2 : ∀ b ∈ tok, isSpace b = false := by
    intro b hb
    have := List.all_eq_true.1 htok b hb
    simpa using this
  have hrest2 : ∀ b r, rest = b :: r → isSpace b = true := by
    intro b r hb
    subst hb
    simpa using hrest
  have he := IStream.extractString_token g.m_in [] ws tok rest hg hi hws2 htok2 hne hrest2
  simp only [greeterCommands, List.mem_cons, List.mem_singleton, List.mem_nil_iff, or_false,
    not_or] at hu
  obtain ⟨h1, h2, h3, h4⟩ := hu
  unfold GreeterConnection.receive
  simp only [he, h1, h2, h3, h4, if_false]
  exact ⟨trivial, trivial⟩

/-- Witness for C27: the token `FOO` followed by a space and more text. -/
theorem GreeterConnection.receive_unknown_token_witness :
    ((sampleGreeter (ascii "FOO NEW\n")).receive 0).2 = none
    ∧ ((sampleGreeter (ascii "FOO NEW\n")).receive 0).1
        = { sampleGreeter (ascii "FOO NEW\n") with
            m_in := { (sampleGreeter (ascii "FOO NEW\n")).m_in with
                      input := ascii " NEW\n", eofbit := (ascii " NEW\n").isEmpty } } :=
  GreeterConnection.receive_unknown_token (sampleGreeter (ascii "FOO NEW\n")) 0 [] (ascii "FOO")
    (ascii " NEW\n") rfl (by decide) rfl (by decide) (by decide) (by decide) (by decide)

/-! ## The controller -/

theorem ControllerConnection.pollKey_spec (observed : Nat → Xvnc × XvncManager) (key : List Byte)
    (fuel tries : Nat) (h : tries + fuel = ControllerConnection.approvalTries) :
    (∀ i, ControllerConnection.pollKey observed key fuel tries = some i →
      tries ≤ i ∧ i ≤ ControllerConnection.approvalTries ∧ (observed i).1.isKeyApproved key = true)
    ∧ (ControllerConnection.pollKey observed key fuel tries = none →
      ∀ j, tries ≤ j → j ≤ ControllerConnection.approvalTries →
        (observed j).1.isKeyApproved key = false) := by
  induction fuel generalizing tries with
  | zero =>
    have ht : tries = ControllerConnection.approvalTries := by omega
    unfold ControllerConnection.pollKey
    cases ha : (observed tries).1.isKeyApproved key
    · rw [if_neg (by decide)]
      refine ⟨fun i hi => (by cases hi), fun _ j h1 h2 => ?_⟩
      have : j = tries := by omega
      rw [this, ha]
    · rw [if_pos rfl]
      refine ⟨fun i hi => ?_, fun hn => by cases hn⟩
      cases hi
      exact ⟨le_refl _, by omega, ha⟩
  | succ fuel ih =>
    have hne : ¬ tries = ControllerConnection.approvalTries := by omega
    obtain ⟨i1, i2⟩ := ih (tries + 1) (by omega)
    unfold ControllerConnection.pollKey
    cases ha : (observed tries).1.isKeyApproved key
    · rw [if_neg (by decide), if_neg hne]
      refine ⟨fun i hi => ?_, fun hn j h1 h2 => ?_⟩
      · obtain ⟨a, b, c⟩ := i1 i hi
        exact ⟨by omega, b, c⟩
      · by_cases hj : j = tries
        · rw [hj, ha]
        · exact i2 hn j (by omega) h2
    · rw [if_pos rfl]
      refine ⟨fun i hi => ?_, fun hn => by cases hn⟩
      cases hi
      exact ⟨le_refl _, by omega, ha⟩

theorem ControllerConnection.receive_written (r : ControllerRun) (yes : Bool) :
    (ControllerConnection.receive r yes).connection.written = r.connection.written := by
  unfold ControllerConnection.receive
  dsimp only
  by_cases h : (r.connection.m_controllerStream.extractString []).1 = ascii "VISIBLE"
  · rw [if_pos h]
    cases r.session <;> rfl
  · rw [if_neg h]

theorem ControllerConnection.receiveLoop_written (yes : Bool) (fuel : Nat) (r : ControllerRun) :
    (ControllerConnection.receiveLoop yes fuel r).connection.written = r.connection.written := by
  induction fuel generalizing r with
  | zero => rfl
  | succ fuel ih =>
    unfold ControllerConnection.receiveLoop
    split
    · rw [ih, ControllerConnection.receive_written]
    · rfl

theorem ControllerConnection.replyOK_stream (c : ControllerConnection) :
    c.replyOK.m_controllerStream = c.m_controllerStream := by
  unfold ControllerConnection.replyOK
  split <;> rfl

theorem ControllerConnection.replyOK_written (c : ControllerConnection) :
    c.replyOK.written
      = c.written ++ (if c.m_controllerStream.good then ascii "OK\n" else []) := by
  unfold ControllerConnection.replyOK
  split
  · rfl
  · exact (List.append_nil _).symm

/-- Counterexample to C26 as stated: the controller program sends the digit `1` and ends its
output. The sample session has the display number 1, so the first gate is passed, yet no `OK`
is written: reading the number reached the end of the input, which set `eofbit` on the one
stream, and `operator<<` writes nothing on a stream that is not good. -/
theorem ControllerConnection.start_eof_no_reply :
    (sampleManager.getSessionByDisplayNumber
        ((sampleController (ascii "1")).m_controllerStream.extractInt 0).1).isSome = true
    ∧ ((sampleController (ascii "1")).m_controllerStream.extractInt 0).2.eofbit = true
    ∧ ((sampleController (ascii "1")).start sampleManager
        (fun _ => (sampleXvnc, sampleManager)) 0 false none).connection.written = []
    ∧ ((sampleController (ascii "1\n")).start sampleManager
        (fun _ => (sampleXvnc, sampleManager)) 0 false none).connection.written = ascii "OK\n" := by
  decide

/-- C26, as the code has it: with `n` the display number read from the controller and `key` the
token read after it, `start` writes nothing and makes no `markVisible` call if no managed
session has the display number `n`; otherwise `initialize` goes on, and the first `OK` is
written iff the stream is still good after the number was read. If the key is not approved at
any of the tries 0 to 100 of the polling loop, `initialize` returns `false`, nothing more is
written, no `markVisible` call is made and the registry is left as it is; if the key is
approved at one of these tries, `initialize` returns `true`, the command loop is run, and the
second `OK` is written iff the stream is still good after the key was read. So `markVisible`
is called only after both gates were passed, and what was written is two `OK` lines iff both
gates were passed with the stream good after each of the two reads. -/
theorem ControllerConnection.start_gates (c : ControllerConnection) (m : XvncManager)
    (observed : Nat → Xvnc × XvncManager) (displayNumber : Int) (yes : Bool)
    (peerName : Option (List Byte)) :
    (m.getSessionByDisplayNumber (c.m_controllerStream.extractInt displayNumber).1 = none →
      (c.initialise m observed displayNumber peerName).1 = false
      ∧ (c.start m observed displayNumber yes peerName).connection.written = c.written
      ∧ (c.start m observed displayNumber yes peerName).markVisibleCalls = []
      ∧ (c.start m observed displayNumber yes peerName).manager = m)
    ∧ ((m.getSessionByDisplayNumber (c.m_controllerStream.extractInt displayNumber).1).isSome = true →
      (∀ i, i ≤ 100 → (observed i).1.isKeyApproved
          (((c.m_controllerStream.extractInt displayNumber).2.extractString []).1) = false) →
      (c.initialise m observed displayNumber peerName).1 = false
      ∧ (c.start m observed displayNumber yes peerName).connection.written
        = c.written
          ++ (if (c.m_controllerStream.extractInt displayNumber).2.good then ascii "OK\n" else [])
      ∧ (c.start m observed displayNumber yes peerName).markVisibleCalls = []
      ∧ (c.start m observed displayNumber yes peerName).manager = m)
    ∧ ((m.getSessionByDisplayNumber (c.m_controllerStream.extractInt displayNumber).1).isSome = true →
      (∃ i, i ≤ 100 ∧ (observed i).1.isKeyApproved
          (((c.m_controllerStream.extractInt displayNumber).2.extractString []).1) = true) →
      (c.initialise m observed displayNumber peerName).1 = true
      ∧ c.start m observed displayNumber yes peerName
        = ControllerConnection.receiveLoop yes (c.m_controllerStream.input.length + 1)
            (c.initialise m observed displayNumber peerName).2
      ∧ (c.start m observed displayNumber yes peerName).connection.written
        = c.written
          ++ (if (c.m_controllerStream.extractInt displayNumber).2.good then ascii "OK\n" else [])
          ++ (if ((c.m_controllerStream.extractInt displayNumber).2.extractString []).2.good
              then ascii "OK\n" else [])) := by
  have hp := ControllerConnection.pollKey_spec observed
    (((c.m_controllerStream.extractInt displayNumber).2.extractString []).1)
    ControllerConnection.approvalTries 0 (by simp)
  refine ⟨?_, ?_, ?_⟩
  · intro hn
    unfold ControllerConnection.start ControllerConnection.initialise
    simp only [hn]
    exact ⟨trivial, rfl, rfl, rfl⟩
  · intro hs hk
    obtain ⟨x, hx⟩ := Option.isSome_iff_exists.1 hs
    have hnone : ControllerConnection.pollKey observed
        (((c.m_controllerStream.extractInt displayNumber).2.extractString []).1)
        ControllerConnection.approvalTries 0 = none := by
      cases hq : ControllerConnection.pollKey observed
        (((c.m_controllerStream.extractInt displayNumber).2.extractString []).1)
        ControllerConnection.approvalTries 0 with
      | none => rfl
      | some i =>
        obtain ⟨_, h2, h3⟩ := hp.1 i hq
        rw [hk i h2] at h3
        cases h3
    unfold ControllerConnection.start ControllerConnection.initialise
    simp only [hx, ControllerConnection.replyOK_stream, hnone]
    refine ⟨trivial, ?_, rfl, rfl⟩
    exact ControllerConnection.replyOK_written _
  · intro hs hk
    obtain ⟨x, hx⟩ := Option.isSome_iff_exists.1 hs
    obtain ⟨i, hi, ha⟩ := hk
    obtain ⟨j, hj⟩ : ∃ j, ControllerConnection.pollKey observed
        (((c.m_controllerStream.extractInt displayNumber).2.extractString []).1)
        ControllerConnection.approvalTries 0 = some j := by
      cases hq : ControllerConnection.pollKey observed
        (((c.m_controllerStream.extractInt displayNumber).2.extractString []).1)
        ControllerConnection.approvalTries 0 with
      | none =>
        have := hp.2 hq i (Nat.zero_le _) hi
        rw [this] at ha
        cases ha
      | some j => exact ⟨j, rfl⟩
    unfold ControllerConnection.start ControllerConnection.initialise
    simp only [hx, ControllerConnection.replyOK_stream, hj]
    cases peerName with
    | none =>
      simp only [if_true]
      refine ⟨trivial, trivial, ?_⟩
      rw [ControllerConnection.receiveLoop_written]
      show (ControllerConnection.replyOK _).written = _
      rw [ControllerConnection.replyOK_written]
      show (ControllerConnection.replyOK _).written ++ _ = _
      rw [ControllerConnection.replyOK_written]
    | some name =>
      simp only [if_true]
      refine ⟨trivial, trivial, ?_⟩
      rw [ControllerConnection.receiveLoop_written]
      show (ControllerConnection.replyOK _).written = _
      rw [ControllerConnection.replyOK_written]
      show (ControllerConnection.replyOK _).written ++ _ = _
      rw [ControllerConnection.replyOK_written]

/-- Witness for C26: the sample session has display 1 and gets the key `abc123` approved at the
third try; the input is `1`, `abc123`, `VISIBLE 1`, each on a line: the stream is good after
both reads, both `OK` lines are written, the session becomes visible and the list version goes
from 0 to 1. -/
theorem ControllerConnection.start_gates_witness :
    ((sampleController (ascii "1\nabc123\nVISIBLE 1\n")).start sampleManager
        (fun i => if i < 3 then (sampleXvnc, sampleManager)
          else (sampleXvncApproved, { sampleManager with m_xvncs := [sampleXvncApproved] }))
        0 false none).connection.written
      = [] ++ (if ((sampleController (ascii "1\nabc123\nVISIBLE 1\n")).m_controllerStream.extractInt
                0).2.good then ascii "OK\n" else [])
          ++ (if (((sampleController (ascii "1\nabc123\nVISIBLE 1\n")).m_controllerStream.extractInt
                0).2.extractString []).2.good then ascii "OK\n" else [])
    ∧ ((sampleController (ascii "1\nabc123\nVISIBLE 1\n")).start sampleManager
        (fun i => if i < 3 then (sampleXvnc, sampleManager)
          else (sampleXvncApproved, { sampleManager with m_xvncs := [sampleXvncApproved] }))
        0 false none).connection.written = ascii "OK\nOK\n"
    ∧ ((sampleController (ascii "1\nabc123\nVISIBLE 1\n")).start sampleManager
        (fun i => if i < 3 then (sampleXvnc, sampleManager)
          else (sampleXvncApproved, { sampleManager with m_xvncs := [sampleXvncApproved] }))
        0 false none).markVisibleCalls = [true]
    ∧ (((sampleController (ascii "1\nabc123\nVISIBLE 1\n")).start sampleManager
        (fun i => if i < 3 then (sampleXvnc, sampleManager)
          else (sampleXvncApproved, { sampleManager with m_xvncs := [sampleXvncApproved] }))
        0 false none).session.map fun x => x.m_visible) = some true
    ∧ sampleManager.sessionListVersion
        < ((sampleController (ascii "1\nabc123\nVISIBLE 1\n")).start sampleManager
          (fun i => if i < 3 then (sampleXvnc, sampleManager)
            else (sampleXvncApproved, { sampleManager with m_xvncs := [sampleXvncApproved] }))
          0 false none).manager.sessionListVersion :=
  ⟨((ControllerConnection.start_gates (sampleController (ascii "1\nabc123\nVISIBLE 1\n"))
      sampleManager
      (fun i => if i < 3 then (sampleXvnc, sampleManager)
        else (sampleXvncApproved, { sampleManager with m_xvncs := [sampleXvncApproved] }))
      0 false none).2.2 (by decide) ⟨3, by decide, by decide⟩).2.2,
   by decide, by decide, by decide, by decide⟩

/-! ## Switching the back-end -/

theorem connectionSwitched_eq (t : VncTunnel) (g : GreeterConnection) (p : XvncConnection)
    (hg : t.m_greeterConnection = some g) (hp : t.m_potentialConnection = some p) :
    connectionSwitched t =
      { result := .ok ()
        state :=
          { t with
            m_greeterConnection := none
            m_potentialConnection := none
            m_xvncManager := t.m_xvncManager.released t.m_currentConnection.m_xvnc
            m_currentConnection :=
              if p.m_pixelFormat.eq t.m_pixelFormat then p
              else { p with m_pixelFormat := t.m_pixelFormat }
            m_tightZlibResetQueued := true
            m_desktopNameChangeQueued :=
              if t.clientSupportsEncoding EncodingType.DesktopName then true
              else t.m_desktopNameChangeQueued }
        trace :=
          (if p.m_pixelFormat.eq t.m_pixelFormat then []
           else [.server (SetPixelFormatMessage.send t.hostBigEndian
                  { type := 0, padding := [0, 0, 0], pixelFormat := t.m_pixelFormat })])
          ++ [.server (SetEncodingsMessage.send
                { type := 2, padding := 0
                  numberOfEncodings := toUInt16 t.m_supportedEncodingsServer.length }),
              .server (sendEncodings t.m_supportedEncodingsServer),
              .server (FramebufferUpdateRequestMessage.send
                { type := 3, incremental := 0, xPosition := 0, yPosition := 0
                  width := p.m_framebufferWidth, height := p.m_framebufferHeight })] } := by
  unfold connectionSwitched
  cases he : p.m_pixelFormat.eq t.m_pixelFormat <;>
    cases hd : t.clientSupportsEncoding EncodingType.DesktopName <;>
    simp [bind_run, hg, hp, he, hd, sendSetPixelFormat, sendSetEncodings,
      sendNonIncrementalFramebufferUpdateRequest, Outcome.after, pure_run]

/-- C24: with a greeter and a potential connection present, `connectionSwitched` returns with
the potential connection as the current one, no potential connection and no greeter. To the new
back-end it has written, in this order: a SetPixelFormat message with the tunnel's pixel format
iff that format differs (by `operator!=`) from the one the new back-end announced; the
SetEncodings message for `m_supportedEncodingsServer`; a FramebufferUpdateRequest with
incremental 0, position 0, 0 and the framebuffer size of the new back-end. Afterwards
`m_tightZlibResetQueued` is set, and `m_desktopNameChangeQueued` is set if the client supports
DesktopName and is as before otherwise. Nothing is written to the client. -/
theorem connectionSwitched_promotes (t : VncTunnel) (g : GreeterConnection) (p : XvncConnection)
    (hg : t.m_greeterConnection = some g) (hp : t.m_potentialConnection = some p) :
    (connectionSwitched t).result = .ok ()
    ∧ (connectionSwitched t).state.m_potentialConnection = none
    ∧ (connectionSwitched t).state.m_greeterConnection = none
    ∧ (connectionSwitched t).state.m_currentConnection
        = (if p.m_pixelFormat.eq t.m_pixelFormat then p
           else { p with m_pixelFormat := t.m_pixelFormat })
    ∧ serverBytes (connectionSwitched t).trace
        = (if p.m_pixelFormat.eq t.m_pixelFormat then []
           else [0, 0, 0, 0] ++ PixelFormat.store t.hostBigEndian
                  (PixelFormat.hton t.hostBigEndian t.m_pixelFormat))
          ++ ([2, 0] ++ toBe16 (toUInt16 t.m_supportedEncodingsServer.length)
              ++ sendEncodings t.m_supportedEncodingsServer)
          ++ ([3, 0, 0, 0, 0, 0] ++ toBe16 p.m_framebufferWidth ++ toBe16 p.m_framebufferHeight)
    ∧ clientBytes (connectionSwitched t).trace = []
    ∧ (connectionSwitched t).state.m_tightZlibResetQueued = true
    ∧ (t.clientSupportsEncoding EncodingType.DesktopName = true →
        (connectionSwitched t).state.m_desktopNameChangeQueued = true)
    ∧ (t.clientSupportsEncoding EncodingType.DesktopName = false →
        (connectionSwitched t).state.m_desktopNameChangeQueued = t.m_desktopNameChangeQueued)
    ∧ (connectionSwitched t).state.m_pixelFormat = t.m_pixelFormat
    ∧ (connectionSwitched t).state.m_supportedEncodingsServer = t.m_supportedEncodingsServer := by
  rw [connectionSwitched_eq t g p hg hp]
  have h0 : toBe16 0 = [0, 0] := by decide
  refine ⟨rfl, rfl, rfl, rfl, ?_, ?_, rfl, ?_, ?_, rfl, rfl⟩
  · cases p.m_pixelFormat.eq t.m_pixelFormat <;>
      simp [serverBytes, SetPixelFormatMessage.send, SetEncodingsMessage.send,
        FramebufferUpdateRequestMessage.send, h0]
  · cases p.m_pixelFormat.eq t.m_pixelFormat <;> simp [clientBytes]
  · intro h; simp [h]
  · intro h; simp [h]

/-- Witness for C24: the sample tunnel in the middle of a switch. -/
theorem connectionSwitched_promotes_witness :
    serverBytes (connectionSwitched sampleTunnelSwitching).trace
      = [0, 0, 0, 0, 32, 24, 0, 1, 255, 0, 255, 0, 255, 0, 16, 8, 0, 0, 0, 0]
        ++ [2, 0, 0, 2, 0, 0, 0, 0, 255, 255, 254, 205]
        ++ [3, 0, 0, 0, 0, 0, 4, 0, 3, 0]
    ∧ (connectionSwitched sampleTunnelSwitching).state.m_desktopNameChangeQueued = true := by
  have h := connectionSwitched_promotes sampleTunnelSwitching (sampleGreeter [])
    { m_xvnc := sampleXvnc
      m_streamFormatter := { input := [], buffer := [] }
      m_framebufferWidth := 1024
      m_framebufferHeight := 768
      m_pixelFormat := { samplePixelFormat with bitsPerPixel := 16, depth := 16 }
      m_connectionInitializedHandler := true
      m_passwordRequestHandler := true
      m_credentialsRequestHandler := true } rfl rfl
  refine ⟨?_, h.2.2.2.2.2.2.2.1 (by decide)⟩
  rw [h.2.2.2.2.1]
  decide

/-- C25, the code at failing and passing inputs. A greeter request opens the session 0 and the
new back-end closes its socket after five bytes of its version string: `recv` throws
`eof_exception`, the round of the loop ends in `break`, so the tunnel ends, and nothing was
written to the greeter. When instead the new back-end sends the version string of RFB 3.3,
the `ConnectionException` is caught: the error is written to the greeter, the potential
connection is deleted, the current connection is as before and the loop goes on. -/
theorem loopRound_potential_eof_breaks :
    (loopRound (openSessionHandler 0 (ascii "RFB 0")) (sampleTunnelWithGreeter [])).result
      = .ok false
    ∧ (loopRound (openSessionHandler 0 (ascii "RFB 0")) (sampleTunnelWithGreeter [])).state.m_greeterConnection
      = some (sampleGreeter [])
    ∧ (loopRound (openSessionHandler 0 (ascii "RFB 003.003\n")) (sampleTunnelWithGreeter [])).result
      = .ok true
    ∧ ((loopRound (openSessionHandler 0 (ascii "RFB 003.003\n"))
        (sampleTunnelWithGreeter [])).state.m_greeterConnection.map fun g => g.m_out)
      = some (ascii "ERROR\nUnsupported version of RFB protocol\nEND ERROR\n")
    ∧ (loopRound (openSessionHandler 0 (ascii "RFB 003.003\n"))
        (sampleTunnelWithGreeter [])).state.m_potentialConnection = none
    ∧ (loopRound (openSessionHandler 0 (ascii "RFB 003.003\n"))
        (sampleTunnelWithGreeter [])).state.m_currentConnection
      = (sampleTunnelWithGreeter []).m_currentConnection := by
  refine ⟨rfl, by decide, rfl, by decide, by decide, by decide⟩

/-- C30, the code at failing inputs. The greeter asks for the session 5, which the registry
does not have: `getSession` returns the empty pointer and `switchToConnection` constructs an
`XvncConnection` from it, whose constructor calls `connect()` through it; no `catch` of the
round handles that. An id token that is not a number is stored as 0 by `operator>>`, so the
request opens the session 0 if there is one. -/
theorem openSessionHandler_missing_session :
    (sampleTunnelWithGreeter []).m_xvncManager.getSession 5 = none
    ∧ (openSessionHandler 5 [] (sampleTunnelWithGreeter [])).result = .error Err.nullDereference
    ∧ (loopRound (openSessionHandler 5 []) (sampleTunnelWithGreeter [])).result
        = .error Err.nullDereference
    ∧ ((sampleGreeter (ascii "OPEN x\n")).receive 7).2 = some (.openSession 0)
    ∧ (sampleTunnelWithGreeter []).m_xvncManager.getSession 0 = some sampleXvnc := by
  refine ⟨by decide, rfl, rfl, by decide, by decide⟩

/-! ## Framebuffer updates: the header and the rectangle loop -/

theorem processFramebufferUpdate_header (t : VncTunnel) (b0 b1 b2 b3 : Byte) (rest : List Byte)
    (hwf : t.buffersOk) (hp : t.serverPending = b0 :: b1 :: b2 :: b3 :: rest) :
    (be16 b2 b3 + t.countExtraRectangles ≤ 65535 →
      ∃ tr, (processFramebufferUpdate t).trace = .client (.message
        { type := b0, padding := b1
          numberOfRectangles := be16 b2 b3 + t.countExtraRectangles }) :: tr)
    ∧ (65535 < be16 b2 b3 + t.countExtraRectangles →
        t.clientSupportsEncoding EncodingType.LastRect = true →
      ∃ tr, (processFramebufferUpdate t).trace = .client (.message
        { type := b0, padding := b1, numberOfRectangles := 65535 }) :: tr)
    ∧ (65535 < be16 b2 b3 + t.countExtraRectangles →
        t.clientSupportsEncoding EncodingType.LastRect = false →
      (processFramebufferUpdate t).result = .error Err.tooManyRectangles
      ∧ (processFramebufferUpdate t).trace = []) := by
  have s1 := sRecvRaw_of t 4 [b0, b1, b2, b3] rest hwf hp rfl
  have hm : FramebufferUpdateMessage.recv [b0, b1, b2, b3]
      = { type := b0, padding := b1, numberOfRectangles := be16 b2 b3 } := rfl
  refine ⟨?_, ?_, ?_⟩
  · intro hle
    have hc : ¬ ((be16 b2 b3 : Int) > 65535 - (t.countExtraRectangles : Int)) := by omega
    have hu : toUInt16 (be16 b2 b3 + t.countExtraRectangles) = be16 b2 b3 + t.countExtraRectangles := by
      unfold toUInt16; omega
    unfold processFramebufferUpdate
    simp only [bind_run, getTunnel_run, s1, Outcome.after, hm, hc, if_false, pure_run, hu,
      cSendMessage_run, List.nil_append, List.singleton_append]
    exact ⟨_, rfl⟩
  · intro hgt hs
    have hc : (be16 b2 b3 : Int) > 65535 - (t.countExtraRectangles : Int) := by omega
    unfold processFramebufferUpdate
    simp only [bind_run, getTunnel_run, s1, Outcome.after, hm, hc, if_true, hs, pure_run,
      cSendMessage_run, List.nil_append, List.singleton_append]
    exact ⟨_, rfl⟩
  · intro hgt hs
    have hc : (be16 b2 b3 : Int) > 65535 - (t.countExtraRectangles : Int) := by omega
    unfold processFramebufferUpdate
    simp only [bind_run, getTunnel_run, s1, Outcome.after, hm, hc, if_true, hs, raise_run,
      Bool.false_eq_true, if_false]
    exact ⟨trivial, rfl⟩

theorem processRectangle_desktopSize (sup must : Bool) (t : VncTunnel) (rest : List Byte)
    (hwf : t.buffersOk) (hp : t.serverPending = sampleDesktopSizeRectangle.send ++ rest) :
    (processRectangle sup must t).result = .ok (false, must)
    ∧ (processRectangle sup must t).trace
        = [.received sampleDesktopSizeRectangle, .client (.rectangle sampleDesktopSizeRectangle)]
    ∧ (processRectangle sup must t).state.buffersOk
    ∧ (processRectangle sup must t).state.serverPending = rest := by
  have s1 := sRecvRaw_of t 12 sampleDesktopSizeRectangle.send rest hwf hp rfl
  have hr : FramebufferUpdateRectangle.recv sampleDesktopSizeRectangle.send
      = sampleDesktopSizeRectangle := by decide
  have hwf1 := VncTunnel.serverConsumed_buffersOk t 12 hwf
  have hp1 : (t.serverConsumed 12).serverPending = rest := by
    have := VncTunnel.serverConsumed_pending_of t sampleDesktopSizeRectangle.send rest hp
    exact this
  have e : processRectangle sup must t
      = { result := .ok (false, must)
          state := { t.serverConsumed 12 with
            m_currentConnection :=
              { (t.serverConsumed 12).m_currentConnection with
                m_framebufferWidth := 800, m_framebufferHeight := 600 } }
          trace := [.received sampleDesktopSizeRectangle,
            .client (.rectangle sampleDesktopSizeRectangle)] } := by
    unfold processRectangle
    simp only [bind_run, s1, Outcome.after, hr, emit_run, getTunnel_run]
    have h1 : ¬ (sampleDesktopSizeRectangle.encodingType = EncodingType.Raw
        ∨ sampleDesktopSizeRectangle.encodingType = EncodingType.CopyRect
        ∨ sampleDesktopSizeRectangle.encodingType = EncodingType.Cursor
        ∨ sampleDesktopSizeRectangle.encodingType = EncodingType.XCursor) := by decide
    have h2 : ¬ (sampleDesktopSizeRectangle.encodingType = EncodingType.RRE) := by decide
    have h3 : sampleDesktopSizeRectangle.encodingType = EncodingType.DesktopSize := rfl
    simp only [h1, h2, h3, if_false, if_true, bind_run, cSendRectangle_run, Outcome.after,
      setFramebufferSize, modifyTunnel_run, pure_run]
    rfl
  rw [e]
  exact ⟨rfl, rfl, hwf1, hp1⟩
theorem desktopSizeRectangles_succ (n : Nat) :
    desktopSizeRectangles (n + 1) = sampleDesktopSizeRectangle.send ++ desktopSizeRectangles n := by
  simp [desktopSizeRectangles, List.replicate_succ]

theorem rectangleLoop_desktopSize (sup must : Bool) (n : Nat) (t : VncTunnel) (rest : List Byte)
    (hwf : t.buffersOk) (hp : t.serverPending = desktopSizeRectangles n ++ rest) :
    (rectangleLoop sup n false must t).result = .ok (false, must)
    ∧ clientWrites (rectangleLoop sup n false must t).trace
        = List.replicate n (.rectangle sampleDesktopSizeRectangle)
    ∧ clientRectangles (rectangleLoop sup n false must t).trace
        = List.replicate n sampleDesktopSizeRectangle
    ∧ (rectangleLoop sup n false must t).state.buffersOk
    ∧ (rectangleLoop sup n false must t).state.serverPending = rest := by
  induction n generalizing t with
  | zero =>
    have hp0 : t.serverPending = rest := by rw [hp]; rfl
    exact ⟨rfl, rfl, rfl, hwf, hp0⟩
  | succ n ih =>
    have hp1 : t.serverPending = sampleDesktopSizeRectangle.send ++ (desktopSizeRectangles n ++ rest) := by
      rw [hp, desktopSizeRectangles_succ, List.append_assoc]
    obtain ⟨r1, r2, r3, r4⟩ := processRectangle_desktopSize sup must t _ hwf hp1
    obtain ⟨i1, i2, i2b, i3, i4⟩ := ih (processRectangle sup must t).state r3 r4
    have e : rectangleLoop sup (n + 1) false must t
        = (rectangleLoop sup n false must (processRectangle sup must t).state).after
            (processRectangle sup must t).trace := by
      show (processRectangle sup must >>= fun p => rectangleLoop sup n p.1 p.2) t = _
      rw [bind_run_ok _ _ _ _ r1]
    rw [e]
    refine ⟨i1, ?_, ?_, i3, i4⟩
    · rw [after_trace, clientWrites_append, i2, r2, List.replicate_succ]
      rfl
    · rw [after_trace, clientRectangles_append, i2b, r2, List.replicate_succ]
      rfl

theorem rectangleLoop_desktopSize_eq (sup must : Bool) (n : Nat) (t : VncTunnel) (rest : List Byte)
    (hwf : t.buffersOk) (hp : t.serverPending = desktopSizeRectangles n ++ rest) :
    ∃ st tr, rectangleLoop sup n false must t = { result := .ok (false, must), state := st, trace := tr }
      ∧ clientWrites tr = List.replicate n (.rectangle sampleDesktopSizeRectangle)
      ∧ clientRectangles tr = List.replicate n sampleDesktopSizeRectangle
      ∧ st.buffersOk ∧ st.serverPending = rest := by
  obtain ⟨h1, h2, h2b, h3, h4⟩ := rectangleLoop_desktopSize sup must n t rest hwf hp
  refine ⟨(rectangleLoop sup n false must t).state, (rectangleLoop sup n false must t).trace, ?_,
    h2, h2b, h3, h4⟩
  rw [← h1]

/-- The update of 65535 DesktopSize rectangles on a tunnel without a queued rectangle. -/
theorem processFramebufferUpdate_fullCount_run (t : VncTunnel) (rest : List Byte)
    (hwf : t.buffersOk)
    (hp : t.serverPending = [0, 0, 255, 255] ++ desktopSizeRectangles 65535 ++ rest)
    (hq : t.m_desktopNameChangeQueued = false) :
    (processFramebufferUpdate t).result = .ok ()
    ∧ clientWrites (processFramebufferUpdate t).trace
        = .message { type := 0, padding := 0, numberOfRectangles := 65535 }
          :: List.replicate 65535 (.rectangle sampleDesktopSizeRectangle) := by
  have hp0 : t.serverPending = [0, 0, 255, 255] ++ (desktopSizeRectangles 65535 ++ rest) := by
    rw [hp, List.append_assoc]
  have s1 := sRecvRaw_of t 4 [0, 0, 255, 255] _ hwf hp0 rfl
  have hm : FramebufferUpdateMessage.recv [0, 0, 255, 255]
      = { type := 0, padding := 0, numberOfRectangles := 65535 } := by decide
  have hwf1 := VncTunnel.serverConsumed_buffersOk t 4 hwf
  have hp1 : (t.serverConsumed 4).serverPending = desktopSizeRectangles 65535 ++ rest := by
    have := VncTunnel.serverConsumed_pending_of t [0, 0, 255, 255] _ hp0
    exact this
  have hq1 : (t.serverConsumed 4).m_desktopNameChangeQueued = false := hq
  have he : t.countExtraRectangles = 0 := by simp [VncTunnel.countExtraRectangles, hq]
  obtain ⟨st, tr, hl, hw, _, _, _⟩ := rectangleLoop_desktopSize_eq
    (t.clientSupportsEncoding EncodingType.LastRect) false 65535 (t.serverConsumed 4) rest hwf1 hp1
  have hc : ¬ (((65535 : Nat) : Int) > 65535 - ((0 : Nat) : Int)) := by decide
  have hu : toUInt16 (65535 + 0) = 65535 := by decide
  unfold processFramebufferUpdate
  simp only [bind_run, getTunnel_run, s1, Outcome.after, hm, he, pure_run, cSendMessage_run,
    sendExtraRectangles, hq1, hc, if_false, hu, hl, Bool.false_eq_true]
  generalize List.replicate 65535 (ClientWrite.rectangle sampleDesktopSizeRectangle) = R at hw ⊢
  cases t.clientSupportsEncoding EncodingType.LastRect <;>
    simp [pure_run, clientWrites, hw]

/-- C1: for a back-end FramebufferUpdate whose header announces `N` rectangles, with `extra`
the number of queued synthetic rectangles: if `N + extra ≤ 65535` the first thing written to
the client is the header with the count `N + extra`; otherwise, if the client advertised
LastRect, it is the header with the count 65535; otherwise the error is raised and nothing
at all has been written. -/
theorem processFramebufferUpdate_count (t : VncTunnel) (b0 b1 b2 b3 : Byte) (rest : List Byte)
    (hwf : t.buffersOk) (hp : t.serverPending = b0 :: b1 :: b2 :: b3 :: rest) :
    (be16 b2 b3 + t.countExtraRectangles ≤ 65535 →
      ∃ tr, (processFramebufferUpdate t).trace = .client (.message
        { type := b0, padding := b1
          numberOfRectangles := be16 b2 b3 + t.countExtraRectangles }) :: tr)
    ∧ (65535 < be16 b2 b3 + t.countExtraRectangles →
        t.clientSupportsEncoding EncodingType.LastRect = true →
      ∃ tr, (processFramebufferUpdate t).trace = .client (.message
        { type := b0, padding := b1, numberOfRectangles := 65535 }) :: tr)
    ∧ (65535 < be16 b2 b3 + t.countExtraRectangles →
        t.clientSupportsEncoding EncodingType.LastRect = false →
      (processFramebufferUpdate t).result = .error Err.tooManyRectangles
      ∧ (processFramebufferUpdate t).trace = []) :=
  processFramebufferUpdate_header t b0 b1 b2 b3 rest hwf hp

/-- Witness for C1: a header announcing two rectangles while one synthetic rectangle is
queued is sent with the count three. -/
theorem processFramebufferUpdate_count_witness :
    ∃ tr, (processFramebufferUpdate
        { sampleTunnel [] [0, 0, 0, 2] with m_desktopNameChangeQueued := true }).trace
      = .client (.message { type := 0, padding := 0, numberOfRectangles := 2 + 1 }) :: tr :=
  (processFramebufferUpdate_count
    { sampleTunnel [] [0, 0, 0, 2] with m_desktopNameChangeQueued := true } 0 0 0 2 []
    (by decide) (by decide)).1 (by decide)

/-- Counterexample to C18 as stated: the back-end announces 65535 rectangles (here DesktopSize
rectangles) to a tunnel whose client advertised no encoding at all, hence neither LastRect nor
DesktopName, and no synthetic rectangle is queued: no error is raised, the header is sent with
the count 65535 and all 65535 rectangles follow. -/
theorem processFramebufferUpdate_fullCount_forwarded :
    (sampleTunnel [] ([0, 0, 255, 255] ++ desktopSizeRectangles 65535 ++ [])).clientSupportsEncoding
        EncodingType.LastRect = false
    ∧ (sampleTunnel [] ([0, 0, 255, 255] ++ desktopSizeRectangles 65535 ++ [])).clientSupportsEncoding
        EncodingType.DesktopName = false
    ∧ (processFramebufferUpdate
        (sampleTunnel [] ([0, 0, 255, 255] ++ desktopSizeRectangles 65535 ++ []))).result = .ok ()
    ∧ clientWrites (processFramebufferUpdate
        (sampleTunnel [] ([0, 0, 255, 255] ++ desktopSizeRectangles 65535 ++ []))).trace
        = .message { type := 0, padding := 0, numberOfRectangles := 65535 }
          :: List.replicate 65535 (.rectangle sampleDesktopSizeRectangle) := by
  have h := processFramebufferUpdate_fullCount_run
    (sampleTunnel [] ([0, 0, 255, 255] ++ desktopSizeRectangles 65535 ++ [])) []
    ⟨Nat.zero_le _, Nat.zero_le _⟩ (List.nil_append _) rfl
  exact ⟨rfl, rfl, h.1, h.2⟩

/-- C18, as the code has it: when the back-end announces 65535 rectangles and the client did
not advertise LastRect, the error is raised (before anything is written) iff a synthetic
DesktopName rectangle is queued; without one the sum still fits and the header is sent with
the count 65535. -/
theorem processFramebufferUpdate_fullCount (t : VncTunnel) (b0 b1 : Byte) (rest : List Byte)
    (hwf : t.buffersOk) (hp : t.serverPending = b0 :: b1 :: 255 :: 255 :: rest)
    (hl : t.clientSupportsEncoding EncodingType.LastRect = false) :
    (t.m_desktopNameChangeQueued = true →
      (processFramebufferUpdate t).result = .error Err.tooManyRectangles
      ∧ (processFramebufferUpdate t).trace = [])
    ∧ (t.m_desktopNameChangeQueued = false →
      ∃ tr, (processFramebufferUpdate t).trace = .client (.message
        { type := b0, padding := b1, numberOfRectangles := 65535 }) :: tr) := by
  obtain ⟨h1, _, h3⟩ := processFramebufferUpdate_header t b0 b1 255 255 rest hwf hp
  have hb : be16 255 255 = 65535 := by decide
  rw [hb] at h1 h3
  constructor
  · intro hq
    have he : t.countExtraRectangles = 1 := by simp [VncTunnel.countExtraRectangles, hq]
    rw [he] at h3
    exact h3 (by decide) hl
  · intro hq
    have he : t.countExtraRectangles = 0 := by simp [VncTunnel.countExtraRectangles, hq]
    rw [he] at h1
    exact h1 (by decide)

/-- Witness for C18: the sample tunnel with a queued DesktopName rectangle raises the error. -/
theorem processFramebufferUpdate_fullCount_witness :
    (processFramebufferUpdate
        { sampleTunnel [] [0, 0, 255, 255] with m_desktopNameChangeQueued := true }).result
      = .error Err.tooManyRectangles
    ∧ (processFramebufferUpdate
        { sampleTunnel [] [0, 0, 255, 255] with m_desktopNameChangeQueued := true }).trace = [] :=
  (processFramebufferUpdate_fullCount
    { sampleTunnel [] [0, 0, 255, 255] with m_desktopNameChangeQueued := true } 0 0 []
    (by decide) (by decide) (by decide)).1 rfl

/-! ## DesktopName rectangles -/


theorem Xvnc.setDesktopName_id (x : Xvnc) (n : List Byte) : (x.setDesktopName n).1.m_id = x.m_id := by
  unfold Xvnc.setDesktopName
  split
  · rfl
  · split <;> rfl

theorem Xvnc.setDesktopName_prefix (x : Xvnc) (key : List Byte) :
    (x.setDesktopName (controllerKey ++ key)).1
      = { x with m_approvedControllerKeys := List.insert key x.m_approvedControllerKeys } := by
  unfold Xvnc.setDesktopName
  rw [if_pos (controllerKey_isPrefixOf key), controllerKey_drop]

theorem VncTunnel.sessionCalled_current (t : VncTunnel) (n : List Byte) :
    (t.sessionCalled (t.m_currentConnection.m_xvnc.setDesktopName n)).m_currentConnection
      = { t.m_currentConnection with m_xvnc := (t.m_currentConnection.m_xvnc.setDesktopName n).1 } := by
  unfold VncTunnel.sessionCalled
  simp [Xvnc.setDesktopName_id]

theorem setDesktopName_run (name : List Byte) (t : VncTunnel) :
    setDesktopName name t
      = { result := .ok ()
          state := t.sessionCalled (t.m_currentConnection.m_xvnc.setDesktopName name)
          trace := [] } := rfl

theorem bind_pure_state {α β : Type} (m : M α) (b : β) (t : VncTunnel) :
    ((m >>= fun _ => (pure b : M β)) t).state = (m t).state
    ∧ ((m >>= fun _ => (pure b : M β)) t).trace = (m t).trace := by
  rw [bind_run]
  cases (m t).result <;> simp [pure_run, Outcome.after]

theorem sendDummyRectangle_facts (t : VncTunnel) :
    (sendDummyRectangle t).state = t
    ∧ (∀ r ∈ clientRectangles (sendDummyRectangle t).trace,
        r.encodingType = EncodingType.Raw ∨ r.encodingType = EncodingType.CopyRect)
    ∧ (clientRectangles (sendDummyRectangle t).trace).length ≤ 1
    ∧ ((sendDummyRectangle t).result = .ok () →
        (clientRectangles (sendDummyRectangle t).trace).length = 1) := by
  unfold sendDummyRectangle
  cases h1 : t.clientSupportsEncoding EncodingType.Raw <;>
    cases h2 : t.clientSupportsEncoding EncodingType.CopyRect <;>
    simp [bind_run, h1, h2, Outcome.after, pure_run, clientRectangles]

theorem processDesktopName_controllerKey_run (t : VncTunnel) (rectangle : FramebufferUpdateRectangle)
    (sup must : Bool) (l0 l1 l2 l3 : Byte) (key rest : List Byte) (hwf : t.buffersOk)
    (hp : t.serverPending = [l0, l1, l2, l3] ++ (controllerKey ++ key) ++ rest)
    (hl : be32 l0 l1 l2 l3 = (controllerKey ++ key).length) :
    (t.clientSupportsEncoding EncodingType.DesktopName = true →
      (processDesktopName rectangle sup must t).result = .ok must
      ∧ (processDesktopName rectangle sup must t).trace
          = [.client (.rectangle rectangle),
             .client (.raw (toBe32 (wrapUInt32 t.desktopName.length))),
             .client (.raw t.desktopName)])
    ∧ (t.clientSupportsEncoding EncodingType.DesktopName = false → sup = true →
      (processDesktopName rectangle sup must t).result = .ok true
      ∧ (processDesktopName rectangle sup must t).trace = [])
    ∧ (t.clientSupportsEncoding EncodingType.DesktopName = false →
      ∀ r ∈ clientRectangles (processDesktopName rectangle sup must t).trace,
        r.encodingType = EncodingType.Raw ∨ r.encodingType = EncodingType.CopyRect)
    ∧ (processDesktopName rectangle sup must t).state.m_currentConnection.m_xvnc
        = (t.m_currentConnection.m_xvnc.setDesktopName (controllerKey ++ key)).1
    ∧ (processDesktopName rectangle sup must t).state.serverPending = rest := by
  have hp0 : t.serverPending = [l0, l1, l2, l3] ++ ((controllerKey ++ key) ++ rest) := by
    rw [hp, List.append_assoc]
  have s1 := sRecvRaw_of t 4 [l0, l1, l2, l3] _ hwf hp0 rfl
  have hwf1 := VncTunnel.serverConsumed_buffersOk t 4 hwf
  have hp1 : (t.serverConsumed 4).serverPending = (controllerKey ++ key) ++ rest := by
    have := VncTunnel.serverConsumed_pending_of t [l0, l1, l2, l3] _ hp0
    exact this
  have s2 := sRecvRaw_of (t.serverConsumed 4) (controllerKey ++ key).length (controllerKey ++ key)
    rest hwf1 hp1 rfl
  rw [VncTunnel.serverConsumed_serverConsumed] at s2
  have hp2 : (t.serverConsumed (4 + (controllerKey ++ key).length)).serverPending = rest := by
    have := VncTunnel.serverConsumed_pending_of t ([l0, l1, l2, l3] ++ (controllerKey ++ key)) rest hp
    rw [List.length_append] at this
    exact this
  generalize hT : t.serverConsumed (4 + (controllerKey ++ key).length) = T at s2 hp2
  have hTx : T.m_currentConnection.m_xvnc = t.m_currentConnection.m_xvnc := by rw [← hT]; rfl
  have hTc : T.m_supportedEncodingsClient = t.m_supportedEncodingsClient := by rw [← hT]; rfl
  have hTp : T.m_pixelFormat = t.m_pixelFormat := by rw [← hT]; rfl
  generalize hU : T.sessionCalled (T.m_currentConnection.m_xvnc.setDesktopName (controllerKey ++ key))
    = U
  have hUcur : U.m_currentConnection
      = { T.m_currentConnection with
          m_xvnc := (T.m_currentConnection.m_xvnc.setDesktopName (controllerKey ++ key)).1 } := by
    rw [← hU]; exact VncTunnel.sessionCalled_current T _
  have hUc : U.clientSupportsEncoding EncodingType.DesktopName
      = t.clientSupportsEncoding EncodingType.DesktopName := by
    rw [← hU]; unfold VncTunnel.clientSupportsEncoding VncTunnel.sessionCalled; rw [← hTc]
  have hUn : U.desktopName = t.desktopName := by
    unfold VncTunnel.desktopName
    rw [hUcur, hTx]
    rw [Xvnc.setDesktopName_prefix]
  have hUp : U.serverPending = rest := by
    rw [← hp2]
    unfold VncTunnel.serverPending
    rw [hUcur]
  have e0 : processDesktopName rectangle sup must t
      = ((do
          let t ← getTunnel
          if t.clientSupportsEncoding EncodingType.DesktopName then
            cSendRectangle rectangle
            cSendRaw (toBe32 (wrapUInt32 t.desktopName.length))
            cSendRaw t.desktopName
            pure must
          else if sup then
            pure true
          else
            sendDummyRectangle
            pure must : M Bool) U) := by
    unfold processDesktopName
    simp only [bind_run, s1, Outcome.after, List.getD_cons_zero, List.getD_cons_succ, hl, s2,
      setDesktopName_run, hU, List.nil_append]
  rw [e0]
  have hx : U.m_currentConnection.m_xvnc
      = (t.m_currentConnection.m_xvnc.setDesktopName (controllerKey ++ key)).1 := by
    rw [hUcur, hTx]
  refine ⟨?_, ?_, ?_, ?_⟩
  · intro hs
    simp only [bind_run, getTunnel_run, hUc, hs, if_true, cSendRectangle_run, cSendRaw_run,
      Outcome.after, pure_run, hUn]
    exact ⟨trivial, rfl⟩
  · intro hs hsup
    simp only [bind_run, getTunnel_run, hUc, hs, hsup, if_true, Outcome.after, pure_run,
      Bool.false_eq_true, if_false]
    exact ⟨trivial, rfl⟩
  · intro hs r hr
    cases sup with
    | true =>
      simp only [bind_run, getTunnel_run, hUc, hs, if_true, Outcome.after, pure_run,
        Bool.false_eq_true, if_false, List.nil_append, clientRectangles] at hr
      cases hr
    | false =>
      obtain ⟨d1, d2, _, _⟩ := sendDummyRectangle_facts U
      have hb := (bind_pure_state sendDummyRectangle must U).2
      rw [bind_run] at hr
      simp only [getTunnel_run, hUc, hs, Bool.false_eq_true, if_false, Outcome.after,
        List.nil_append] at hr
      rw [hb] at hr
      exact d2 r hr
  · have hst : ((do
          let t ← getTunnel
          if t.clientSupportsEncoding EncodingType.DesktopName then
            cSendRectangle rectangle
            cSendRaw (toBe32 (wrapUInt32 t.desktopName.length))
            cSendRaw t.desktopName
            pure must
          else if sup then
            pure true
          else
            sendDummyRectangle
            pure must : M Bool) U).state = U := by
      obtain ⟨d1, _, _, _⟩ := sendDummyRectangle_facts U
      have hb := (bind_pure_state sendDummyRectangle must U).1
      rw [bind_run]
      cases hs : t.clientSupportsEncoding EncodingType.DesktopName
      · cases sup
        · simp only [getTunnel_run, hUc, hs, Outcome.after, Bool.false_eq_true, if_false]
          rw [hb, d1]
        · simp only [getTunnel_run, hUc, hs, if_true, Outcome.after, pure_run,
            Bool.false_eq_true, if_false]
      · simp only [bind_run, getTunnel_run, hUc, hs, if_true, cSendRectangle_run, cSendRaw_run,
          Outcome.after, pure_run]
    rw [hst]
    exact ⟨hx, hUp⟩

/-- Counterexample to C17 as stated: the client advertised DesktopName and the back-end sends
one DesktopName rectangle with the name `CONTROLLER_KEY:abc123`: the key is approved and the
tunnel does write a DesktopName rectangle to the client, carrying the name `xvnc` of the
session. -/
theorem processFramebufferUpdate_controllerKey_rectangle :
    (sampleTunnelDesktopName sampleControllerKeyUpdate).clientSupportsEncoding
        EncodingType.DesktopName = true
    ∧ clientRectangles
        (processFramebufferUpdate (sampleTunnelDesktopName sampleControllerKeyUpdate)).trace
        = [sampleDesktopNameRectangle]
    ∧ clientBytes
        (processFramebufferUpdate (sampleTunnelDesktopName sampleControllerKeyUpdate)).trace
        = [0, 0, 0, 1] ++ sampleDesktopNameRectangle.send ++ [0, 0, 0, 4] ++ ascii "xvnc"
    ∧ (processFramebufferUpdate
        (sampleTunnelDesktopName sampleControllerKeyUpdate)).state.m_currentConnection.m_xvnc.isKeyApproved
        (ascii "abc123") = true := by
  decide

/-- C17, as the code has it: when the back-end sends a DesktopName rectangle whose name is
`CONTROLLER_KEY:` followed by a key, the key is added to the approved keys of the session and
the desktop name of the session stays. If the client advertised DesktopName the tunnel writes
the rectangle header followed by the length and the bytes of the session's unchanged desktop
name (never the key); if it did not, no DesktopName rectangle is written: nothing at all when
LastRect can end the update, a dummy Raw or CopyRect rectangle otherwise. -/
theorem processDesktopName_controllerKey (t : VncTunnel) (rectangle : FramebufferUpdateRectangle)
    (sup must : Bool) (l0 l1 l2 l3 : Byte) (key rest : List Byte) (hwf : t.buffersOk)
    (hp : t.serverPending = [l0, l1, l2, l3] ++ (controllerKey ++ key) ++ rest)
    (hl : be32 l0 l1 l2 l3 = (controllerKey ++ key).length) :
    (processDesktopName rectangle sup must t).state.m_currentConnection.m_xvnc.isKeyApproved key
        = true
    ∧ (processDesktopName rectangle sup must t).state.desktopName = t.desktopName
    ∧ (processDesktopName rectangle sup must t).state.serverPending = rest
    ∧ (t.clientSupportsEncoding EncodingType.DesktopName = true →
      (processDesktopName rectangle sup must t).result = .ok must
      ∧ (processDesktopName rectangle sup must t).trace
          = [.client (.rectangle rectangle),
             .client (.raw (toBe32 (wrapUInt32 t.desktopName.length))),
             .client (.raw t.desktopName)])
    ∧ (t.clientSupportsEncoding EncodingType.DesktopName = false → sup = true →
      (processDesktopName rectangle sup must t).result = .ok true
      ∧ (processDesktopName rectangle sup must t).trace = [])
    ∧ (t.clientSupportsEncoding EncodingType.DesktopName = false →
      ∀ r ∈ clientRectangles (processDesktopName rectangle sup must t).trace,
        r.encodingType = EncodingType.Raw ∨ r.encodingType = EncodingType.CopyRect) := by
  obtain ⟨h1, h2, h3, h4, h5⟩ :=
    processDesktopName_controllerKey_run t rectangle sup must l0 l1 l2 l3 key rest hwf hp hl
  refine ⟨?_, ?_, h5, h1, h2, h3⟩
  · rw [h4, Xvnc.setDesktopName_prefix]
    simp [Xvnc.isKeyApproved]
  · unfold VncTunnel.desktopName
    rw [h4, Xvnc.setDesktopName_prefix]

/-- Witness for C17: the name `CONTROLLER_KEY:abc123` on the sample tunnel, whose client
advertised nothing, with LastRect not available: a dummy rectangle would be needed, the key is
approved all the same. -/
theorem processDesktopName_controllerKey_witness :
    (processDesktopName sampleDesktopNameRectangle false false
        (sampleTunnel [] ([0, 0, 0, 21] ++ (controllerKey ++ ascii "abc123") ++ []))).state.m_currentConnection.m_xvnc.isKeyApproved
        (ascii "abc123") = true :=
  (processDesktopName_controllerKey
    (sampleTunnel [] ([0, 0, 0, 21] ++ (controllerKey ++ ascii "abc123") ++ []))
    sampleDesktopNameRectangle false false 0 0 0 21 (ascii "abc123") [] (by decide) (by decide)
    (by decide)).1

/-! ## SetEncodings: the count sent to the back-end -/

theorem rawEncodings_succ (n : Nat) : rawEncodings (n + 1) = [0, 0, 0, 0] ++ rawEncodings n := by
  simp [rawEncodings, List.replicate_succ]

theorem rawEncodings_length (n : Nat) : (rawEncodings n).length = n * 4 := by
  induction n with
  | zero => rfl
  | succ n ih => rw [rawEncodings_succ, List.length_append, ih]; simp; omega

theorem recvEncodings_rawEncodings (n : Nat) :
    recvEncodings n (rawEncodings n) = List.replicate n EncodingType.Raw := by
  induction n with
  | zero => rfl
  | succ n ih =>
    rw [rawEncodings_succ, List.replicate_succ]
    show toInt32 (be32 0 0 0 0) :: recvEncodings n (rawEncodings n) = _
    rw [ih]
    rfl

theorem filterEncoding_raw (t : VncTunnel) :
    filterEncoding t EncodingType.Raw
      = { t with
          m_supportedEncodingsClient := List.insert EncodingType.Raw t.m_supportedEncodingsClient
          m_supportedEncodingsServer := t.m_supportedEncodingsServer ++ [EncodingType.Raw] } := by
  have h1 : EncodingType.Raw ∈ plainEncodings := by decide
  have h2 : ¬ (EncodingType.Raw ≥ EncodingType.JpegQualityLowest
      ∧ EncodingType.Raw ≤ EncodingType.JpegQualityHighest) := by decide
  unfold filterEncoding
  simp only [h1, h2, if_true, if_false]

theorem foldl_filterEncoding_raw (n : Nat) (t : VncTunnel)
    (hc : t.m_supportedEncodingsClient = [] ∨ t.m_supportedEncodingsClient = [EncodingType.Raw]) :
    ((List.replicate n EncodingType.Raw).foldl filterEncoding t).m_supportedEncodingsServer
        = t.m_supportedEncodingsServer ++ List.replicate n EncodingType.Raw
    ∧ (((List.replicate n EncodingType.Raw).foldl filterEncoding t).m_supportedEncodingsClient = []
        ∨ ((List.replicate n EncodingType.Raw).foldl filterEncoding t).m_supportedEncodingsClient
            = [EncodingType.Raw]) := by
  induction n generalizing t with
  | zero => exact ⟨(List.append_nil _).symm, hc⟩
  | succ n ih =>
    rw [List.replicate_succ, List.foldl_cons, filterEncoding_raw]
    have hc1 : List.insert EncodingType.Raw t.m_supportedEncodingsClient = [EncodingType.Raw] := by
      rcases hc with h | h <;> rw [h] <;> rfl
    obtain ⟨i1, i2⟩ := ih
      { t with
        m_supportedEncodingsClient := List.insert EncodingType.Raw t.m_supportedEncodingsClient
        m_supportedEncodingsServer := t.m_supportedEncodingsServer ++ [EncodingType.Raw] }
      (Or.inr hc1)
    refine ⟨?_, i2⟩
    rw [i1]
    simp [List.replicate_succ]

/-- The SetEncodings message of a client that names Raw `n` times. -/
theorem processSetEncodings_raw (n : Nat) (t : VncTunnel) (b2 b3 : Byte) (rest : List Byte)
    (hwf : t.buffersOk) (hn : be16 b2 b3 = n)
    (hp : t.clientPending = [2, 0, b2, b3] ++ rawEncodings n ++ rest) :
    (processSetEncodings t).result = .ok ()
    ∧ (processSetEncodings t).state.m_supportedEncodingsServer
        = List.replicate n EncodingType.Raw ++ [EncodingType.DesktopName]
    ∧ serverBytes (processSetEncodings t).trace
        = [2, 0] ++ toBe16 (toUInt16 (n + 1))
          ++ sendEncodings (List.replicate n EncodingType.Raw ++ [EncodingType.DesktopName]) := by
  have hp0 : t.clientPending = [2, 0, b2, b3] ++ (rawEncodings n ++ rest) := by
    rw [hp, List.append_assoc]
  have s1 := cRecvRaw_of t 4 [2, 0, b2, b3] _ hwf hp0 rfl
  have hm : SetEncodingsMessage.recv [2, 0, b2, b3]
      = { type := 2, padding := 0, numberOfEncodings := n } := by
    rw [← hn]; rfl
  have hwf1 := VncTunnel.clientConsumed_buffersOk t 4 hwf
  have hp1 : (t.clientConsumed 4).clientPending = rawEncodings n ++ rest := by
    have := VncTunnel.clientConsumed_pending_of t [2, 0, b2, b3] _ hp0
    exact this
  have s2 := cRecvRaw_of (t.clientConsumed 4) (n * 4) (rawEncodings n) rest hwf1 hp1
    (rawEncodings_length n)
  obtain ⟨f1, f2⟩ := foldl_filterEncoding_raw n
    { (t.clientConsumed 4).clientConsumed (n * 4) with
      m_supportedEncodingsClient := [], m_supportedEncodingsServer := [] } (Or.inl rfl)
  have hd : ((List.replicate n EncodingType.Raw).foldl filterEncoding
      { (t.clientConsumed 4).clientConsumed (n * 4) with
        m_supportedEncodingsClient := [], m_supportedEncodingsServer := [] }).clientSupportsEncoding
      EncodingType.DesktopName = false := by
    unfold VncTunnel.clientSupportsEncoding
    rcases f2 with h | h <;> rw [h] <;> decide
  have hsel : (selectEncodings (List.replicate n EncodingType.Raw)
      ((t.clientConsumed 4).clientConsumed (n * 4))).m_supportedEncodingsServer
      = List.replicate n EncodingType.Raw ++ [EncodingType.DesktopName] := by
    unfold selectEncodings
    simp only [hd, Bool.not_false, if_true]
    rw [f1]
    rfl
  have e : processSetEncodings t
      = { result := .ok ()
          state := selectEncodings (List.replicate n EncodingType.Raw)
            ((t.clientConsumed 4).clientConsumed (n * 4))
          trace := [.server (SetEncodingsMessage.send
              { type := 2, padding := 0
                numberOfEncodings := toUInt16
                  (List.replicate n EncodingType.Raw ++ [EncodingType.DesktopName]).length }),
            .server (sendEncodings
              (List.replicate n EncodingType.Raw ++ [EncodingType.DesktopName]))] } := by
    unfold processSetEncodings
    simp only [bind_run, s1, Outcome.after, hm, s2, recvEncodings_rawEncodings, modifyTunnel_run,
      getTunnel_run, sendSetEncodings, sSendRaw_run, hsel, List.nil_append]
    rfl
  rw [e]
  refine ⟨rfl, hsel, ?_⟩
  simp only [serverBytes, SetEncodingsMessage.send, List.length_append, List.length_replicate,
    List.length_singleton, List.append_nil, List.append_assoc]

/-- C4, the code at a failing input: the client sends a SetEncodings message that names Raw
65535 times. The list for the back-end is these 65535 entries followed by DesktopName, 65536
in all, and `numberOfEncodings` is a 16-bit field: the message is sent with the count 0
(bytes 02 00 00 00) and the 65536 entries after it. -/
theorem processSetEncodings_count_truncated :
    (processSetEncodings (sampleTunnel ([2, 0, 255, 255] ++ rawEncodings 65535 ++ []) [])).result
      = .ok ()
    ∧ (processSetEncodings
        (sampleTunnel ([2, 0, 255, 255] ++ rawEncodings 65535 ++ []) [])).state.m_supportedEncodingsServer.length
      = 65536
    ∧ serverBytes (processSetEncodings
        (sampleTunnel ([2, 0, 255, 255] ++ rawEncodings 65535 ++ []) [])).trace
      = [2, 0, 0, 0]
        ++ sendEncodings (List.replicate 65535 EncodingType.Raw ++ [EncodingType.DesktopName]) := by
  obtain ⟨h1, h2, h3⟩ := processSetEncodings_raw 65535
    (sampleTunnel ([2, 0, 255, 255] ++ rawEncodings 65535 ++ []) []) 255 255 []
    ⟨Nat.zero_le _, Nat.zero_le _⟩ (by decide) (List.nil_append _)
  refine ⟨h1, ?_, ?_⟩
  · rw [h2, List.length_append, List.length_replicate]
    rfl
  · rw [h3]
    have : toBe16 (toUInt16 (65535 + 1)) = [0, 0] := by decide
    rw [this]
    rfl

/-- C6, the code at a failing input: a tunnel fresh from `start` has an empty
`m_supportedEncodingsServer`, which the handshake with the client leaves empty; when the
greeter opens a session before the client has sent a SetEncodings message,
`connectionSwitched` sends to the new back-end a SetEncodings message with no entry at all
(bytes 02 00 00 00), followed by the FramebufferUpdateRequest: DesktopName is not asked for. -/
theorem connectionSwitched_sends_empty_encodings :
    (clientInitalize (sampleTunnel (HighestVersionString ++ [1, 1]) [])).state.m_supportedEncodingsServer
      = []
    ∧ EncodingType.DesktopName ∉ (sampleTunnelWithGreeter []).m_supportedEncodingsServer
    ∧ (loopRound (openSessionHandler 0 sampleBackendHandshake) (sampleTunnelWithGreeter [])).result
      = .ok true
    ∧ potentialBytes
        (loopRound (openSessionHandler 0 sampleBackendHandshake) (sampleTunnelWithGreeter [])).trace
      = HighestVersionString ++ [1, 1]
    ∧ serverBytes
        (loopRound (openSessionHandler 0 sampleBackendHandshake) (sampleTunnelWithGreeter [])).trace
      = [2, 0, 0, 0] ++ [3, 0, 0, 0, 0, 0, 3, 32, 2, 88]
    ∧ (loopRound (openSessionHandler 0 sampleBackendHandshake)
        (sampleTunnelWithGreeter [])).state.m_supportedEncodingsServer = [] := by
  refine ⟨by decide, by decide, rfl, by decide, by decide, by decide⟩

section KeepsLemmas
variable {α β : Type} {P : VncTunnel → Prop}

theorem Keeps.keeps_intro (m : M α) (h : ∀ t, P t → P (m t).state) : Keeps P m := by
  unfold Keeps; exact h
theorem Keeps.keeps_apply {m : M α} (h : Keeps P m) (t : VncTunnel) (ht : P t) : P (m t).state := by
  unfold Keeps at h; exact h t ht
theorem Keeps.keeps_pure (a : α) : Keeps P (pure a : M α) := Keeps.keeps_intro _ fun _ h => h
theorem Keeps.keeps_raise (e : Err) : Keeps P (raise e : M α) := Keeps.keeps_intro _ fun _ h => h
theorem Keeps.keeps_getTunnel : Keeps P getTunnel := Keeps.keeps_intro _ fun _ h => h
theorem Keeps.keeps_emit (e : Event) : Keeps P (emit e) := Keeps.keeps_intro _ fun _ h => h
theorem Keeps.keeps_modify (g : VncTunnel → VncTunnel) (hg : ∀ t, P t → P (g t)) :
    Keeps P (modifyTunnel g) := Keeps.keeps_intro _ fun t h => hg t h
theorem Keeps.keeps_bind (m : M α) (f : α → M β) (hm : Keeps P m) (hf : ∀ a, Keeps P (f a)) :
    Keeps P (m >>= f) := by
  apply Keeps.keeps_intro
  intro t h
  rw [bind_run]
  cases hr : (m t).result with
  | error e => exact hm.keeps_apply t h
  | ok a => exact (hf a).keeps_apply _ (hm.keeps_apply t h)
theorem Keeps.keeps_ite (c : Prop) [Decidable c] (a b : M α) (ha : Keeps P a) (hb : Keeps P b) :
    Keeps P (if c then a else b) := by
  split
  · exact ha
  · exact hb
end KeepsLemmas

theorem keeps_tight_xRecvRaw (which : Which) (len : Nat) :
    Keeps tightConsistent (xRecvRaw which len) := by
  apply Keeps.keeps_intro
  intro t h
  unfold xRecvRaw
  cases which with
  | current => exact h
  | potential =>
    cases hp : t.m_potentialConnection with
    | none => simp only [VncTunnel.connection, hp]; exact h
    | some c => simp only [VncTunnel.connection, hp]; exact h

theorem keeps_tight_xSendRaw (which : Which) (bs : List Byte) :
    Keeps tightConsistent (xSendRaw which bs) := by
  apply Keeps.keeps_intro
  intro t h
  cases which <;> exact h

theorem keeps_tight_cRecvRaw (len : Nat) : Keeps tightConsistent (cRecvRaw len) :=
  Keeps.keeps_intro _ fun _ h => h

theorem keeps_tight_sSendRaw (bs : List Byte) : Keeps tightConsistent (sSendRaw bs) :=
  Keeps.keeps_intro _ fun _ h => h

theorem keeps_tight_sendSetEncodings (e : List Int) : Keeps tightConsistent (sendSetEncodings e) := by
  unfold sendSetEncodings
  exact Keeps.keeps_bind _ _ (keeps_tight_sSendRaw _) (fun _ => keeps_tight_sSendRaw _)

theorem keeps_tight_sendSetPixelFormat (p : PixelFormat) :
    Keeps tightConsistent (sendSetPixelFormat p) := by
  unfold sendSetPixelFormat
  repeat' (first
    | with_reducible apply Keeps.keeps_bind
    | with_reducible apply Keeps.keeps_ite
    | with_reducible apply Keeps.keeps_pure
    | with_reducible apply Keeps.keeps_raise
    | with_reducible apply Keeps.keeps_getTunnel
    | with_reducible apply keeps_tight_sSendRaw
    | ((with_reducible apply Keeps.keeps_modify); intro t h; exact h)
    | intro _)

theorem keeps_tight_sendNonIncremental :
    Keeps tightConsistent sendNonIncrementalFramebufferUpdateRequest := by
  unfold sendNonIncrementalFramebufferUpdateRequest
  repeat' (first
    | with_reducible apply Keeps.keeps_bind
    | with_reducible apply Keeps.keeps_getTunnel
    | with_reducible apply keeps_tight_sSendRaw
    | intro _)

theorem keeps_tight_connectionSwitched : Keeps tightConsistent connectionSwitched := by
  unfold connectionSwitched
  repeat' (first
    | with_reducible apply Keeps.keeps_bind
    | with_reducible apply Keeps.keeps_ite
    | with_reducible apply Keeps.keeps_pure
    | with_reducible apply Keeps.keeps_raise
    | with_reducible apply Keeps.keeps_getTunnel
    | with_reducible apply keeps_tight_sendSetEncodings
    | with_reducible apply keeps_tight_sendSetPixelFormat
    | with_reducible apply keeps_tight_sendNonIncremental
    | ((with_reducible apply Keeps.keeps_modify); intro t h; exact h)
    | intro _
    | split)
theorem keeps_tight_receiveFailureReason (which : Which) :
    Keeps tightConsistent (XvncConnection.receiveFailureReason which) := by
  unfold XvncConnection.receiveFailureReason
  repeat' (first
    | with_reducible apply Keeps.keeps_bind
    | with_reducible apply Keeps.keeps_ite
    | with_reducible apply Keeps.keeps_pure
    | with_reducible apply Keeps.keeps_raise
    | with_reducible apply Keeps.keeps_getTunnel
    | with_reducible apply keeps_tight_xRecvRaw
    | with_reducible apply keeps_tight_xSendRaw
    | intro _)

theorem keeps_tight_startInitialization (which : Which) (supportedTypes : List Nat) :
    Keeps tightConsistent (XvncConnection.startInitialization which supportedTypes) := by
  unfold XvncConnection.startInitialization
  repeat' (first
    | with_reducible apply Keeps.keeps_bind
    | with_reducible apply Keeps.keeps_ite
    | with_reducible apply Keeps.keeps_pure
    | with_reducible apply Keeps.keeps_raise
    | with_reducible apply Keeps.keeps_getTunnel
    | with_reducible apply keeps_tight_xRecvRaw
    | with_reducible apply keeps_tight_xSendRaw
    | with_reducible apply keeps_tight_receiveFailureReason
    | intro _)

theorem keeps_tight_receiveSecurityResult (which : Which) :
    Keeps tightConsistent (XvncConnection.receiveSecurityResult which) := by
  unfold XvncConnection.receiveSecurityResult
  repeat' (first
    | with_reducible apply Keeps.keeps_bind
    | with_reducible apply Keeps.keeps_ite
    | with_reducible apply Keeps.keeps_pure
    | with_reducible apply Keeps.keeps_raise
    | with_reducible apply Keeps.keeps_getTunnel
    | with_reducible apply keeps_tight_xRecvRaw
    | with_reducible apply keeps_tight_xSendRaw
    | with_reducible apply keeps_tight_receiveFailureReason
    | intro _)

theorem keeps_tight_completeInitialization (which : Which) :
    Keeps tightConsistent (XvncConnection.completeInitialization which) := by
  unfold XvncConnection.completeInitialization
  repeat' (first
    | with_reducible apply Keeps.keeps_bind
    | with_reducible apply Keeps.keeps_ite
    | with_reducible apply Keeps.keeps_pure
    | with_reducible apply Keeps.keeps_raise
    | with_reducible apply Keeps.keeps_getTunnel
    | with_reducible apply keeps_tight_xRecvRaw
    | with_reducible apply keeps_tight_xSendRaw
    | with_reducible apply keeps_tight_connectionSwitched
    | ((with_reducible apply Keeps.keeps_modify); intro t h; first | exact h | (cases which <;> exact h))
    | intro _
    | split)

theorem keeps_tight_handleNoneSecurity (which : Which) :
    Keeps tightConsistent (XvncConnection.handleNoneSecurity which) := by
  unfold XvncConnection.handleNoneSecurity
  repeat' (first
    | with_reducible apply Keeps.keeps_bind
    | with_reducible apply Keeps.keeps_ite
    | with_reducible apply Keeps.keeps_pure
    | with_reducible apply Keeps.keeps_raise
    | with_reducible apply Keeps.keeps_getTunnel
    | with_reducible apply keeps_tight_receiveSecurityResult
    | with_reducible apply keeps_tight_completeInitialization
    | intro _)

theorem keeps_tight_handleVncAuthSecurity (which : Which) :
    Keeps tightConsistent (XvncConnection.handleVncAuthSecurity which) := by
  unfold XvncConnection.handleVncAuthSecurity
  repeat' (first
    | with_reducible apply Keeps.keeps_bind
    | with_reducible apply Keeps.keeps_ite
    | with_reducible apply Keeps.keeps_pure
    | with_reducible apply Keeps.keeps_raise
    | with_reducible apply Keeps.keeps_getTunnel
    | ((with_reducible apply Keeps.keeps_modify); intro t h; exact h)
    | intro _
    | split)

theorem keeps_tight_requestCredentials (which : Which) :
    Keeps tightConsistent (XvncConnection.requestCredentials which) := by
  unfold XvncConnection.requestCredentials
  repeat' (first
    | with_reducible apply Keeps.keeps_bind
    | with_reducible apply Keeps.keeps_ite
    | with_reducible apply Keeps.keeps_pure
    | with_reducible apply Keeps.keeps_raise
    | with_reducible apply Keeps.keeps_getTunnel
    | ((with_reducible apply Keeps.keeps_modify); intro t h; exact h)
    | intro _
    | split)

theorem keeps_tight_handleVeNCryptSecurity (which : Which) :
    Keeps tightConsistent (XvncConnection.handleVeNCryptSecurity which) := by
  unfold XvncConnection.handleVeNCryptSecurity
  repeat' (first
    | with_reducible apply Keeps.keeps_bind
    | with_reducible apply Keeps.keeps_ite
    | with_reducible apply Keeps.keeps_pure
    | with_reducible apply Keeps.keeps_raise
    | with_reducible apply Keeps.keeps_getTunnel
    | with_reducible apply keeps_tight_xRecvRaw
    | with_reducible apply keeps_tight_xSendRaw
    | with_reducible apply keeps_tight_handleNoneSecurity
    | with_reducible apply keeps_tight_handleVncAuthSecurity
    | with_reducible apply keeps_tight_requestCredentials
    | intro _)

theorem keeps_tight_initialiseWithHandlers (which : Which) :
    Keeps tightConsistent (XvncConnection.initialiseWithHandlers which) := by
  unfold XvncConnection.initialiseWithHandlers
  repeat' (first
    | with_reducible apply Keeps.keeps_bind
    | with_reducible apply Keeps.keeps_ite
    | with_reducible apply Keeps.keeps_pure
    | with_reducible apply Keeps.keeps_raise
    | with_reducible apply Keeps.keeps_getTunnel
    | with_reducible apply keeps_tight_startInitialization
    | with_reducible apply keeps_tight_handleNoneSecurity
    | with_reducible apply keeps_tight_handleVncAuthSecurity
    | with_reducible apply keeps_tight_handleVeNCryptSecurity
    | ((with_reducible apply Keeps.keeps_modify); intro t h; first | exact h | (cases which <;> exact h))
    | intro _
    | split)

theorem tight_not_plain : ¬ (EncodingType.Tight ∈ plainEncodings) := by decide

theorem filterEncoding_tight (t : VncTunnel) (e : Int) (h : tightConsistent t) :
    tightConsistent (filterEncoding t e) := by
  unfold tightConsistent at h ⊢
  unfold filterEncoding
  by_cases h2 : e = EncodingType.Tight
  · subst h2
    have h3 : ¬ (EncodingType.Tight ≥ EncodingType.JpegQualityLowest
        ∧ EncodingType.Tight ≤ EncodingType.JpegQualityHighest) := by decide
    simp only [if_neg tight_not_plain, if_neg h3, if_true]
    intro _
    exact List.mem_insert_self _ _
  · have hne : ¬ (EncodingType.Tight = e) := fun h => h2 h.symm
    by_cases h1 : e ∈ plainEncodings <;>
    by_cases h3 : (e ≥ EncodingType.JpegQualityLowest ∧ e ≤ EncodingType.JpegQualityHighest) <;>
    simp only [h1, h2, h3, if_true, if_false, and_self, List.mem_append, List.mem_singleton,
      List.mem_insert_iff, hne, or_false, false_or] <;>
    exact h

theorem foldl_filterEncoding_tight (es : List Int) (t : VncTunnel) (h : tightConsistent t) :
    tightConsistent (es.foldl filterEncoding t) := by
  induction es generalizing t with
  | nil => exact h
  | cons e es ih => exact ih _ (filterEncoding_tight t e h)

theorem selectEncodings_tight (es : List Int) (t : VncTunnel) :
    tightConsistent (selectEncodings es t) := by
  have h0 : tightConsistent
      { t with m_supportedEncodingsClient := [], m_supportedEncodingsServer := [] } := by
    intro h; cases h
  have h1 := foldl_filterEncoding_tight es _ h0
  unfold selectEncodings
  dsimp only
  split
  · intro h
    have h2 := List.mem_append.mp h
    cases h2 with
    | inl h2 => exact h1 h2
    | inr h2 => exact absurd (List.mem_singleton.mp h2) (by decide)
  · exact h1
theorem keeps_tight_processSetEncodings : Keeps tightConsistent processSetEncodings := by
  unfold processSetEncodings
  repeat' (first
    | with_reducible apply Keeps.keeps_bind
    | with_reducible apply Keeps.keeps_getTunnel
    | with_reducible apply keeps_tight_cRecvRaw
    | with_reducible apply keeps_tight_sendSetEncodings
    | ((with_reducible apply Keeps.keeps_modify); intro t _; exact selectEncodings_tight _ t)
    | intro _)

theorem bind_getTunnel_state {β : Type} (f : VncTunnel → M β) (t : VncTunnel) :
    ((getTunnel >>= f) t).state = (f t t).state := rfl

theorem bind_modifyTunnel_state {β : Type} (g : VncTunnel → VncTunnel) (f : Unit → M β)
    (t : VncTunnel) : ((modifyTunnel g >>= f) t).state = (f () (g t)).state := rfl

theorem keeps_tight_switchToConnection (xvnc : Option Xvnc) (backendInput : List Byte) :
    Keeps tightConsistent (switchToConnection xvnc backendInput) := by
  apply Keeps.keeps_intro
  intro t h
  unfold switchToConnection
  rw [bind_getTunnel_state]
  dsimp only
  by_cases hd : t.m_tightEncodingDisabled = true
  · rw [if_pos hd, bind_modifyTunnel_state]
    by_cases hc : t.clientSupportsEncoding EncodingType.Tight = true
    · rw [if_pos hc, bind_modifyTunnel_state]
      refine Keeps.keeps_apply ?_ _ ?_
      · repeat' (first
          | with_reducible apply Keeps.keeps_bind
          | with_reducible apply Keeps.keeps_ite
          | with_reducible apply Keeps.keeps_pure
          | with_reducible apply Keeps.keeps_raise
          | with_reducible apply keeps_tight_initialiseWithHandlers
          | ((with_reducible apply Keeps.keeps_modify); intro t h; exact h)
          | intro _
          | split)
      · intro _
        exact of_decide_eq_true hc
    · rw [if_neg hc]
      refine Keeps.keeps_apply ?_ _ ?_
      · repeat' (first
          | with_reducible apply Keeps.keeps_bind
          | with_reducible apply Keeps.keeps_ite
          | with_reducible apply Keeps.keeps_pure
          | with_reducible apply Keeps.keeps_raise
          | with_reducible apply keeps_tight_initialiseWithHandlers
          | ((with_reducible apply Keeps.keeps_modify); intro t h; exact h)
          | intro _
          | split)
      · exact h
  · rw [if_neg hd]
    refine Keeps.keeps_apply ?_ _ h
    repeat' (first
          | with_reducible apply Keeps.keeps_bind
          | with_reducible apply Keeps.keeps_ite
          | with_reducible apply Keeps.keeps_pure
          | with_reducible apply Keeps.keeps_raise
          | with_reducible apply keeps_tight_initialiseWithHandlers
          | ((with_reducible apply Keeps.keeps_modify); intro t h; exact h)
          | intro _
          | split)

/-- Claim C5: in every state the tunnel reaches from a fresh one by SetEncodings messages,
switch requests and completed switches, Tight is in the list asked of the back-end only if
the client advertised Tight. -/
theorem tight_requested_only_if_advertised (t : VncTunnel) (h : EncodingsReachable t) :
    EncodingType.Tight ∈ t.m_supportedEncodingsServer →
      EncodingType.Tight ∈ t.m_supportedEncodingsClient := by
  have key : tightConsistent t := by
    induction h with
    | fresh t hc hs =>
      intro hm
      rw [hs] at hm
      cases hm
    | setEncodings t _ ih => exact keeps_tight_processSetEncodings.keeps_apply t ih
    | switchTo t xvnc backendInput _ ih =>
      exact (keeps_tight_switchToConnection xvnc backendInput).keeps_apply t ih
    | switched t _ ih => exact keeps_tight_connectionSwitched.keeps_apply t ih
    | other t u hc hs _ ih =>
      intro hm
      rw [hc]
      rw [hs] at hm
      exact ih hm
  exact key


theorem tight_requested_only_if_advertised_witness :
    EncodingsReachable (processSetEncodings (sampleTunnel [2, 0, 0, 1, 0, 0, 0, 7] [])).state
    ∧ EncodingType.Tight ∈
        (processSetEncodings (sampleTunnel [2, 0, 0, 1, 0, 0, 0, 7] [])).state.m_supportedEncodingsServer
    ∧ EncodingType.Tight ∈
        (processSetEncodings (sampleTunnel [2, 0, 0, 1, 0, 0, 0, 7] [])).state.m_supportedEncodingsClient :=
  ⟨EncodingsReachable.setEncodings _ (EncodingsReachable.fresh _ rfl rfl), by decide,
   tight_requested_only_if_advertised _
     (EncodingsReachable.setEncodings _ (EncodingsReachable.fresh _ rfl rfl)) (by decide)⟩

section EmitsLemmas
variable {α β : Type}

theorem NoRect.noRect_intro (m : M α) (h : ∀ t, clientRectangles (m t).trace = []) : NoRect m := by
  unfold NoRect; exact h
theorem NoRect.noRect_apply {m : M α} (h : NoRect m) (t : VncTunnel) :
    clientRectangles (m t).trace = [] := by
  unfold NoRect at h; exact h t
theorem NoRect.noRect_pure (a : α) : NoRect (pure a : M α) := NoRect.noRect_intro _ fun _ => rfl
theorem NoRect.noRect_raise (e : Err) : NoRect (raise e : M α) := NoRect.noRect_intro _ fun _ => rfl
theorem NoRect.noRect_getTunnel : NoRect getTunnel := NoRect.noRect_intro _ fun _ => rfl
theorem NoRect.noRect_modify (g : VncTunnel → VncTunnel) : NoRect (modifyTunnel g) :=
  NoRect.noRect_intro _ fun _ => rfl
theorem NoRect.noRect_received (r : FramebufferUpdateRectangle) : NoRect (emit (.received r)) :=
  NoRect.noRect_intro _ fun _ => rfl
theorem NoRect.noRect_cSendRaw (bs : List Byte) : NoRect (cSendRaw bs) := NoRect.noRect_intro _ fun _ => rfl
theorem NoRect.noRect_sRecvRaw (n : Nat) : NoRect (sRecvRaw n) := NoRect.noRect_intro _ fun _ => rfl
theorem NoRect.noRect_sForwardRaw (n : Nat) : NoRect (sForwardRaw n) := NoRect.noRect_intro _ fun _ => rfl
theorem NoRect.noRect_setFramebufferSize (w h : Nat) : NoRect (setFramebufferSize w h) :=
  NoRect.noRect_intro _ fun _ => rfl
theorem NoRect.noRect_setDesktopName (n : List Byte) : NoRect (setDesktopName n) :=
  NoRect.noRect_intro _ fun _ => rfl

theorem bind_trace_ok (m : M α) (f : α → M β) (t : VncTunnel) (a : α) (h : (m t).result = .ok a) :
    ((m >>= f) t).trace = (m t).trace ++ (f a (m t).state).trace := by
  rw [bind_run_ok _ _ _ _ h]; rfl

theorem NoRect.noRect_bind (m : M α) (f : α → M β) (hm : NoRect m) (hf : ∀ a, NoRect (f a)) :
    NoRect (m >>= f) := by
  apply NoRect.noRect_intro
  intro t
  cases hr : (m t).result with
  | error e => rw [bind_run_error _ _ _ _ hr]; exact hm.noRect_apply t
  | ok a =>
    rw [bind_trace_ok _ _ _ _ hr, clientRectangles_append, hm.noRect_apply t, (hf a).noRect_apply]
    rfl

theorem NoRect.noRect_ite (c : Prop) [Decidable c] (a b : M α) (ha : NoRect a) (hb : NoRect b) :
    NoRect (if c then a else b) := by
  split
  · exact ha
  · exact hb

theorem NoRect.noRect_sForwardDirectly (n : Nat) : NoRect (sForwardDirectly n) := by
  unfold VncManager.sForwardDirectly
  exact NoRect.noRect_bind _ _ (NoRect.noRect_intro _ fun _ => rfl) (fun _ => NoRect.noRect_pure _)

theorem Emits.emits_intro (P : List FramebufferUpdateRectangle → α → Prop) (m : M α)
    (h : ∀ t a, (m t).result = .ok a → P (clientRectangles (m t).trace) a) : Emits P m := by
  unfold Emits; exact h
theorem Emits.emits_apply {P : List FramebufferUpdateRectangle → α → Prop} {m : M α} (h : Emits P m)
    (t : VncTunnel) (a : α) (hr : (m t).result = .ok a) : P (clientRectangles (m t).trace) a := by
  unfold Emits at h; exact h t a hr

variable {P : List FramebufferUpdateRectangle → β → Prop}

theorem Emits.emits_pure (P : List FramebufferUpdateRectangle → α → Prop) (a : α) (h : P [] a) :
    Emits P (pure a : M α) := by
  apply Emits.emits_intro
  intro t b hb
  have : a = b := by
    have h2 : (Except.ok a : Except Err α) = Except.ok b := hb
    exact Except.ok.inj h2
  subst this
  exact h

theorem Emits.emits_raise (P : List FramebufferUpdateRectangle → α → Prop) (e : Err) :
    Emits P (raise e : M α) := by
  apply Emits.emits_intro
  intro t b hb
  cases hb

theorem Emits.emits_bind (Q : List FramebufferUpdateRectangle → α → Prop) (m : M α) (f : α → M β)
    (hm : Emits Q m) (hf : ∀ a, Emits (fun rs b => ∀ r1, Q r1 a → P (r1 ++ rs) b) (f a)) :
    Emits P (m >>= f) := by
  apply Emits.emits_intro
  intro t b hb
  obtain ⟨a, h1, h2⟩ := bind_result_ok m f t b hb
  rw [bind_trace_ok _ _ _ _ h1, clientRectangles_append]
  exact (hf a).emits_apply _ b h2 _ (hm.emits_apply t a h1)

theorem Emits.emits_bind_noRect (m : M α) (f : α → M β) (hm : NoRect m) (hf : ∀ a, Emits P (f a)) :
    Emits P (m >>= f) := by
  apply Emits.emits_intro
  intro t b hb
  obtain ⟨a, h1, h2⟩ := bind_result_ok m f t b hb
  rw [bind_trace_ok _ _ _ _ h1, clientRectangles_append, hm.noRect_apply t]
  exact (hf a).emits_apply _ b h2

theorem Emits.emits_bind_send (r : FramebufferUpdateRectangle) (f : Unit → M β)
    (hf : Emits (fun rs b => P (r :: rs) b) (f ())) :
    Emits P (cSendRectangle r >>= f) := by
  apply Emits.emits_intro
  intro t b hb
  obtain ⟨a, h1, h2⟩ := bind_result_ok (cSendRectangle r) f t b hb
  rw [bind_trace_ok _ _ _ _ h1, clientRectangles_append]
  exact hf.emits_apply _ b h2

theorem Emits.emits_ite (c : Prop) [Decidable c] (a b : M β) (ha : c → Emits P a) (hb : ¬ c → Emits P b) :
    Emits P (if c then a else b) := by
  split
  · exact ha (by assumption)
  · exact hb (by assumption)

theorem Emits.emits_of_noRect (m : M β) (hm : NoRect m) (h : ∀ b, P [] b) : Emits P m := by
  apply Emits.emits_intro
  intro t b _
  rw [hm.noRect_apply t]
  exact h b
end EmitsLemmas
theorem NoRect.noRect_forwardTightVariableLengthData : NoRect forwardTightVariableLengthData := by
  unfold VncManager.forwardTightVariableLengthData
  repeat' (first
    | with_reducible apply NoRect.noRect_bind
    | with_reducible apply NoRect.noRect_ite
    | with_reducible apply NoRect.noRect_sForwardRaw
    | with_reducible apply NoRect.noRect_sForwardDirectly
    | intro _)

theorem emits_processTight (rectangle : FramebufferUpdateRectangle) :
    Emits (fun rs _ => rs = [rectangle]) (processTight rectangle) := by
  unfold processTight
  apply Emits.emits_bind_send
  apply Emits.emits_of_noRect
  · repeat' (first
      | with_reducible apply NoRect.noRect_bind
      | with_reducible apply NoRect.noRect_ite
      | with_reducible apply NoRect.noRect_pure
      | with_reducible apply NoRect.noRect_getTunnel
      | with_reducible apply NoRect.noRect_modify
      | with_reducible apply NoRect.noRect_cSendRaw
      | with_reducible apply NoRect.noRect_sRecvRaw
      | with_reducible apply NoRect.noRect_sForwardRaw
      | with_reducible apply NoRect.noRect_sForwardDirectly
      | with_reducible apply NoRect.noRect_forwardTightVariableLengthData
      | intro _)
  · intro _
    rfl

theorem emits_sendDummyRectangle : Emits (fun rs _ => rs.length = 1) sendDummyRectangle := by
  apply Emits.emits_intro
  intro t a h
  cases a
  exact (sendDummyRectangle_facts t).2.2.2 h

theorem emits_processDesktopName (rectangle : FramebufferUpdateRectangle) (sup must : Bool) :
    Emits (fun rs m => (m = must ∧ rs.length = 1) ∨ (m = true ∧ sup = true ∧ rs = []))
      (processDesktopName rectangle sup must) := by
  unfold processDesktopName
  refine Emits.emits_bind_noRect _ _ (NoRect.noRect_sRecvRaw _) (fun lb => ?_)
  refine Emits.emits_bind_noRect _ _ (NoRect.noRect_sRecvRaw _) (fun name => ?_)
  refine Emits.emits_bind_noRect _ _ (NoRect.noRect_setDesktopName _) (fun _ => ?_)
  refine Emits.emits_bind_noRect _ _ NoRect.noRect_getTunnel (fun t => ?_)
  refine Emits.emits_ite _ _ _ (fun _ => ?_) (fun _ => ?_)
  · apply Emits.emits_bind_send
    refine Emits.emits_bind_noRect _ _ (NoRect.noRect_cSendRaw _) (fun _ => ?_)
    refine Emits.emits_bind_noRect _ _ (NoRect.noRect_cSendRaw _) (fun _ => ?_)
    apply Emits.emits_pure
    exact Or.inl ⟨rfl, rfl⟩
  · refine Emits.emits_ite _ _ _ (fun hs => ?_) (fun _ => ?_)
    · apply Emits.emits_pure
      exact Or.inr ⟨rfl, hs, rfl⟩
    · refine Emits.emits_bind _ _ _ emits_sendDummyRectangle (fun _ => ?_)
      apply Emits.emits_pure
      intro r1 h1
      left
      refine ⟨rfl, ?_⟩
      rw [List.append_nil]
      exact h1
theorem emits_processRectangle (sup must : Bool) :
    Emits (roundPost sup must) (processRectangle sup must) := by
  unfold processRectangle
  refine Emits.emits_bind_noRect _ _ (NoRect.noRect_sRecvRaw _) (fun bs => ?_)
  refine Emits.emits_bind_noRect _ _ (NoRect.noRect_received _) (fun _ => ?_)
  refine Emits.emits_bind_noRect _ _ NoRect.noRect_getTunnel (fun t => ?_)
  refine Emits.emits_ite _ _ _ (fun _ => ?_) (fun _ => ?_)
  · apply Emits.emits_bind_send
    refine Emits.emits_bind_noRect _ _ (NoRect.noRect_sForwardDirectly _) (fun _ => ?_)
    apply Emits.emits_pure
    exact Or.inr (Or.inl ⟨rfl, rfl, rfl⟩)
  refine Emits.emits_ite _ _ _ (fun _ => ?_) (fun _ => ?_)
  · apply Emits.emits_bind_send
    refine Emits.emits_bind_noRect _ _ (NoRect.noRect_sForwardRaw _) (fun _ => ?_)
    refine Emits.emits_bind_noRect _ _ (NoRect.noRect_sForwardDirectly _) (fun _ => ?_)
    apply Emits.emits_pure
    exact Or.inr (Or.inl ⟨rfl, rfl, rfl⟩)
  refine Emits.emits_ite _ _ _ (fun _ => ?_) (fun _ => ?_)
  · apply Emits.emits_bind_send
    refine Emits.emits_bind_noRect _ _ (NoRect.noRect_setFramebufferSize _ _) (fun _ => ?_)
    apply Emits.emits_pure
    exact Or.inr (Or.inl ⟨rfl, rfl, rfl⟩)
  refine Emits.emits_ite _ _ _ (fun hl => ?_) (fun _ => ?_)
  · apply Emits.emits_bind_send
    apply Emits.emits_pure
    exact Or.inl ⟨rfl, rfl, _, rfl, hl⟩
  refine Emits.emits_ite _ _ _ (fun _ => ?_) (fun _ => ?_)
  · refine Emits.emits_bind _ _ _ (emits_processDesktopName _ sup must) (fun m => ?_)
    apply Emits.emits_pure
    intro r1 h1
    rw [List.append_nil]
    cases h1 with
    | inl h => exact Or.inr (Or.inl ⟨rfl, h.1, h.2⟩)
    | inr h => exact Or.inr (Or.inr ⟨rfl, h.1, h.2.1, h.2.2⟩)
  refine Emits.emits_ite _ _ _ (fun _ => ?_) (fun _ => ?_)
  · dsimp only
    refine Emits.emits_ite _ _ _ (fun _ => ?_) (fun _ => ?_)
    · refine Emits.emits_bind_noRect _ _ (NoRect.noRect_setFramebufferSize _ _) (fun _ => ?_)
      apply Emits.emits_bind_send
      refine Emits.emits_bind_noRect _ _ (NoRect.noRect_sForwardRaw _) (fun _ => ?_)
      refine Emits.emits_bind_noRect _ _ (NoRect.noRect_sForwardDirectly _) (fun _ => ?_)
      apply Emits.emits_pure
      exact Or.inr (Or.inl ⟨rfl, rfl, rfl⟩)
    · refine Emits.emits_bind_noRect _ _ (NoRect.noRect_pure _) (fun _ => ?_)
      apply Emits.emits_bind_send
      refine Emits.emits_bind_noRect _ _ (NoRect.noRect_sForwardRaw _) (fun _ => ?_)
      refine Emits.emits_bind_noRect _ _ (NoRect.noRect_sForwardDirectly _) (fun _ => ?_)
      apply Emits.emits_pure
      exact Or.inr (Or.inl ⟨rfl, rfl, rfl⟩)
  refine Emits.emits_ite _ _ _ (fun _ => ?_) (fun _ => ?_)
  · refine Emits.emits_bind _ _ _ (emits_processTight _) (fun _ => ?_)
    apply Emits.emits_pure
    intro r1 h1
    rw [List.append_nil, h1]
    exact Or.inr (Or.inl ⟨rfl, rfl, rfl⟩)
  · apply Emits.emits_raise

theorem rectangleLoop_received (sup : Bool) (n : Nat) (must : Bool) :
    rectangleLoop sup n true must = pure (true, must) := by
  cases n <;> rfl

theorem endsWithLastRect_append (rs1 rs2 : List FramebufferUpdateRectangle)
    (h : endsWithLastRect rs2) : endsWithLastRect (rs1 ++ rs2) := by
  obtain ⟨r, h1, h2⟩ := h
  refine ⟨r, ?_, h2⟩
  rw [List.getLast?_append, h1]
  rfl

theorem rectangleLoop_rectangles (sup : Bool) (n : Nat) (must : Bool) (t : VncTunnel)
    (recv must2 : Bool) (h : (rectangleLoop sup n false must t).result = .ok (recv, must2)) :
    (clientRectangles (rectangleLoop sup n false must t).trace).length ≤ n
    ∧ (recv = true → endsWithLastRect (clientRectangles (rectangleLoop sup n false must t).trace))
    ∧ (recv = false →
        ((clientRectangles (rectangleLoop sup n false must t).trace).length = n ∧ must2 = must)
        ∨ ((clientRectangles (rectangleLoop sup n false must t).trace).length < n
            ∧ must2 = true ∧ sup = true)) := by
  induction n generalizing t must with
  | zero =>
    have h2 : (Except.ok (false, must) : Except Err (Bool × Bool)) = Except.ok (recv, must2) := h
    have h3 := Except.ok.inj h2
    have h4 : must = must2 := congrArg Prod.snd h3
    have h5 : false = recv := congrArg Prod.fst h3
    subst h4 h5
    exact ⟨Nat.le_refl _, fun hc => (by cases hc), fun _ => Or.inl ⟨rfl, rfl⟩⟩
  | succ n ih =>
    have e : rectangleLoop sup (n + 1) false must
        = (processRectangle sup must >>= fun p => rectangleLoop sup n p.1 p.2) := rfl
    rw [e] at h ⊢
    obtain ⟨p, h1, h2⟩ := bind_result_ok _ _ t _ h
    rw [bind_trace_ok _ _ _ _ h1, clientRectangles_append]
    have hp := (emits_processRectangle sup must).emits_apply t p h1
    obtain ⟨p1, p2⟩ := p
    rcases hp with ⟨ha, hb, r, hr, hl⟩ | ⟨ha, hb, hlen⟩ | ⟨ha, hb, hs, hnil⟩
    · simp only at ha hb h2 ⊢
      subst ha
      rw [hb] at h2 ⊢
      rw [rectangleLoop_received] at h2 ⊢
      have h3 : (Except.ok (true, must) : Except Err (Bool × Bool)) = Except.ok (recv, must2) := h2
      have h4 := Except.ok.inj h3
      have h5 : true = recv := congrArg Prod.fst h4
      subst h5
      rw [hr]
      exact ⟨Nat.le_add_left 1 n, fun _ => ⟨r, rfl, hl⟩, fun hc => (by cases hc)⟩
    · simp only at ha hb h2 ⊢
      subst ha
      rw [hb] at h2 ⊢
      obtain ⟨i1, i2, i3⟩ := ih must _ h2
      rw [List.length_append, hlen]
      refine ⟨by omega, fun hc => endsWithLastRect_append _ _ (i2 hc), fun hc => ?_⟩
      cases i3 hc with
      | inl h => exact Or.inl ⟨by omega, h.2⟩
      | inr h => exact Or.inr ⟨by omega, h.2⟩
    · simp only at ha hb h2 ⊢
      subst ha
      rw [hb] at h2 ⊢
      obtain ⟨i1, i2, i3⟩ := ih true _ h2
      rw [hnil, List.nil_append]
      refine ⟨by omega, i2, fun hc => ?_⟩
      cases i3 hc with
      | inl h => exact Or.inr ⟨by omega, h.2, hs⟩
      | inr h => exact Or.inr ⟨by omega, h.2⟩

theorem sendExtraRectangles_run (t : VncTunnel) :
    ∃ st tr, sendExtraRectangles t = { result := .ok (), state := st, trace := tr }
      ∧ (clientRectangles tr).length = t.countExtraRectangles := by
  unfold sendExtraRectangles VncTunnel.countExtraRectangles
  cases hq : t.m_desktopNameChangeQueued
  · refine ⟨t, [], ?_, rfl⟩
    simp only [bind_run, getTunnel_run, hq, Outcome.after]
    rfl
  · refine ⟨{ t with m_desktopNameChangeQueued := false },
      [.client (.rectangle (⟨0, 0, 0, 0, EncodingType.DesktopName⟩ : FramebufferUpdateRectangle)),
       .client (.raw (toBe32 (wrapUInt32 t.desktopName.length))),
       .client (.raw t.desktopName)], ?_, rfl⟩
    simp only [bind_run, getTunnel_run, hq, Outcome.after, if_true,
      modifyTunnel_run, cSendRectangle_run, cSendRaw_run]
    rfl

theorem processFramebufferUpdate_split (t : VncTunnel) (b0 b1 b2 b3 : Byte) (rest : List Byte)
    (hwf : t.buffersOk) (hp : t.serverPending = b0 :: b1 :: b2 :: b3 :: rest)
    (must0 : Bool) (k : Nat)
    (hgate : (be16 b2 b3 + t.countExtraRectangles ≤ 65535 ∧ must0 = false
        ∧ k = be16 b2 b3 + t.countExtraRectangles)
      ∨ (65535 < be16 b2 b3 + t.countExtraRectangles
        ∧ t.clientSupportsEncoding EncodingType.LastRect = true ∧ must0 = true ∧ k = 65535))
    (hok : (processFramebufferUpdate t).result = .ok ()) :
    ∃ st recv must2 trE,
      (clientRectangles trE).length = t.countExtraRectangles
      ∧ (rectangleLoop (t.clientSupportsEncoding EncodingType.LastRect) (be16 b2 b3) false must0 st).result
          = .ok (recv, must2)
      ∧ (processFramebufferUpdate t).trace
          = .client (.message { type := b0, padding := b1, numberOfRectangles := k })
            :: (trE ++ (rectangleLoop (t.clientSupportsEncoding EncodingType.LastRect)
                  (be16 b2 b3) false must0 st).trace
                ++ (if t.clientSupportsEncoding EncodingType.LastRect = true ∧ must2 = true
                      ∧ recv = false
                    then [.client (.rectangle
                      (⟨0, 0, 0, 0, EncodingType.LastRect⟩ : FramebufferUpdateRectangle))]
                    else [])) := by
  have s1 := sRecvRaw_of t 4 [b0, b1, b2, b3] rest hwf hp rfl
  have hm : FramebufferUpdateMessage.recv [b0, b1, b2, b3]
      = { type := b0, padding := b1, numberOfRectangles := be16 b2 b3 } := rfl
  obtain ⟨stE, trE, hE, hEl⟩ := sendExtraRectangles_run (t.serverConsumed 4)
  have hEl2 : (clientRectangles trE).length = t.countExtraRectangles := hEl
  rcases hgate with ⟨hle, hm0, hk⟩ | ⟨hgt, hs, hm0, hk⟩
  · have hc : ¬ ((be16 b2 b3 : Int) > 65535 - (t.countExtraRectangles : Int)) := by omega
    have hu : toUInt16 (be16 b2 b3 + t.countExtraRectangles) = be16 b2 b3 + t.countExtraRectangles := by
      unfold toUInt16; omega
    subst hm0 hk
    refine ⟨stE, ?_⟩
    cases hres : (rectangleLoop (t.clientSupportsEncoding EncodingType.LastRect) (be16 b2 b3) false
      false stE).result with
    | error e =>
      exfalso
      unfold processFramebufferUpdate at hok
      simp only [bind_run, getTunnel_run, s1, Outcome.after, hm, hc, if_false, pure_run, hu,
        cSendMessage_run, hE, hres] at hok
      cases hok
    | ok p =>
      obtain ⟨recv, must2⟩ := p
      refine ⟨recv, must2, trE, hEl2, rfl, ?_⟩
      unfold processFramebufferUpdate at hok ⊢
      simp only [bind_run, getTunnel_run, s1, Outcome.after, hm, hc, if_false, pure_run, hu,
        cSendMessage_run, hE, hres] at hok ⊢
      cases t.clientSupportsEncoding EncodingType.LastRect <;> cases must2 <;> cases recv <;>
        simp [sendLastRectangle, cSendRectangle_run, pure_run, raise_run] at hok ⊢
  · have hc : (be16 b2 b3 : Int) > 65535 - (t.countExtraRectangles : Int) := by omega
    subst hm0 hk
    refine ⟨stE, ?_⟩
    cases hres : (rectangleLoop (t.clientSupportsEncoding EncodingType.LastRect) (be16 b2 b3) false
      true stE).result with
    | error e =>
      exfalso
      rw [hs] at hres
      unfold processFramebufferUpdate at hok
      simp only [bind_run, getTunnel_run, s1, Outcome.after, hm, hc, if_true, hs, pure_run,
        cSendMessage_run, hE, hres] at hok
      cases hok
    | ok p =>
      obtain ⟨recv, must2⟩ := p
      refine ⟨recv, must2, trE, hEl2, rfl, ?_⟩
      rw [hs] at hres
      unfold processFramebufferUpdate at hok ⊢
      simp only [bind_run, getTunnel_run, s1, Outcome.after, hm, hc, if_true, hs, pure_run,
        cSendMessage_run, hE, hres] at hok ⊢
      cases must2 <;> cases recv <;>
        simp [sendLastRectangle, cSendRectangle_run, pure_run, raise_run] at hok ⊢

theorem clientRectangles_message_cons (m : FramebufferUpdateMessage) (tr : List Event) :
    clientRectangles (.client (.message m) :: tr) = clientRectangles tr := rfl

theorem endsWithLastRect_concat (rs : List FramebufferUpdateRectangle) :
    endsWithLastRect (rs ++ [(⟨0, 0, 0, 0, EncodingType.LastRect⟩ : FramebufferUpdateRectangle)]) :=
  ⟨_, List.getLast?_concat _, rfl⟩

/-- Claim C2, as the code has it: for a forwarded FramebufferUpdate announcing `N` rectangles
with `extra` queued synthetic ones, if `N + extra ≤ 65535` the rectangles sent to the client
are exactly as many as the count `k` of the header sent, or at most `k` with a LastRect
rectangle last; if `N + extra` exceeds 65535 the header count is 65535 and the rectangles
sent are at most `N + extra + 1`, the last one a LastRect rectangle. -/
theorem processFramebufferUpdate_rectangles (t : VncTunnel) (b0 b1 b2 b3 : Byte)
    (rest : List Byte) (hwf : t.buffersOk) (hp : t.serverPending = b0 :: b1 :: b2 :: b3 :: rest)
    (hok : (processFramebufferUpdate t).result = .ok ()) :
    (be16 b2 b3 + t.countExtraRectangles ≤ 65535 →
      countRespected (processFramebufferUpdate t).trace)
    ∧ (65535 < be16 b2 b3 + t.countExtraRectangles →
      headerCount (processFramebufferUpdate t).trace = some 65535
      ∧ (clientRectangles (processFramebufferUpdate t).trace).length
          ≤ be16 b2 b3 + t.countExtraRectangles + 1
      ∧ endsWithLastRect (clientRectangles (processFramebufferUpdate t).trace)) := by
  constructor
  · intro hle
    obtain ⟨st, recv, must2, trE, hE, hres, htr⟩ :=
      processFramebufferUpdate_split t b0 b1 b2 b3 rest hwf hp false _
        (Or.inl ⟨hle, rfl, rfl⟩) hok
    obtain ⟨i1, i2, i3⟩ := rectangleLoop_rectangles _ _ _ _ _ _ hres
    rw [htr]
    refine ⟨be16 b2 b3 + t.countExtraRectangles, rfl, ?_⟩
    rw [clientRectangles_message_cons, clientRectangles_append, clientRectangles_append]
    cases recv with
    | true =>
      right
      rw [if_neg (fun h => Bool.noConfusion h.2.2), show clientRectangles [] = [] from rfl,
        List.append_nil, List.length_append, hE]
      exact ⟨by omega, endsWithLastRect_append _ _ (i2 rfl)⟩
    | false =>
      rcases i3 rfl with ⟨h1, h2⟩ | ⟨h1, h2, h3⟩
      · left
        subst h2
        rw [if_neg (fun h => Bool.noConfusion h.2.1), show clientRectangles [] = [] from rfl,
          List.append_nil, List.length_append, hE, h1]
        omega
      · right
        rw [if_pos ⟨h3, h2, rfl⟩]
        constructor
        · rw [List.length_append, List.length_append, hE]
          show _ + _ + 1 ≤ _
          omega
        · exact endsWithLastRect_concat _
  · intro hgt
    have hs : t.clientSupportsEncoding EncodingType.LastRect = true := by
      cases hsup : t.clientSupportsEncoding EncodingType.LastRect with
      | true => rfl
      | false =>
        have h3 := (processFramebufferUpdate_header t b0 b1 b2 b3 rest hwf hp).2.2 hgt hsup
        rw [h3.1] at hok
        cases hok
    obtain ⟨st, recv, must2, trE, hE, hres, htr⟩ :=
      processFramebufferUpdate_split t b0 b1 b2 b3 rest hwf hp true 65535
        (Or.inr ⟨hgt, hs, rfl, rfl⟩) hok
    obtain ⟨i1, i2, i3⟩ := rectangleLoop_rectangles _ _ _ _ _ _ hres
    rw [htr]
    refine ⟨rfl, ?_⟩
    rw [clientRectangles_message_cons, clientRectangles_append, clientRectangles_append]
    cases recv with
    | true =>
      rw [if_neg (fun h => Bool.noConfusion h.2.2), show clientRectangles [] = [] from rfl,
        List.append_nil, List.length_append, hE]
      exact ⟨by omega, endsWithLastRect_append _ _ (i2 rfl)⟩
    | false =>
      have hm2 : must2 = true := by
        rcases i3 rfl with ⟨_, h2⟩ | ⟨_, h2, _⟩
        · exact h2
        · exact h2
      rw [if_pos ⟨hs, hm2, rfl⟩]
      constructor
      · rw [List.length_append, List.length_append, hE]
        show _ + _ + 1 ≤ _
        omega
      · exact endsWithLastRect_concat _

theorem sendExtraRectangles_state (t : VncTunnel) :
    (sendExtraRectangles t).state.serverPending = t.serverPending
    ∧ (t.buffersOk → (sendExtraRectangles t).state.buffersOk) := by
  unfold sendExtraRectangles
  cases hq : t.m_desktopNameChangeQueued
  · simp only [bind_run, getTunnel_run, hq, Outcome.after]
    exact ⟨rfl, fun h => h⟩
  · simp only [bind_run, getTunnel_run, hq, Outcome.after, if_true,
      modifyTunnel_run, cSendRectangle_run, cSendRaw_run]
    exact ⟨rfl, fun h => h⟩

theorem processFramebufferUpdate_overflow_run (t : VncTunnel) (rest : List Byte)
    (hwf : t.buffersOk)
    (hp : t.serverPending = [0, 0, 255, 255] ++ desktopSizeRectangles 65535 ++ rest)
    (hq : t.m_desktopNameChangeQueued = true)
    (hs : t.clientSupportsEncoding EncodingType.LastRect = true) :
    (processFramebufferUpdate t).result = .ok ()
    ∧ headerCount (processFramebufferUpdate t).trace = some 65535
    ∧ (clientRectangles (processFramebufferUpdate t).trace).length = 65537 := by
  have hp0 : t.serverPending = [0, 0, 255, 255] ++ (desktopSizeRectangles 65535 ++ rest) := by
    rw [hp, List.append_assoc]
  have s1 := sRecvRaw_of t 4 [0, 0, 255, 255] _ hwf hp0 rfl
  have hm : FramebufferUpdateMessage.recv [0, 0, 255, 255]
      = { type := 0, padding := 0, numberOfRectangles := 65535 } := by decide
  have hwf1 := VncTunnel.serverConsumed_buffersOk t 4 hwf
  have hp1 : (t.serverConsumed 4).serverPending = desktopSizeRectangles 65535 ++ rest := by
    have := VncTunnel.serverConsumed_pending_of t [0, 0, 255, 255] _ hp0
    exact this
  have he : t.countExtraRectangles = 1 := by simp [VncTunnel.countExtraRectangles, hq]
  have hc : ((65535 : Nat) : Int) > 65535 - ((1 : Nat) : Int) := by decide
  obtain ⟨stE, trE, hE, hEl⟩ := sendExtraRectangles_run (t.serverConsumed 4)
  have hEl2 : (clientRectangles trE).length = 1 := by
    rw [hEl]; exact he
  have hst : (sendExtraRectangles (t.serverConsumed 4)).state = stE := by rw [hE]
  obtain ⟨e1, e2⟩ := sendExtraRectangles_state (t.serverConsumed 4)
  rw [hst] at e1 e2
  obtain ⟨l1, _, l3, _, _⟩ := rectangleLoop_desktopSize true true 65535 stE rest (e2 hwf1)
    (e1.trans hp1)
  unfold processFramebufferUpdate
  simp only [bind_run, getTunnel_run, s1, Outcome.after, hm, he, hc, if_true, hs, pure_run,
    cSendMessage_run, hE, l1, Bool.not_false, Bool.and_self, sendLastRectangle,
    cSendRectangle_run]
  refine ⟨trivial, rfl, ?_⟩
  have hlen : (clientRectangles (rectangleLoop true 65535 false true stE).trace).length = 65535 := by
    rw [l3, List.length_replicate]
  simp only [List.nil_append, List.singleton_append, clientRectangles_message_cons,
    clientRectangles_append, List.length_append, hEl2, hlen]
  rfl

/-- Counterexample to C2 as stated: the back-end announces 65535 rectangles while a DesktopName
rectangle is queued and the client advertised LastRect. The update is forwarded, its header
carries the count 65535, and 65537 rectangles follow: the queued one, the 65535 relayed ones
and the closing LastRect rectangle. -/
theorem processFramebufferUpdate_overflow_exceeds_count :
    (processFramebufferUpdate sampleTunnelOverflow).result = .ok ()
    ∧ headerCount (processFramebufferUpdate sampleTunnelOverflow).trace = some 65535
    ∧ (clientRectangles (processFramebufferUpdate sampleTunnelOverflow).trace).length = 65537
    ∧ ¬ countRespected (processFramebufferUpdate sampleTunnelOverflow).trace := by
  obtain ⟨h1, h2, h3⟩ := processFramebufferUpdate_overflow_run sampleTunnelOverflow []
    ⟨Nat.zero_le _, Nat.zero_le _⟩ (List.nil_append _) rfl rfl
  refine ⟨h1, h2, h3, ?_⟩
  rintro ⟨k, hk, hc⟩
  rw [h2] at hk
  have hk2 : 65535 = k := Option.some.inj hk
  rw [h3] at hc
  omega

/-- Witness for C2: one DesktopSize rectangle is relayed after the queued DesktopName
rectangle, under a header with the count two. -/
theorem processFramebufferUpdate_rectangles_witness :
    countRespected (processFramebufferUpdate
      { sampleTunnel [] ([0, 0, 0, 1] ++ sampleDesktopSizeRectangle.send) with
        m_desktopNameChangeQueued := true }).trace :=
  (processFramebufferUpdate_rectangles
    { sampleTunnel [] ([0, 0, 0, 1] ++ sampleDesktopSizeRectangle.send) with
      m_desktopNameChangeQueued := true } 0 0 0 1 sampleDesktopSizeRectangle.send
    (by decide) (by decide) (by rfl)).1 (by decide)

theorem toBe16_be16 (a b : Byte) : toBe16 (be16 a b) = [a, b] := by
  unfold toBe16 be16 Byte.ofNat
  have ha := a.isLt
  have hb := b.isLt
  have h1 : (a.val * 256 + b.val) / 256 % 256 = a.val := by omega
  have h2 : (a.val * 256 + b.val) % 256 = b.val := by omega
  simp only [h1, h2]

theorem be16_lt (a b : Byte) : be16 a b < 65536 := by
  unfold be16
  have ha := a.isLt
  have hb := b.isLt
  omega

theorem be32_lt (a b c d : Byte) : be32 a b c d < 4294967296 := by
  unfold be32
  have ha := a.isLt
  have hb := b.isLt
  have hc := c.isLt
  have hd := d.isLt
  omega

theorem ofInt32_toInt32 (u : Nat) (h : u < 4294967296) : ofInt32 (toInt32 u) = u := by
  unfold ofInt32 toInt32
  split <;> omega

theorem toBe32_be32 (a b c d : Byte) : toBe32 (be32 a b c d) = [a, b, c, d] := by
  unfold toBe32 be32 Byte.ofNat
  have ha := a.isLt
  have hb := b.isLt
  have hc := c.isLt
  have hd := d.isLt
  have h1 : (a.val * 16777216 + b.val * 65536 + c.val * 256 + d.val) / 16777216 % 256 = a.val := by
    omega
  have h2 : (a.val * 16777216 + b.val * 65536 + c.val * 256 + d.val) / 65536 % 256 = b.val := by
    omega
  have h3 : (a.val * 16777216 + b.val * 65536 + c.val * 256 + d.val) / 256 % 256 = c.val := by
    omega
  have h4 : (a.val * 16777216 + b.val * 65536 + c.val * 256 + d.val) % 256 = d.val := by
    omega
  simp only [h1, h2, h3, h4]

theorem FramebufferUpdateMessage.message_send_recv (bs : List Byte) (h : bs.length = 4) :
    (FramebufferUpdateMessage.recv bs).send = bs := by
  match bs, h with
  | [a, b, c, d], _ =>
    show [a, b] ++ toBe16 (be16 c d) = _
    rw [toBe16_be16]
    rfl

theorem FramebufferUpdateRectangle.rectangle_send_recv (bs : List Byte) (h : bs.length = 12) :
    (FramebufferUpdateRectangle.recv bs).send = bs := by
  match bs, h with
  | [a0, a1, a2, a3, a4, a5, a6, a7, a8, a9, a10, a11], _ =>
    show toBe16 (be16 a0 a1) ++ toBe16 (be16 a2 a3) ++ toBe16 (be16 a4 a5) ++ toBe16 (be16 a6 a7)
      ++ toBe32 (ofInt32 (toInt32 (be32 a8 a9 a10 a11))) = _
    rw [ofInt32_toInt32 _ (be32_lt _ _ _ _), toBe32_be32, toBe16_be16, toBe16_be16, toBe16_be16,
      toBe16_be16]
    rfl

theorem StreamFormatter.forward_raw_short (f : StreamFormatter) (len : Nat)
    (hwf : f.buffer.length ≤ 1) (hlen : f.pending.length < len) :
    (f.forward_raw len).error = some Err.eof := by
  unfold StreamFormatter.forward_raw
  split
  · exact (StreamFormatter.recv_raw_short f len hwf hlen).1
  · next h =>
    have hb : f.buffer = [] := by
      cases hbuf : f.buffer with
      | nil => rfl
      | cons x xs => rw [hbuf] at h; simp at h
    have hl : f.input.length < len := by
      have : f.pending = f.input := by unfold StreamFormatter.pending; rw [hb]; rfl
      rw [this] at hlen
      exact hlen
    simp [StreamFormatter.streamRecv, hl]

theorem StreamFormatter.forward_directly_short (f : StreamFormatter) (len : Nat)
    (hwf : f.buffer.length ≤ 1) (hlen : f.pending.length < len) :
    (f.forward_directly len).error = some Err.eof := by
  obtain ⟨input, buffer⟩ := f
  match buffer, hwf with
  | [], _ =>
    simp only [StreamFormatter.pending, List.nil_append, List.length_nil] at hlen ⊢
    have h0 : 0 < len := by omega
    simp [StreamFormatter.forward_directly, StreamFormatter.streamForwardDirectly,
      StreamFormatter.streamRecv, h0, hlen]
  | [b], _ =>
    simp only [StreamFormatter.pending, List.length_cons, List.length_nil,
      List.singleton_append] at hlen ⊢
    obtain ⟨k, rfl⟩ : ∃ k, len = k + 1 := ⟨len - 1, by omega⟩
    have hk : input.length < k := by omega
    have hk0 : 0 < k := by omega
    simp [StreamFormatter.forward_directly, StreamFormatter.streamForwardDirectly,
      StreamFormatter.streamRecv, hk, hk0]

theorem sRecvRaw_inv (t : VncTunnel) (n : Nat) (bs : List Byte) (hwf : t.buffersOk)
    (h : (sRecvRaw n t).result = .ok bs) :
    bs.length = n
    ∧ t.serverPending = bs ++ (sRecvRaw n t).state.serverPending
    ∧ (sRecvRaw n t).state.buffersOk
    ∧ (sRecvRaw n t).trace = [] := by
  by_cases hlen : n ≤ t.serverPending.length
  · have e := sRecvRaw_ok t n hwf hlen
    rw [e] at h ⊢
    have hb : t.serverPending.take n = bs := Except.ok.inj h
    refine ⟨?_, ?_, buffersOk_withServerFormatter t n hwf, rfl⟩
    · rw [← hb, List.length_take]; omega
    · have hd : (t.serverConsumed n).serverPending = t.serverPending.drop n :=
        VncTunnel.serverConsumed_pending t n
      show t.serverPending = bs ++ (t.serverConsumed n).serverPending
      rw [hd, ← hb, List.take_append_drop]
  · have e := (sRecvRaw_short t n hwf (by omega)).1
    rw [e] at h
    cases h

theorem sForwardRaw_inv (t : VncTunnel) (n : Nat) (bs : List Byte) (hwf : t.buffersOk)
    (h : (sForwardRaw n t).result = .ok bs) :
    t.serverPending = clientBytes (sForwardRaw n t).trace ++ (sForwardRaw n t).state.serverPending
    ∧ (sForwardRaw n t).state.buffersOk := by
  by_cases hlen : n ≤ t.serverPending.length
  · have hp : t.serverPending = t.serverPending.take n ++ t.serverPending.drop n :=
      (List.take_append_drop n _).symm
    have hn : (t.serverPending.take n).length = n := by rw [List.length_take]; omega
    have e := sForwardRaw_of t n _ _ hwf hp hn
    rw [e]
    refine ⟨?_, VncTunnel.serverConsumed_buffersOk t n hwf⟩
    show t.serverPending = (t.serverPending.take n ++ []) ++ (t.serverConsumed n).serverPending
    rw [VncTunnel.serverConsumed_pending, List.append_nil, List.take_append_drop]
  · exfalso
    have e := StreamFormatter.forward_raw_short _ n hwf.2 (by
      have : t.serverPending.length < n := by omega
      exact this)
    simp [sForwardRaw, onServer, e] at h

theorem sForwardDirectly_inv (t : VncTunnel) (n : Nat) (hwf : t.buffersOk)
    (h : (sForwardDirectly n t).result = .ok ()) :
    t.serverPending
        = clientBytes (sForwardDirectly n t).trace ++ (sForwardDirectly n t).state.serverPending
    ∧ (sForwardDirectly n t).state.buffersOk := by
  by_cases hlen : n ≤ t.serverPending.length
  · have hp : t.serverPending = t.serverPending.take n ++ t.serverPending.drop n :=
      (List.take_append_drop n _).symm
    have hn : (t.serverPending.take n).length = n := by rw [List.length_take]; omega
    have e := sForwardDirectly_of t n _ _ hwf hp hn
    rw [e]
    refine ⟨?_, VncTunnel.serverConsumed_buffersOk t n hwf⟩
    show t.serverPending = (t.serverPending.take n ++ []) ++ (t.serverConsumed n).serverPending
    rw [VncTunnel.serverConsumed_pending, List.append_nil, List.take_append_drop]
  · exfalso
    have e := StreamFormatter.forward_directly_short _ n hwf.2 (by
      have : t.serverPending.length < n := by omega
      exact this)
    simp [sForwardDirectly, onServer, bind_run, e] at h

section RelayLemmas
variable {α β : Type}

theorem bind_state_ok (m : M α) (f : α → M β) (t : VncTunnel) (a : α) (h : (m t).result = .ok a) :
    ((m >>= f) t).state = (f a (m t).state).state := by
  rw [bind_run_ok _ _ _ _ h]; rfl

theorem Silent.silent_intro (m : M α)
    (h : ∀ t, (m t).state.serverPending = t.serverPending
      ∧ (t.buffersOk → (m t).state.buffersOk) ∧ clientBytes (m t).trace = []) : Silent m := by
  unfold Silent; exact h
theorem Silent.silent_apply {m : M α} (h : Silent m) (t : VncTunnel) :
    (m t).state.serverPending = t.serverPending
      ∧ (t.buffersOk → (m t).state.buffersOk) ∧ clientBytes (m t).trace = [] := by
  unfold Silent at h; exact h t
theorem Silent.silent_pure (a : α) : Silent (pure a : M α) :=
  Silent.silent_intro _ fun _ => ⟨rfl, fun h => h, rfl⟩
theorem Silent.silent_getTunnel : Silent getTunnel := Silent.silent_intro _ fun _ => ⟨rfl, fun h => h, rfl⟩
theorem Silent.silent_setFramebufferSize (w h : Nat) : Silent (setFramebufferSize w h) :=
  Silent.silent_intro _ fun _ => ⟨rfl, fun h => h, rfl⟩

theorem RelaysIf.relaysIf_intro (pre : List Byte) (Q : α → Prop) (m : M α)
    (h : ∀ t a, t.buffersOk → (m t).result = .ok a →
      (∀ r ∈ receivedRectangles (m t).trace, passThroughEncoding r.encodingType) →
      (m t).state.buffersOk
      ∧ pre ++ t.serverPending = clientBytes (m t).trace ++ (m t).state.serverPending
      ∧ Q a) : RelaysIf pre Q m := by
  unfold RelaysIf; exact h
theorem RelaysIf.relaysIf_apply {pre : List Byte} {Q : α → Prop} {m : M α} (h : RelaysIf pre Q m)
    (t : VncTunnel) (a : α) (hwf : t.buffersOk) (hr : (m t).result = .ok a)
    (hall : ∀ r ∈ receivedRectangles (m t).trace, passThroughEncoding r.encodingType) :
    (m t).state.buffersOk
      ∧ pre ++ t.serverPending = clientBytes (m t).trace ++ (m t).state.serverPending
      ∧ Q a := by
  unfold RelaysIf at h; exact h t a hwf hr hall

variable {pre : List Byte} {Q : β → Prop}

theorem RelaysIf.relaysIf_pure (Q : α → Prop) (a : α) (h : Q a) : RelaysIf [] Q (pure a : M α) := by
  apply RelaysIf.relaysIf_intro
  intro t b hwf hb _
  have : a = b := by
    have h2 : (Except.ok a : Except Err α) = Except.ok b := hb
    exact Except.ok.inj h2
  subst this
  exact ⟨hwf, rfl, h⟩

theorem RelaysIf.relaysIf_raise (pre : List Byte) (Q : α → Prop) (e : Err) :
    RelaysIf pre Q (raise e : M α) := by
  apply RelaysIf.relaysIf_intro
  intro t b _ hb
  cases hb

theorem RelaysIf.relaysIf_ite (c : Prop) [Decidable c] (a b : M β) (ha : c → RelaysIf pre Q a)
    (hb : ¬ c → RelaysIf pre Q b) : RelaysIf pre Q (if c then a else b) := by
  split
  · exact ha (by assumption)
  · exact hb (by assumption)

theorem RelaysIf.relaysIf_bind_silent (m : M α) (f : α → M β) (hm : Silent m)
    (hf : ∀ a, RelaysIf pre Q (f a)) : RelaysIf pre Q (m >>= f) := by
  apply RelaysIf.relaysIf_intro
  intro t b hwf hb hall
  obtain ⟨a, h1, h2⟩ := bind_result_ok m f t b hb
  obtain ⟨s1, s2, s3⟩ := hm.silent_apply t
  rw [bind_trace_ok _ _ _ _ h1] at hall ⊢
  rw [bind_state_ok _ _ _ _ h1, clientBytes_append, s3, List.nil_append, ← s1]
  refine (hf a).relaysIf_apply _ b (s2 hwf) h2 (fun r hr => hall r ?_)
  rw [receivedRectangles_append]
  exact List.mem_append_right _ hr

theorem RelaysIf.relaysIf_bind_received (r : FramebufferUpdateRectangle) (f : Unit → M β)
    (hf : passThroughEncoding r.encodingType → RelaysIf pre Q (f ())) :
    RelaysIf pre Q (emit (.received r) >>= f) := by
  apply RelaysIf.relaysIf_intro
  intro t b hwf hb hall
  obtain ⟨a, h1, h2⟩ := bind_result_ok _ f t b hb
  rw [bind_trace_ok _ _ _ _ h1] at hall ⊢
  rw [bind_state_ok _ _ _ _ h1]
  have hp : passThroughEncoding r.encodingType := hall r (by
    rw [receivedRectangles_append]
    exact List.mem_append_left _ (List.mem_singleton.mpr rfl))
  refine (hf hp).relaysIf_apply t b hwf h2 (fun r hr => hall r ?_)
  rw [receivedRectangles_append]
  exact List.mem_append_right _ hr

theorem RelaysIf.relaysIf_bind_recv (n : Nat) (f : List Byte → M β)
    (hf : ∀ bs, bs.length = n → RelaysIf bs Q (f bs)) : RelaysIf [] Q (sRecvRaw n >>= f) := by
  apply RelaysIf.relaysIf_intro
  intro t b hwf hb hall
  obtain ⟨bs, h1, h2⟩ := bind_result_ok _ f t b hb
  obtain ⟨i1, i2, i3, i4⟩ := sRecvRaw_inv t n bs hwf h1
  rw [bind_trace_ok _ _ _ _ h1] at hall ⊢
  rw [bind_state_ok _ _ _ _ h1, i4, List.nil_append, List.nil_append, i2]
  refine (hf bs i1).relaysIf_apply _ b i3 h2 (fun r hr => hall r ?_)
  rw [receivedRectangles_append]
  exact List.mem_append_right _ hr

theorem RelaysIf.relaysIf_bind_sendRect (r : FramebufferUpdateRectangle) (f : Unit → M β)
    (hr : r.send = pre) (hf : RelaysIf [] Q (f ())) :
    RelaysIf pre Q (cSendRectangle r >>= f) := by
  apply RelaysIf.relaysIf_intro
  intro t b hwf hb hall
  obtain ⟨a, h1, h2⟩ := bind_result_ok _ f t b hb
  rw [bind_trace_ok _ _ _ _ h1] at hall ⊢
  rw [bind_state_ok _ _ _ _ h1]
  obtain ⟨j1, j2, j3⟩ := hf.relaysIf_apply t b hwf h2 (fun r hr => hall r (by
    rw [receivedRectangles_append]
    exact List.mem_append_right _ hr))
  refine ⟨j1, ?_, j3⟩
  rw [clientBytes_append, List.append_assoc]
  have j2b : t.serverPending = clientBytes (f () t).trace ++ (f () t).state.serverPending := j2
  show pre ++ t.serverPending
    = (r.send ++ []) ++ (clientBytes (f () t).trace ++ (f () t).state.serverPending)
  rw [← j2b, hr, List.append_nil]

theorem RelaysIf.relaysIf_bind (Q1 : α → Prop) (m : M α) (f : α → M β) (hm : RelaysIf [] Q1 m)
    (hf : ∀ a, Q1 a → RelaysIf [] Q (f a)) : RelaysIf [] Q (m >>= f) := by
  apply RelaysIf.relaysIf_intro
  intro t b hwf hb hall
  obtain ⟨a, h1, h2⟩ := bind_result_ok m f t b hb
  rw [bind_trace_ok _ _ _ _ h1] at hall ⊢
  rw [bind_state_ok _ _ _ _ h1]
  obtain ⟨k1, k2, k3⟩ := hm.relaysIf_apply t a hwf h1 (fun r hr => hall r (by
    rw [receivedRectangles_append]
    exact List.mem_append_left _ hr))
  obtain ⟨j1, j2, j3⟩ := (hf a k3).relaysIf_apply _ b k1 h2 (fun r hr => hall r (by
    rw [receivedRectangles_append]
    exact List.mem_append_right _ hr))
  refine ⟨j1, ?_, j3⟩
  rw [clientBytes_append, List.append_assoc, ← j2]
  exact k2

theorem relays_sForwardRaw (n : Nat) : RelaysIf [] (fun _ => True) (sForwardRaw n) := by
  apply RelaysIf.relaysIf_intro
  intro t bs hwf h _
  obtain ⟨i1, i2⟩ := sForwardRaw_inv t n bs hwf h
  exact ⟨i2, i1, trivial⟩

theorem relays_sForwardDirectly (n : Nat) : RelaysIf [] (fun _ => True) (sForwardDirectly n) := by
  apply RelaysIf.relaysIf_intro
  intro t u hwf h _
  cases u
  obtain ⟨i1, i2⟩ := sForwardDirectly_inv t n hwf h
  exact ⟨i2, i1, trivial⟩
end RelayLemmas
theorem relays_processRectangle (sup must : Bool) :
    RelaysIf [] (fun p => p = (false, must)) (processRectangle sup must) := by
  unfold processRectangle
  refine RelaysIf.relaysIf_bind_recv _ _ (fun bs hbs => ?_)
  refine RelaysIf.relaysIf_bind_received _ _ (fun hpass => ?_)
  refine RelaysIf.relaysIf_bind_silent _ _ Silent.silent_getTunnel (fun t => ?_)
  have hsend := FramebufferUpdateRectangle.rectangle_send_recv bs hbs
  refine RelaysIf.relaysIf_ite _ _ _ (fun _ => ?_) (fun h1 => ?_)
  · refine RelaysIf.relaysIf_bind_sendRect _ _ hsend ?_
    refine RelaysIf.relaysIf_bind _ _ _ (relays_sForwardDirectly _) (fun _ _ => ?_)
    exact RelaysIf.relaysIf_pure _ _ rfl
  refine RelaysIf.relaysIf_ite _ _ _ (fun _ => ?_) (fun h2 => ?_)
  · refine RelaysIf.relaysIf_bind_sendRect _ _ hsend ?_
    refine RelaysIf.relaysIf_bind _ _ _ (relays_sForwardRaw _) (fun _ _ => ?_)
    refine RelaysIf.relaysIf_bind _ _ _ (relays_sForwardDirectly _) (fun _ _ => ?_)
    exact RelaysIf.relaysIf_pure _ _ rfl
  refine RelaysIf.relaysIf_ite _ _ _ (fun hc => ?_) (fun _ => ?_)
  · exfalso
    rw [hc] at hpass
    exact absurd hpass (by decide)
  refine RelaysIf.relaysIf_ite _ _ _ (fun hc => ?_) (fun _ => ?_)
  · exfalso
    rw [hc] at hpass
    exact absurd hpass (by decide)
  refine RelaysIf.relaysIf_ite _ _ _ (fun hc => ?_) (fun _ => ?_)
  · exfalso
    rw [hc] at hpass
    exact absurd hpass (by decide)
  refine RelaysIf.relaysIf_ite _ _ _ (fun _ => ?_) (fun h6 => ?_)
  · dsimp only
    refine RelaysIf.relaysIf_ite _ _ _ (fun _ => ?_) (fun _ => ?_)
    · refine RelaysIf.relaysIf_bind_silent _ _ (Silent.silent_setFramebufferSize _ _) (fun _ => ?_)
      refine RelaysIf.relaysIf_bind_sendRect _ _ hsend ?_
      refine RelaysIf.relaysIf_bind _ _ _ (relays_sForwardRaw _) (fun _ _ => ?_)
      refine RelaysIf.relaysIf_bind _ _ _ (relays_sForwardDirectly _) (fun _ _ => ?_)
      exact RelaysIf.relaysIf_pure _ _ rfl
    · refine RelaysIf.relaysIf_bind_silent _ _ (Silent.silent_pure _) (fun _ => ?_)
      refine RelaysIf.relaysIf_bind_sendRect _ _ hsend ?_
      refine RelaysIf.relaysIf_bind _ _ _ (relays_sForwardRaw _) (fun _ _ => ?_)
      refine RelaysIf.relaysIf_bind _ _ _ (relays_sForwardDirectly _) (fun _ _ => ?_)
      exact RelaysIf.relaysIf_pure _ _ rfl
  refine RelaysIf.relaysIf_ite _ _ _ (fun hc => ?_) (fun _ => ?_)
  · exfalso
    rw [hc] at hpass
    exact absurd hpass (by decide)
  · exact RelaysIf.relaysIf_raise _ _ _

theorem relays_rectangleLoop (sup : Bool) (n : Nat) (recv must : Bool) :
    RelaysIf [] (fun p => p.2 = must) (rectangleLoop sup n recv must) := by
  induction n generalizing recv with
  | zero => exact RelaysIf.relaysIf_pure _ _ rfl
  | succ n ih =>
    cases recv with
    | true =>
      rw [rectangleLoop_received]
      exact RelaysIf.relaysIf_pure _ _ rfl
    | false =>
      have e : rectangleLoop sup (n + 1) false must
          = (processRectangle sup must >>= fun p => rectangleLoop sup n p.1 p.2) := rfl
      rw [e]
      refine RelaysIf.relaysIf_bind _ _ _ (relays_processRectangle sup must) (fun p hp => ?_)
      rw [hp]
      exact ih false

theorem sendExtraRectangles_unqueued (t : VncTunnel) (hq : t.m_desktopNameChangeQueued = false) :
    sendExtraRectangles t = { result := .ok (), state := t, trace := [] } := by
  unfold sendExtraRectangles
  simp only [bind_run, getTunnel_run, hq, Outcome.after]
  rfl

theorem processFramebufferUpdate_unqueued (t : VncTunnel) (b0 b1 b2 b3 : Byte) (rest : List Byte)
    (hwf : t.buffersOk) (hp : t.serverPending = b0 :: b1 :: b2 :: b3 :: rest)
    (hq : t.m_desktopNameChangeQueued = false)
    (hok : (processFramebufferUpdate t).result = .ok ()) :
    ∃ recv must2,
      (rectangleLoop (t.clientSupportsEncoding EncodingType.LastRect) (be16 b2 b3) false false
          (t.serverConsumed 4)).result = .ok (recv, must2)
      ∧ receivedRectangles (processFramebufferUpdate t).trace
          = receivedRectangles (rectangleLoop (t.clientSupportsEncoding EncodingType.LastRect)
              (be16 b2 b3) false false (t.serverConsumed 4)).trace
      ∧ (must2 = false →
        (processFramebufferUpdate t).trace
          = .client (.message { type := b0, padding := b1, numberOfRectangles := be16 b2 b3 })
            :: (rectangleLoop (t.clientSupportsEncoding EncodingType.LastRect) (be16 b2 b3) false
                  false (t.serverConsumed 4)).trace
        ∧ (processFramebufferUpdate t).state
          = (rectangleLoop (t.clientSupportsEncoding EncodingType.LastRect) (be16 b2 b3) false
                  false (t.serverConsumed 4)).state) := by
  have s1 := sRecvRaw_of t 4 [b0, b1, b2, b3] rest hwf hp rfl
  have hm : FramebufferUpdateMessage.recv [b0, b1, b2, b3]
      = { type := b0, padding := b1, numberOfRectangles := be16 b2 b3 } := rfl
  have hE := sendExtraRectangles_unqueued (t.serverConsumed 4) hq
  have he : t.countExtraRectangles = 0 := by simp [VncTunnel.countExtraRectangles, hq]
  have hlt := be16_lt b2 b3
  have hc : ¬ ((be16 b2 b3 : Int) > 65535 - ((0 : Nat) : Int)) := by omega
  have hu : toUInt16 (be16 b2 b3 + 0) = be16 b2 b3 := by
    unfold toUInt16; omega
  cases hres : (rectangleLoop (t.clientSupportsEncoding EncodingType.LastRect) (be16 b2 b3) false
      false (t.serverConsumed 4)).result with
  | error e =>
    exfalso
    unfold processFramebufferUpdate at hok
    simp only [bind_run, getTunnel_run, s1, Outcome.after, hm, he, hc, if_false, pure_run, hu,
      cSendMessage_run, hE, hres] at hok
    cases hok
  | ok p =>
    obtain ⟨recv, must2⟩ := p
    refine ⟨recv, must2, rfl, ?_, fun hm2 => ?_⟩
    · unfold processFramebufferUpdate at hok ⊢
      simp only [bind_run, getTunnel_run, s1, Outcome.after, hm, he, hc, if_false, pure_run, hu,
        cSendMessage_run, hE, hres] at hok ⊢
      cases t.clientSupportsEncoding EncodingType.LastRect <;> cases must2 <;> cases recv <;>
        simp [pure_run, raise_run, sendLastRectangle, cSendRectangle_run, receivedRectangles]
          at hok ⊢
    subst hm2
    unfold processFramebufferUpdate
    simp only [bind_run, getTunnel_run, s1, Outcome.after, hm, he, hc, if_false, pure_run, hu,
      cSendMessage_run, hE, hres]
    cases t.clientSupportsEncoding EncodingType.LastRect <;>
      simp [pure_run]

/-- Claim C3: when a back-end FramebufferUpdate is forwarded while no synthetic rectangle is
queued and every rectangle received has encoding Raw, CopyRect, Cursor, XCursor, RRE or
ExtendedDesktopSize, the bytes written to the client are exactly the bytes consumed from the
back-end, in the same order; a rectangle header and a message header received and sent again
give back their wire bytes. -/
theorem processFramebufferUpdate_passThrough (t : VncTunnel) (hwf : t.buffersOk)
    (hq : t.m_desktopNameChangeQueued = false)
    (hok : (processFramebufferUpdate t).result = .ok ())
    (hall : ∀ r ∈ receivedRectangles (processFramebufferUpdate t).trace,
      passThroughEncoding r.encodingType) :
    clientBytes (processFramebufferUpdate t).trace
        ++ (processFramebufferUpdate t).state.serverPending = t.serverPending
    ∧ (∀ bs : List Byte, bs.length = 12 → (FramebufferUpdateRectangle.recv bs).send = bs)
    ∧ (∀ bs : List Byte, bs.length = 4 → (FramebufferUpdateMessage.recv bs).send = bs) := by
  refine ⟨?_, FramebufferUpdateRectangle.rectangle_send_recv, FramebufferUpdateMessage.message_send_recv⟩
  by_cases hlen : 4 ≤ t.serverPending.length
  · match hpd : t.serverPending, hlen with
    | b0 :: b1 :: b2 :: b3 :: rest, _ =>
      obtain ⟨recv, must2, hres, hrec, hrest⟩ :=
        processFramebufferUpdate_unqueued t b0 b1 b2 b3 rest hwf hpd hq hok
      rw [hrec] at hall
      have hwf1 := VncTunnel.serverConsumed_buffersOk t 4 hwf
      have hp1 : (t.serverConsumed 4).serverPending = rest :=
        VncTunnel.serverConsumed_pending_of t [b0, b1, b2, b3] rest hpd
      obtain ⟨_, k2, k3⟩ := (relays_rectangleLoop _ _ false false).relaysIf_apply _ _ hwf1 hres hall
      obtain ⟨htr, hst⟩ := hrest k3
      rw [htr, hst]
      have k2b : rest = clientBytes (rectangleLoop (t.clientSupportsEncoding EncodingType.LastRect)
          (be16 b2 b3) false false (t.serverConsumed 4)).trace
          ++ (rectangleLoop (t.clientSupportsEncoding EncodingType.LastRect)
          (be16 b2 b3) false false (t.serverConsumed 4)).state.serverPending := by
        rw [← hp1]; exact k2
      show ([b0, b1] ++ toBe16 (be16 b2 b3)) ++ clientBytes _ ++ _ = _
      rw [toBe16_be16, List.append_assoc, ← k2b]
      rfl
  · exfalso
    have e := (sRecvRaw_short t 4 hwf (by omega)).1
    unfold processFramebufferUpdate at hok
    simp only [bind_run, getTunnel_run, Outcome.after, e] at hok
    cases hok

/-- Witness for C3: a Raw and a CopyRect rectangle are relayed byte for byte, and the byte of
the next message stays with the back-end formatter. -/
theorem processFramebufferUpdate_passThrough_witness :
    clientBytes (processFramebufferUpdate (sampleTunnel [] samplePassThroughUpdate)).trace
        ++ (processFramebufferUpdate (sampleTunnel [] samplePassThroughUpdate)).state.serverPending
      = samplePassThroughUpdate
    ∧ (processFramebufferUpdate (sampleTunnel [] samplePassThroughUpdate)).state.serverPending = [9] :=
  ⟨(processFramebufferUpdate_passThrough (sampleTunnel [] samplePassThroughUpdate)
      (by decide) rfl (by rfl) (by decide)).1, by decide⟩

/-- Claim C36: `sendDummyRectangle` writes, if the client supports Raw, the header
(0, 0, 1, 1, Raw) and `bitsPerPixel / 8` zero bytes (the local variable holding the pixel has
four bytes, hence the bound), which is the payload a 1x1 Raw rectangle has; otherwise, if the
client supports CopyRect, the header (0, 0, 1, 1, CopyRect) and the source position (1, 0) as
two big-endian 16-bit numbers, the four bytes a CopyRect rectangle has; otherwise it raises the
error and writes nothing. The state is never changed. -/
theorem sendDummyRectangle_cases (t : VncTunnel) :
    (t.clientSupportsEncoding EncodingType.Raw = true → t.m_pixelFormat.bitsPerPixel / 8 ≤ 4 →
      (sendDummyRectangle t).result = .ok ()
      ∧ (sendDummyRectangle t).trace
          = [.client (.rectangle ⟨0, 0, 1, 1, EncodingType.Raw⟩),
             .client (.raw (List.replicate (t.m_pixelFormat.bitsPerPixel / 8) 0))]
      ∧ (List.replicate (t.m_pixelFormat.bitsPerPixel / 8) (0 : Byte)).length
          = bufferSize ⟨0, 0, 1, 1, EncodingType.Raw⟩ t.m_pixelFormat.bitsPerPixel)
    ∧ (t.clientSupportsEncoding EncodingType.Raw = false →
        t.clientSupportsEncoding EncodingType.CopyRect = true →
      (sendDummyRectangle t).result = .ok ()
      ∧ (sendDummyRectangle t).trace
          = [.client (.rectangle ⟨0, 0, 1, 1, EncodingType.CopyRect⟩),
             .client (.raw [0, 1]), .client (.raw [0, 0])]
      ∧ ([0, 1] ++ [0, 0] : List Byte).length
          = bufferSize ⟨0, 0, 1, 1, EncodingType.CopyRect⟩ t.m_pixelFormat.bitsPerPixel)
    ∧ (t.clientSupportsEncoding EncodingType.Raw = false →
        t.clientSupportsEncoding EncodingType.CopyRect = false →
      (sendDummyRectangle t).result = .error Err.noDummyEncoding
      ∧ (sendDummyRectangle t).trace = [])
    ∧ (sendDummyRectangle t).state = t := by
  refine ⟨?_, ?_, ?_, (sendDummyRectangle_facts t).1⟩
  · intro h1 hb
    refine ⟨?_, ?_, ?_⟩
    · unfold sendDummyRectangle
      simp only [bind_run, getTunnel_run, h1, if_true, cSendRectangle_run, cSendRaw_run,
        Outcome.after]
    · unfold sendDummyRectangle
      simp only [bind_run, getTunnel_run, h1, if_true, cSendRectangle_run, cSendRaw_run,
        Outcome.after]
      rfl
    · rw [List.length_replicate]
      by_cases h0 : t.m_pixelFormat.bitsPerPixel = 0
      · rw [h0]; decide
      · rw [bufferSize_raw_exact _ _ (Nat.pos_of_ne_zero h0) (by
          show 1 * 1 * t.m_pixelFormat.bitsPerPixel < 2147483648
          omega) rfl]
        show _ = 1 * 1 * t.m_pixelFormat.bitsPerPixel / 8
        rw [Nat.one_mul]
  · intro h1 h2
    refine ⟨?_, ?_, ?_⟩
    · unfold sendDummyRectangle
      simp only [bind_run, getTunnel_run, h1, h2, if_true, cSendRectangle_run, cSendRaw_run,
        Outcome.after, Bool.false_eq_true, if_false]
    · unfold sendDummyRectangle
      simp only [bind_run, getTunnel_run, h1, h2, if_true, cSendRectangle_run, cSendRaw_run,
        Outcome.after, Bool.false_eq_true, if_false]
      rfl
    · rw [bufferSize_copyRect_exact _ _ rfl]
      rfl
  · intro h1 h2
    unfold sendDummyRectangle
    simp only [bind_run, getTunnel_run, h1, h2, Outcome.after, Bool.false_eq_true, if_false,
      raise_run]
    exact ⟨trivial, rfl⟩

theorem processTight_trace (r : FramebufferUpdateRectangle) (t : VncTunnel) (c0 : Byte)
    (rest : List Byte) (hwf : t.buffersOk) (hp : t.serverPending = c0 :: rest) :
    (t.m_tightZlibResetQueued = true →
      ∃ tr, (processTight r t).trace
        = .client (.rectangle r) :: .client (.raw [Byte.ofNat (c0.val / 16 * 16 + 15)]) :: tr)
    ∧ (t.m_tightZlibResetQueued = false →
      ∃ tr, (processTight r t).trace = .client (.rectangle r) :: .client (.raw [c0]) :: tr) := by
  have s1 := sRecvRaw_of t 1 [c0] rest hwf hp rfl
  have hq1 : (t.serverConsumed 1).m_tightZlibResetQueued = t.m_tightZlibResetQueued := rfl
  constructor
  · intro hq
    unfold processTight
    simp only [bind_run, cSendRectangle_run, s1, getTunnel_run, hq1, hq, if_true,
      modifyTunnel_run, pure_run, cSendRaw_run, Outcome.after, List.nil_append,
      List.singleton_append, List.getD_cons_zero]
    exact ⟨_, rfl⟩
  · intro hq
    unfold processTight
    simp only [bind_run, cSendRectangle_run, s1, getTunnel_run, hq1, hq, if_false,
      modifyTunnel_run, pure_run, cSendRaw_run, Outcome.after, List.nil_append,
      List.singleton_append, List.getD_cons_zero, Bool.false_eq_true]
    have hb : Byte.ofNat c0.val = c0 := by
      apply Fin.ext
      show c0.val % 256 = c0.val
      exact Nat.mod_eq_of_lt c0.isLt
    rw [hb]
    exact ⟨_, rfl⟩
theorem keeps_resetQueued_sForwardRaw (n : Nat) :
    Keeps (fun t => t.m_tightZlibResetQueued = false) (sForwardRaw n) :=
  Keeps.keeps_intro _ fun _ h => h

theorem keeps_resetQueued_sForwardDirectly (n : Nat) :
    Keeps (fun t => t.m_tightZlibResetQueued = false) (sForwardDirectly n) := by
  unfold sForwardDirectly
  exact Keeps.keeps_bind _ _ (Keeps.keeps_intro _ fun _ h => h) (fun _ => Keeps.keeps_pure _)

theorem keeps_resetQueued_forwardTight :
    Keeps (fun t => t.m_tightZlibResetQueued = false) forwardTightVariableLengthData := by
  unfold forwardTightVariableLengthData
  repeat' (first
    | with_reducible apply Keeps.keeps_bind
    | with_reducible apply Keeps.keeps_ite
    | with_reducible apply keeps_resetQueued_sForwardRaw
    | with_reducible apply keeps_resetQueued_sForwardDirectly
    | intro _)

theorem processTight_resetQueued (r : FramebufferUpdateRectangle) (t : VncTunnel) (c0 : Byte)
    (rest : List Byte) (hwf : t.buffersOk) (hp : t.serverPending = c0 :: rest) :
    (processTight r t).state.m_tightZlibResetQueued = false := by
  have s1 := sRecvRaw_of t 1 [c0] rest hwf hp rfl
  have e0 : (cSendRectangle r t).state = t := rfl
  have r1 : (sRecvRaw 1 t).result = .ok [c0] := by rw [s1]
  have st1 : (sRecvRaw 1 t).state = t.serverConsumed 1 := by rw [s1]
  unfold processTight
  rw [bind_state_ok (cSendRectangle r) _ t () rfl, e0, bind_state_ok (sRecvRaw 1) _ t [c0] r1, st1,
    bind_getTunnel_state]
  cases hq : t.m_tightZlibResetQueued
  · have hq1 : (t.serverConsumed 1).m_tightZlibResetQueued = false := hq
    simp only [hq1, Bool.false_eq_true, if_false]
    rw [bind_state_ok (pure _) _ _ _ rfl]
    refine Keeps.keeps_apply (P := fun t => t.m_tightZlibResetQueued = false) ?_ _ hq1
    repeat' (first
      | with_reducible apply Keeps.keeps_bind
      | with_reducible apply Keeps.keeps_ite
      | with_reducible apply Keeps.keeps_pure
      | with_reducible apply keeps_resetQueued_sForwardRaw
      | with_reducible apply keeps_resetQueued_sForwardDirectly
      | with_reducible apply keeps_resetQueued_forwardTight
      | exact Keeps.keeps_intro _ (fun _ h => h)
      | intro _)
  · have hq1 : (t.serverConsumed 1).m_tightZlibResetQueued = true := hq
    simp only [hq1, if_true]
    rw [bind_modifyTunnel_state]
    refine Keeps.keeps_apply (P := fun t => t.m_tightZlibResetQueued = false) ?_ _ rfl
    repeat' (first
      | with_reducible apply Keeps.keeps_bind
      | with_reducible apply Keeps.keeps_ite
      | with_reducible apply Keeps.keeps_pure
      | with_reducible apply keeps_resetQueued_sForwardRaw
      | with_reducible apply keeps_resetQueued_sForwardDirectly
      | with_reducible apply keeps_resetQueued_forwardTight
      | exact Keeps.keeps_intro _ (fun _ h => h)
      | intro _)

/-- Claim C32: when a Tight rectangle is relayed and its compression-control byte `c0` can be
read, the byte written to the client after the rectangle header has, if `m_tightZlibResetQueued`
is set, its four low bits set and its high four bits those of `c0`, and is `c0` itself if the
flag is not set; in both cases the flag is clear afterwards, so that the next Tight rectangle
is relayed with its own control byte. The flag is set by every completed switch. -/
theorem processTight_controlByte (r : FramebufferUpdateRectangle) (t : VncTunnel) (c0 : Byte)
    (rest : List Byte) (hwf : t.buffersOk) (hp : t.serverPending = c0 :: rest) :
    (t.m_tightZlibResetQueued = true →
      ∃ w tr, (processTight r t).trace = .client (.rectangle r) :: .client (.raw [w]) :: tr
        ∧ w.val % 16 = 15 ∧ w.val / 16 = c0.val / 16)
    ∧ (t.m_tightZlibResetQueued = false →
      ∃ tr, (processTight r t).trace = .client (.rectangle r) :: .client (.raw [c0]) :: tr)
    ∧ (processTight r t).state.m_tightZlibResetQueued = false
    ∧ ((connectionSwitched t).result = .ok () →
        (connectionSwitched t).state.m_tightZlibResetQueued = true) := by
  obtain ⟨h1, h2⟩ := processTight_trace r t c0 rest hwf hp
  refine ⟨?_, h2, processTight_resetQueued r t c0 rest hwf hp, ?_⟩
  · intro hq
    obtain ⟨tr, htr⟩ := h1 hq
    refine ⟨_, tr, htr, ?_, ?_⟩
    · show (c0.val / 16 * 16 + 15) % 256 % 16 = 15
      omega
    · show (c0.val / 16 * 16 + 15) % 256 / 16 = c0.val / 16
      have := c0.isLt
      omega
  · intro hok
    cases hg : t.m_greeterConnection with
    | none =>
      exfalso
      unfold connectionSwitched at hok
      simp [bind_run, hg] at hok
    | some g =>
      cases hpc : t.m_potentialConnection with
      | none =>
        exfalso
        unfold connectionSwitched at hok
        simp [bind_run, hg, hpc] at hok
      | some p =>
        rw [connectionSwitched_eq t g p hg hpc]

/-- Witness for C32: with the flag set, the control byte 0x42 is sent on as 0x4F. -/
theorem processTight_controlByte_witness :
    ∃ w tr, (processTight sampleTightRectangle
        { sampleTunnel [] [66, 5, 1, 2, 3, 4, 5] with m_tightZlibResetQueued := true }).trace
        = .client (.rectangle sampleTightRectangle) :: .client (.raw [w]) :: tr
      ∧ w.val % 16 = 15 ∧ w.val / 16 = (66 : Byte).val / 16 :=
  (processTight_controlByte sampleTightRectangle
    { sampleTunnel [] [66, 5, 1, 2, 3, 4, 5] with m_tightZlibResetQueued := true } 66
    [5, 1, 2, 3, 4, 5] (by decide) (by decide)).1 (by rfl)

/-- C33, the code at a failing input: a Tight rectangle of one pixel whose compression-control
byte is 0xA0. The high nibble 0xA is neither Fill (0x8) nor JPEG (0x9) and has bit 0x80 set, so
it is not basic compression (`isBasicCompression` is false for it); the `else` branch is taken
all the same: no filter byte is read, the data size (1 * 32 + 7) / 8 * 1 = 4 is below 12, and
four bytes are forwarded as uncompressed pixel data. With the byte 0xE0 a filter byte is read
as well (here 0, the copy filter). -/
theorem processTight_invalid_control_parsed_as_basic :
    (processTight ⟨0, 0, 1, 1, EncodingType.Tight⟩ (sampleTunnel [] [160, 1, 2, 3, 4, 9])).result
        = .ok ()
    ∧ (processTight ⟨0, 0, 1, 1, EncodingType.Tight⟩ (sampleTunnel [] [160, 1, 2, 3, 4, 9])).trace
        = [.client (.rectangle ⟨0, 0, 1, 1, EncodingType.Tight⟩), .client (.raw [160]),
           .client (.raw [1, 2, 3, 4])]
    ∧ (processTight ⟨0, 0, 1, 1, EncodingType.Tight⟩
        (sampleTunnel [] [160, 1, 2, 3, 4, 9])).state.serverPending = [9]
    ∧ (processTight ⟨0, 0, 1, 1, EncodingType.Tight⟩ (sampleTunnel [] [224, 0, 1, 2, 3, 4, 9])).trace
        = [.client (.rectangle ⟨0, 0, 1, 1, EncodingType.Tight⟩), .client (.raw [224]),
           .client (.raw [0]), .client (.raw [1, 2, 3, 4])]
    ∧ (160 / 16 ≠ 8 ∧ 160 / 16 ≠ 9 ∧ 160 / 128 % 2 = 1) := by
  refine ⟨rfl, by decide, by decide, by decide, by decide⟩

theorem VncTunnel.connection_withConnection (t : VncTunnel) (which : Which) (c : XvncConnection) :
    (t.withConnection which c).connection which = some c := by
  cases which <;> rfl

theorem xSendRaw_run (which : Which) (bs : List Byte) (t : VncTunnel) :
    xSendRaw which bs t = { result := .ok (), state := t, trace := [which.sent bs] } := by
  cases which <;> rfl

theorem xRecvRaw_of (t : VncTunnel) (which : Which) (n : Nat) (bs rest : List Byte)
    (hok : t.connectionOk which) (hp : t.connectionPending which = bs ++ rest)
    (hn : bs.length = n) :
    xRecvRaw which n t
        = { result := .ok bs, state := t.connectionConsumed which n, trace := [] }
    ∧ (t.connectionConsumed which n).connectionOk which
    ∧ (t.connectionConsumed which n).connectionPending which = rest := by
  obtain ⟨c, hc, hb⟩ := hok
  have hp2 : c.m_streamFormatter.pending = bs ++ rest := by
    unfold VncTunnel.connectionPending at hp
    rw [hc] at hp
    exact hp
  have hlen : n ≤ c.m_streamFormatter.pending.length := by
    rw [hp2, List.length_append]; omega
  have e := StreamFormatter.recv_raw_ok c.m_streamFormatter n hb hlen
  have htake : c.m_streamFormatter.pending.take n = bs := by
    rw [hp2, ← hn, List.take_left]
  have hcons : t.connectionConsumed which n
      = t.withConnection which { c with m_streamFormatter := c.m_streamFormatter.consume n } := by
    unfold VncTunnel.connectionConsumed
    rw [hc]
  refine ⟨?_, ?_, ?_⟩
  · unfold xRecvRaw
    rw [hcons]
    simp only [hc, e, htake]
  · rw [hcons]
    exact ⟨_, VncTunnel.connection_withConnection _ _ _, StreamFormatter.consume_buffer _ _ hb⟩
  · rw [hcons]
    unfold VncTunnel.connectionPending
    rw [VncTunnel.connection_withConnection]
    show (c.m_streamFormatter.consume n).pending = rest
    rw [StreamFormatter.consume_pending, hp2, ← hn, List.drop_left]
theorem Byte.ofNat_val (b : Byte) : Byte.ofNat b.val = b := by
  apply Fin.ext
  show b.val % 256 = b.val
  exact Nat.mod_eq_of_lt b.isLt

theorem Byte.val_ofNat (n : Nat) (h : n < 256) : (Byte.ofNat n).val = n :=
  Nat.mod_eq_of_lt h

theorem startInitialization_rejected (which : Which) (supported : List Nat) (t : VncTunnel)
    (l0 l1 l2 l3 : Byte) (reason rest : List Byte) (hok : t.connectionOk which)
    (hp : t.connectionPending which
      = HighestVersionString ++ ([0] ++ ([l0, l1, l2, l3] ++ (reason ++ rest))))
    (hl : be32 l0 l1 l2 l3 = reason.length) :
    (XvncConnection.startInitialization which supported t).result
        = .error (Err.connectionException which (ascii "Connection failed, reason: " ++ reason))
    ∧ (XvncConnection.startInitialization which supported t).trace
        = [which.sent HighestVersionString]
    ∧ (XvncConnection.startInitialization which supported t).state.connectionPending which
        = rest := by
  obtain ⟨e1, ok1, p1⟩ := xRecvRaw_of t which 12 HighestVersionString _ hok hp rfl
  obtain ⟨e2, ok2, p2⟩ := xRecvRaw_of _ which 1 [0] _ ok1 p1 rfl
  obtain ⟨e3, ok3, p3⟩ := xRecvRaw_of _ which 4 [l0, l1, l2, l3] _ ok2 p2 rfl
  obtain ⟨e4, ok4, p4⟩ := xRecvRaw_of _ which (be32 l0 l1 l2 l3) reason rest ok3 p3 hl.symm
  have hz : ((([0] : List Byte).getD 0 0 : Byte).val = 0) := rfl
  have hg : ∀ i : Nat, ([l0, l1, l2, l3].getD 0 0 = l0) ∧ ([l0, l1, l2, l3].getD 1 0 = l1)
      ∧ ([l0, l1, l2, l3].getD 2 0 = l2) ∧ ([l0, l1, l2, l3].getD 3 0 = l3) :=
    fun _ => ⟨rfl, rfl, rfl, rfl⟩
  obtain ⟨g0, g1, g2, g3⟩ := hg 0
  unfold XvncConnection.startInitialization XvncConnection.receiveFailureReason
  simp only [bind_run, e1, e2, e3, e4, Outcome.after, xSendRaw_run, ne_eq, not_true_eq_false,
    if_false, hz, if_true, g0, g1, g2, g3, raise_run, pure_run, List.nil_append,
    List.append_nil]
  exact ⟨trivial, trivial, p4⟩

theorem startInitialization_offered (which : Which) (supported : List Nat) (t : VncTunnel)
    (types rest : List Byte) (hok : t.connectionOk which)
    (hp : t.connectionPending which
      = HighestVersionString ++ ([Byte.ofNat types.length] ++ (types ++ rest)))
    (h0 : 0 < types.length) (h256 : types.length < 256) :
    (∀ s, (types.map fun b => b.val).find? (fun s => decide (s ∈ supported)) = some s →
        s ≠ SecurityType.Invalid →
      (XvncConnection.startInitialization which supported t).result = .ok s
      ∧ (XvncConnection.startInitialization which supported t).trace
          = [which.sent HighestVersionString, which.sent [Byte.ofNat s]])
    ∧ ((types.map fun b => b.val).find? (fun s => decide (s ∈ supported)) = none →
      (XvncConnection.startInitialization which supported t).result
        = .error (Err.connectionException which (ascii "No supported security type offered"))) := by
  obtain ⟨e1, ok1, p1⟩ := xRecvRaw_of t which 12 HighestVersionString _ hok hp rfl
  obtain ⟨e2, ok2, p2⟩ := xRecvRaw_of _ which 1 [Byte.ofNat types.length] _ ok1 p1 rfl
  have hz : ((([Byte.ofNat types.length] : List Byte).getD 0 0 : Byte).val = types.length) :=
    Byte.val_ofNat _ h256
  obtain ⟨e3, ok3, p3⟩ := xRecvRaw_of _ which types.length types rest ok2 p2 rfl
  have hne : ¬ (types.length = 0) := by omega
  constructor
  · intro s hs hinv
    unfold XvncConnection.startInitialization
    simp only [bind_run, e1, e2, e3, Outcome.after, xSendRaw_run, ne_eq, not_true_eq_false,
      if_false, hz, hne, hs, Option.getD_some, hinv, raise_run, pure_run, List.nil_append,
      List.append_nil]
    exact ⟨trivial, rfl⟩
  · intro hs
    unfold XvncConnection.startInitialization
    simp only [bind_run, e1, e2, e3, Outcome.after, xSendRaw_run, ne_eq, not_true_eq_false,
      if_false, hz, hne, hs, Option.getD_none, if_true, raise_run, pure_run, List.nil_append,
      List.append_nil]
section ReturnsLemmas
variable {α β : Type}

theorem Returns.returns_intro (Q : α → Prop) (m : M α)
    (h : ∀ t a, (m t).result = .ok a → Q a) : Returns Q m := by
  unfold Returns; exact h
theorem Returns.returns_apply {Q : α → Prop} {m : M α} (h : Returns Q m) (t : VncTunnel) (a : α)
    (hr : (m t).result = .ok a) : Q a := by
  unfold Returns at h; exact h t a hr
theorem Returns.returns_pure (Q : α → Prop) (a : α) (h : Q a) : Returns Q (pure a : M α) := by
  apply Returns.returns_intro
  intro t b hb
  have h2 : (Except.ok a : Except Err α) = Except.ok b := hb
  rw [← Except.ok.inj h2]
  exact h
theorem Returns.returns_raise (Q : α → Prop) (e : Err) : Returns Q (raise e : M α) := by
  apply Returns.returns_intro
  intro t b hb
  cases hb
theorem Returns.returns_bind (Q : β → Prop) (m : M α) (f : α → M β)
    (hf : ∀ a, Returns Q (f a)) : Returns Q (m >>= f) := by
  apply Returns.returns_intro
  intro t b hb
  obtain ⟨a, _, h2⟩ := bind_result_ok m f t b hb
  exact (hf a).returns_apply _ b h2
theorem Returns.returns_ite (Q : β → Prop) (c : Prop) [Decidable c] (a b : M β)
    (ha : c → Returns Q a) (hb : ¬ c → Returns Q b) : Returns Q (if c then a else b) := by
  split
  · exact ha (by assumption)
  · exact hb (by assumption)
theorem Returns.returns_raise_bind (Q : β → Prop) (e : Err) (f : α → M β) :
    Returns Q ((raise e : M α) >>= f) := by
  apply Returns.returns_intro
  intro t b hb
  cases hb
end ReturnsLemmas

theorem find?_getD_mem (supported : List Nat) (xs : List Nat)
    (h : ¬ ((xs.find? fun s => decide (s ∈ supported)).getD SecurityType.Invalid
      = SecurityType.Invalid)) :
    (xs.find? fun s => decide (s ∈ supported)).getD SecurityType.Invalid ∈ supported := by
  cases hf : xs.find? fun s => decide (s ∈ supported) with
  | none => rw [hf] at h; exact absurd rfl h
  | some s =>
    have := List.find?_some hf
    exact of_decide_eq_true this

theorem returns_startInitialization (which : Which) (supported : List Nat) :
    Returns (fun s => s ∈ supported) (XvncConnection.startInitialization which supported) := by
  unfold XvncConnection.startInitialization
  refine Returns.returns_bind _ _ _ (fun versionString => ?_)
  dsimp only
  repeat' (first
    | with_reducible apply Returns.returns_raise_bind
    | with_reducible apply Returns.returns_bind
    | with_reducible apply Returns.returns_ite
    | intro _)
  apply Returns.returns_pure
  rename_i h _ _
  exact find?_getD_mem supported _ h
/-- Claim C35: `startInitialization` on a connection whose back-end sends the version string
and a count. If the count is zero it reads a reason prefixed by its 32-bit length and fails
with it. Otherwise it returns, and replies with, the first offered type that is in the
supported set (a set of security types, so without the marker `Invalid`), and it fails with
`No supported security type offered` iff no offered type is in the set. Whatever the back-end
sends, with the supported set `{None}` a value returned is `None`. -/
theorem startInitialization_selects (which : Which) (supported : List Nat) (t : VncTunnel)
    (hok : t.connectionOk which) (hinv : SecurityType.Invalid ∉ supported) :
    (∀ (l0 l1 l2 l3 : Byte) (reason rest : List Byte),
      t.connectionPending which
        = HighestVersionString ++ ([0] ++ ([l0, l1, l2, l3] ++ (reason ++ rest))) →
      be32 l0 l1 l2 l3 = reason.length →
      (XvncConnection.startInitialization which supported t).result
          = .error (Err.connectionException which (ascii "Connection failed, reason: " ++ reason))
      ∧ (XvncConnection.startInitialization which supported t).trace
          = [which.sent HighestVersionString])
    ∧ (∀ (pre : List Byte) (b : Byte) (post rest : List Byte),
      (pre ++ b :: post).length < 256 →
      t.connectionPending which
        = HighestVersionString ++ ([Byte.ofNat (pre ++ b :: post).length]
            ++ ((pre ++ b :: post) ++ rest)) →
      (∀ x ∈ pre, x.val ∉ supported) → b.val ∈ supported →
      (XvncConnection.startInitialization which supported t).result = .ok b.val
      ∧ (XvncConnection.startInitialization which supported t).trace
          = [which.sent HighestVersionString, which.sent [b]])
    ∧ (∀ (types rest : List Byte), 0 < types.length → types.length < 256 →
      t.connectionPending which
        = HighestVersionString ++ ([Byte.ofNat types.length] ++ (types ++ rest)) →
      ((XvncConnection.startInitialization which supported t).result
          = .error (Err.connectionException which (ascii "No supported security type offered"))
        ↔ ∀ b ∈ types, b.val ∉ supported))
    ∧ (∀ s, (XvncConnection.startInitialization which [SecurityType.None] t).result = .ok s →
        s = SecurityType.None) := by
  refine ⟨?_, ?_, ?_, ?_⟩
  · intro l0 l1 l2 l3 reason rest hp hl
    obtain ⟨h1, h2, _⟩ := startInitialization_rejected which supported t l0 l1 l2 l3 reason rest
      hok hp hl
    exact ⟨h1, h2⟩
  · intro pre b post rest h256 hp hpre hb
    have hfind : ((pre ++ b :: post).map fun x => x.val).find? (fun s => decide (s ∈ supported))
        = some b.val := by
      rw [List.map_append, List.find?_append]
      have h1 : (pre.map fun x => x.val).find? (fun s => decide (s ∈ supported)) = none := by
        rw [List.find?_eq_none]
        intro s hs
        obtain ⟨x, hx, rfl⟩ := List.mem_map.mp hs
        simp [hpre x hx]
      rw [h1, List.map_cons, List.find?_cons_of_pos _ (by simp [hb])]
      rfl
    have hne : b.val ≠ SecurityType.Invalid := fun h => hinv (h ▸ hb)
    have h := (startInitialization_offered which supported t (pre ++ b :: post) rest hok hp
      (by simp) h256).1 b.val hfind hne
    rw [Byte.ofNat_val] at h
    exact h
  · intro types rest h0 h256 hp
    obtain ⟨hsome, hnone⟩ := startInitialization_offered which supported t types rest hok hp
      h0 h256
    constructor
    · intro herr b hb hmem
      cases hf : (types.map fun x => x.val).find? (fun s => decide (s ∈ supported)) with
      | none =>
        rw [List.find?_eq_none] at hf
        have := hf b.val (List.mem_map.mpr ⟨b, hb, rfl⟩)
        simp [hmem] at this
      | some s =>
        have hd := List.find?_some hf
        have hs : s ∈ supported := of_decide_eq_true hd
        have hne : s ≠ SecurityType.Invalid := fun h => hinv (h ▸ hs)
        rw [(hsome s hf hne).1] at herr
        cases herr
    · intro hall
      apply hnone
      rw [List.find?_eq_none]
      intro s hs
      obtain ⟨x, hx, rfl⟩ := List.mem_map.mp hs
      simp [hall x hx]
  · intro s hs
    have := (returns_startInitialization which [SecurityType.None]).returns_apply t s hs
    exact List.mem_singleton.mp this

/-- Witness for C35: the back-end offers VncAuth and None, and only None is supported. -/
theorem startInitialization_selects_witness :
    (XvncConnection.startInitialization .current [SecurityType.None]
        (sampleTunnel [] (HighestVersionString ++ [2, 2, 1]))).result = .ok 1
    ∧ (XvncConnection.startInitialization .current [SecurityType.None]
        (sampleTunnel [] (HighestVersionString ++ [2, 2, 1]))).trace
        = [.server HighestVersionString, .server [1]] :=
  (startInitialization_selects .current [SecurityType.None]
    (sampleTunnel [] (HighestVersionString ++ [2, 2, 1]))
    ⟨_, rfl, Nat.zero_le _⟩ (by decide)).2.1 [2] 1 [] [] (by decide) (by rfl)
    (by intro x hx; rw [List.mem_singleton] at hx; subst hx; decide) (by decide)

set_option maxRecDepth 100000 in
theorem vncAuthKeyByte_unsigned (b : Byte) :
    vncAuthKeyByte false b = clearLowestBit (reverseBits b) := by
  revert b
  decide

set_option maxRecDepth 100000 in
theorem vncAuthKeyByte_ascii (b : Byte) (h : b.val < 128) :
    vncAuthKeyByte true b = clearLowestBit (reverseBits b) := by
  revert b
  decide

set_option maxRecDepth 100000 in
theorem vncAuthKeyByte_signed_high (b : Byte) (h : 128 ≤ b.val) :
    vncAuthKeyByte true b ≠ clearLowestBit (reverseBits b) := by
  revert b
  decide

theorem vncAuthKey_take (charIsSigned : Bool) (password : List Byte) :
    vncAuthKey charIsSigned (password.take 8) = vncAuthKey charIsSigned password := by
  unfold vncAuthKey
  apply List.map_congr_left
  intro i hi
  have h8 : i < 8 := List.mem_range.mp hi
  have hl : (password.take 8).length = min 8 password.length := List.length_take _ _
  by_cases h : i ≥ password.length
  · have h2 : i ≥ (password.take 8).length := by omega
    rw [if_pos h, if_pos h2]
  · have h2 : ¬ i ≥ (password.take 8).length := by omega
    rw [if_neg h, if_neg h2]
    congr 1
    rw [List.getD_eq_getElem?_getD, List.getD_eq_getElem?_getD, List.getElem?_take_of_lt h8]

/-- C34, the code at a failing input: where `char` is signed, the password byte 0xC3 (the first
byte of a two-byte UTF-8 character) is multiplied as the negative number -61, and the key byte
is 0x42 instead of 0xC2, the reversed byte with its lowest bit cleared. The expression is right
for every byte where `char` is unsigned and for the bytes below 0x80 where it is signed, and
wrong for every byte from 0x80 on where it is signed; positions past the end of the password
are zero and bytes beyond the eighth are ignored. -/
theorem vncAuthKey_signed_char_highBit :
    vncAuthKey true [195] = [66, 0, 0, 0, 0, 0, 0, 0]
    ∧ clearLowestBit (reverseBits 195) = 194
    ∧ vncAuthKey false [195] = [194, 0, 0, 0, 0, 0, 0, 0]
    ∧ (∀ b, vncAuthKeyByte false b = clearLowestBit (reverseBits b))
    ∧ (∀ b : Byte, b.val < 128 → vncAuthKeyByte true b = clearLowestBit (reverseBits b))
    ∧ (∀ b : Byte, 128 ≤ b.val → vncAuthKeyByte true b ≠ clearLowestBit (reverseBits b))
    ∧ (∀ c password, vncAuthKey c (password.take 8) = vncAuthKey c password) :=
  ⟨by decide, by decide, by decide, vncAuthKeyByte_unsigned, vncAuthKeyByte_ascii,
    vncAuthKeyByte_signed_high, vncAuthKey_take⟩

theorem ReadSelector.insertKey_mem (fd x : Int) (xs : List Int) :
    x ∈ ReadSelector.insertKey fd xs ↔ x = fd ∨ x ∈ xs := by
  induction xs with
  | nil => simp [ReadSelector.insertKey]
  | cons y ys ih =>
    unfold ReadSelector.insertKey
    split
    · simp
    · simp only [List.mem_cons, ih]
      constructor
      · rintro (h | h | h)
        · exact Or.inr (Or.inl h)
        · exact Or.inl h
        · exact Or.inr (Or.inr h)
      · rintro (h | h | h)
        · exact Or.inr (Or.inl h)
        · exact Or.inl h
        · exact Or.inr (Or.inr h)

theorem ReadSelector.insertKey_pairwise (fd : Int) (xs : List Int) (h : xs.Pairwise (· < ·))
    (hn : fd ∉ xs) : (ReadSelector.insertKey fd xs).Pairwise (· < ·) := by
  induction xs with
  | nil => simp [ReadSelector.insertKey]
  | cons y ys ih =>
    have hy : fd ≠ y := fun e => hn (e ▸ List.mem_cons_self _ _)
    have hys : fd ∉ ys := fun e => hn (List.mem_cons_of_mem _ e)
    obtain ⟨h1, h2⟩ := List.pairwise_cons.mp h
    unfold ReadSelector.insertKey
    split
    · next hlt =>
      refine List.pairwise_cons.mpr ⟨?_, h⟩
      intro z hz
      rcases List.mem_cons.mp hz with rfl | hz
      · exact hlt
      · exact lt_trans hlt (h1 z hz)
    · next hge =>
      refine List.pairwise_cons.mpr ⟨?_, ih h2 hys⟩
      intro z hz
      rcases (ReadSelector.insertKey_mem fd z ys).mp hz with rfl | hz
      · omega
      · exact h1 z hz

theorem ReadSelector.addFD_ordered (s s1 : ReadSelector) (fd : Int) (h : s.ordered)
    (ha : s.addFD fd = some s1) : s1.ordered := by
  unfold ReadSelector.addFD at ha
  split at ha
  · cases ha
  · next hn =>
    cases ha
    exact ReadSelector.insertKey_pairwise fd s.m_fds h hn

theorem ReadSelector.dispatch_prefix (ready : Int → Bool) (run : Int → HandlerRun)
    (fds : List Int) (s : ReadSelector) :
    (ReadSelector.dispatch ready run fds s).invoked <+: fds.filter ready := by
  induction fds generalizing s with
  | nil => exact List.prefix_refl _
  | cons fd rest ih =>
    unfold ReadSelector.dispatch
    by_cases hr : ready fd = true
    · rw [if_pos hr, List.filter_cons_of_pos hr]
      dsimp only
      cases ht : (run fd).threw
      · rw [if_neg (by simp)]
        by_cases hp : (if (run fd).cancelled = true then s.cancel else s).m_pendingCancelation = true
        · rw [if_pos hp]
          exact (List.prefix_cons_inj fd).mpr List.nil_prefix
        · rw [if_neg hp]
          exact (List.prefix_cons_inj fd).mpr (ih _)
      · rw [if_pos rfl]
        exact (List.prefix_cons_inj fd).mpr List.nil_prefix
    · rw [if_neg hr, List.filter_cons_of_neg hr]
      exact ih s
theorem ReadSelector.dispatch_cancelled_last (ready : Int → Bool) (run : Int → HandlerRun)
    (fds : List Int) (s : ReadSelector) (fd : Int)
    (hm : fd ∈ (ReadSelector.dispatch ready run fds s).invoked)
    (hc : (run fd).cancelled = true) :
    (ReadSelector.dispatch ready run fds s).invoked.getLast? = some fd := by
  induction fds generalizing s with
  | nil => cases hm
  | cons fd0 rest ih =>
    unfold ReadSelector.dispatch at hm ⊢
    by_cases hr : ready fd0 = true
    · rw [if_pos hr] at hm ⊢
      dsimp only at hm ⊢
      by_cases ht : (run fd0).threw = true
      swap
      · rw [if_neg ht] at hm ⊢
        by_cases hp : (if (run fd0).cancelled = true then s.cancel else s).m_pendingCancelation
            = true
        · rw [if_pos hp] at hm ⊢
          rw [List.mem_singleton.mp hm]
          rfl
        · rw [if_neg hp] at hm ⊢
          rcases List.mem_cons.mp hm with rfl | hm2
          · exfalso
            apply hp
            rw [if_pos hc]
            rfl
          · have h := ih _ hm2
            show (fd0 :: _).getLast? = some fd
            generalize (ReadSelector.dispatch ready run rest
              (if (run fd0).cancelled = true then s.cancel else s)).invoked = l at hm2 h
            cases l with
            | nil => cases hm2
            | cons y ys =>
              rw [List.getLast?_cons_cons]
              exact h
      · rw [if_pos ht] at hm ⊢
        rw [List.mem_singleton.mp hm]
        rfl
    · rw [if_neg hr] at hm ⊢
      exact ih s hm

theorem ReadSelector.dispatch_complete (ready : Int → Bool) (run : Int → HandlerRun)
    (fds : List Int) (s : ReadSelector)
    (hok : (ReadSelector.dispatch ready run fds s).result = .ok ())
    (hp : (ReadSelector.dispatch ready run fds s).selector.m_pendingCancelation = false) :
    (ReadSelector.dispatch ready run fds s).invoked = fds.filter ready := by
  induction fds generalizing s with
  | nil => rfl
  | cons fd0 rest ih =>
    unfold ReadSelector.dispatch at hok hp ⊢
    by_cases hr : ready fd0 = true
    · rw [if_pos hr] at hok hp ⊢
      rw [List.filter_cons_of_pos hr]
      dsimp only at hok hp ⊢
      by_cases ht : (run fd0).threw = true
      swap
      · rw [if_neg ht] at hok hp ⊢
        by_cases hpc : (if (run fd0).cancelled = true then s.cancel else s).m_pendingCancelation
            = true
        · rw [if_pos hpc] at hp
          rw [hpc] at hp
          cases hp
        · rw [if_neg hpc] at hok hp ⊢
          show fd0 :: _ = _
          rw [ih _ hok hp]
      · rw [if_pos ht] at hok
        cases hok
    · rw [if_neg hr] at hok hp ⊢
      rw [List.filter_cons_of_neg hr]
      exact ih s hok hp

/-- Claim C40: in one wake-up of `select` on a selector whose map is in order, the handlers
called are those of ready registered descriptors, in the order of the map and without a
gap; the descriptors called are strictly ascending, hence each is called at most once; a
handler that called `cancel()` is the last one called; if the call returns and nothing was
cancelled, every ready handler was called; and the flag a `cancel()` left set when `select`
is entered makes no difference to the wake-up. The order of the map is kept by `clear` and
`addFD`. -/
theorem ReadSelector.select_dispatches (s : ReadSelector) (ready : Int → Bool)
    (run : Int → HandlerRun) (hs : s.ordered) :
    (s.select (some ready) run).invoked <+: s.m_fds.filter ready
    ∧ (s.select (some ready) run).invoked.Pairwise (· < ·)
    ∧ (∀ fd ∈ (s.select (some ready) run).invoked, (run fd).cancelled = true →
        (s.select (some ready) run).invoked.getLast? = some fd)
    ∧ ((s.select (some ready) run).result = .ok () →
        (s.select (some ready) run).selector.m_pendingCancelation = false →
        (s.select (some ready) run).invoked = s.m_fds.filter ready)
    ∧ (s.cancel.select (some ready) run = s.select (some ready) run)
    ∧ (s.clear.ordered ∧ ∀ fd s1, s.addFD fd = some s1 → s1.ordered) := by
  have hpre : (s.select (some ready) run).invoked <+: s.m_fds.filter ready :=
    ReadSelector.dispatch_prefix ready run s.m_fds _
  refine ⟨hpre, ?_, ?_, ?_, rfl, List.Pairwise.nil,
    fun fd s1 ha => ReadSelector.addFD_ordered s s1 fd hs ha⟩
  · exact List.Pairwise.sublist hpre.sublist (List.Pairwise.sublist (List.filter_sublist _) hs)
  · intro fd hm hc
    exact ReadSelector.dispatch_cancelled_last ready run s.m_fds _ fd hm hc
  · intro hok hp
    exact ReadSelector.dispatch_complete ready run s.m_fds _ hok hp

/-- Witness for C40: of the ready descriptors 3, 5 and 9, the handler of 5 cancels; the flag
was still set from the wake-up before. -/
theorem ReadSelector.select_dispatches_witness :
    (({ m_fds := [3, 4, 5, 9], m_pendingCancelation := true } : ReadSelector).select
        (some fun fd => fd != 4)
        (fun fd => { cancelled := fd == 5, threw := false })).invoked.Pairwise (· < ·)
    ∧ (({ m_fds := [3, 4, 5, 9], m_pendingCancelation := true } : ReadSelector).select
        (some fun fd => fd != 4)
        (fun fd => { cancelled := fd == 5, threw := false })).invoked = [3, 5] :=
  ⟨(ReadSelector.select_dispatches { m_fds := [3, 4, 5, 9], m_pendingCancelation := true }
      (fun fd => fd != 4) (fun fd => { cancelled := fd == 5, threw := false })
      (by simp [ReadSelector.ordered])).2.1, by decide⟩

theorem cForwardDirectly_of (t : VncTunnel) (n : Nat) (bs rest : List Byte) (hwf : t.buffersOk)
    (hp : t.clientPending = bs ++ rest) (hn : bs.length = n) :
    cForwardDirectly n t
      = { result := .ok (), state := t.clientConsumed n, trace := [.server bs] } := by
  subst hn
  have hlen : bs.length ≤ t.m_streamFormatter.pending.length := by
    have : t.m_streamFormatter.pending = bs ++ rest := hp
    rw [this]; simp
  have htake : t.m_streamFormatter.pending.take bs.length = bs := by
    have : t.m_streamFormatter.pending = bs ++ rest := hp
    rw [this, List.take_left]
  simp only [cForwardDirectly, onClient, bind_run, bind_pure_comp, Functor.map,
    StreamFormatter.forward_directly_ok _ _ hwf.1 hlen, htake]
  rfl

/-- Claim C37: for a client message of type FramebufferUpdateRequest (3), KeyEvent (4) or
PointerEvent (5), that is a type byte and 9, 7 or 5 more bytes, `clientReceive` returns, has
written to the back-end exactly these 10, 8 or 6 bytes, the type byte first, has consumed
exactly them from the client, and leaves the push-back buffer of the client empty. -/
theorem clientReceive_forwards (t : VncTunnel) (ty : Byte) (body rest : List Byte)
    (hwf : t.buffersOk) (hp : t.clientPending = ty :: body ++ rest)
    (hcase : (ty.val = 3 ∧ body.length = 9) ∨ (ty.val = 4 ∧ body.length = 7)
      ∨ (ty.val = 5 ∧ body.length = 5)) :
    (clientReceive t).result = .ok ()
    ∧ (clientReceive t).trace = [.server (ty :: body)]
    ∧ serverBytes (clientReceive t).trace = ty :: body
    ∧ (clientReceive t).state.clientPending = rest
    ∧ (clientReceive t).state.m_streamFormatter.buffer = [] := by
  have hp1 : t.clientPending = [ty] ++ (body ++ rest) := hp
  have s1 := cRecvRaw_of t 1 [ty] _ hwf hp1 rfl
  have hc : (t.clientConsumed 1).m_streamFormatter
      = { input := body ++ rest, buffer := [] } := by
    show t.m_streamFormatter.consume 1 = _
    unfold StreamFormatter.consume
    rw [if_neg (by decide)]
    have : t.m_streamFormatter.pending = [ty] ++ (body ++ rest) := hp
    rw [this]
    rfl
  have hwf2 : ((t.clientConsumed 1).withClientFormatter
      { input := body ++ rest, buffer := [ty] }).buffersOk := ⟨Nat.le_refl 1, hwf.2⟩
  have hp2 : ((t.clientConsumed 1).withClientFormatter
      { input := body ++ rest, buffer := [ty] }).clientPending = (ty :: body) ++ rest := rfl
  have hfin : ∀ n, n ≠ 0 → (ty :: body).length = n →
      (((t.clientConsumed 1).withClientFormatter
        { input := body ++ rest, buffer := [ty] }).clientConsumed n).clientPending = rest
      ∧ (((t.clientConsumed 1).withClientFormatter
        { input := body ++ rest, buffer := [ty] }).clientConsumed n).m_streamFormatter.buffer
          = [] := by
    intro n hn0 hn
    subst hn
    refine ⟨VncTunnel.clientConsumed_pending_of _ (ty :: body) rest hp2, ?_⟩
    show (StreamFormatter.consume _ _).buffer = []
    unfold StreamFormatter.consume
    rw [if_neg hn0]
  have hpb : cPushBack ty (t.clientConsumed 1)
      = { result := .ok ()
          state := (t.clientConsumed 1).withClientFormatter
            { input := body ++ rest, buffer := [ty] }
          trace := [] } := by
    unfold cPushBack
    rw [hc]
    rfl
  rcases hcase with ⟨hty, hlen⟩ | ⟨hty, hlen⟩ | ⟨hty, hlen⟩
  · have f := cForwardDirectly_of _ 10 (ty :: body) rest hwf2 hp2 (by simp [hlen])
    obtain ⟨f1, f2⟩ := hfin 10 (by decide) (by simp [hlen])
    have hsel : (if ty.val = 0 then processSetPixelFormat
        else if ty.val = 2 then processSetEncodings
        else if ty.val = 3 then processFramebufferUpdateRequest
        else if ty.val = 4 then processKeyEvent
        else if ty.val = 5 then processPointerEvent
        else if ty.val = 6 then processClientCutText
        else if ty.val = 251 then processSetDesktopSize
        else raise Err.unknownClientMessage) = cForwardDirectly 10 := by
      rw [hty]; rfl
    unfold clientReceive
    simp only [bind_run, s1, Outcome.after, List.getD_cons_zero, hpb, hsel, f]
    exact ⟨trivial, rfl, List.append_nil _, f1, f2⟩
  · have f := cForwardDirectly_of _ 8 (ty :: body) rest hwf2 hp2 (by simp [hlen])
    obtain ⟨f1, f2⟩ := hfin 8 (by decide) (by simp [hlen])
    have hsel : (if ty.val = 0 then processSetPixelFormat
        else if ty.val = 2 then processSetEncodings
        else if ty.val = 3 then processFramebufferUpdateRequest
        else if ty.val = 4 then processKeyEvent
        else if ty.val = 5 then processPointerEvent
        else if ty.val = 6 then processClientCutText
        else if ty.val = 251 then processSetDesktopSize
        else raise Err.unknownClientMessage) = cForwardDirectly 8 := by
      rw [hty]; rfl
    unfold clientReceive
    simp only [bind_run, s1, Outcome.after, List.getD_cons_zero, hpb, hsel, f]
    exact ⟨trivial, rfl, List.append_nil _, f1, f2⟩
  · have f := cForwardDirectly_of _ 6 (ty :: body) rest hwf2 hp2 (by simp [hlen])
    obtain ⟨f1, f2⟩ := hfin 6 (by decide) (by simp [hlen])
    have hsel : (if ty.val = 0 then processSetPixelFormat
        else if ty.val = 2 then processSetEncodings
        else if ty.val = 3 then processFramebufferUpdateRequest
        else if ty.val = 4 then processKeyEvent
        else if ty.val = 5 then processPointerEvent
        else if ty.val = 6 then processClientCutText
        else if ty.val = 251 then processSetDesktopSize
        else raise Err.unknownClientMessage) = cForwardDirectly 6 := by
      rw [hty]; rfl
    unfold clientReceive
    simp only [bind_run, s1, Outcome.after, List.getD_cons_zero, hpb, hsel, f]
    exact ⟨trivial, rfl, List.append_nil _, f1, f2⟩

/-- Witness for C37: a KeyEvent of eight bytes is forwarded, the byte after it stays. -/
theorem clientReceive_forwards_witness :
    (clientReceive (sampleTunnel [4, 1, 0, 0, 0, 0, 0, 65, 7] [])).result = .ok ()
    ∧ (clientReceive (sampleTunnel [4, 1, 0, 0, 0, 0, 0, 65, 7] [])).trace
        = [.server [4, 1, 0, 0, 0, 0, 0, 65]]
    ∧ serverBytes (clientReceive (sampleTunnel [4, 1, 0, 0, 0, 0, 0, 65, 7] [])).trace
        = [4, 1, 0, 0, 0, 0, 0, 65]
    ∧ (clientReceive (sampleTunnel [4, 1, 0, 0, 0, 0, 0, 65, 7] [])).state.clientPending = [7]
    ∧ (clientReceive (sampleTunnel [4, 1, 0, 0, 0, 0, 0, 65, 7] [])).state.m_streamFormatter.buffer
        = [] :=
  clientReceive_forwards (sampleTunnel [4, 1, 0, 0, 0, 0, 0, 65, 7] []) 4 [1, 0, 0, 0, 0, 0, 65]
    [7] (by decide) (by decide) (Or.inr (Or.inl ⟨by decide, by decide⟩))

/-- C31, the code at a failing input: the client advertised DesktopName, a switch completes
(`connectionSwitched` queues the DesktopName rectangle), and before the back-end sends its next
update the client sends SetEncodings with Raw only. `processSetEncodings` rebuilds the set of
client encodings and leaves `m_desktopNameChangeQueued` alone: the flag is set while
DesktopName is not supported, and the next FramebufferUpdate starts with a DesktopName
rectangle, counted in its header. -/
theorem processSetEncodings_keeps_desktopNameQueued :
    (connectionSwitched sampleTunnelRenameQueued).result = .ok ()
    ∧ (connectionSwitched sampleTunnelRenameQueued).state.m_desktopNameChangeQueued = true
    ∧ EncodingType.DesktopName
        ∈ (connectionSwitched sampleTunnelRenameQueued).state.m_supportedEncodingsClient
    ∧ (clientReceive (connectionSwitched sampleTunnelRenameQueued).state).result = .ok ()
    ∧ (clientReceive (connectionSwitched sampleTunnelRenameQueued).state).state.m_desktopNameChangeQueued
        = true
    ∧ (clientReceive (connectionSwitched sampleTunnelRenameQueued).state).state.m_supportedEncodingsClient
        = [EncodingType.Raw]
    ∧ EncodingType.DesktopName
        ∉ (clientReceive (connectionSwitched sampleTunnelRenameQueued).state).state.m_supportedEncodingsClient
    ∧ (processFramebufferUpdate
        (clientReceive (connectionSwitched sampleTunnelRenameQueued).state).state).result = .ok ()
    ∧ headerCount (processFramebufferUpdate
        (clientReceive (connectionSwitched sampleTunnelRenameQueued).state).state).trace = some 1
    ∧ clientRectangles (processFramebufferUpdate
        (clientReceive (connectionSwitched sampleTunnelRenameQueued).state).state).trace
        = [⟨0, 0, 0, 0, EncodingType.DesktopName⟩] := by
  refine ⟨rfl, by decide, by decide, rfl, by decide, by decide, by decide, rfl, by decide,
    by decide⟩

/-- C39, the code at a failing input: a greeter is shown and the client asks for Tight. The
first SetEncodings goes to the back-end without Tight. Then the greeter asks to open another
session, whose back-end answers with an unsupported protocol version (or, second case, asks
for VncAuth, so that the switch waits for the password): `switchToConnection` has cleared
`m_tightEncodingDisabled` at once, the round of the loop of `start` drops the failed
connection and goes on with the greeter still attached, and the next SetEncodings of the
client is sent to the current back-end with Tight in its list. -/
theorem switchToConnection_enables_tight_early :
    (clientReceive sampleTunnelGreeterTight).result = .ok ()
    ∧ (clientReceive sampleTunnelGreeterTight).trace
        = [.server (SetEncodingsMessage.send { type := 2, padding := 0, numberOfEncodings := 1 }),
           .server (sendEncodings [EncodingType.DesktopName])]
    ∧ (loopRound (switchToConnection (some sampleXvncOther) sampleOldVersionString)
        (clientReceive sampleTunnelGreeterTight).state).result = .ok true
    ∧ (loopRound (switchToConnection (some sampleXvncOther) sampleOldVersionString)
        (clientReceive sampleTunnelGreeterTight).state).state.m_greeterConnection.isSome = true
    ∧ (loopRound (switchToConnection (some sampleXvncOther) sampleOldVersionString)
        (clientReceive sampleTunnelGreeterTight).state).state.m_potentialConnection = none
    ∧ (clientReceive
        (loopRound (switchToConnection (some sampleXvncOther) sampleOldVersionString)
          (clientReceive sampleTunnelGreeterTight).state).state).trace
        = [.server (SetEncodingsMessage.send { type := 2, padding := 0, numberOfEncodings := 2 }),
           .server (sendEncodings [EncodingType.Tight, EncodingType.DesktopName])]
    ∧ (clientReceive
        (loopRound (switchToConnection (some sampleXvncOther) sampleOldVersionString)
          (clientReceive sampleTunnelGreeterTight).state).state).state.m_greeterConnection.isSome
        = true
    ∧ (loopRound (switchToConnection (some sampleXvncOther) (HighestVersionString ++ [1, 2]))
        (clientReceive sampleTunnelGreeterTight).state).result = .ok true
    ∧ (loopRound (switchToConnection (some sampleXvncOther) (HighestVersionString ++ [1, 2]))
        (clientReceive sampleTunnelGreeterTight).state).state.m_potentialConnection.isSome = true
    ∧ serverBytes (clientReceive
        (loopRound (switchToConnection (some sampleXvncOther) (HighestVersionString ++ [1, 2]))
          (clientReceive sampleTunnelGreeterTight).state).state).trace
        = [2, 0, 0, 2] ++ sendEncodings [EncodingType.Tight, EncodingType.DesktopName]
    ∧ (clientReceive
        (loopRound (switchToConnection (some sampleXvncOther) (HighestVersionString ++ [1, 2]))
          (clientReceive sampleTunnelGreeterTight).state).state).state.m_greeterConnection.isSome
        = true := by
  refine ⟨rfl, by decide, rfl, by decide, by decide, by decide, by decide, rfl, by decide,
    by decide, by decide⟩

theorem PixelFormat.eq_self (p : PixelFormat) : p.eq p = true := by
  simp [PixelFormat.eq]

theorem keeps_pf_cRecvRaw (n : Nat) : Keeps pixelFormatsAgree (cRecvRaw n) :=
  Keeps.keeps_intro _ fun _ h => h
theorem keeps_pf_cForwardRaw (n : Nat) : Keeps pixelFormatsAgree (cForwardRaw n) :=
  Keeps.keeps_intro _ fun _ h => h
theorem keeps_pf_cForwardDirectly (n : Nat) : Keeps pixelFormatsAgree (cForwardDirectly n) := by
  unfold cForwardDirectly
  exact Keeps.keeps_bind _ _ (Keeps.keeps_intro _ fun _ h => h) (fun _ => Keeps.keeps_pure _)
theorem keeps_pf_sRecvRaw (n : Nat) : Keeps pixelFormatsAgree (sRecvRaw n) :=
  Keeps.keeps_intro _ fun _ h => h
theorem keeps_pf_sForwardRaw (n : Nat) : Keeps pixelFormatsAgree (sForwardRaw n) :=
  Keeps.keeps_intro _ fun _ h => h
theorem keeps_pf_sForwardDirectly (n : Nat) : Keeps pixelFormatsAgree (sForwardDirectly n) := by
  unfold sForwardDirectly
  exact Keeps.keeps_bind _ _ (Keeps.keeps_intro _ fun _ h => h) (fun _ => Keeps.keeps_pure _)
theorem keeps_pf_cSendRaw (bs : List Byte) : Keeps pixelFormatsAgree (cSendRaw bs) :=
  Keeps.keeps_intro _ fun _ h => h
theorem keeps_pf_sSendRaw (bs : List Byte) : Keeps pixelFormatsAgree (sSendRaw bs) :=
  Keeps.keeps_intro _ fun _ h => h
theorem keeps_pf_cSendRectangle (r : FramebufferUpdateRectangle) :
    Keeps pixelFormatsAgree (cSendRectangle r) :=
  Keeps.keeps_intro _ fun _ h => h
theorem keeps_pf_cSendMessage (m : FramebufferUpdateMessage) :
    Keeps pixelFormatsAgree (cSendMessage m) :=
  Keeps.keeps_intro _ fun _ h => h
theorem keeps_pf_setFramebufferSize (w h : Nat) :
    Keeps pixelFormatsAgree (setFramebufferSize w h) :=
  Keeps.keeps_intro _ fun _ h => h

theorem keeps_pf_cPushBack (b : Byte) : Keeps pixelFormatsAgree (cPushBack b) := by
  apply Keeps.keeps_intro
  intro t h
  unfold cPushBack
  split <;> exact h

theorem keeps_pf_sPushBack (b : Byte) : Keeps pixelFormatsAgree (sPushBack b) := by
  apply Keeps.keeps_intro
  intro t h
  unfold sPushBack
  split <;> exact h

theorem pixelFormatsAgree_sessionCalled (t : VncTunnel) (r : Xvnc × Bool)
    (h : pixelFormatsAgree t) : pixelFormatsAgree (t.sessionCalled r) := by
  unfold pixelFormatsAgree VncTunnel.sessionCalled at *
  dsimp only
  split <;> exact h

theorem keeps_pf_setDesktopName (n : List Byte) : Keeps pixelFormatsAgree (setDesktopName n) :=
  Keeps.keeps_intro _ fun t h => pixelFormatsAgree_sessionCalled t _ h

theorem filterEncoding_pixelFormats (t : VncTunnel) (e : Int) :
    (filterEncoding t e).m_pixelFormat = t.m_pixelFormat
    ∧ (filterEncoding t e).m_currentConnection = t.m_currentConnection := by
  unfold filterEncoding
  dsimp only
  split <;> split <;> (try split) <;> exact ⟨rfl, rfl⟩

theorem foldl_filterEncoding_pixelFormats (es : List Int) (t : VncTunnel) :
    (es.foldl filterEncoding t).m_pixelFormat = t.m_pixelFormat
    ∧ (es.foldl filterEncoding t).m_currentConnection = t.m_currentConnection := by
  induction es generalizing t with
  | nil => exact ⟨rfl, rfl⟩
  | cons e es ih =>
    obtain ⟨h1, h2⟩ := ih (filterEncoding t e)
    obtain ⟨g1, g2⟩ := filterEncoding_pixelFormats t e
    exact ⟨h1.trans g1, h2.trans g2⟩

theorem pixelFormatsAgree_selectEncodings (es : List Int) (t : VncTunnel)
    (h : pixelFormatsAgree t) : pixelFormatsAgree (selectEncodings es t) := by
  obtain ⟨h1, h2⟩ := foldl_filterEncoding_pixelFormats es
    { t with m_supportedEncodingsClient := [], m_supportedEncodingsServer := [] }
  unfold pixelFormatsAgree selectEncodings at *
  dsimp only
  split
  · show PixelFormat.eq (List.foldl filterEncoding _ es).m_currentConnection.m_pixelFormat
      (List.foldl filterEncoding _ es).m_pixelFormat = true
    rw [h1, h2]
    exact h
  · rw [h1, h2]
    exact h

theorem keeps_pf_sendSetEncodings (e : List Int) :
    Keeps pixelFormatsAgree (sendSetEncodings e) := by
  unfold sendSetEncodings
  repeat' (first
    | with_reducible apply Keeps.keeps_bind
    | with_reducible apply Keeps.keeps_ite
    | with_reducible apply Keeps.keeps_pure
    | with_reducible apply Keeps.keeps_raise
    | with_reducible apply Keeps.keeps_getTunnel
    | with_reducible apply keeps_pf_sSendRaw
    | intro _)

theorem keeps_pf_processSetEncodings :
    Keeps pixelFormatsAgree (processSetEncodings) := by
  unfold processSetEncodings
  repeat' (first
    | with_reducible apply Keeps.keeps_bind
    | with_reducible apply Keeps.keeps_ite
    | with_reducible apply Keeps.keeps_pure
    | with_reducible apply Keeps.keeps_raise
    | with_reducible apply Keeps.keeps_getTunnel
    | with_reducible apply keeps_pf_cRecvRaw
    | with_reducible apply keeps_pf_sendSetEncodings
    | ((with_reducible apply Keeps.keeps_modify); intro t h; exact pixelFormatsAgree_selectEncodings _ t h)
    | intro _)

theorem keeps_pf_processClientCutText :
    Keeps pixelFormatsAgree (processClientCutText) := by
  unfold processClientCutText
  repeat' (first
    | with_reducible apply Keeps.keeps_bind
    | with_reducible apply Keeps.keeps_ite
    | with_reducible apply Keeps.keeps_pure
    | with_reducible apply Keeps.keeps_raise
    | with_reducible apply Keeps.keeps_getTunnel
    | with_reducible apply keeps_pf_cForwardRaw
    | with_reducible apply keeps_pf_cForwardDirectly
    | intro _)

theorem keeps_pf_processSetDesktopSize :
    Keeps pixelFormatsAgree (processSetDesktopSize) := by
  unfold processSetDesktopSize
  repeat' (first
    | with_reducible apply Keeps.keeps_bind
    | with_reducible apply Keeps.keeps_ite
    | with_reducible apply Keeps.keeps_pure
    | with_reducible apply Keeps.keeps_raise
    | with_reducible apply Keeps.keeps_getTunnel
    | with_reducible apply keeps_pf_cForwardRaw
    | with_reducible apply keeps_pf_cForwardDirectly
    | intro _)

theorem keeps_pf_forwardTight :
    Keeps pixelFormatsAgree (forwardTightVariableLengthData) := by
  unfold forwardTightVariableLengthData
  repeat' (first
    | with_reducible apply Keeps.keeps_bind
    | with_reducible apply Keeps.keeps_ite
    | with_reducible apply Keeps.keeps_pure
    | with_reducible apply Keeps.keeps_raise
    | with_reducible apply Keeps.keeps_getTunnel
    | with_reducible apply keeps_pf_sForwardRaw
    | with_reducible apply keeps_pf_sForwardDirectly
    | intro _)

theorem keeps_pf_processTight (r : FramebufferUpdateRectangle) :
    Keeps pixelFormatsAgree (processTight r) := by
  unfold processTight
  repeat' (first
    | with_reducible apply Keeps.keeps_bind
    | with_reducible apply Keeps.keeps_ite
    | with_reducible apply Keeps.keeps_pure
    | with_reducible apply Keeps.keeps_raise
    | with_reducible apply Keeps.keeps_getTunnel
    | with_reducible apply keeps_pf_sForwardRaw
    | with_reducible apply keeps_pf_sForwardDirectly
    | with_reducible apply keeps_pf_sRecvRaw
    | with_reducible apply keeps_pf_cSendRaw
    | with_reducible apply keeps_pf_cSendRectangle
    | with_reducible apply keeps_pf_forwardTight
    | ((with_reducible apply Keeps.keeps_modify); intro t h; exact h)
    | intro _)

theorem keeps_pf_sendDummyRectangle :
    Keeps pixelFormatsAgree (sendDummyRectangle) := by
  unfold sendDummyRectangle
  repeat' (first
    | with_reducible apply Keeps.keeps_bind
    | with_reducible apply Keeps.keeps_ite
    | with_reducible apply Keeps.keeps_pure
    | with_reducible apply Keeps.keeps_raise
    | with_reducible apply Keeps.keeps_getTunnel
    | with_reducible apply keeps_pf_cSendRaw
    | with_reducible apply keeps_pf_cSendRectangle
    | intro _)

theorem keeps_pf_processDesktopName (r : FramebufferUpdateRectangle) (sup must : Bool) :
    Keeps pixelFormatsAgree (processDesktopName r sup must) := by
  unfold processDesktopName
  repeat' (first
    | with_reducible apply Keeps.keeps_bind
    | with_reducible apply Keeps.keeps_ite
    | with_reducible apply Keeps.keeps_pure
    | with_reducible apply Keeps.keeps_raise
    | with_reducible apply Keeps.keeps_getTunnel
    | with_reducible apply keeps_pf_sRecvRaw
    | with_reducible apply keeps_pf_cSendRaw
    | with_reducible apply keeps_pf_cSendRectangle
    | with_reducible apply keeps_pf_setDesktopName
    | with_reducible apply keeps_pf_sendDummyRectangle
    | intro _)

theorem keeps_pf_processRectangle (sup must : Bool) :
    Keeps pixelFormatsAgree (processRectangle sup must) := by
  unfold processRectangle
  repeat' (first
    | with_reducible apply Keeps.keeps_bind
    | with_reducible apply Keeps.keeps_ite
    | with_reducible apply Keeps.keeps_pure
    | with_reducible apply Keeps.keeps_raise
    | with_reducible apply Keeps.keeps_getTunnel
    | with_reducible apply keeps_pf_sRecvRaw
    | with_reducible apply keeps_pf_sForwardRaw
    | with_reducible apply keeps_pf_sForwardDirectly
    | with_reducible apply keeps_pf_cSendRectangle
    | with_reducible apply keeps_pf_setFramebufferSize
    | with_reducible apply keeps_pf_processDesktopName
    | with_reducible apply keeps_pf_processTight
    | with_reducible apply Keeps.keeps_emit
    | intro _)

theorem keeps_pf_sendExtraRectangles :
    Keeps pixelFormatsAgree (sendExtraRectangles) := by
  unfold sendExtraRectangles
  repeat' (first
    | with_reducible apply Keeps.keeps_bind
    | with_reducible apply Keeps.keeps_ite
    | with_reducible apply Keeps.keeps_pure
    | with_reducible apply Keeps.keeps_raise
    | with_reducible apply Keeps.keeps_getTunnel
    | with_reducible apply keeps_pf_cSendRaw
    | with_reducible apply keeps_pf_cSendRectangle
    | ((with_reducible apply Keeps.keeps_modify); intro t h; exact h)
    | intro _)

theorem keeps_pf_processSetColourMapEntries :
    Keeps pixelFormatsAgree (processSetColourMapEntries) := by
  unfold processSetColourMapEntries
  repeat' (first
    | with_reducible apply Keeps.keeps_bind
    | with_reducible apply Keeps.keeps_ite
    | with_reducible apply Keeps.keeps_pure
    | with_reducible apply Keeps.keeps_raise
    | with_reducible apply Keeps.keeps_getTunnel
    | with_reducible apply keeps_pf_sForwardRaw
    | with_reducible apply keeps_pf_sForwardDirectly
    | intro _)

theorem keeps_pf_processServerCutText :
    Keeps pixelFormatsAgree (processServerCutText) := by
  unfold processServerCutText
  repeat' (first
    | with_reducible apply Keeps.keeps_bind
    | with_reducible apply Keeps.keeps_ite
    | with_reducible apply Keeps.keeps_pure
    | with_reducible apply Keeps.keeps_raise
    | with_reducible apply Keeps.keeps_getTunnel
    | with_reducible apply keeps_pf_sForwardRaw
    | with_reducible apply keeps_pf_sForwardDirectly
    | intro _)

theorem Keeps.keeps_raise_bind {α β : Type} {P : VncTunnel → Prop} (e : Err) (f : α → M β) :
    Keeps P ((raise e : M α) >>= f) :=
  Keeps.keeps_intro _ fun _ h => h

theorem keeps_pf_rectangleLoop (sup : Bool) (n : Nat) (recv must : Bool) :
    Keeps pixelFormatsAgree (rectangleLoop sup n recv must) := by
  induction n generalizing recv must with
  | zero => exact Keeps.keeps_pure _
  | succ n ih =>
    cases recv with
    | true =>
      rw [rectangleLoop_received]
      exact Keeps.keeps_pure _
    | false =>
      have e : rectangleLoop sup (n + 1) false must
          = (processRectangle sup must >>= fun p => rectangleLoop sup n p.1 p.2) := rfl
      rw [e]
      exact Keeps.keeps_bind _ _ (keeps_pf_processRectangle sup must) (fun p => ih p.1 p.2)

theorem keeps_pf_sendLastRectangle : Keeps pixelFormatsAgree sendLastRectangle :=
  Keeps.keeps_intro _ fun _ h => h

theorem keeps_pf_processFramebufferUpdate : Keeps pixelFormatsAgree processFramebufferUpdate := by
  unfold processFramebufferUpdate
  repeat' (first
    | with_reducible apply Keeps.keeps_bind
    | with_reducible apply Keeps.keeps_ite
    | with_reducible apply Keeps.keeps_pure
    | with_reducible apply Keeps.keeps_raise
    | with_reducible apply Keeps.keeps_getTunnel
    | with_reducible apply keeps_pf_sRecvRaw
    | with_reducible apply keeps_pf_cSendMessage
    | with_reducible apply keeps_pf_sendExtraRectangles
    | with_reducible apply keeps_pf_rectangleLoop
    | with_reducible apply keeps_pf_sendLastRectangle
    | intro _)

theorem keeps_pf_serverReceive : Keeps pixelFormatsAgree serverReceive := by
  unfold serverReceive processBell
  repeat' (first
    | with_reducible apply Keeps.keeps_bind
    | with_reducible apply Keeps.keeps_ite
    | with_reducible apply Keeps.keeps_raise
    | with_reducible apply keeps_pf_sRecvRaw
    | with_reducible apply keeps_pf_sPushBack
    | with_reducible apply keeps_pf_processFramebufferUpdate
    | with_reducible apply keeps_pf_processSetColourMapEntries
    | with_reducible apply keeps_pf_sForwardDirectly
    | with_reducible apply keeps_pf_processServerCutText
    | intro _)

theorem keeps_pf_setAndSend (p : PixelFormat) :
    Keeps pixelFormatsAgree
      ((modifyTunnel fun t => { t with m_pixelFormat := p }) >>= fun _ => sendSetPixelFormat p) := by
  apply Keeps.keeps_intro
  intro t _
  rw [bind_modifyTunnel_state]
  unfold sendSetPixelFormat
  rw [bind_modifyTunnel_state, bind_getTunnel_state]
  exact PixelFormat.eq_self p

theorem keeps_pf_processSetPixelFormat : Keeps pixelFormatsAgree processSetPixelFormat := by
  unfold processSetPixelFormat
  refine Keeps.keeps_bind _ _ (keeps_pf_cRecvRaw _) (fun bs => ?_)
  refine Keeps.keeps_bind _ _ Keeps.keeps_getTunnel (fun t => ?_)
  dsimp only
  split
  · exact Keeps.keeps_raise_bind _ _
  · exact Keeps.keeps_bind _ _ (Keeps.keeps_pure _) (fun _ => keeps_pf_setAndSend _)

theorem keeps_pf_clientReceive : Keeps pixelFormatsAgree clientReceive := by
  unfold clientReceive processFramebufferUpdateRequest processKeyEvent processPointerEvent
  repeat' (first
    | with_reducible apply Keeps.keeps_bind
    | with_reducible apply Keeps.keeps_ite
    | with_reducible apply Keeps.keeps_raise
    | with_reducible apply keeps_pf_cRecvRaw
    | with_reducible apply keeps_pf_cPushBack
    | with_reducible apply keeps_pf_processSetPixelFormat
    | with_reducible apply keeps_pf_processSetEncodings
    | with_reducible apply keeps_pf_cForwardDirectly
    | with_reducible apply keeps_pf_processClientCutText
    | with_reducible apply keeps_pf_processSetDesktopSize
    | intro _)

theorem keeps_pf_connectionSwitched : Keeps pixelFormatsAgree connectionSwitched := by
  apply Keeps.keeps_intro
  intro t h
  cases hg : t.m_greeterConnection with
  | none =>
    have e : (connectionSwitched t).state = t := by
      unfold connectionSwitched
      simp [bind_run, hg, raise_run]
    rw [e]
    exact h
  | some g =>
    cases hpc : t.m_potentialConnection with
    | none =>
      have e : (connectionSwitched t).state = { t with m_greeterConnection := none } := by
        unfold connectionSwitched
        simp [bind_run, hg, hpc, Outcome.after, pure_run, raise_run, modifyTunnel_run]
      rw [e]
      exact h
    | some p =>
      rw [connectionSwitched_eq t g p hg hpc]
      unfold pixelFormatsAgree
      dsimp only
      split
      · assumption
      · exact PixelFormat.eq_self _

theorem keeps_pf_xRecvRaw (which : Which) (len : Nat) :
    Keeps pixelFormatsAgree (xRecvRaw which len) := by
  apply Keeps.keeps_intro
  intro t h
  unfold xRecvRaw
  cases which with
  | current => exact h
  | potential =>
    cases hp : t.m_potentialConnection with
    | none => simp only [VncTunnel.connection, hp]; exact h
    | some c => simp only [VncTunnel.connection, hp]; exact h

theorem keeps_pf_xSendRaw (which : Which) (bs : List Byte) :
    Keeps pixelFormatsAgree (xSendRaw which bs) := by
  apply Keeps.keeps_intro
  intro t h
  cases which <;> exact h

theorem keeps_pf_receiveFailureReason (which : Which) :
    Keeps pixelFormatsAgree (XvncConnection.receiveFailureReason which) := by
  unfold XvncConnection.receiveFailureReason
  repeat' (first
    | with_reducible apply Keeps.keeps_bind
    | with_reducible apply Keeps.keeps_ite
    | with_reducible apply Keeps.keeps_pure
    | with_reducible apply Keeps.keeps_raise
    | with_reducible apply Keeps.keeps_getTunnel
    | with_reducible apply keeps_pf_xRecvRaw
    | with_reducible apply keeps_pf_xSendRaw
    | intro _)

theorem keeps_pf_startInitialization (which : Which) (supportedTypes : List Nat) :
    Keeps pixelFormatsAgree (XvncConnection.startInitialization which supportedTypes) := by
  unfold XvncConnection.startInitialization
  repeat' (first
    | with_reducible apply Keeps.keeps_bind
    | with_reducible apply Keeps.keeps_ite
    | with_reducible apply Keeps.keeps_pure
    | with_reducible apply Keeps.keeps_raise
    | with_reducible apply Keeps.keeps_getTunnel
    | with_reducible apply keeps_pf_xRecvRaw
    | with_reducible apply keeps_pf_xSendRaw
    | with_reducible apply keeps_pf_receiveFailureReason
    | intro _)

theorem keeps_pf_receiveSecurityResult (which : Which) :
    Keeps pixelFormatsAgree (XvncConnection.receiveSecurityResult which) := by
  unfold XvncConnection.receiveSecurityResult
  repeat' (first
    | with_reducible apply Keeps.keeps_bind
    | with_reducible apply Keeps.keeps_ite
    | with_reducible apply Keeps.keeps_pure
    | with_reducible apply Keeps.keeps_raise
    | with_reducible apply Keeps.keeps_getTunnel
    | with_reducible apply keeps_pf_xRecvRaw
    | with_reducible apply keeps_pf_xSendRaw
    | with_reducible apply keeps_pf_receiveFailureReason
    | intro _)

theorem keeps_pf_completeInitialization :
    Keeps pixelFormatsAgree (XvncConnection.completeInitialization .potential) := by
  unfold XvncConnection.completeInitialization
  repeat' (first
    | with_reducible apply Keeps.keeps_bind
    | with_reducible apply Keeps.keeps_ite
    | with_reducible apply Keeps.keeps_pure
    | with_reducible apply Keeps.keeps_raise
    | with_reducible apply Keeps.keeps_getTunnel
    | with_reducible apply keeps_pf_xRecvRaw
    | with_reducible apply keeps_pf_xSendRaw
    | with_reducible apply keeps_pf_connectionSwitched
    | ((with_reducible apply Keeps.keeps_modify); intro t h; first | exact h | exact pixelFormatsAgree_sessionCalled t _ h)
    | intro _
    | split)

theorem keeps_pf_handleNoneSecurity :
    Keeps pixelFormatsAgree (XvncConnection.handleNoneSecurity .potential) := by
  unfold XvncConnection.handleNoneSecurity
  repeat' (first
    | with_reducible apply Keeps.keeps_bind
    | with_reducible apply Keeps.keeps_ite
    | with_reducible apply Keeps.keeps_pure
    | with_reducible apply Keeps.keeps_raise
    | with_reducible apply Keeps.keeps_getTunnel
    | with_reducible apply keeps_pf_receiveSecurityResult
    | with_reducible apply keeps_pf_completeInitialization
    | intro _)

theorem keeps_pf_handleVncAuthSecurity (which : Which) :
    Keeps pixelFormatsAgree (XvncConnection.handleVncAuthSecurity which) := by
  unfold XvncConnection.handleVncAuthSecurity
  repeat' (first
    | with_reducible apply Keeps.keeps_bind
    | with_reducible apply Keeps.keeps_ite
    | with_reducible apply Keeps.keeps_pure
    | with_reducible apply Keeps.keeps_raise
    | with_reducible apply Keeps.keeps_getTunnel
    | ((with_reducible apply Keeps.keeps_modify); intro t h; exact h)
    | intro _
    | split)

theorem keeps_pf_requestCredentials (which : Which) :
    Keeps pixelFormatsAgree (XvncConnection.requestCredentials which) := by
  unfold XvncConnection.requestCredentials
  repeat' (first
    | with_reducible apply Keeps.keeps_bind
    | with_reducible apply Keeps.keeps_ite
    | with_reducible apply Keeps.keeps_pure
    | with_reducible apply Keeps.keeps_raise
    | with_reducible apply Keeps.keeps_getTunnel
    | ((with_reducible apply Keeps.keeps_modify); intro t h; exact h)
    | intro _
    | split)

theorem keeps_pf_handleVeNCryptSecurity :
    Keeps pixelFormatsAgree (XvncConnection.handleVeNCryptSecurity .potential) := by
  unfold XvncConnection.handleVeNCryptSecurity
  repeat' (first
    | with_reducible apply Keeps.keeps_bind
    | with_reducible apply Keeps.keeps_ite
    | with_reducible apply Keeps.keeps_pure
    | with_reducible apply Keeps.keeps_raise
    | with_reducible apply Keeps.keeps_getTunnel
    | with_reducible apply keeps_pf_xRecvRaw
    | with_reducible apply keeps_pf_xSendRaw
    | with_reducible apply keeps_pf_handleNoneSecurity
    | with_reducible apply keeps_pf_handleVncAuthSecurity
    | with_reducible apply keeps_pf_requestCredentials
    | intro _)

theorem keeps_pf_initialiseWithHandlers :
    Keeps pixelFormatsAgree (XvncConnection.initialiseWithHandlers .potential) := by
  unfold XvncConnection.initialiseWithHandlers
  repeat' (first
    | with_reducible apply Keeps.keeps_bind
    | with_reducible apply Keeps.keeps_ite
    | with_reducible apply Keeps.keeps_pure
    | with_reducible apply Keeps.keeps_raise
    | with_reducible apply Keeps.keeps_getTunnel
    | with_reducible apply keeps_pf_startInitialization
    | with_reducible apply keeps_pf_handleNoneSecurity
    | with_reducible apply keeps_pf_handleVncAuthSecurity
    | with_reducible apply keeps_pf_handleVeNCryptSecurity
    | ((with_reducible apply Keeps.keeps_modify); intro t h; exact h)
    | intro _
    | split)

theorem keeps_pf_switchToConnection (xvnc : Option Xvnc) (backendInput : List Byte) :
    Keeps pixelFormatsAgree (switchToConnection xvnc backendInput) := by
  unfold switchToConnection
  repeat' (first
    | with_reducible apply Keeps.keeps_bind
    | with_reducible apply Keeps.keeps_ite
    | with_reducible apply Keeps.keeps_pure
    | with_reducible apply Keeps.keeps_raise
    | with_reducible apply Keeps.keeps_getTunnel
    | with_reducible apply keeps_pf_initialiseWithHandlers
    | ((with_reducible apply Keeps.keeps_modify); intro t h; exact h)
    | intro _
    | split)

theorem keeps_pf_sendReason (reason : List Byte) :
    Keeps pixelFormatsAgree (sendReason reason) := by
  unfold sendReason
  repeat' (first
    | with_reducible apply Keeps.keeps_bind
    | with_reducible apply Keeps.keeps_ite
    | with_reducible apply Keeps.keeps_pure
    | with_reducible apply Keeps.keeps_raise
    | with_reducible apply Keeps.keeps_getTunnel
    | with_reducible apply keeps_pf_cSendRaw
    | intro _)

theorem keeps_pf_finishClientInitialization :
    Keeps pixelFormatsAgree (finishClientInitialization) := by
  unfold finishClientInitialization
  repeat' (first
    | with_reducible apply Keeps.keeps_bind
    | with_reducible apply Keeps.keeps_ite
    | with_reducible apply Keeps.keeps_pure
    | with_reducible apply Keeps.keeps_raise
    | with_reducible apply Keeps.keeps_getTunnel
    | with_reducible apply keeps_pf_cSendRaw
    | with_reducible apply keeps_pf_cRecvRaw
    | intro _)

theorem keeps_pf_tunnelHandleNoneSecurity :
    Keeps pixelFormatsAgree (handleNoneSecurity) := by
  unfold handleNoneSecurity
  repeat' (first
    | with_reducible apply Keeps.keeps_bind
    | with_reducible apply Keeps.keeps_ite
    | with_reducible apply Keeps.keeps_pure
    | with_reducible apply Keeps.keeps_raise
    | with_reducible apply Keeps.keeps_getTunnel
    | with_reducible apply keeps_pf_cSendRaw
    | with_reducible apply keeps_pf_cRecvRaw
    | with_reducible apply keeps_pf_finishClientInitialization
    | with_reducible apply keeps_pf_sendReason
    | intro _)

theorem keeps_pf_tunnelHandleVeNCryptSecurity :
    Keeps pixelFormatsAgree (handleVeNCryptSecurity) := by
  unfold handleVeNCryptSecurity
  repeat' (first
    | with_reducible apply Keeps.keeps_bind
    | with_reducible apply Keeps.keeps_ite
    | with_reducible apply Keeps.keeps_pure
    | with_reducible apply Keeps.keeps_raise
    | with_reducible apply Keeps.keeps_getTunnel
    | with_reducible apply keeps_pf_cSendRaw
    | with_reducible apply keeps_pf_cRecvRaw
    | with_reducible apply keeps_pf_finishClientInitialization
    | with_reducible apply keeps_pf_sendReason
    | with_reducible apply keeps_pf_tunnelHandleNoneSecurity
    | with_reducible apply Keeps.keeps_emit
    | ((with_reducible apply Keeps.keeps_modify); intro t h; exact h)
    | intro _)

theorem keeps_pf_dispatchSecurityType (s : Nat) :
    Keeps pixelFormatsAgree (dispatchSecurityType s) := by
  unfold dispatchSecurityType
  repeat' (first
    | with_reducible apply Keeps.keeps_bind
    | with_reducible apply Keeps.keeps_ite
    | with_reducible apply Keeps.keeps_pure
    | with_reducible apply Keeps.keeps_raise
    | with_reducible apply Keeps.keeps_getTunnel
    | with_reducible apply keeps_pf_tunnelHandleNoneSecurity
    | with_reducible apply keeps_pf_tunnelHandleVeNCryptSecurity
    | ((with_reducible apply Keeps.keeps_modify); intro t h; exact h)
    | intro _)

theorem keeps_pf_clientInitalize :
    Keeps pixelFormatsAgree (clientInitalize) := by
  unfold clientInitalize
  repeat' (first
    | with_reducible apply Keeps.keeps_bind
    | with_reducible apply Keeps.keeps_ite
    | with_reducible apply Keeps.keeps_pure
    | with_reducible apply Keeps.keeps_raise
    | with_reducible apply Keeps.keeps_getTunnel
    | with_reducible apply keeps_pf_cSendRaw
    | with_reducible apply keeps_pf_cRecvRaw
    | with_reducible apply keeps_pf_sendReason
    | with_reducible apply keeps_pf_dispatchSecurityType
    | intro _
    | split)

theorem startHandshakes_agree (t : VncTunnel) (h : (startHandshakes t).result = .ok ()) :
    pixelFormatsAgree (startHandshakes t).state := by
  unfold startHandshakes at h ⊢
  obtain ⟨a, h1, _⟩ := bind_result_ok _ _ t _ h
  rw [bind_state_ok _ _ _ _ h1, bind_modifyTunnel_state]
  exact Keeps.keeps_apply keeps_pf_clientInitalize _ (PixelFormat.eq_self _)

/-- Claim C38: in every state between message handlers, from the one `start` reaches when its
handshakes succeed, through the messages of the client (`processSetPixelFormat` among them)
and of the back-end, the switch requests and `connectionSwitched`, the pixel format recorded
for the current back-end connection equals the pixel format of the tunnel in all ten fields
that `operator==` compares. -/
theorem pixelFormat_invariant (t : VncTunnel) (h : PixelFormatReachable t) :
    t.m_currentConnection.m_pixelFormat.eq t.m_pixelFormat = true := by
  have key : pixelFormatsAgree t := by
    induction h with
    | started t h => exact startHandshakes_agree t h
    | clientMessage t _ ih => exact keeps_pf_clientReceive.keeps_apply t ih
    | setPixelFormat t _ ih => exact keeps_pf_processSetPixelFormat.keeps_apply t ih
    | serverMessage t _ ih => exact keeps_pf_serverReceive.keeps_apply t ih
    | switchTo t xvnc backendInput _ ih =>
      exact (keeps_pf_switchToConnection xvnc backendInput).keeps_apply t ih
    | switched t _ ih => exact keeps_pf_connectionSwitched.keeps_apply t ih
    | other t u h1 h2 _ ih =>
      unfold pixelFormatsAgree at ih ⊢
      rw [h1, h2]
      exact ih
  exact key

/-- Witness for C38: the state after the handshakes of `start` and one SetPixelFormat message
of the client. -/
theorem pixelFormat_invariant_witness :
    (startHandshakes sampleTunnelStarting).result = .ok ()
    ∧ (clientReceive (startHandshakes sampleTunnelStarting).state).result = .ok ()
    ∧ (clientReceive (startHandshakes sampleTunnelStarting).state).state.m_currentConnection.m_pixelFormat.eq
        (clientReceive (startHandshakes sampleTunnelStarting).state).state.m_pixelFormat = true :=
  ⟨by rfl, by rfl,
    pixelFormat_invariant _
      (PixelFormatReachable.clientMessage _
        (PixelFormatReachable.started sampleTunnelStarting (by rfl)))⟩

end VncManager
